import Mathlib

/-!
TDeintMod: shallow embedding of the scalar kernels of `TDeintMod.cpp`.

Sample buffers are modelled as functions from a pointer offset (counted in samples from the
base pointer returned by `getReadPtr` / `getWritePtr`) to the unsigned sample stored there.
C `int` arithmetic is carried out in `Int`; a store into a sample of type `T` is the explicit
truncation `castT`.  Loops are modelled by `forLoop`, which runs its body for `0, 1, ..., n-1`.
-/

namespace TDeintMod

/-! ## Memory model -/

/-- Sample memory of one plane, addressed by the offset in samples from the base pointer. -/
abbrev Buf := Int → Nat

/-- The store `p[i] = v`. -/
def Buf.write (b : Buf) (i : Int) (v : Nat) : Buf :=
  fun j => if j = i then v else b j

/-- The conversion `static_cast<T>(v)` for an unsigned sample type `T` of `tb` bits. -/
def castT (tb : Nat) (v : Int) : Nat :=
  (v % 2 ^ tb).toNat

/-- The constant `std::numeric_limits<T>::max()` for an unsigned sample type of `tb` bits. -/
def typeMax (tb : Nat) : Nat :=
  2 ^ tb - 1

/-- Reduction of an `int` product that exceeds the 32-bit range (two's complement
wrap-around, which is what the compiled multiplication yields). -/
def wrapInt32 (v : Int) : Int :=
  (v + 2147483648) % 4294967296 - 2147483648

/-- The loop `for (int i = 0; i < n; i++) body(i)`, threading the state `s`. -/
def forLoop {σ : Type} (body : Nat → σ → σ) : Nat → σ → σ
  | 0, s => s
  | n + 1, s => body n (forLoop body n s)

/-- The algorithm `std::fill_n(first, n, v)`. -/
def fill_n (b : Buf) (first : Int) (n : Nat) (v : Nat) : Buf :=
  forLoop (fun k acc => acc.write (first + (k : Int)) v) n b

/-- Every sample of the buffer is representable in `tb` bits. -/
def Buf.InRange (tb : Nat) (b : Buf) : Prop :=
  ∀ i, b i ≤ typeMax tb

/-- Every sample of the buffer is at most `peak`. -/
def Buf.Below (peak : Int) (b : Buf) : Prop :=
  ∀ i, (b i : Int) ≤ peak

/-- A video frame: per-plane dimensions, per-plane stride (in samples) and per-plane memory. -/
structure Frame where
  /-- Result of `getFrameWidth(f, plane)`. -/
  width : Nat → Nat
  /-- Result of `getFrameHeight(f, plane)`. -/
  height : Nat → Nat
  /-- Result of `getStride(f, plane) / sizeof(T)`. -/
  stride : Nat → Nat
  /-- Memory behind `getReadPtr(f, plane)` / `getWritePtr(f, plane)`. -/
  data : Nat → Buf
  /-- A row of a plane never overlaps the next row. -/
  width_le_stride : ∀ p, width p ≤ stride p

/-- The fields of `TDeintModData` read by the kernels modelled here. -/
structure TDeintModData where
  /-- Field `vi.width`. -/
  viWidth : Nat
  /-- Field `vi.height`. -/
  viHeight : Nat
  /-- Field `vi.format->subSamplingW`. -/
  subSamplingW : Nat
  /-- Field `vi.format->subSamplingH`. -/
  subSamplingH : Nat
  /-- Field `vi.format->numPlanes`. -/
  numPlanes : Nat
  /-- Field `process[plane]`. -/
  process : Nat → Bool
  /-- Field `widthPad`. -/
  widthPad : Nat
  /-- Field `peak`, set to `(1 << bitsPerSample) - 1` by `tdeintmodCreate`. -/
  peak : Int
  /-- Field `ttype`. -/
  ttype : Int
  /-- Field `mtqL`. -/
  mtqL : Int
  /-- Field `mthL`. -/
  mthL : Int
  /-- Field `mtqC`. -/
  mtqC : Int
  /-- Field `mthC`. -/
  mthC : Int
  /-- Field `nt`. -/
  nt : Int
  /-- Field `minthresh`. -/
  minthresh : Int
  /-- Field `maxthresh`. -/
  maxthresh : Int
  /-- Field `hShift[plane]`. -/
  hShift : Nat → Nat
  /-- Field `vShift[plane]`. -/
  vShift : Nat → Nat
  /-- Field `hHalf[plane]`. -/
  hHalf : Nat → Int
  /-- Field `vHalf[plane]`. -/
  vHalf : Nat → Int
  /-- Field `length`. -/
  length : Nat := 10
  /-- Field `gvlut`, indexed by the scan position. -/
  gvlut : Nat → Nat := fun _ => 0
  /-- Field `vlut`, the 64-entry table indexed by the scan accumulator. -/
  vlut : Nat → Nat := fun _ => 0
  /-- Field `tmmlut16`, the 16-entry table of decision codes. -/
  tmmlut16 : Nat → Nat := fun _ => 0
  /-- Field `cstr`. -/
  cstr : Int := 4
  /-- Field `athresh` (rescaled to the bit depth when it is set). -/
  athresh : Int := -1
  /-- Field `athresh6`. -/
  athresh6 : Int := 0
  /-- Field `athreshsq`. -/
  athreshsq : Int := 0
  /-- Field `metric`. -/
  metric : Int := 0
  /-- Field `expand`. -/
  expand : Int := 0

/-! ## Reconstructors (`eDeint`, `cubicDeint`) -/

/-- Body of the pixel loop of `eDeint` (source lines 778-791): the value left in `dstp[x]`,
given the mask code, the previous / current / next samples, the sample of the external clip
and the value `old` that `dstp[x]` held before. -/
def eDeintPixel (tb : Nat) (maskv prv src nxt ed old : Nat) : Nat :=
  if maskv = 10 then src
  else if maskv = 20 then prv
  else if maskv = 30 then nxt
  else if maskv = 40 then castT tb (((src : Int) + nxt + 1) >>> (1 : Nat))
  else if maskv = 50 then castT tb (((src : Int) + prv + 1) >>> (1 : Nat))
  else if maskv = 70 then castT tb (((prv : Int) + (src : Int) * 2 + nxt + 2) >>> (2 : Nat))
  else if maskv = 60 then ed
  else old

/-- The two nested loops of `eDeint` over one plane (source lines 776-800).  All row pointers
start at the plane base and advance by `stride` per row, so at row `y` they sit at
`stride * y`. -/
def eDeintPlane (tb : Nat) (width height stride : Nat)
    (maskp prvp srcp nxtp edeintp : Buf) (dstp : Buf) : Buf :=
  forLoop (fun y dst =>
    forLoop (fun x dst =>
      let i : Int := (stride : Int) * (y : Int) + (x : Int)
      dst.write i (eDeintPixel tb (maskp i) (prvp i) (srcp i) (nxtp i) (edeintp i) (dst i)))
      width dst) height dstp

/-- The function `eDeint<T>`: every processed plane of `dst` is rebuilt from the mask, the
previous / current / next frames and the external clip; dimensions and stride are those of
`src`. -/
def eDeint (tb : Nat) (d : TDeintModData) (dst mask prv src nxt edeint : Frame) : Frame :=
  forLoop (fun plane acc =>
    if d.process plane then
      { acc with
        data := Function.update acc.data plane
          (eDeintPlane tb (src.width plane) (src.height plane) (src.stride plane)
            (mask.data plane) (prv.data plane) (src.data plane) (nxt.data plane)
            (edeint.data plane) (acc.data plane)) }
    else acc) d.numPlanes dst

/-- The expression `(19 * (srcpp[x] + srcpn[x]) - 3 * (srcppp[x] + srcpnn[x]) + 16) >> 5`
of `cubicDeint` (source line 846). -/
def cubicTemp (pp pn ppp pnn : Nat) : Int :=
  (19 * ((pp : Int) + pn) - 3 * ((ppp : Int) + pnn) + 16) >>> (5 : Nat)

/-- Body of the pixel loop of `cubicDeint` (source lines 826-849).  `spp`, `spn`, `sppp`,
`spnn` are the samples `srcpp[x]`, `srcpn[x]`, `srcppp[x]`, `srcpnn[x]`. -/
def cubicDeintPixel (tb : Nat) (peak : Int) (height y : Nat)
    (maskv prv src nxt spp spn sppp spnn old : Nat) : Nat :=
  if maskv = 10 then src
  else if maskv = 20 then prv
  else if maskv = 30 then nxt
  else if maskv = 40 then castT tb (((src : Int) + nxt + 1) >>> (1 : Nat))
  else if maskv = 50 then castT tb (((src : Int) + prv + 1) >>> (1 : Nat))
  else if maskv = 70 then castT tb (((prv : Int) + (src : Int) * 2 + nxt + 2) >>> (2 : Nat))
  else if maskv = 60 then
    if y = 0 then spn
    else if (y : Int) = (height : Int) - 1 then spp
    else if (y : Int) < 3 ∨ (y : Int) > (height : Int) - 4 then
      castT tb (((spn : Int) + spp + 1) >>> (1 : Nat))
    else castT tb (min (max (cubicTemp spp spn sppp spnn) 0) peak)
  else old

/-- The two nested loops of `cubicDeint` over one plane (source lines 819-861).  The four
neighbour-row pointers are set up exactly as in the source: `srcpp = srcp - stride`,
`srcppp = srcpp - stride * 2`, `srcpn = srcp + stride`, `srcpnn = srcpn + stride * 2`; every
pointer advances by `stride` per row. -/
def cubicDeintPlane (tb : Nat) (peak : Int) (width height stride : Nat)
    (maskp prvp srcp0 nxtp : Buf) (dstp : Buf) : Buf :=
  let srcp : Int := 0
  let srcpp : Int := srcp - (stride : Int)
  let srcppp : Int := srcpp - (stride : Int) * 2
  let srcpn : Int := srcp + (stride : Int)
  let srcpnn : Int := srcpn + (stride : Int) * 2
  forLoop (fun y dst =>
    forLoop (fun x dst =>
      let row : Int := (stride : Int) * (y : Int)
      let i : Int := row + (x : Int)
      dst.write i (cubicDeintPixel tb peak height y (maskp i) (prvp i) (srcp0 (srcp + i))
        (nxtp i) (srcp0 (srcpp + i)) (srcp0 (srcpn + i)) (srcp0 (srcppp + i))
        (srcp0 (srcpnn + i)) (dst i)))
      width dst) height dstp

/-- The function `cubicDeint<T>`. -/
def cubicDeint (tb : Nat) (d : TDeintModData) (dst mask prv src nxt : Frame) : Frame :=
  forLoop (fun plane acc =>
    if d.process plane then
      { acc with
        data := Function.update acc.data plane
          (cubicDeintPlane tb d.peak (src.width plane) (src.height plane) (src.stride plane)
            (mask.data plane) (prv.data plane) (src.data plane) (nxt.data plane)
            (acc.data plane)) }
    else acc) d.numPlanes dst

/-- Sample of plane `p` of frame `f` at row `y` and column `x`, for rows laid out `stride`
samples apart (`y` may lie outside the plane: the kernels form such row pointers). -/
def Frame.px (f : Frame) (stride p : Nat) (y : Int) (x : Nat) : Nat :=
  f.data p ((stride : Int) * y + (x : Int))

/-- The `int`-valued subexpressions evaluated by the pixel body of `eDeint` for the given mask
code (source lines 785, 787, 789); the copying branches evaluate none. -/
def eDeintIntermediates (maskv prv src nxt : Nat) : List Int :=
  if maskv = 40 then
    [(src : Int) + nxt, (src : Int) + nxt + 1, ((src : Int) + nxt + 1) >>> (1 : Nat)]
  else if maskv = 50 then
    [(src : Int) + prv, (src : Int) + prv + 1, ((src : Int) + prv + 1) >>> (1 : Nat)]
  else if maskv = 70 then
    [(src : Int) * 2, (prv : Int) + (src : Int) * 2, (prv : Int) + (src : Int) * 2 + nxt,
      (prv : Int) + (src : Int) * 2 + nxt + 2,
      ((prv : Int) + (src : Int) * 2 + nxt + 2) >>> (2 : Nat)]
  else []

/-- The `int`-valued subexpressions of the sample arithmetic evaluated by the pixel body of
`cubicDeint` for the given mask code and row (source lines 833-847). -/
def cubicDeintIntermediates (peak : Int) (height y : Nat)
    (maskv prv src nxt spp spn sppp spnn : Nat) : List Int :=
  if maskv = 60 then
    if y = 0 then []
    else if (y : Int) = (height : Int) - 1 then []
    else if (y : Int) < 3 ∨ (y : Int) > (height : Int) - 4 then
      [(spn : Int) + spp, (spn : Int) + spp + 1, ((spn : Int) + spp + 1) >>> (1 : Nat)]
    else
      [(spp : Int) + spn, 19 * ((spp : Int) + spn), (sppp : Int) + spnn,
        3 * ((sppp : Int) + spnn), 19 * ((spp : Int) + spn) - 3 * ((sppp : Int) + spnn),
        19 * ((spp : Int) + spn) - 3 * ((sppp : Int) + spnn) + 16,
        cubicTemp spp spn sppp spnn, max (cubicTemp spp spn sppp spnn) 0,
        min (max (cubicTemp spp spn sppp spnn) 0) peak]
  else eDeintIntermediates maskv prv src nxt

/-- The value fits a 32-bit signed `int`. -/
def FitsInt32 (v : Int) : Prop :=
  -2147483648 ≤ v ∧ v ≤ 2147483647

/-! ## Mask kernels (`threshMask_c`, `motionMask_c`, `andMasks_c`) -/

/-- The expression `d->vi.width >> (plane ? d->vi.format->subSamplingW : 0)`. -/
def planeWidth (d : TDeintModData) (plane : Nat) : Nat :=
  d.viWidth >>> (if plane ≠ 0 then d.subSamplingW else 0)

/-- The expression `d->vi.height >> (plane ? d->vi.format->subSamplingH : 0)`. -/
def planeHeight (d : TDeintModData) (plane : Nat) : Nat :=
  d.viHeight >>> (if plane ≠ 0 then d.subSamplingH else 0)

/-- The expression `(d->vi.height * 2) >> (plane ? d->vi.format->subSamplingH : 0)`, the row
count of the stacked layers as computed by `andMasks_c`. -/
def stackedHeight (d : TDeintModData) (plane : Nat) : Nat :=
  (d.viHeight * 2) >>> (if plane ≠ 0 then d.subSamplingH else 0)

/-- The spec's `clamp(v, lo, hi)`: `v` raised to at least `lo`, then lowered to at most `hi`. -/
def clamp (v lo hi : Int) : Int :=
  min (max v lo) hi

/-- The quarter override that applies to `plane`: `mtqL` for plane 0, `mtqC` for chroma. -/
def quarterOverride (d : TDeintModData) (plane : Nat) : Int :=
  if plane = 0 then d.mtqL else d.mtqC

/-- The half override that applies to `plane`: `mthL` for plane 0, `mthC` for chroma. -/
def halfOverride (d : TDeintModData) (plane : Nat) : Int :=
  if plane = 0 then d.mthL else d.mthC

/-- The rescaling `v * d.peak / 255` that `tdeintmodCreate` applies to the overrides, `nt`,
`minthresh` and `maxthresh` (source lines 1455-1464); C division truncates toward zero. -/
def scaleToPeak (v peak : Int) : Int :=
  Int.tdiv (v * peak) 255

/-- The statement `if (v < m) m = v;` on a running minimum. -/
def accMin (m : Int) (v : Nat) : Int :=
  if (v : Int) < m then (v : Int) else m

/-- The statement `if (v > m) m = v;` on a running maximum. -/
def accMax (m : Int) (v : Nat) : Int :=
  if (v : Int) > m then (v : Int) else m

/-- The expression `std::max((std::abs(c - lo) + half) >> shift, (std::abs(c - hi) + half) >> shift)`
that yields `atv` and `ath` in the compensated modes of `threshMask_c`. -/
def compensated (c : Nat) (lo hi : Int) (half : Int) (shift : Nat) : Int :=
  max ((|(c : Int) - lo| + half) >>> shift) ((|(c : Int) - hi| + half) >>> shift)

/-- Pixel body of `threshMask_c` (source lines 108-297): the `int` value whose `(at + 2) >> 2`
and `(at + 1) >> 1` are stored in the quarter and half layers.  `pp`, `pc`, `pn` read the rows
behind `srcpp`, `srcp`, `srcpn` at a column offset relative to `x`. -/
def threshAt (tb : Nat) (d : TDeintModData) (plane : Nat) (pp pc pn : Int → Nat) : Int :=
  let peak : Int := (typeMax tb : Int)
  if d.ttype = 0 then
    let set0 := [pp 0, pn 0]
    let set1 := [pc (-1), pc 1]
    let atv := compensated (pc 0) (set0.foldl accMin peak) (set0.foldl accMax 0)
      (d.vHalf plane) (d.vShift plane)
    let ath := compensated (pc 0) (set1.foldl accMin peak) (set1.foldl accMax 0)
      (d.hHalf plane) (d.hShift plane)
    max atv ath
  else if d.ttype = 1 then
    let set0 := [pp (-1), pp 0, pp 1, pn (-1), pn 0, pn 1]
    let set1 := [pc (-1), pc 1]
    let atv := compensated (pc 0) (set0.foldl accMin peak) (set0.foldl accMax 0)
      (d.vHalf plane) (d.vShift plane)
    let ath := compensated (pc 0) (set1.foldl accMin peak) (set1.foldl accMax 0)
      (d.hHalf plane) (d.hShift plane)
    max atv ath
  else if d.ttype = 2 then
    let set0 := [pp 0, pc (-1), pc 1, pn 0]
    max |(pc 0 : Int) - set0.foldl accMin peak| |(pc 0 : Int) - set0.foldl accMax 0|
  else if d.ttype = 3 then
    let set0 := [pp (-1), pp 0, pp 1, pc (-1), pc 1, pn (-1), pn 0, pn 1]
    max |(pc 0 : Int) - set0.foldl accMin peak| |(pc 0 : Int) - set0.foldl accMax 0|
  else if d.ttype = 4 then
    let set0 := [pp 0, pc (-1), pc 0, pc 1, pn 0]
    set0.foldl accMax 0 - set0.foldl accMin peak
  else
    let set0 := [pp (-1), pp 0, pp 1, pc (-1), pc 0, pc 1, pn (-1), pn 0, pn 1]
    set0.foldl accMax 0 - set0.foldl accMin peak

/-- Loop-carried state of the row loop of `threshMask_c`: the destination memory and the
three source row pointers `srcpp`, `srcp`, `srcpn`. -/
structure ThreshRows where
  /-- Destination memory. -/
  dst : Buf
  /-- Pointer to the row used as the previous row. -/
  srcpp : Int
  /-- Pointer to the current row. -/
  srcp : Int
  /-- Pointer to the row used as the next row. -/
  srcpn : Int

/-- The function `threshMask_c<T>` on the padded plane `src` (stride in samples `stride`),
writing the stacked quarter and half layers into `dst`. -/
def threshMask_c (tb : Nat) (d : TDeintModData) (plane : Nat) (stride : Nat)
    (src : Buf) (dst : Buf) : Buf :=
  let width := planeWidth d plane
  let height := planeHeight d plane
  let srcp : Int := (d.widthPad : Int)
  let dstp0 : Int := (d.widthPad : Int)
  let dstp1 : Int := dstp0 + ((stride * height : Nat) : Int)
  if plane = 0 ∧ d.mtqL > -1 ∧ d.mthL > -1 then
    fill_n (fill_n dst (dstp0 - (d.widthPad : Int)) (stride * height) (castT tb d.mtqL))
      (dstp1 - (d.widthPad : Int)) (stride * height) (castT tb d.mthL)
  else if plane > 0 ∧ d.mtqC > -1 ∧ d.mthC > -1 then
    fill_n (fill_n dst (dstp0 - (d.widthPad : Int)) (stride * height) (castT tb d.mtqC))
      (dstp1 - (d.widthPad : Int)) (stride * height) (castT tb d.mthC)
  else
    let srcpp : Int := srcp + (stride : Int)
    let srcpn : Int := srcpp
    let fin := forLoop (fun y (st : ThreshRows) =>
      let row : Int := (stride : Int) * (y : Int)
      let out := forLoop (fun x (acc : Buf) =>
        let a := threshAt tb d plane (fun k => src (st.srcpp + (x : Int) + k))
          (fun k => src (st.srcp + (x : Int) + k)) (fun k => src (st.srcpn + (x : Int) + k))
        (acc.write (dstp0 + row + (x : Int)) (castT tb ((a + 2) >>> (2 : Nat)))).write
          (dstp1 + row + (x : Int)) (castT tb ((a + 1) >>> (1 : Nat)))) width st.dst
      { dst := out, srcpp := st.srcp, srcp := st.srcpn,
        srcpn := st.srcpn + (if (y : Int) < (height : Int) - 2 then (stride : Int)
          else -(stride : Int)) })
      height { dst := dst, srcpp := srcpp, srcp := srcp, srcpn := srcpn }
    let dstp : Int := 0
    if plane = 0 ∧ d.mtqL > -1 then
      fill_n fin.dst dstp (stride * height) (castT tb d.mtqL)
    else if plane = 0 ∧ d.mthL > -1 then
      fill_n fin.dst (dstp + ((stride * height : Nat) : Int)) (stride * height) (castT tb d.mthL)
    else if plane > 0 ∧ d.mtqC > -1 then
      fill_n fin.dst dstp (stride * height) (castT tb d.mtqC)
    else if plane > 0 ∧ d.mthC > -1 then
      fill_n fin.dst (dstp + ((stride * height : Nat) : Int)) (stride * height) (castT tb d.mthC)
    else fin.dst

/-- The threshold `std::min(std::max(std::min(m1, m2) + nt, minthresh), maxthresh)` of
`motionMask_c` (source lines 339-340). -/
def motionThresh (d : TDeintModData) (m1 m2 : Nat) : Int :=
  min (max (((min m1 m2 : Nat) : Int) + d.nt) d.minthresh) d.maxthresh

/-- The function `motionMask_c<T>`: compares the padded planes `src1` and `src2` under the
stacked threshold masks `msk1` and `msk2` and writes the stacked quarter and half motion
layers into `dst`. -/
def motionMask_c (tb : Nat) (d : TDeintModData) (plane : Nat) (stride : Nat)
    (src1 msk1 src2 msk2 : Buf) (dst : Buf) : Buf :=
  let peak := typeMax tb
  let width := planeWidth d plane
  let height := planeHeight d plane
  let srcp1 : Int := (d.widthPad : Int)
  let srcp2 : Int := (d.widthPad : Int)
  let mskp1q : Int := (d.widthPad : Int)
  let mskp2q : Int := (d.widthPad : Int)
  let dstpq : Int := (d.widthPad : Int)
  let mskp1h : Int := mskp1q + ((stride * height : Nat) : Int)
  let mskp2h : Int := mskp2q + ((stride * height : Nat) : Int)
  let dstph : Int := dstpq + ((stride * height : Nat) : Int)
  forLoop (fun y acc =>
    forLoop (fun x (acc : Buf) =>
      let row : Int := (stride : Int) * (y : Int)
      let diff : Int := |(src1 (srcp1 + row + (x : Int)) : Int) - (src2 (srcp2 + row + (x : Int)) : Int)|
      (acc.write (dstpq + row + (x : Int))
        (if diff ≤ motionThresh d (msk1 (mskp1q + row + (x : Int))) (msk2 (mskp2q + row + (x : Int)))
          then peak else 0)).write (dstph + row + (x : Int))
        (if diff ≤ motionThresh d (msk1 (mskp1h + row + (x : Int))) (msk2 (mskp2h + row + (x : Int)))
          then peak else 0))
      width acc) height dst

/-- The function `andMasks_c<T>`: `dst &= src1 & src2` over the stacked layers, followed on
every row by the mirroring of the two padding columns next to the picture. -/
def andMasks_c (tb : Nat) (d : TDeintModData) (plane : Nat) (stride : Nat)
    (src1 src2 : Buf) (dst : Buf) : Buf :=
  let width := planeWidth d plane
  let height := stackedHeight d plane
  let srcp1 : Int := (d.widthPad : Int)
  let srcp2 : Int := (d.widthPad : Int)
  let dstp : Int := (d.widthPad : Int)
  forLoop (fun y acc =>
    let row : Int := (stride : Int) * (y : Int)
    let acc1 := forLoop (fun x (acc : Buf) =>
      acc.write (dstp + row + (x : Int))
        (castT tb ((acc (dstp + row + (x : Int)) &&&
          (src1 (srcp1 + row + (x : Int)) &&& src2 (srcp2 + row + (x : Int))) : Nat) : Int)))
      width acc
    let acc2 := acc1.write (dstp + row + (-1)) (acc1 (dstp + row + 1))
    acc2.write (dstp + row + (width : Int)) (acc2 (dstp + row + ((width : Int) - 2))))
    height dst

/-- The helper `vs_bitblt` of the VapourSynth headers, as `copyPad` and `combineMasks_c` use
it: `height` rows of `width` samples are copied from `srcp` (rows `srcStride` apart) to `dstp`
(rows `dstStride` apart). -/
def bitblt (dst : Buf) (dstp : Int) (dstStride : Nat) (src : Buf) (srcp : Int)
    (srcStride width height : Nat) : Buf :=
  forLoop (fun y acc =>
    forLoop (fun x (acc : Buf) =>
      acc.write (dstp + (dstStride : Int) * (y : Int) + (x : Int))
        (src (srcp + (srcStride : Int) * (y : Int) + (x : Int)))) width acc) height dst

/-- The function `copyPad<T>` on one plane: `width`, `height` and `srcStride` are those of the
source plane, `stride` is the stride of the padded destination, into which the plane is
copied `widthPad` samples in; then the two columns next to the picture are mirrored. -/
def copyPad (widthPad width height stride srcStride : Nat) (src dst : Buf) : Buf :=
  let dstp : Int := (widthPad : Int)
  forLoop (fun y (acc : Buf) =>
    let row : Int := dstp + (stride : Int) * (y : Int)
    let acc1 := acc.write (row + (-1)) (acc (row + 1))
    acc1.write (row + (width : Int)) (acc1 (row + ((width : Int) - 2))))
    height (bitblt dst dstp stride src 0 srcStride width height)

/-- Body of the row loop of `threshMask_c` (source lines 106-304) for row `y`: the pixel loop
followed by the rotation of the three row pointers. -/
def threshMaskRow (tb : Nat) (d : TDeintModData) (plane : Nat) (stride : Nat) (src : Buf)
    (y : Nat) (st : ThreshRows) : ThreshRows :=
  let height := planeHeight d plane
  let dstp0 : Int := (d.widthPad : Int)
  let dstp1 : Int := dstp0 + ((stride * height : Nat) : Int)
  let row : Int := (stride : Int) * (y : Int)
  let out := forLoop (fun x (acc : Buf) =>
    let a := threshAt tb d plane (fun k => src (st.srcpp + (x : Int) + k))
      (fun k => src (st.srcp + (x : Int) + k)) (fun k => src (st.srcpn + (x : Int) + k))
    (acc.write (dstp0 + row + (x : Int)) (castT tb ((a + 2) >>> (2 : Nat)))).write
      (dstp1 + row + (x : Int)) (castT tb ((a + 1) >>> (1 : Nat)))) (planeWidth d plane) st.dst
  { dst := out, srcpp := st.srcp, srcp := st.srcpn,
    srcpn := st.srcpn + (if (y : Int) < (height : Int) - 2 then (stride : Int)
      else -(stride : Int)) }

/-- The state in which the row loop of `threshMask_c` reaches row `y`. -/
def threshMaskStateAt (tb : Nat) (d : TDeintModData) (plane : Nat) (stride : Nat)
    (src dst : Buf) (y : Nat) : ThreshRows :=
  forLoop (threshMaskRow tb d plane stride src) y
    { dst := dst, srcpp := (d.widthPad : Int) + (stride : Int), srcp := (d.widthPad : Int),
      srcpn := (d.widthPad : Int) + (stride : Int) }

/-- The row that a 3-row window standing on row `y` uses as the row above, in the spec's
words: row 1 at row 0, row `y - 1` elsewhere. -/
def rowAbove (y : Nat) : Nat :=
  if y = 0 then 1 else y - 1

/-- The row that a 3-row window standing on row `y` uses as the row below, in the spec's
words: row `height - 2` at row `height - 1`, row `y + 1` elsewhere. -/
def rowBelow (height y : Nat) : Nat :=
  if y + 1 = height then height - 2 else y + 1

/-- The smallest of `a` and the entries of `l`. -/
def minOf (a : Nat) (l : List Nat) : Nat :=
  l.foldl min a

/-- The largest of `a` and the entries of `l`. -/
def maxOf (a : Nat) (l : List Nat) : Nat :=
  l.foldl max a

/-- The value `atmax` of the compensated modes in the spec's words: `c` is the centre sample,
`up` and `down` read the rows above and below at a column offset, `left` and `right` are the
horizontal neighbours; `wide` selects the 3 columns of `ttype = 1` over the single column of
`ttype = 0`. -/
def specAtmax (d : TDeintModData) (plane : Nat) (wide : Bool) (c : Nat) (up down : Int → Nat)
    (left right : Nat) : Int :=
  let minV : Int := if wide then minOf (up (-1)) [up 0, up 1, down (-1), down 0, down 1]
    else minOf (up 0) [down 0]
  let maxV : Int := if wide then maxOf (up (-1)) [up 0, up 1, down (-1), down 0, down 1]
    else maxOf (up 0) [down 0]
  let minH : Int := minOf left [right]
  let maxH : Int := maxOf left [right]
  let atv := max ((|(c : Int) - minV| + d.vHalf plane) >>> d.vShift plane)
    ((|(c : Int) - maxV| + d.vHalf plane) >>> d.vShift plane)
  let ath := max ((|(c : Int) - minH| + d.hHalf plane) >>> d.hShift plane)
    ((|(c : Int) - maxH| + d.hHalf plane) >>> d.hShift plane)
  max atv ath

/-- Loop-carried state of the row loop of `combineMasks_c`: the destination plane, the three
row pointers into the quarter layer, the pointer into the half layer and the destination
pointer. -/
structure CombineRows where
  /-- Destination memory. -/
  dst : Buf
  /-- Pointer `srcpp0`. -/
  srcpp0 : Int
  /-- Pointer `srcp0`. -/
  srcp0 : Int
  /-- Pointer `srcpn0`. -/
  srcpn0 : Int
  /-- Pointer `srcp1`. -/
  srcp1 : Int
  /-- Pointer `dstp`. -/
  dstp : Int

/-- The statement `if (v) count++;`. -/
def countStep (count : Int) (v : Nat) : Int :=
  if v ≠ 0 then count + 1 else count

/-- The neighbour count of `combineMasks_c` (source lines 395-412) at column `x`, the three
row pointers standing at `pp`, `pc`, `pn`. -/
def combineCount (src : Buf) (pp pc pn : Int) (x : Nat) : Int :=
  [src (pp + ((x : Int) - 1)), src (pp + (x : Int)), src (pp + ((x : Int) + 1)),
   src (pc + ((x : Int) - 1)), src (pc + ((x : Int) + 1)),
   src (pn + ((x : Int) - 1)), src (pn + (x : Int)), src (pn + ((x : Int) + 1))].foldl countStep 0

/-- Body of the row loop of `combineMasks_c` (source lines 389-424) for row `y`. -/
def combineMasksRow (tb : Nat) (d : TDeintModData) (width height srcStride dstStride : Nat)
    (src : Buf) (y : Nat) (st : CombineRows) : CombineRows :=
  let out := forLoop (fun x (acc : Buf) =>
    if src (st.srcp0 + (x : Int)) ≠ 0 ∨ src (st.srcp1 + (x : Int)) = 0 then acc
    else if combineCount src st.srcpp0 st.srcp0 st.srcpn0 x ≥ d.cstr then
      acc.write (st.dstp + (x : Int)) (typeMax tb)
    else acc) width st.dst
  { dst := out, srcpp0 := st.srcp0, srcp0 := st.srcpn0,
    srcpn0 := st.srcpn0 + (if (y : Int) < (height : Int) - 2 then (srcStride : Int)
      else -(srcStride : Int)),
    srcp1 := st.srcp1 + (srcStride : Int), dstp := st.dstp + (dstStride : Int) }

/-- The state in which the row loop of `combineMasks_c` reaches row `y`; the destination has
received the copy of the quarter layer. -/
def combineMasksStateAt (tb : Nat) (d : TDeintModData) (width height srcStride dstStride : Nat)
    (src dst : Buf) (y : Nat) : CombineRows :=
  forLoop (combineMasksRow tb d width height srcStride dstStride src) y
    { dst := bitblt dst 0 dstStride src (d.widthPad : Int) srcStride width height,
      srcpp0 := (d.widthPad : Int) + (srcStride : Int), srcp0 := (d.widthPad : Int),
      srcpn0 := (d.widthPad : Int) + (srcStride : Int),
      srcp1 := (d.widthPad : Int) + (srcStride : Int) * (height : Int), dstp := 0 }

/-- The function `combineMasks_c<T>`: `src` is the padded plane that holds the stacked quarter
and half layers, `dst` the plane of the output frame, `width` and `height` its dimensions. -/
def combineMasks_c (tb : Nat) (d : TDeintModData) (width height srcStride dstStride : Nat)
    (src dst : Buf) : Buf :=
  (combineMasksStateAt tb d width height srcStride dstStride src dst height).dst

/-- The neighbour count in the spec's words: how many of the 8 neighbours of `(x, y)` are set
in the layer `q` (read as `q row column`), the rows above and below being `up` and `down`. -/
def neighbourCount (q : Nat → Int → Nat) (up y down : Nat) (x : Int) : Nat :=
  [q up (x - 1), q up x, q up (x + 1), q y (x - 1), q y (x + 1),
   q down (x - 1), q down x, q down (x + 1)].countP (fun v => decide (v ≠ 0))

/-- Sample at row `r`, column `c` of the picture held by a padded plane, which starts
`widthPad` samples into the plane; in a plane of stacked layers these are the rows of the
quarter layer. -/
def paddedAt (src : Buf) (widthPad stride : Nat) (r : Nat) (c : Int) : Nat :=
  src ((widthPad : Int) + (stride : Int) * (r : Int) + c)

/-- Sample at row `r`, column `c` of the half layer of a padded plane, which is stacked below
the `height` rows of the quarter layer. -/
def halfAt (src : Buf) (widthPad stride height : Nat) (r : Nat) (c : Int) : Nat :=
  src ((widthPad : Int) + (stride : Int) * (height : Int) + (stride : Int) * (r : Int) + c)

/-! ## Construction (`tdeintmodCreate`): validation and lookup tables -/

/-- The errors with which `tdeintmodCreate` aborts (each is the `setError` call of one check,
in source order; no filter instance is created after any of them). -/
inductive CreateError where
  /-- Message "TDeintMod: order must be 0 or 1". -/
  | order
  /-- Message "TDeintMod: field must be -1, 0 or 1". -/
  | field
  /-- Message "TDeintMod: mode must be 0 or 1". -/
  | mode
  /-- Message "TDeintMod: length must be greater than or equal to 6". -/
  | length
  /-- Message "TDeintMod: mtype must be 0, 1 or 2". -/
  | mtype
  /-- Message "TDeintMod: ttype must be 0, 1, 2, 3, 4 or 5". -/
  | ttype
  /-- Message "TDeintMod: mtql must be between -2 and 255 (inclusive)". -/
  | mtql
  /-- Message "TDeintMod: mthl must be between -2 and 255 (inclusive)". -/
  | mthl
  /-- Message "TDeintMod: mtqc must be between -2 and 255 (inclusive)". -/
  | mtqc
  /-- Message "TDeintMod: mthc must be between -2 and 255 (inclusive)". -/
  | mthc
  /-- Message "TDeintMod: nt must be between 0 and 255 (inclusive)". -/
  | nt
  /-- Message "TDeintMod: minthresh must be between 0 and 255 (inclusive)". -/
  | minthresh
  /-- Message "TDeintMod: maxthresh must be between 0 and 255 (inclusive)". -/
  | maxthresh
  /-- Message "TDeintMod: athresh must be between -1 and 255 (inclusive)". -/
  | athresh
  /-- Message "TDeintMod: metric must be 0 or 1". -/
  | metric
  /-- Message "TDeintMod: expand must be greater than or equal to 0". -/
  | expand
  /-- Message "TDeintMod: opt must be 0, 1, 2 or 3". -/
  | opt
  /-- Message "TDeintMod: only constant format 8-16 bit integer input supported". -/
  | format
  /-- Message "TDeintMod: height must be greater than or equal to 4". -/
  | height
  /-- Message "TDeintMod: width and height must be multiples of 2". -/
  | evenSize
  /-- Message "TDeintMod: only horizontal chroma subsampling 1x-2x supported". -/
  | subSamplingW
  /-- Message "TDeintMod: only vertical chroma subsampling 1x-2x supported". -/
  | subSamplingH
  /-- Message "TDeintMod: link can not be true for Gray color family". -/
  | linkGray
  /-- Message "TDeintMod: plane index out of range". -/
  | planeRange
  /-- Message "TDeintMod: plane specified twice". -/
  | planeTwice
  /-- Message "TDeintMod: resulting clip is too long". -/
  | tooLong
  /-- Message "TDeintMod: edeint clip must have the same dimensions as main clip and be the
  same format". -/
  | edeintFormat
  /-- Message "TDeintMod: edeint clip's number of frames doesn't match". -/
  | edeintFrames
  deriving DecidableEq, Repr

/-- The arguments of `tdeintmodCreate`: the filter parameters after `int64ToIntS` (`none` when
the parameter is absent, i.e. `propGetInt` reports an error) and the properties of the input
clips that the function inspects. -/
structure CreateArgs where
  /-- Parameter `order` (mandatory). -/
  order : Int
  /-- Parameter `field`. -/
  field : Option Int
  /-- Parameter `mode`. -/
  mode : Option Int
  /-- Parameter `length`. -/
  length : Option Int
  /-- Parameter `mtype`. -/
  mtype : Option Int
  /-- Parameter `ttype`. -/
  ttype : Option Int
  /-- Parameter `mtql`. -/
  mtql : Option Int
  /-- Parameter `mthl`. -/
  mthl : Option Int
  /-- Parameter `mtqc`. -/
  mtqc : Option Int
  /-- Parameter `mthc`. -/
  mthc : Option Int
  /-- Parameter `nt`. -/
  nt : Option Int
  /-- Parameter `minthresh`. -/
  minthresh : Option Int
  /-- Parameter `maxthresh`. -/
  maxthresh : Option Int
  /-- Parameter `cstr`. -/
  cstr : Option Int
  /-- Parameter `athresh`. -/
  athresh : Option Int
  /-- Parameter `metric`. -/
  metric : Option Int
  /-- Parameter `expand`. -/
  expand : Option Int
  /-- Parameter `link`. -/
  link : Option Bool
  /-- Parameter `opt`. -/
  opt : Option Int
  /-- Parameter `planes`. -/
  planes : List Int
  /-- Result of `isConstantFormat(&d.vi)` for the input clip. -/
  constantFormat : Bool
  /-- Whether `sampleType == stInteger`. -/
  integerSamples : Bool
  /-- Field `bitsPerSample` of the clip format. -/
  bitsPerSample : Nat
  /-- Field `bytesPerSample` of the clip format. -/
  bytesPerSample : Nat
  /-- Clip width. -/
  width : Int
  /-- Clip height. -/
  height : Int
  /-- Field `subSamplingW` of the clip format. -/
  subSamplingW : Int
  /-- Field `subSamplingH` of the clip format. -/
  subSamplingH : Int
  /-- Whether the colour family is `cmGray`. -/
  gray : Bool
  /-- Field `numPlanes` of the clip format. -/
  numPlanes : Int
  /-- Number of frames of the clip. -/
  numFrames : Int
  /-- The optional `edeint` clip: whether `isSameFormat` holds, and its number of frames. -/
  edeint : Option (Bool × Int)

/-- The table `gvlut` as filled by `tdeintmodCreate` (source lines 1545-1547):
`gvlut[i] = (i == 0) ? 1 : (i == length - 1 ? 4 : 2)` for `i < length`. -/
def gvlutOf (length : Nat) : Nat → Nat :=
  forLoop (fun i a => Function.update a i
    (if i = 0 then 1 else if (i : Int) = (length : Int) - 1 then 4 else 2)) length (fun _ => 0)

/-- The table `vlut` selected by `mtype` (source lines 1549-1582). -/
def vlutTable (mtype : Int) : List Nat :=
  if mtype = 0 then
    [0, 1, 2, 2, 3, 0, 2, 2,
     1, 1, 2, 2, 0, 1, 2, 2,
     2, 2, 2, 2, 2, 2, 2, 2,
     2, 2, 2, 2, 2, 2, 2, 2,
     3, 0, 2, 2, 3, 3, 2, 2,
     0, 1, 2, 2, 3, 1, 2, 2,
     2, 2, 2, 2, 2, 2, 2, 2,
     2, 2, 2, 2, 2, 2, 2, 2]
  else if mtype = 1 then
    [0, 0, 2, 2, 0, 0, 2, 2,
     0, 1, 2, 2, 0, 1, 2, 2,
     2, 2, 2, 2, 2, 2, 2, 2,
     2, 2, 2, 2, 2, 2, 2, 2,
     0, 0, 2, 2, 3, 3, 2, 2,
     0, 1, 2, 2, 3, 1, 2, 2,
     2, 2, 2, 2, 2, 2, 2, 2,
     2, 2, 2, 2, 2, 2, 2, 2]
  else
    [0, 0, 0, 0, 0, 0, 0, 0,
     0, 1, 0, 1, 0, 1, 0, 1,
     0, 0, 2, 2, 0, 0, 2, 2,
     0, 1, 2, 2, 0, 1, 2, 2,
     0, 0, 0, 0, 3, 3, 3, 3,
     0, 1, 0, 1, 3, 1, 3, 1,
     0, 0, 2, 2, 3, 3, 2, 2,
     0, 1, 2, 2, 3, 1, 2, 2]

/-- The table `tmmlut16` (source lines 1584-1587). -/
def tmmlut16Table : List Nat :=
  [60, 20, 50, 10, 60, 10, 40, 30,
   60, 10, 40, 30, 60, 20, 50, 10]

/-- The three lookup tables as `tdeintmodCreate` stores them in the instance data (source
lines 1545-1587), for the window length already held in `d`. -/
def createTables (d : TDeintModData) (mtype : Int) : TDeintModData :=
  { d with
    gvlut := gvlutOf d.length
    vlut := fun i => (vlutTable mtype).getD i 0
    tmmlut16 := fun i => tmmlut16Table.getD i 0 }

/-- The pass over the `planes` argument in `tdeintmodCreate` (source lines 1429-1445),
starting from the flags `process`. -/
def markPlanes (numPlanes : Int) : List Int → (Int → Bool) → Except CreateError (Int → Bool)
  | [], process => .ok process
  | n :: rest, process =>
    if n < 0 ∨ n ≥ numPlanes then .error CreateError.planeRange
    else if process n then .error CreateError.planeTwice
    else markPlanes numPlanes rest (Function.update process n true)

/-- A run of checks of the form `if (cond) { setError(...); return; }`: the error of the
first check whose condition holds, if any. -/
def firstError {ε : Type} : List (Bool × ε) → Option ε
  | [] => none
  | (c, e) :: rest => if c then some e else firstError rest

/-- The range checks on the filter parameters in `tdeintmodCreate` (source lines 1300-1383),
in source order. -/
def paramChecks (order field mode length mtype ttype mtqL mthL mtqC mthC nt minthresh maxthresh
    athresh metric expand opt : Int) : List (Bool × CreateError) :=
  [(decide (order < 0 ∨ order > 1), CreateError.order),
   (decide (field < -1 ∨ field > 1), CreateError.field),
   (decide (mode < 0 ∨ mode > 1), CreateError.mode),
   (decide (length < 6), CreateError.length),
   (decide (mtype < 0 ∨ mtype > 2), CreateError.mtype),
   (decide (ttype < 0 ∨ ttype > 5), CreateError.ttype),
   (decide (mtqL < -2 ∨ mtqL > 255), CreateError.mtql),
   (decide (mthL < -2 ∨ mthL > 255), CreateError.mthl),
   (decide (mtqC < -2 ∨ mtqC > 255), CreateError.mtqc),
   (decide (mthC < -2 ∨ mthC > 255), CreateError.mthc),
   (decide (nt < 0 ∨ nt > 255), CreateError.nt),
   (decide (minthresh < 0 ∨ minthresh > 255), CreateError.minthresh),
   (decide (maxthresh < 0 ∨ maxthresh > 255), CreateError.maxthresh),
   (decide (athresh < -1 ∨ athresh > 255), CreateError.athresh),
   (decide (metric < 0 ∨ metric > 1), CreateError.metric),
   (decide (expand < 0), CreateError.expand),
   (decide (opt < 0 ∨ opt > 3), CreateError.opt)]

/-- The error, if any, raised by the parameter checks. -/
def paramError (order field mode length mtype ttype mtqL mthL mtqC mthC nt minthresh maxthresh
    athresh metric expand opt : Int) : Option CreateError :=
  firstError (paramChecks order field mode length mtype ttype mtqL mthL mtqC mthC nt minthresh
    maxthresh athresh metric expand opt)

/-- The checks on the input clip in `tdeintmodCreate` (source lines 1388-1422), in source
order: the error of the first check that fails, if any. -/
def clipError (a : CreateArgs) (link : Bool) : Option CreateError :=
  firstError
    [(decide (!a.constantFormat ∨ !a.integerSamples ∨ a.bitsPerSample > 16), CreateError.format),
     (decide (a.height < 4), CreateError.height),
     (decide (a.width % 2 ≠ 0 ∨ a.height % 2 ≠ 0), CreateError.evenSize),
     (decide (a.subSamplingW > 1), CreateError.subSamplingW),
     (decide (a.subSamplingH > 1), CreateError.subSamplingH),
     (link && a.gray, CreateError.linkGray)]

/-- The instance data that `tdeintmodCreate` assembles once the parameters, the clip and the
plane list have passed their checks (source lines 1447-1471, 1545-1587 and 1602-1606).  The
structure is value-initialised, so `athresh6` and `athreshsq` are 0 when `athresh` is not set;
the product `athresh * athresh` is an `int`. -/
def createData (a : CreateArgs) (process : Int → Bool) : TDeintModData :=
  let length := a.length.getD 10
  let mtype := a.mtype.getD 1
  let mtqL := a.mtql.getD (-1)
  let mthL := a.mthl.getD (-1)
  let mtqC := a.mtqc.getD (-1)
  let mthC := a.mthc.getD (-1)
  let peak : Int := (2 : Int) ^ a.bitsPerSample - 1
  let masked : Bool := decide (mtqL > -2 ∨ mthL > -2 ∨ mtqC > -2 ∨ mthC > -2)
  let rescale : Int → Int := fun v => if masked then scaleToPeak v peak else v
  let ssW : Nat := a.subSamplingW.toNat
  let ssH : Nat := a.subSamplingH.toNat
  let hShift : Nat → Nat := fun plane => if plane ≠ 0 then ssW else 0
  let vShift : Nat → Nat := fun plane => if plane ≠ 0 then 1 <<< ssH else 1
  let athresh : Int :=
    if a.athresh.getD (-1) > -1 then Int.tdiv (a.athresh.getD (-1) * peak) 255
    else a.athresh.getD (-1)
  let d : TDeintModData :=
    { viWidth := a.width.toNat, viHeight := a.height.toNat
      subSamplingW := ssW, subSamplingH := ssH
      numPlanes := a.numPlanes.toNat
      process := fun plane => process (plane : Int)
      widthPad := 32 / a.bytesPerSample
      peak := peak
      ttype := a.ttype.getD 1
      mtqL := if mtqL > -1 then rescale mtqL else mtqL
      mthL := if mthL > -1 then rescale mthL else mthL
      mtqC := if mtqC > -1 then rescale mtqC else mtqC
      mthC := if mthC > -1 then rescale mthC else mthC
      nt := rescale (a.nt.getD 2)
      minthresh := rescale (a.minthresh.getD 4)
      maxthresh := rescale (a.maxthresh.getD 75)
      hShift := hShift
      vShift := vShift
      hHalf := fun plane => if hShift plane ≠ 0 then ((1 <<< (hShift plane - 1) : Nat) : Int)
        else (hShift plane : Int)
      vHalf := fun plane => ((1 <<< (vShift plane - 1) : Nat) : Int)
      length := length.toNat
      cstr := a.cstr.getD 4
      athresh := athresh
      athresh6 := if a.athresh.getD (-1) > -1 then athresh * 6 else 0
      athreshsq := if a.athresh.getD (-1) > -1 then wrapInt32 (athresh * athresh) else 0
      metric := a.metric.getD 0
      expand := a.expand.getD 0 }
  if masked then createTables d mtype else d

/-- The checks that follow the assembly of the instance data in `tdeintmodCreate` (source
lines 1614-1644): the doubled frame count and the `edeint` clip. -/
def lateError (a : CreateArgs) (mode : Int) : Option CreateError :=
  if mode = 1 ∧ a.numFrames > 2147483647 / 2 then some CreateError.tooLong
  else
    match a.edeint with
    | none => none
    | some (sameFormat, frames) =>
      if !sameFormat then some CreateError.edeintFormat
      else if frames ≠ (if mode = 1 then a.numFrames * 2 else a.numFrames) then
        some CreateError.edeintFrames
      else none

/-- The function `tdeintmodCreate`, as far as its outcome goes: either the error with which it
returns before any filter is created, or the instance data handed to `createFilter` for the
deinterlacing filter.  Absent parameters take the defaults of source lines 1232-1298. -/
def tdeintmodCreate (a : CreateArgs) : Except CreateError TDeintModData :=
  match paramError a.order (a.field.getD (-1)) (a.mode.getD 0) (a.length.getD 10)
      (a.mtype.getD 1) (a.ttype.getD 1) (a.mtql.getD (-1)) (a.mthl.getD (-1))
      (a.mtqc.getD (-1)) (a.mthc.getD (-1)) (a.nt.getD 2) (a.minthresh.getD 4)
      (a.maxthresh.getD 75) (a.athresh.getD (-1)) (a.metric.getD 0) (a.expand.getD 0)
      (a.opt.getD 0) with
  | some e => .error e
  | none =>
    match clipError a (a.link.getD true) with
    | some e => .error e
    | none =>
      match markPlanes a.numPlanes a.planes (fun _ => decide (a.planes.length ≤ 0)) with
      | .error e => .error e
      | .ok process =>
        match lateError a (a.mode.getD 0) with
        | some e => .error e
        | none => .ok (createData a process)

/-! ## Frame windows of `tdeintmodBuildMMGetFrame` -/

/-- First frame requested in the initial activation (source line 1008):
`std::max(n - 1 - (d->length - 2) / 2, 0)`. -/
def requestStart (length n : Int) : Int :=
  max (n - 1 - Int.tdiv (length - 2) 2) 0

/-- Last frame requested in the initial activation (source line 1009):
`std::min(n + 1 + (d->length - 2) / 2 - 2, d->viSaved->numFrames - 3)`. -/
def requestStop (length n numFrames : Int) : Int :=
  min (n + 1 + Int.tdiv (length - 2) 2 - 2) (numFrames - 3)

/-- The window bounds and counts computed in `tdeintmodBuildMMGetFrame` (source lines
1042-1064). -/
structure MaskWindow where
  /-- First index of the top-field window. -/
  tStart : Int
  /-- Last index of the top-field window. -/
  tStop : Int
  /-- First index of the bottom-field window. -/
  bStart : Int
  /-- Last index of the bottom-field window. -/
  bStop : Int
  /-- Number of current-polarity frames. -/
  cCount : Int
  /-- Number of opposite-polarity frames. -/
  oCount : Int

/-- Source lines 1044-1064 of `tdeintmodBuildMMGetFrame`. -/
def maskWindow (length order field n : Int) : MaskWindow :=
  if field = 1 then
    let tStart := n - Int.tdiv (length - 1) 2
    let tStop := n + Int.tdiv (length - 1) 2 - 2
    let bn := if order = 1 then n - 1 else n
    let bStart := bn - Int.tdiv (length - 2) 2
    let bStop := bn + 1 + Int.tdiv (length - 2) 2 - 2
    { tStart := tStart, tStop := tStop, bStart := bStart, bStop := bStop,
      oCount := tStop - tStart + 1, cCount := bStop - bStart + 1 }
  else
    let tn := if order = 0 then n - 1 else n
    let tStart := tn - Int.tdiv (length - 2) 2
    let tStop := tn + 1 + Int.tdiv (length - 2) 2 - 2
    let bStart := n - Int.tdiv (length - 1) 2
    let bStop := n + Int.tdiv (length - 1) 2 - 2
    { tStart := tStart, tStop := tStop, bStart := bStart, bStop := bStop,
      cCount := tStop - tStart + 1, oCount := bStop - bStart + 1 }

/-- One of the two loops that collect a window (source lines 1066-1076 and 1077-1087): for
`i = start .. stop`, `none` stands for a zero-filled buffer and `some i` for frame `i` fetched
from the motion-mask clip. -/
def windowSources (start stop numFrames : Int) : List (Option Int) :=
  (List.range (stop - start + 1).toNat).map (fun (k : Nat) =>
    if start + (k : Int) < 0 ∨ start + (k : Int) ≥ numFrames - 2 then none
    else some (start + (k : Int)))

/-- The frames requested from each motion-mask clip in the initial activation (source lines
1010-1013): `i = start .. stop`. -/
def requestedFrames (length n numFrames : Int) : List Int :=
  (List.range (requestStop length n numFrames - requestStart length n + 1).toNat).map
    (fun (k : Nat) => requestStart length n + (k : Int))

/-! ## Temporal mask builder (`buildMask`) -/

/-- The two phase arrays `plut[0]` and `plut[1]`. -/
structure PhaseArrays where
  /-- Array `plut[0]`. -/
  plut0 : Nat → Nat
  /-- Array `plut[1]`. -/
  plut1 : Nat → Nat

/-- Loop-carried state of the row loop of `buildMask`: the destination plane, the two phase
arrays, and the offsets (from the base of each window frame) at which the pointer arrays
`ptlut[0]`, `ptlut[1]`, `ptlut[2]` stand; all pointers of one array move together. -/
structure MaskRows where
  /-- Destination plane. -/
  dst : Buf
  /-- Array `plut[0]`. -/
  plut0 : Nat → Nat
  /-- Array `plut[1]`. -/
  plut1 : Nat → Nat
  /-- Offset of the pointers `ptlut[0][i]` (opposite polarity, upper line). -/
  pt0 : Int
  /-- Offset of the pointers `ptlut[1][i]` (current polarity). -/
  pt1 : Int
  /-- Offset of the pointers `ptlut[2][i]` (opposite polarity, lower line). -/
  pt2 : Int

/-- One of the inner loops of the scan (source lines 491-494 and 497-500):
`for (j = 0; j < n; j++) if (!p[i + j]) goto ...`, started at `j`; `true` when the loop runs to
its end, `false` when it leaves through the `goto`. -/
def windowLoop (p : Nat → Nat) (i : Nat) : Nat → Nat → Bool
  | _, 0 => true
  | j, n + 1 => if p (i + j) = 0 then false else windowLoop p i (j + 1) n

/-- One iteration of the scan loop of `buildMask` up to the test of `vlut` (source lines
491-502): the accumulator after position `i`. -/
def scanStep (d : TDeintModData) (p0 p1 : Nat → Nat) (i val : Nat) : Nat :=
  let val1 := if windowLoop p0 i 0 (d.length - 4) then val ||| (d.gvlut i * 8) else val
  if windowLoop p1 i 0 (d.length - 4) then val1 ||| d.gvlut i else val1

/-- The scan loop of `buildMask` (source lines 490-505) with `n` iterations left, standing at
`i` with accumulator `val`; the result is the accumulator with which the loop ends, either
through the `break` or by running out of iterations. -/
def scanLoop (d : TDeintModData) (p0 p1 : Nat → Nat) : Nat → Nat → Nat → Nat
  | 0, _, val => val
  | n + 1, i, val =>
    if d.vlut (scanStep d p0 p1 i val) = 2 then scanStep d p0 p1 i val
    else scanLoop d p0 p1 n (i + 1) (scanStep d p0 p1 i val)

/-- The two loops that fill the phase arrays for one pixel (source lines 482-487): `cAt j`,
`o0At j`, `o2At j` are the samples `ptlut[1][j][x]`, `ptlut[0][j][x]`, `ptlut[2][j][x]`. -/
def interleave (cCount oCount offc offo : Nat) (cAt o0At o2At : Nat → Nat)
    (s : PhaseArrays) : PhaseArrays :=
  let s1 := forLoop (fun j (s : PhaseArrays) =>
    { plut0 := Function.update s.plut0 (j * 2 + offc) (cAt j)
      plut1 := Function.update s.plut1 (j * 2 + offc) (cAt j) }) cCount s
  forLoop (fun j (s : PhaseArrays) =>
    { plut0 := Function.update s.plut0 (j * 2 + offo) (o0At j)
      plut1 := Function.update s.plut1 (j * 2 + offo) (o2At j) }) oCount s1

/-- The test of the fast path (source line 477) at column `x`. -/
def fastPath (cPl : Int → Buf) (cCount : Nat) (pt1 : Int) (x : Nat) : Prop :=
  cPl (((cCount / 2 : Nat) : Int) - 2) (pt1 + (x : Int)) = 0 ∧
  cPl ((cCount / 2 : Nat) : Int) (pt1 + (x : Int)) = 0 ∧
  cPl (((cCount / 2 : Nat) : Int) + 1) (pt1 + (x : Int)) = 0

/-- The test of the fast path is a comparison of three samples with zero. -/
instance fastPathDecidable (cPl : Int → Buf) (cCount : Nat) (pt1 : Int) (x : Nat) :
    Decidable (fastPath cPl cCount pt1 x) :=
  inferInstanceAs (Decidable (
    cPl (((cCount / 2 : Nat) : Int) - 2) (pt1 + (x : Int)) = 0 ∧
    cPl ((cCount / 2 : Nat) : Int) (pt1 + (x : Int)) = 0 ∧
    cPl (((cCount / 2 : Nat) : Int) + 1) (pt1 + (x : Int)) = 0))

/-- The phase arrays as filled for the pixel at column `x` (source lines 482-487) from the
state `st`; `offo = (length & 1) ? 0 : 1` and `offc = (length & 1) ? 1 : 0`. -/
def pixelArrays (d : TDeintModData) (cPl oPl : Int → Buf) (cCount oCount : Nat) (x : Nat)
    (st : MaskRows) : PhaseArrays :=
  let offo := if d.length &&& 1 ≠ 0 then 0 else 1
  let offc := if d.length &&& 1 ≠ 0 then 1 else 0
  interleave cCount oCount offc offo
    (fun j => cPl (j : Int) (st.pt1 + (x : Int)))
    (fun j => oPl (j : Int) (st.pt0 + (x : Int)))
    (fun j => oPl (j : Int) (st.pt2 + (x : Int)))
    { plut0 := st.plut0, plut1 := st.plut1 }

/-- The code that the pixel body of `buildMask` stores at column `x` (source lines 477-506):
60 on the fast path, otherwise `tmmlutf[val]` for the accumulator `val` of the scan. -/
def buildMaskCode (d : TDeintModData) (tmmlutf : Nat → Nat) (cPl oPl : Int → Buf)
    (cCount oCount : Nat) (x : Nat) (st : MaskRows) : Nat :=
  if fastPath cPl cCount st.pt1 x then 60
  else
    tmmlutf (scanLoop d (pixelArrays d cPl oPl cCount oCount x st).plut0
      (pixelArrays d cPl oPl cCount oCount x st).plut1 d.length 0 0)

/-- Body of the pixel loop of `buildMask` (source lines 477-506); `dstp` is the offset of the
destination row and `cPl i`, `oPl i` are the planes of the window frames `cSrc[i]`, `oSrc[i]`.
The codes stored (60 and the entries of `tmmlutf`) are values of every sample type. -/
def buildMaskPixel (d : TDeintModData) (tmmlutf : Nat → Nat) (cPl oPl : Int → Buf)
    (cCount oCount : Nat) (dstp : Int) (x : Nat) (st : MaskRows) : MaskRows :=
  if fastPath cPl cCount st.pt1 x then
    { st with dst := st.dst.write (dstp + (x : Int)) 60 }
  else
    let s := pixelArrays d cPl oPl cCount oCount x st
    let val := scanLoop d s.plut0 s.plut1 d.length 0 0
    { st with dst := st.dst.write (dstp + (x : Int)) (tmmlutf val),
              plut0 := s.plut0, plut1 := s.plut1 }

/-- The pointer updates at the end of a row of `buildMask` (source lines 509-516), for the row
`y` just processed. -/
def buildMaskRowEnd (height stride : Nat) (y : Int) (st : MaskRows) : MaskRows :=
  { st with
    pt1 := st.pt1 + (stride : Int)
    pt0 := if y ≠ 0 then st.pt0 + (stride : Int) else st.pt0
    pt2 := if y ≠ (height : Int) - 3 then st.pt2 + (stride : Int) else st.pt2 }

/-- The filling of the rows of the other parity with code 10 (source lines 466-473). -/
def fillOtherRows (field width height stride : Nat) (dst : Buf) : Buf :=
  if field = 1 then
    forLoop (fun k b => fill_n b ((stride : Int) * ((2 * k : Nat) : Int)) width 10)
      ((height + 1) / 2) dst
  else
    forLoop (fun k b => fill_n b ((stride : Int) * ((2 * k + 1 : Nat) : Int)) width 10)
      (height / 2) dst

/-- The row loop of `buildMask` over one plane, stopped after `rows` iterations (source lines
454-518).  The loop `for (y = field; y < height; y += 2)` visits `y = field + 2 * k`; the
destination pointer starts at `stride` for `field == 1` and at 0 otherwise and advances by
`stride * 2` per row. -/
def buildMaskRows (d : TDeintModData) (tmmlutf : Nat → Nat) (cPl oPl : Int → Buf)
    (cCount oCount field : Nat) (width height stride : Nat) (rows : Nat)
    (dst : Buf) (plut0 plut1 : Nat → Nat) : MaskRows :=
  forLoop (fun k (st : MaskRows) =>
    buildMaskRowEnd height stride ((field : Int) + 2 * (k : Int))
      (forLoop (fun x (st : MaskRows) =>
        buildMaskPixel d tmmlutf cPl oPl cCount oCount
          ((if field = 1 then (stride : Int) else 0) + (stride : Int) * 2 * (k : Int)) x st)
        width st))
    rows
    { dst := fillOtherRows field width height stride dst, plut0 := plut0, plut1 := plut1,
      pt0 := 0, pt1 := 0, pt2 := if field = 1 then (stride : Int) else 0 }

/-- The work of `buildMask` on one plane. -/
def buildMaskPlane (d : TDeintModData) (tmmlutf : Nat → Nat) (cPl oPl : Int → Buf)
    (cCount oCount field : Nat) (width height stride : Nat)
    (dst : Buf) (plut0 plut1 : Nat → Nat) : MaskRows :=
  buildMaskRows d tmmlutf cPl oPl cCount oCount field width height stride
    ((height - field + 1) / 2) dst plut0 plut1

/-- State of the plane loop of `buildMask`: the destination frame and the phase arrays, which
are allocated once and reused for every plane. -/
structure MaskState where
  /-- Destination frame. -/
  dst : Frame
  /-- Array `plut[0]`. -/
  plut0 : Nat → Nat
  /-- Array `plut[1]`. -/
  plut1 : Nat → Nat

/-- The table `tmmlutf` of `buildMask` (source lines 432-435), written over the uninitialised
array `junk`. -/
def tmmlutfOf (d : TDeintModData) (order field : Nat) (junk : Nat → Nat) : Nat → Nat :=
  forLoop (fun i a => Function.update a i (d.tmmlut16 (order * 8 + field * 4 + d.vlut i)))
    64 junk

/-- The plane loop of `buildMask` (source lines 449-520) stopped after `planes` iterations. -/
def buildMaskPlanes (d : TDeintModData) (cSrc oSrc : Int → Frame) (dst : Frame)
    (cCount oCount order field : Nat) (plut0 plut1 junk : Nat → Nat) (planes : Nat) :
    MaskState :=
  forLoop (fun plane (acc : MaskState) =>
    if d.process plane then
      let r := buildMaskPlane d (tmmlutfOf d order field junk)
        (fun i => (cSrc i).data plane) (fun i => (oSrc i).data plane) cCount oCount field
        (dst.width plane) (dst.height plane) (dst.stride plane)
        (acc.dst.data plane) acc.plut0 acc.plut1
      { dst := { acc.dst with data := Function.update acc.dst.data plane r.dst },
        plut0 := r.plut0, plut1 := r.plut1 }
    else acc) planes { dst := dst, plut0 := plut0, plut1 := plut1 }

/-- The function `buildMask<T>`.  `cSrc` and `oSrc` are the current-polarity and
opposite-polarity windows; `plut0`, `plut1` and `junk` are the contents of the freshly
allocated arrays `plut[0]`, `plut[1]` and `tmmlutf`. -/
def buildMask (d : TDeintModData) (cSrc oSrc : Int → Frame) (dst : Frame)
    (cCount oCount order field : Nat) (plut0 plut1 junk : Nat → Nat) : Frame :=
  (buildMaskPlanes d cSrc oSrc dst cCount oCount order field plut0 plut1 junk d.numPlanes).dst

/-- The state in which the pixel loop of `buildMask` reaches column `x` of its `k`-th row
(row `field + 2 * k` of the plane). -/
def buildMaskStateAt (d : TDeintModData) (tmmlutf : Nat → Nat) (cPl oPl : Int → Buf)
    (cCount oCount field : Nat) (width height stride : Nat) (k x : Nat)
    (dst : Buf) (plut0 plut1 : Nat → Nat) : MaskRows :=
  forLoop (fun x (st : MaskRows) =>
    buildMaskPixel d tmmlutf cPl oPl cCount oCount
      ((if field = 1 then (stride : Int) else 0) + (stride : Int) * 2 * (k : Int)) x st)
    x (buildMaskRows d tmmlutf cPl oPl cCount oCount field width height stride k
      dst plut0 plut1)

/-- The state in which `buildMask` reaches column `x` of the `k`-th processed row of plane
`plane`. -/
def buildMaskReach (d : TDeintModData) (cSrc oSrc : Int → Frame) (dst : Frame)
    (cCount oCount order field : Nat) (plut0 plut1 junk : Nat → Nat) (plane k x : Nat) :
    MaskRows :=
  buildMaskStateAt d (tmmlutfOf d order field junk)
    (fun i => (cSrc i).data plane) (fun i => (oSrc i).data plane) cCount oCount field
    (dst.width plane) (dst.height plane) (dst.stride plane) k x
    ((buildMaskPlanes d cSrc oSrc dst cCount oCount order field plut0 plut1 junk plane).dst.data
      plane)
    (buildMaskPlanes d cSrc oSrc dst cCount oCount order field plut0 plut1 junk plane).plut0
    (buildMaskPlanes d cSrc oSrc dst cCount oCount order field plut0 plut1 junk plane).plut1

/-- The scan as the spec words it: whether the `n` consecutive samples `p[i .. i + n - 1]` are
all set. -/
def allSet (p : Nat → Nat) (i n : Nat) : Bool :=
  (List.range n).all (fun j => decide (p (i + j) ≠ 0))

/-- One position of the scan as the spec words it: unless the scan has stopped, OR in
`gvlut[i] * 8` when the `length - 4` samples of phase 0 from `i` on are all set and `gvlut[i]`
when those of phase 1 are, and stop if `vlut` of the accumulator is 2. -/
def specScanStep (d : TDeintModData) (p0 p1 : Nat → Nat) (acc : Nat × Bool) (i : Nat) :
    Nat × Bool :=
  if acc.2 then acc
  else
    let v1 := if allSet p0 i (d.length - 4) then acc.1 ||| (d.gvlut i * 8) else acc.1
    let v2 := if allSet p1 i (d.length - 4) then v1 ||| d.gvlut i else v1
    (v2, decide (d.vlut v2 = 2))

/-- The accumulator of the scan over `i = 0 .. length - 1` as the spec words it. -/
def specScan (d : TDeintModData) (p0 p1 : Nat → Nat) : Nat :=
  ((List.range d.length).foldl (specScanStep d p0 p1) (0, false)).1

/-- The counts of current-polarity and opposite-polarity frames that
`tdeintmodBuildMMGetFrame` passes to `buildMask`. -/
def windowCCount (length order field : Nat) : Nat :=
  (maskWindow (length : Int) (order : Int) (field : Int) 0).cCount.toNat

/-- See `windowCCount`. -/
def windowOCount (length order field : Nat) : Nat :=
  (maskWindow (length : Int) (order : Int) (field : Int) 0).oCount.toNat

/-- The decision codes of the data model. -/
def IsDecisionCode (v : Nat) : Prop :=
  v = 10 ∨ v = 20 ∨ v = 30 ∨ v = 40 ∨ v = 50 ∨ v = 60 ∨ v = 70

/-- The test that the spec words for the fast path: the samples of the three consecutive
current-polarity frames centred on `ct = cCount / 2` are all unset. -/
def centralUnset (cPl : Int → Buf) (cCount : Nat) (pt1 : Int) (x : Nat) : Prop :=
  cPl (((cCount / 2 : Nat) : Int) - 1) (pt1 + (x : Int)) = 0 ∧
  cPl ((cCount / 2 : Nat) : Int) (pt1 + (x : Int)) = 0 ∧
  cPl (((cCount / 2 : Nat) : Int) + 1) (pt1 + (x : Int)) = 0

/-- The scan of `buildMask` with its early exit removed: all `n` iterations from `i` on are
run, whatever `vlut` says of the accumulator. -/
def scanAll (d : TDeintModData) (p0 p1 : Nat → Nat) : Nat → Nat → Nat → Nat
  | 0, _, val => val
  | n + 1, i, val => scanAll d p0 p1 n (i + 1) (scanStep d p0 p1 i val)

/-- The code of a pixel as `buildMaskCode` computes it, but from the scan without the early
exit. -/
def buildMaskCodeAll (d : TDeintModData) (tmmlutf : Nat → Nat) (cPl oPl : Int → Buf)
    (cCount oCount : Nat) (x : Nat) (st : MaskRows) : Nat :=
  if fastPath cPl cCount st.pt1 x then 60
  else
    tmmlutf (scanAll d (pixelArrays d cPl oPl cCount oCount x st).plut0
      (pixelArrays d cPl oPl cCount oCount x st).plut1 d.length 0 0)

/-- The decision codes other than 70. -/
def IsTemporalCode (v : Nat) : Prop :=
  v = 10 ∨ v = 20 ∨ v = 30 ∨ v = 40 ∨ v = 50 ∨ v = 60

/-! ## Construction of the combing detector (`iscombedCreate`) -/

/-- The function `isPowerOf2`: `i && !(i & (i - 1))`. -/
def isPowerOf2 (i : Int) : Bool :=
  decide (i ≠ 0) && !decide (Int.land i (i - 1) ≠ 0)

/-- The fields of `IsCombedData` read by `checkCombed`. -/
structure IsCombedData where
  /-- Field `cthresh` (rescaled to the bit depth). -/
  cthresh : Int
  /-- Field `cthresh6`. -/
  cthresh6 : Int
  /-- Field `cthreshsq`. -/
  cthreshsq : Int
  /-- Field `MI`. -/
  MI : Int
  /-- Field `metric`. -/
  metric : Int
  /-- Field `chroma`. -/
  chroma : Bool
  /-- Field `xHalf`. -/
  xHalf : Nat
  /-- Field `yHalf`. -/
  yHalf : Nat
  /-- Field `xShift`. -/
  xShift : Nat
  /-- Field `yShift`. -/
  yShift : Nat
  /-- Field `arraySize`. -/
  arraySize : Nat
  /-- Field `xBlocks4`. -/
  xBlocks4 : Nat
  /-- Field `widtha`. -/
  widtha : Nat
  /-- Field `heighta`. -/
  heighta : Nat
  /-- Field `vi->format->subSamplingW`. -/
  subSamplingW : Nat
  /-- Field `vi->format->subSamplingH`. -/
  subSamplingH : Nat

/-- The errors thrown inside `iscombedCreate` (each aborts the construction). -/
inductive CombedError where
  /-- Message "only constant format 8-16 bit integer input supported". -/
  | format
  /-- Message "height must be greater than or equal to 5". -/
  | height
  /-- Message "only horizontal chroma subsampling 1x-4x supported". -/
  | subSamplingW
  /-- Message "only vertical chroma subsampling 1x-4x supported". -/
  | subSamplingH
  /-- Message "cthresh must be between 0 and 255 (inclusive)". -/
  | cthresh
  /-- Message "illegal blockx size". -/
  | blockx
  /-- Message "illegal blocky size". -/
  | blocky
  /-- Message "chroma can not be true for Gray color family". -/
  | chromaGray
  /-- Message "mi must be greater than or equal to 0". -/
  | mi
  /-- Message "metric must be 0 or 1". -/
  | metric
  deriving DecidableEq, Repr

/-- The arguments of `iscombedCreate`. -/
structure CombedArgs where
  /-- Parameter `cthresh`. -/
  cthresh : Option Int
  /-- Parameter `blockx`. -/
  blockx : Option Int
  /-- Parameter `blocky`. -/
  blocky : Option Int
  /-- Parameter `chroma`. -/
  chroma : Option Bool
  /-- Parameter `mi`. -/
  mi : Option Int
  /-- Parameter `metric`. -/
  metric : Option Int
  /-- Result of `isConstantFormat(d->vi)`. -/
  constantFormat : Bool
  /-- Whether `sampleType == stInteger`. -/
  integerSamples : Bool
  /-- Field `bitsPerSample` of the clip format. -/
  bitsPerSample : Nat
  /-- Clip width. -/
  width : Int
  /-- Clip height. -/
  height : Int
  /-- Field `subSamplingW` of the clip format. -/
  subSamplingW : Int
  /-- Field `subSamplingH` of the clip format. -/
  subSamplingH : Int
  /-- Whether the colour family is `cmGray`. -/
  gray : Bool

/-- The checks of `iscombedCreate` (source lines 2065-2113), in source order; absent
parameters take the defaults of source lines 2077-2095. -/
def combedChecks (a : CombedArgs) : List (Bool × CombedError) :=
  [(decide (!a.constantFormat ∨ !a.integerSamples ∨ a.bitsPerSample > 16), CombedError.format),
   (decide (a.height < 5), CombedError.height),
   (decide (a.subSamplingW > 2), CombedError.subSamplingW),
   (decide (a.subSamplingH > 2), CombedError.subSamplingH),
   (decide (a.cthresh.getD 6 < 0 ∨ a.cthresh.getD 6 > 255), CombedError.cthresh),
   (decide (!isPowerOf2 (a.blockx.getD 16) ∨ a.blockx.getD 16 < 4 ∨ a.blockx.getD 16 > 2048),
     CombedError.blockx),
   (decide (!isPowerOf2 (a.blocky.getD 16) ∨ a.blocky.getD 16 < 4 ∨ a.blocky.getD 16 > 2048),
     CombedError.blocky),
   (a.chroma.getD false && a.gray, CombedError.chromaGray),
   (decide (a.mi.getD 64 < 0), CombedError.mi),
   (decide (a.metric.getD 0 < 0 ∨ a.metric.getD 0 > 1), CombedError.metric)]

/-- The instance data that `iscombedCreate` derives from accepted arguments (source lines
2117-2134). -/
def combedData (a : CombedArgs) : IsCombedData :=
  let blockx := a.blockx.getD 16
  let blocky := a.blocky.getD 16
  let cthreshS := Int.tdiv (a.cthresh.getD 6 * ((2 : Int) ^ a.bitsPerSample - 1)) 255
  let xHalf := (Int.tdiv blockx 2).toNat
  let yHalf := (Int.tdiv blocky 2).toNat
  let xShift := Nat.log2 blockx.toNat
  let yShift := Nat.log2 blocky.toNat
  let xBlocks := ((a.width.toNat + xHalf) >>> xShift) + 1
  let yBlocks := ((a.height.toNat + yHalf) >>> yShift) + 1
  let heighta := (a.height.toNat >>> (yShift - 1)) <<< (yShift - 1)
  { cthresh := cthreshS
    cthresh6 := cthreshS * 6
    cthreshsq := wrapInt32 (cthreshS * cthreshS)
    MI := a.mi.getD 64
    metric := a.metric.getD 0
    chroma := a.chroma.getD false
    xHalf := xHalf
    yHalf := yHalf
    xShift := xShift
    yShift := yShift
    arraySize := xBlocks * yBlocks * 4
    xBlocks4 := xBlocks * 4
    widtha := (a.width.toNat >>> (xShift - 1)) <<< (xShift - 1)
    heighta := if heighta = a.height.toNat then a.height.toNat - yHalf else heighta
    subSamplingW := a.subSamplingW.toNat
    subSamplingH := a.subSamplingH.toNat }

/-- The function `iscombedCreate`, as far as its outcome goes: the error with which it
aborts, or the instance data handed to `createFilter`. -/
def iscombedCreate (a : CombedArgs) : Except CombedError IsCombedData :=
  match firstError (combedChecks a) with
  | some e => .error e
  | none => .ok (combedData a)

/-! ## Combing detector (`checkCombed`) -/

/-- The sample `p[x]`, as an `int`, of a source row pointer that stands `row` rows of `stride`
samples past the base pointer of the plane. -/
def rowAt (b : Buf) (stride : Nat) (row : Int) (x : Nat) : Int :=
  (b ((stride : Int) * row + (x : Int)) : Int)

/-- The one-sided first-difference test of metric 0, `sFirst > cthresh || sFirst < -cthresh`
with `sFirst = c - o` (source lines 1692-1693 and 1752-1753). -/
def oneSided (d : IsCombedData) (c o : Int) : Bool :=
  decide (c - o > d.cthresh) || decide (c - o < -d.cthresh)

/-- The two-sided first-difference test of metric 0 (source lines 1704-1706), with
`sFirst = c - p` and `sSecond = c - n`. -/
def twoSided (d : IsCombedData) (c p n : Int) : Bool :=
  (decide (c - p > d.cthresh) && decide (c - n > d.cthresh)) ||
  (decide (c - p < -d.cthresh) && decide (c - n < -d.cthresh))

/-- The second-difference test of metric 0, `abs(a + c * 4 + b - 3 * (p + n)) > cthresh6`. -/
def secondDiff (d : IsCombedData) (a c b p n : Int) : Bool :=
  decide (((a + c * 4 + b - 3 * (p + n)).natAbs : Int) > d.cthresh6)

/-- The test of metric 1, `(c - p) * (c - n) > cthreshsq`; the product is an `int`. -/
def productTest (d : IsCombedData) (c p n : Int) : Bool :=
  decide (wrapInt32 ((c - p) * (c - n)) > d.cthreshsq)

/-- One row of the combing bitmap: `if (test(x)) cmkp[x] = peak` for `x = 0 .. width - 1`,
with `cmkp` standing at offset `row`. -/
def markRow (tb width : Nat) (test : Nat → Bool) (row : Int) (cm : Buf) : Buf :=
  forLoop (fun x cm => if test x then cm.write (row + (x : Int)) (typeMax tb) else cm) width cm

/-- The test that decides the sample of row `r` under metric 0 in the five stages of the
source (lines 1690-1755): `stage` is 0 for the first row, 1 for the second, 2 for the rows of
the loop, 3 for the row after the loop and 4 for the last stage.  The row pointers stand at
`srcp = r`, `srcpp = r - 1`, `srcppp = r - 2`, `srcpn = r + 1`, `srcpnn = r + 2`. -/
def combTest0 (d : IsCombedData) (src : Buf) (stride : Nat) (stage : Nat) (r : Int) (x : Nat) :
    Bool :=
  let c := rowAt src stride r x
  let p := rowAt src stride (r - 1) x
  let pp := rowAt src stride (r - 2) x
  let n := rowAt src stride (r + 1) x
  let nn := rowAt src stride (r + 2) x
  if stage = 0 then oneSided d c n && secondDiff d nn c nn n n
  else if stage = 1 then twoSided d c p n && secondDiff d nn c nn p n
  else if stage = 2 then twoSided d c p n && secondDiff d pp c nn p n
  else if stage = 3 then twoSided d c p n && secondDiff d pp c pp p n
  else oneSided d c p && secondDiff d pp c pp p p

/-- The test that decides the sample of row `r` under metric 1 in the three stages of the
source (lines 1757-1781): stage 0 is the first row, 1 the rows of the loop, 2 the last. -/
def combTest1 (d : IsCombedData) (src : Buf) (stride : Nat) (stage : Nat) (r : Int) (x : Nat) :
    Bool :=
  let c := rowAt src stride r x
  let p := rowAt src stride (r - 1) x
  let n := rowAt src stride (r + 1) x
  if stage = 0 then productTest d c n n
  else if stage = 1 then productTest d c p n
  else productTest d c p p

/-- The body of the plane loop of `checkCombed` (source lines 1675-1782) for one plane:
the `memset` of the bitmap followed by the row stages of the selected metric.  `stride` is
the stride of the source plane, with which the source advances every pointer including
`cmkp`; `cstride` is the stride of the bitmap plane, used by the `memset`.  The loops
`y = 2 .. height - 3` and `y = 1 .. height - 2` run `height - 4` and `height - 2` times, and
the later stages stand on the rows where the loop left the pointers. -/
def combMaskPlane (tb : Nat) (d : IsCombedData) (width height stride cstride : Nat)
    (src cm : Buf) : Buf :=
  let cm0 := fill_n cm 0 (cstride * height) 0
  if d.metric = 0 then
    let cm1 := markRow tb width (combTest0 d src stride 0 0) ((stride : Int) * 0) cm0
    let cm2 := markRow tb width (combTest0 d src stride 1 1) ((stride : Int) * 1) cm1
    let cm3 := forLoop (fun k cm =>
      markRow tb width (combTest0 d src stride 2 (2 + (k : Int)))
        ((stride : Int) * (2 + (k : Int))) cm) (height - 4) cm2
    let r : Int := 2 + ((height - 4 : Nat) : Int)
    let cm4 := markRow tb width (combTest0 d src stride 3 r) ((stride : Int) * r) cm3
    markRow tb width (combTest0 d src stride 4 (r + 1)) ((stride : Int) * (r + 1)) cm4
  else
    let cm1 := markRow tb width (combTest1 d src stride 0 0) ((stride : Int) * 0) cm0
    let cm2 := forLoop (fun k cm =>
      markRow tb width (combTest1 d src stride 1 (1 + (k : Int)))
        ((stride : Int) * (1 + (k : Int))) cm) (height - 2) cm1
    let r : Int := 1 + ((height - 2 : Nat) : Int)
    markRow tb width (combTest1 d src stride 2 r) ((stride : Int) * r) cm2

/-- The stage of metric 0 that decides row `y` of a plane of `height` rows (at least 5). -/
def rowStage0 (height y : Nat) : Nat :=
  if y = 0 then 0 else if y = 1 then 1 else if y + 2 < height then 2
  else if y + 2 = height then 3 else 4

/-- The stage of metric 1 that decides row `y` of a plane of `height` rows (at least 2). -/
def rowStage1 (height y : Nat) : Nat :=
  if y = 0 then 0 else if y + 1 < height then 1 else 2

/-- The plane loop of `checkCombed` (source lines 1675-1782): the bitmap of plane 0, and of
planes 1 and 2 as well when `chroma` is set. -/
def combMask (tb : Nat) (d : IsCombedData) (src cmask : Frame) : Frame :=
  forLoop (fun plane (acc : Frame) =>
    { acc with
      data := Function.update acc.data plane
        (combMaskPlane tb d (src.width plane) (src.height plane) (src.stride plane)
          (cmask.stride plane) (src.data plane) (acc.data plane)) })
    (if d.chroma then 3 else 1) cmask

/-- The test of the chroma stage on one chroma bitmap (source lines 1816-1817): the sample at
`(y, x)` is set and so is one of its eight neighbours. -/
def chromaSet (u : Buf) (strideUV : Nat) (y x : Nat) : Bool :=
  let nz := fun (dy dx : Int) =>
    decide (u ((strideUV : Int) * ((y : Int) + dy) + ((x : Int) + dx)) ≠ 0)
  nz 0 0 && (nz 0 (-1) || nz 0 1 || nz (-1) (-1) || nz (-1) 0 || nz (-1) 1 ||
    nz 1 (-1) || nz 1 0 || nz 1 1)

/-- The stores of the chroma stage for one chroma sample `(y, x)` that passed the test
(source lines 1818-1879).  A store through the pointer cast to a 2 or 4 times wider unsigned
type sets `count` consecutive samples to all ones, starting at sample `count * x`. -/
def chromaStores (tb : Nat) (d : IsCombedData) (stride : Nat) (y x : Nat) (b : Buf) : Buf :=
  let count : Nat := if d.subSamplingW = 0 then 1 else if d.subSamplingW = 1 then 2 else 4
  let strideY : Int := ((stride <<< d.subSamplingH : Nat) : Int)
  let cmkp : Int := strideY * (y : Int)
  let put := fun (row : Int) (b : Buf) =>
    fill_n b (row + ((count * x : Nat) : Int)) count (typeMax tb)
  let b1 := put cmkp b
  if d.subSamplingH > 0 then
    let b2 := put (cmkp + (stride : Int)) b1
    let b3 := put (if y &&& 1 ≠ 0 then cmkp - (stride : Int) else cmkp + (stride : Int) * 2) b2
    if d.subSamplingH = 2 then
      let b4 := put (cmkp - (stride : Int) * 2) b3
      put (if y &&& 1 ≠ 0 then cmkp - (stride : Int) * 3 else cmkp - (stride : Int)) b4
    else b3
  else b1

/-- The chroma stage of `checkCombed` (source lines 1785-1883): the luma bitmap is set
wherever a chroma bitmap has a set sample with a set neighbour. -/
def chromaMerge (tb : Nat) (d : IsCombedData) (cmask : Frame) : Frame :=
  { cmask with
    data := Function.update cmask.data 0
      (forLoop (fun ky b =>
        forLoop (fun kx b =>
          if chromaSet (cmask.data 1) (cmask.stride 2) (ky + 1) (kx + 1) ||
              chromaSet (cmask.data 2) (cmask.stride 2) (ky + 1) (kx + 1) then
            chromaStores tb d (cmask.stride 0) (ky + 1) (kx + 1) b
          else b) (cmask.width 2 - 2) b) (cmask.height 2 - 2) (cmask.data 0)) }

/-- The bitmap from which `checkCombed` builds the block histogram. -/
def combBitmap (tb : Nat) (d : IsCombedData) (src cmask : Frame) : Frame :=
  if d.chroma then chromaMerge tb d (combMask tb d src cmask) else combMask tb d src cmask

/-- The test `cmkpp[x] && cmkp[x] && cmkpn[x]` of the histogram loops, with `cmkp` standing at
offset `p` of the bitmap, `cmkpp` one row above and `cmkpn` one row below. -/
def litAt (cm : Buf) (stride : Nat) (p : Int) (x : Nat) : Bool :=
  decide (cm (p - (stride : Int) + (x : Int)) ≠ 0) && decide (cm (p + (x : Int)) ≠ 0) &&
    decide (cm (p + (stride : Int) + (x : Int)) ≠ 0)

/-- The four updates of the histogram for column `x` of row `y` (source lines 1909-1914,
1936-1943): each of the four cells grows by `n`. -/
def scatter (d : IsCombedData) (y x : Nat) (n : Int) (a : Nat → Int) : Nat → Int :=
  let temp1 := (y >>> d.yShift) * d.xBlocks4
  let temp2 := ((y + d.yHalf) >>> d.yShift) * d.xBlocks4
  let box1 := (x >>> d.xShift) * 4
  let box2 := ((x + d.xHalf) >>> d.xShift) * 4
  let a1 := Function.update a (temp1 + box1) (a (temp1 + box1) + n)
  let a2 := Function.update a1 (temp1 + box2 + 1) (a1 (temp1 + box2 + 1) + n)
  let a3 := Function.update a2 (temp2 + box1 + 2) (a2 (temp2 + box1 + 2) + n)
  Function.update a3 (temp2 + box2 + 3) (a3 (temp2 + box2 + 3) + n)

/-- Loop-carried state of the histogram loops: the array `cArray` and the offset at which
the pointer `cmkp` stands (`cmkpp` and `cmkpn` stay one row above and below it). -/
structure HistState where
  /-- Array `cArray`. -/
  cArray : Nat → Int
  /-- Offset of the pointer `cmkp` from the base of the bitmap plane. -/
  cmkp : Int

/-- Body of the per-pixel row loops (source lines 1900-1921 and 1975-1996) for the loop
variable `y`. -/
def pixelRow (d : IsCombedData) (cm : Buf) (width stride : Nat) (y : Nat) (s : HistState) :
    HistState :=
  { cArray := forLoop (fun x a => if litAt cm stride s.cmkp x then scatter d y x 1 a else a)
      width s.cArray
    cmkp := s.cmkp + (stride : Int) }

/-- The count `sum` of a block of `yHalf` rows and `xHalf` columns starting at column `x`
(source lines 1931-1941), the pointers standing at offset `p`. -/
def countBlock (d : IsCombedData) (cm : Buf) (stride : Nat) (p : Int) (x : Nat) : Int :=
  forLoop (fun u sum =>
    forLoop (fun v sum =>
      if litAt cm stride (p + (stride : Int) * (u : Int)) (x + v) then sum + 1 else sum)
      d.xHalf sum) d.yHalf 0

/-- The count `sum` of `yHalf` rows of the single column `x` (source lines 1958-1965). -/
def countColumn (d : IsCombedData) (cm : Buf) (stride : Nat) (p : Int) (x : Nat) : Int :=
  forLoop (fun u sum =>
    if litAt cm stride (p + (stride : Int) * (u : Int)) x then sum + 1 else sum) d.yHalf 0

/-- Body of the block-strided row loop (source lines 1923-1973) for the loop variable `y`.
The loop `x = 0; x < widtha; x += xHalf` runs `ceil(widtha / xHalf)` times (`xHalf` is at
least 2 in every instance that `iscombedCreate` builds). -/
def blockRow (d : IsCombedData) (cm : Buf) (width stride : Nat) (y : Nat) (s : HistState) :
    HistState :=
  let a1 := forLoop (fun m a =>
    if countBlock d cm stride s.cmkp (m * d.xHalf) ≠ 0 then
      scatter d y (m * d.xHalf) (countBlock d cm stride s.cmkp (m * d.xHalf)) a
    else a) ((d.widtha + (d.xHalf - 1)) / d.xHalf) s.cArray
  let a2 := forLoop (fun k a =>
    if countColumn d cm stride s.cmkp (d.widtha + k) ≠ 0 then
      scatter d y (d.widtha + k) (countColumn d cm stride s.cmkp (d.widtha + k)) a
    else a) (width - d.widtha) a1
  { cArray := a2, cmkp := s.cmkp + (stride : Int) * (d.yHalf : Int) }

/-- The state after the first histogram loop, `for (y = 1; y < yHalf; y++)` (source lines
1898-1921), entered with `cArray` cleared over its `arraySize` cells (`a0` is the previous
content of the memory) and `cmkp` on row 1. -/
def histPhase1 (d : IsCombedData) (cm : Buf) (width stride : Nat) (a0 : Nat → Int) :
    HistState :=
  forLoop (fun k s => pixelRow d cm width stride (1 + k) s) (d.yHalf - 1)
    { cArray := fun i => if i < d.arraySize then 0 else a0 i, cmkp := (stride : Int) }

/-- The state after the second histogram loop, `for (y = yHalf; y < heighta; y += yHalf)`
(source lines 1923-1973), which runs `ceil((heighta - yHalf) / yHalf)` times when
`heighta > yHalf` and not at all otherwise (`yHalf` is at least 2 in every instance that
`iscombedCreate` builds). -/
def histPhase2 (d : IsCombedData) (cm : Buf) (width stride : Nat) (a0 : Nat → Int) :
    HistState :=
  forLoop (fun k s => blockRow d cm width stride (d.yHalf + k * d.yHalf) s)
    ((d.heighta - d.yHalf + (d.yHalf - 1)) / d.yHalf) (histPhase1 d cm width stride a0)

/-- The block histogram `cArray` after the three loops of source lines 1898-1997; the third is
`for (y = heighta; y < height - 1; y++)`. -/
def combHistogram (d : IsCombedData) (cm : Buf) (width height stride : Nat)
    (a0 : Nat → Int) : Nat → Int :=
  (forLoop (fun k s => pixelRow d cm width stride (d.heighta + k) s) (height - 1 - d.heighta)
    (histPhase2 d cm width stride a0)).cArray

/-- The final loop of `checkCombed` (source lines 1999-2003): the value of `MIC`. -/
def maxCell (a : Nat → Int) (n : Nat) : Int :=
  forLoop (fun x mic => if a x > mic then a x else mic) n 0

/-- The block histogram that `checkCombed` builds for the frame `src`; `cmask` is the freshly
allocated bitmap frame and `a0` the previous content of `cArray`. -/
def checkCombedHistogram (tb : Nat) (d : IsCombedData) (src cmask : Frame)
    (a0 : Nat → Int) : Nat → Int :=
  combHistogram d ((combBitmap tb d src cmask).data 0) ((combBitmap tb d src cmask).width 0)
    ((combBitmap tb d src cmask).height 0) ((combBitmap tb d src cmask).stride 0) a0

/-- The score `MIC` of `checkCombed`. -/
def checkCombedScore (tb : Nat) (d : IsCombedData) (src cmask : Frame) (a0 : Nat → Int) : Int :=
  maxCell (checkCombedHistogram tb d src cmask a0) d.arraySize

/-- The function `checkCombed<T>`: `true` when it returns 1 (combed), `false` when it returns
0. -/
def checkCombed (tb : Nat) (d : IsCombedData) (src cmask : Frame) (a0 : Nat → Int) : Bool :=
  decide (checkCombedScore tb d src cmask a0 > d.MI)

/-- The histogram as the spec words it: the number of times cell `c` is incremented when
every pixel `(x, y)` with `0 <= x < width` and `1 <= y <= height - 2` whose bitmap samples at
rows `y - 1`, `y`, `y + 1` are all set increments the four cells
`(y >> yShift) * xBlocks4 + (x >> xShift) * 4`,
`(y >> yShift) * xBlocks4 + ((x + xHalf) >> xShift) * 4 + 1`,
`((y + yHalf) >> yShift) * xBlocks4 + (x >> xShift) * 4 + 2` and
`((y + yHalf) >> yShift) * xBlocks4 + ((x + xHalf) >> xShift) * 4 + 3` once each. -/
def cellHits (d : IsCombedData) (y x c : Nat) : Int :=
  (if c = (y >>> d.yShift) * d.xBlocks4 + (x >>> d.xShift) * 4 then 1 else 0) +
  (if c = (y >>> d.yShift) * d.xBlocks4 + ((x + d.xHalf) >>> d.xShift) * 4 + 1 then 1 else 0) +
  (if c = ((y + d.yHalf) >>> d.yShift) * d.xBlocks4 + (x >>> d.xShift) * 4 + 2 then 1 else 0) +
  (if c = ((y + d.yHalf) >>> d.yShift) * d.xBlocks4 + ((x + d.xHalf) >>> d.xShift) * 4 + 3
    then 1 else 0)

/-- Whether the bitmap samples of column `x` at rows `y - 1`, `y`, `y + 1` are all set. -/
def pixelLit (cm : Buf) (stride : Nat) (y x : Nat) : Bool :=
  decide (cm ((stride : Int) * ((y : Int) - 1) + (x : Int)) ≠ 0) &&
  decide (cm ((stride : Int) * (y : Int) + (x : Int)) ≠ 0) &&
  decide (cm ((stride : Int) * ((y : Int) + 1) + (x : Int)) ≠ 0)

/-- The naive histogram of the spec: cell `c` counts the lit pixels of rows `1 .. height - 2`
that increment it. -/
def naiveHistogram (d : IsCombedData) (cm : Buf) (width height stride : Nat) (c : Nat) : Int :=
  Finset.sum (Finset.range (height - 2)) (fun k =>
    Finset.sum (Finset.range width) (fun x =>
      if pixelLit cm stride (k + 1) x then cellHits d (k + 1) x c else 0))

/-- What one per-pixel row loop adds to cell `c`: the hits of the columns whose test holds,
the pointer `cmkp` standing at offset `p` and the loop variable being `y`. -/
def rowHits (d : IsCombedData) (cm : Buf) (width stride : Nat) (p : Int) (y c : Nat) : Int :=
  Finset.sum (Finset.range width)
    (fun x => if litAt cm stride p x then cellHits d y x c else 0)

/-- What one block-strided row adds to cell `c`: the block counts and the column counts, each
credited to the cells of the first pixel of its block. -/
def blockHits (d : IsCombedData) (cm : Buf) (width stride : Nat) (p : Int) (y c : Nat) : Int :=
  Finset.sum (Finset.range ((d.widtha + (d.xHalf - 1)) / d.xHalf)) (fun m =>
    countBlock d cm stride p (m * d.xHalf) * cellHits d y (m * d.xHalf) c)
  + Finset.sum (Finset.range (width - d.widtha)) (fun k =>
    countColumn d cm stride p (d.widtha + k) * cellHits d y (d.widtha + k) c)

/-! ## Spatial check (`checkSpatial`) -/

/-- The one-sided first-difference test of `checkSpatial` under metric 0,
`sFirst > athresh || sFirst < -athresh` with `sFirst = c - o`. -/
def spatialOne (d : TDeintModData) (c o : Int) : Bool :=
  decide (c - o > d.athresh) || decide (c - o < -d.athresh)

/-- The two-sided first-difference test of `checkSpatial` under metric 0, with
`sFirst = c - p` and `sSecond = c - n`. -/
def spatialTwo (d : TDeintModData) (c p n : Int) : Bool :=
  (decide (c - p > d.athresh) && decide (c - n > d.athresh)) ||
  (decide (c - p < -d.athresh) && decide (c - n < -d.athresh))

/-- The second-difference test of `checkSpatial`,
`abs(a + c * 4 + b - 3 * (p + n)) > athresh6`. -/
def spatialSecond (d : TDeintModData) (a c b p n : Int) : Bool :=
  decide (((a + c * 4 + b - 3 * (p + n)).natAbs : Int) > d.athresh6)

/-- The test of `checkSpatial` under metric 1, `(c - p) * (c - n) > athreshsq`; the product is
an `int`. -/
def spatialProduct (d : TDeintModData) (c p n : Int) : Bool :=
  decide (wrapInt32 ((c - p) * (c - n)) > d.athreshsq)

/-- The test that lets a code-60 pixel of row `r` stay under metric 0 in the five stages of
the source (lines 576-638): `stage` is 0 for the first row, 1 for the second, 2 for the rows
of the loop, 3 for the row after the loop and 4 for the last stage. -/
def spatialTest0 (d : TDeintModData) (src : Buf) (stride : Nat) (stage : Nat) (r : Int)
    (x : Nat) : Bool :=
  let c := rowAt src stride r x
  let p := rowAt src stride (r - 1) x
  let pp := rowAt src stride (r - 2) x
  let n := rowAt src stride (r + 1) x
  let nn := rowAt src stride (r + 2) x
  if stage = 0 then spatialOne d c n && spatialSecond d nn c nn n n
  else if stage = 1 then spatialTwo d c p n && spatialSecond d nn c nn p n
  else if stage = 2 then spatialTwo d c p n && spatialSecond d pp c nn p n
  else if stage = 3 then spatialTwo d c p n && spatialSecond d pp c pp p n
  else spatialOne d c p && spatialSecond d pp c pp p p

/-- The test that lets a code-60 pixel of row `r` stay under metric 1 in the three stages of
the source (lines 640-664): stage 0 is the first row, 1 the rows of the loop, 2 the last. -/
def spatialTest1 (d : TDeintModData) (src : Buf) (stride : Nat) (stage : Nat) (r : Int)
    (x : Nat) : Bool :=
  let c := rowAt src stride r x
  let p := rowAt src stride (r - 1) x
  let n := rowAt src stride (r + 1) x
  if stage = 0 then spatialProduct d c n n
  else if stage = 1 then spatialProduct d c p n
  else spatialProduct d c p p

/-- One row of `checkSpatial`: `if (dstp[x] == 60 && !test(x)) dstp[x] = 10` for
`x = 0 .. width - 1`, with `dstp` standing at offset `row`. -/
def demoteRow (width : Nat) (test : Nat → Bool) (row : Int) (dst : Buf) : Buf :=
  forLoop (fun x (dst : Buf) =>
    if dst (row + (x : Int)) = 60 ∧ test x = false then dst.write (row + (x : Int)) 10
    else dst) width dst

/-- The work of `checkSpatial` on one plane (source lines 565-664).  Every pointer, `dstp`
included, advances by the stride of the source plane; the loops `y = 2 .. height - 3` and
`y = 1 .. height - 2` run `height - 4` and `height - 2` times, and the later stages stand on
the rows where the loop left the pointers. -/
def checkSpatialPlane (d : TDeintModData) (width height stride : Nat) (src dst : Buf) : Buf :=
  if d.metric = 0 then
    let m1 := demoteRow width (spatialTest0 d src stride 0 0) ((stride : Int) * 0) dst
    let m2 := demoteRow width (spatialTest0 d src stride 1 1) ((stride : Int) * 1) m1
    let m3 := forLoop (fun k m =>
      demoteRow width (spatialTest0 d src stride 2 (2 + (k : Int)))
        ((stride : Int) * (2 + (k : Int))) m) (height - 4) m2
    let r : Int := 2 + ((height - 4 : Nat) : Int)
    let m4 := demoteRow width (spatialTest0 d src stride 3 r) ((stride : Int) * r) m3
    demoteRow width (spatialTest0 d src stride 4 (r + 1)) ((stride : Int) * (r + 1)) m4
  else
    let m1 := demoteRow width (spatialTest1 d src stride 0 0) ((stride : Int) * 0) dst
    let m2 := forLoop (fun k m =>
      demoteRow width (spatialTest1 d src stride 1 (1 + (k : Int)))
        ((stride : Int) * (1 + (k : Int))) m) (height - 2) m1
    let r : Int := 1 + ((height - 2 : Nat) : Int)
    demoteRow width (spatialTest1 d src stride 2 r) ((stride : Int) * r) m2

/-- The function `checkSpatial<T>`: `src` is the source frame and `dst` the mask frame. -/
def checkSpatial (d : TDeintModData) (src dst : Frame) : Frame :=
  forLoop (fun plane (acc : Frame) =>
    if d.process plane then
      { acc with
        data := Function.update acc.data plane
          (checkSpatialPlane d (src.width plane) (src.height plane) (src.stride plane)
            (src.data plane) (acc.data plane)) }
    else acc) d.numPlanes dst

/-- What `checkSpatial` may do to a mask sample: leave it, or turn a 60 into 10. -/
def Demoted (a b : Nat) : Prop :=
  b = a ∨ (a = 60 ∧ b = 10)

/-- The test of metric 0 in the spec's words, for the centre sample `c`, its vertical
neighbours `p` and `n` one row away and `pp` and `nn` two rows away: both first differences
beyond `athresh` on the same side, and the second difference beyond `6 * athresh`. -/
def specGeneral (athresh pp p c n nn : Int) : Prop :=
  ((c - p > athresh ∧ c - n > athresh) ∨ (c - p < -athresh ∧ c - n < -athresh)) ∧
  |pp + 4 * c + nn - 3 * (p + n)| > 6 * athresh

/-- The test of metric 1 in the spec's words, over the integers:
`(c - p) * (c - n) > athresh ^ 2`. -/
def specSquared (athresh p c n : Int) : Prop :=
  (c - p) * (c - n) > athresh ^ 2

/-- The test of metric 0 is a comparison of integers. -/
instance specGeneralDecidable (athresh pp p c n nn : Int) :
    Decidable (specGeneral athresh pp p c n nn) :=
  inferInstanceAs (Decidable (
    ((c - p > athresh ∧ c - n > athresh) ∨ (c - p < -athresh ∧ c - n < -athresh)) ∧
    |pp + 4 * c + nn - 3 * (p + n)| > 6 * athresh))

/-- The test of metric 1 is a comparison of integers. -/
instance specSquaredDecidable (athresh p c n : Int) : Decidable (specSquared athresh p c n) :=
  inferInstanceAs (Decidable ((c - p) * (c - n) > athresh ^ 2))

/-! ## Mask dilation (`expandMask`) -/

/-- The loop `while (xt >= 0 && xt >= x - dis) maskp[xt--] = 60;` of `expandMask` (source lines
685-686), standing at `xt`, with `maskp` at offset `row`.  The first argument bounds the number
of iterations; `none` means that the bound was reached with the loop still running. -/
def sweepLeft (row x dis : Int) : Nat → Int → Buf → Option Buf
  | 0, xt, m => if xt ≥ 0 ∧ xt ≥ x - dis then none else some m
  | n + 1, xt, m =>
    if xt ≥ 0 ∧ xt ≥ x - dis then sweepLeft row x dis n (xt - 1) (m.write (row + xt) 60)
    else some m

/-- The loop `while (xt < width && xt <= x + dis)` of `expandMask` (source lines 689-697),
standing at `xt`: it stores 60 until it meets a sample that is 60 already, where it leaves
with `nc = xt`; otherwise `nc` keeps its initial value `x + dis + 1`.  The result is the memory
and `nc`; `none` means that the iteration bound was reached with the loop still running. -/
def sweepRight (row : Int) (width : Nat) (x dis : Int) : Nat → Int → Buf → Option (Buf × Int)
  | 0, xt, m => if xt < (width : Int) ∧ xt ≤ x + dis then none else some (m, x + dis + 1)
  | n + 1, xt, m =>
    if xt < (width : Int) ∧ xt ≤ x + dis then
      if m (row + xt) = 60 then some (m, xt)
      else sweepRight row width x dis n (xt + 1) (m.write (row + xt) 60)
    else some (m, x + dis + 1)

/-- The pixel loop of `expandMask` (source lines 682-700), standing at `x`: the loop variable
is reassigned in the body (`x = nc - 1`, followed by the `x++` of the loop).  The first
argument bounds the number of iterations; `none` means that the bound was reached with the
loop still running.  The two sweeps get `width + 1` iterations each. -/
def expandScan (row : Int) (width : Nat) (dis : Int) : Nat → Int → Buf → Option Buf
  | 0, x, m => if x < (width : Int) then none else some m
  | n + 1, x, m =>
    if x < (width : Int) then
      if m (row + x) = 60 then
        match sweepLeft row x dis (width + 1) (x - 1) m with
        | none => none
        | some m1 =>
          match sweepRight row width x dis (width + 1) (x + 1) m1 with
          | none => none
          | some (m2, nc) => expandScan row width dis n (nc - 1 + 1) m2
      else expandScan row width dis n (x + 1) m
    else some m

/-- The row loop of `expandMask` on one plane (source lines 674-703), stopped after `rows`
iterations: `stride` is the stride of the plane (the variable `stride` of the source is twice
that), `maskp` starts on row `field` and advances by two rows; the pixel loop gets
`width + 1` iterations. -/
def expandRows (width stride field : Nat) (dis : Int) (rows : Nat) (m : Buf) : Option Buf :=
  forLoop (fun k (acc : Option Buf) =>
    acc.bind (fun b =>
      expandScan ((stride : Int) * (field : Int) + (stride : Int) * 2 * (k : Int)) width dis
        (width + 1) 0 b)) rows (some m)

/-- The work of `expandMask` on one plane: the loop `for (y = field; y < height; y += 2)`. -/
def expandPlane (width height stride field : Nat) (dis : Int) (m : Buf) : Option Buf :=
  expandRows width stride field dis ((height - field + 1) / 2) m

/-- The distance `dis = d->expand >> (plane ? subSamplingW : 0)` of `expandMask`. -/
def expandDis (d : TDeintModData) (plane : Nat) : Int :=
  d.expand >>> (if plane ≠ 0 then d.subSamplingW else 0)

/-- The plane loop of `expandMask` stopped after `planes` iterations. -/
def expandPlanes (d : TDeintModData) (mask : Frame) (field : Nat) (planes : Nat) :
    Option Frame :=
  forLoop (fun plane (acc : Option Frame) =>
    acc.bind (fun f =>
      if d.process plane then
        (expandPlane (mask.width plane) (mask.height plane) (mask.stride plane) field
          (expandDis d plane) (f.data plane)).map
          (fun b => { f with data := Function.update f.data plane b })
      else some f)) planes (some mask)

/-- The function `expandMask<T>`; `none` stands for a run that does not end within the
iteration bounds of the loops. -/
def expandMask (d : TDeintModData) (mask : Frame) (field : Nat) : Option Frame :=
  expandPlanes d mask field d.numPlanes

/-- The dilation in the spec's words: some sample of the row at `row`, at a column `x0` of the
picture within `dis` of `x`, is 60. -/
def Covered (b : Buf) (row : Int) (width : Nat) (dis : Int) (x : Int) : Prop :=
  ∃ x0 : Int, 0 ≤ x0 ∧ x0 < (width : Int) ∧ b (row + x0) = 60 ∧ |x - x0| ≤ dis

/-! ## Luma to chroma linking (`linkMask`) -/

/-- The read `reinterpret_cast<const uintN_t *>(p)[x]` of `linkMask`, with `N` twice the
sample width `tb`: the samples `p[2 * x]` and `p[2 * x + 1]` as one word, the first of them in
the low half (the constants compared with have equal halves, so the byte order does not
matter). -/
def packedWord (tb : Nat) (b : Buf) (p : Int) (x : Nat) : Nat :=
  b (p + 2 * (x : Int)) + 2 ^ tb * b (p + 2 * (x : Int) + 1)

/-- The test of the pixel body of `linkMask` (source lines 725-751) at column `x`, with
`maskpY` at offset `pY` and `maskpnY` at offset `pnY` of the luma plane `y`; `tb = 8` stands
for `std::is_same<T, uint8_t>`. -/
def linkTest (tb : Nat) (d : TDeintModData) (y : Buf) (pY pnY : Int) (x : Nat) : Bool :=
  if d.subSamplingW = 0 then
    if d.subSamplingH = 0 then decide (y (pY + (x : Int)) = 0x3C)
    else decide (y (pY + (x : Int)) = 0x3C) && decide (y (pnY + (x : Int)) = 0x3C)
  else if tb = 8 then
    if d.subSamplingH = 0 then decide (packedWord 8 y pY x = 0x3C3C)
    else decide (packedWord 8 y pY x = 0x3C3C) && decide (packedWord 8 y pnY x = 0x3C3C)
  else
    if d.subSamplingH = 0 then decide (packedWord 16 y pY x = 0x3C003C)
    else decide (packedWord 16 y pY x = 0x3C003C) && decide (packedWord 16 y pnY x = 0x3C003C)

/-- The two chroma planes written by `linkMask`. -/
structure LinkState where
  /-- Memory of plane 1. -/
  u : Buf
  /-- Memory of plane 2. -/
  v : Buf

/-- The luma row on which `maskpY` stands in iteration `k` of the row loop of `linkMask`:
it starts on row `field` and advances by `2 << subSamplingH` rows. -/
def linkRow (d : TDeintModData) (field k : Nat) : Nat :=
  field + (2 <<< d.subSamplingH) * k

/-- The row loop of `linkMask` (source lines 710-758), stopped after `rows` iterations.
`width` and `strideUV` are those of plane 2, `strideY` is the stride of plane 0; `maskpnY`
stands two luma rows below `maskpY`, and the chroma pointers start on row `field` and advance
by two rows. -/
def linkRows (tb : Nat) (d : TDeintModData) (width strideY strideUV field : Nat) (y : Buf)
    (rows : Nat) (st : LinkState) : LinkState :=
  forLoop (fun k (st : LinkState) =>
    let pY : Int := (strideY : Int) * (linkRow d field k : Int)
    let pnY : Int := pY + (strideY : Int) * 2
    let pUV : Int := (strideUV : Int) * (field : Int) + (strideUV : Int) * 2 * (k : Int)
    forLoop (fun x (st : LinkState) =>
      if linkTest tb d y pY pnY x then
        { u := st.u.write (pUV + (x : Int)) 0x3C, v := st.v.write (pUV + (x : Int)) 0x3C }
      else st) width st) rows st

/-- The function `linkMask<T>`: the loop `for (y = field; y < height; y += 2)` over the rows
of plane 2. -/
def linkMask (tb : Nat) (d : TDeintModData) (mask : Frame) (field : Nat) : Frame :=
  let st := linkRows tb d (mask.width 2) (mask.stride 0) (mask.stride 2) field (mask.data 0)
    ((mask.height 2 - field + 1) / 2) { u := mask.data 1, v := mask.data 2 }
  { mask with data := Function.update (Function.update mask.data 1 st.u) 2 st.v }

/-- The test of `linkMask` in the spec's words, sample by sample: the luma samples that cover
chroma column `x` on luma row `r` (columns `2 * x` and `2 * x + 1` with horizontal
subsampling, column `x` without) are 60, and with vertical subsampling so are those of row
`r + 2`. -/
def linkSpec (d : TDeintModData) (y : Buf) (strideY : Nat) (r x : Nat) : Prop :=
  let at60 := fun (row col : Nat) => y ((strideY : Int) * (row : Int) + (col : Int)) = 60
  let rowOk := fun (row : Nat) =>
    if d.subSamplingW = 0 then at60 row x else at60 row (2 * x) ∧ at60 row (2 * x + 1)
  rowOk r ∧ (d.subSamplingH ≠ 0 → rowOk (r + 2))

/-- The offset of the opposite-polarity samples in the phase arrays (source line 445). -/
def offo (length : Nat) : Nat := if length &&& 1 ≠ 0 then 0 else 1

/-- The offset of the current-polarity samples in the phase arrays (source line 446). -/
def offc (length : Nat) : Nat := if length &&& 1 ≠ 0 then 1 else 0

/-- The stage of metric 0 that stands on row `y` of a plane of any height: the loop
`y = 2 .. height - 3` runs `height - 4` times (not at all for a height below 5), and the two
last stages stand on the two rows after it. -/
def rowStageAt0 (height y : Nat) : Nat :=
  if y = 0 then 0 else if y = 1 then 1 else if y < 2 + (height - 4) then 2
  else if y = 2 + (height - 4) then 3 else 4

/-- The stage of metric 1 that stands on row `y` of a plane of any height: the loop
`y = 1 .. height - 2` runs `height - 2` times (not at all for a height below 3), and the last
stage stands on the row after it. -/
def rowStageAt1 (height y : Nat) : Nat :=
  if y = 0 then 0 else if y < 1 + (height - 2) then 1 else 2

/-- Invariant of the pixel loop of `expandMask` on the row at offset `row`, standing at column
`x` with memory `m`, for the memory `m0` with which the row was entered: outside the row
nothing has changed; the columns from `x` on are as they were; a column before `x` holds 60
exactly when a sample of `m0` that is 60, at a column before `x`, lies within `dis` of it, and
is as it was otherwise; and the reach of every such sample ends before `x`, unless the sample
at `x` is itself 60 in `m0`. -/
def ScanInv (m0 : Buf) (row : Int) (width : Nat) (dis : Int) (x : Int) (m : Buf) : Prop :=
  (∀ j : Int, ¬ (row ≤ j ∧ j < row + (width : Int)) → m j = m0 j) ∧
  (∀ t : Int, x ≤ t → t < (width : Int) → m (row + t) = m0 (row + t)) ∧
  (∀ t : Int, 0 ≤ t → t < x → t < (width : Int) →
    (m (row + t) = 60 ↔
      ∃ x0 : Int, (0 ≤ x0 ∧ x0 < x ∧ x0 < (width : Int)) ∧ m0 (row + x0) = 60 ∧
        (t - x0 ≤ dis ∧ x0 - t ≤ dis)) ∧
    (m (row + t) ≠ 60 → m (row + t) = m0 (row + t))) ∧
  (∀ x0 : Int, 0 ≤ x0 → x0 < x → x0 < (width : Int) → m0 (row + x0) = 60 →
    x0 + dis < x ∨ (x < (width : Int) ∧ m0 (row + x) = 60))

/-! ## Concrete inputs used to exercise the definitions -/

/-- An 8-bit single-plane configuration with the default thresholds of `tdeintmodCreate`. -/
def exData : TDeintModData :=
  { viWidth := 4, viHeight := 8, subSamplingW := 0, subSamplingH := 0, numPlanes := 1,
    process := fun _ => true, widthPad := 32, peak := 255, ttype := 1,
    mtqL := -1, mthL := -1, mtqC := -1, mthC := -1, nt := 2, minthresh := 4, maxthresh := 75,
    hShift := fun _ => 0, vShift := fun _ => 1, hHalf := fun _ => 0, vHalf := fun _ => 1 }

/-- The configuration `exData` with both luma overrides set (quarter 10, half 20). -/
def exOverride : TDeintModData :=
  { exData with mtqL := 10, mthL := 20 }

/-- A frame of `w` by `h` samples per plane, stride `w`, whose plane memory is `f`. -/
def Frame.ofFun (w h : Nat) (f : Int → Nat) : Frame :=
  { width := fun _ => w, height := fun _ => h, stride := fun _ => w, data := fun _ => f,
    width_le_stride := fun _ => Nat.le_refl w }

/-- A frame of 2 by 2 samples per plane with every sample equal to `v`. -/
def exFlat (v : Nat) : Frame :=
  Frame.ofFun 2 2 (fun _ => v)

/-- A frame of 1 by 7 samples per plane, stride 1, whose single column is `f`. -/
def exTall (f : Int → Nat) : Frame :=
  Frame.ofFun 1 7 f

/-- A one-column, seven-row plane holding 0, 255, 100, 7, 100, 255, 0 from top to bottom. -/
def exColumn : Int → Nat :=
  fun i => if i = 2 ∨ i = 4 then 100 else if i = 1 ∨ i = 5 then 255 else if i = 3 then 7 else 0

/-- Arguments of `tdeintmodCreate` for an 8-bit 4:2:0 clip of 720x480 with every optional
parameter absent except `length`. -/
def exCreateArgs (length : Int) : CreateArgs :=
  { order := 1, field := none, mode := none, length := some length, mtype := none,
    ttype := none, mtql := none, mthl := none, mtqc := none, mthc := none, nt := none,
    minthresh := none, maxthresh := none, cstr := none, athresh := none, metric := none,
    expand := none, link := none, opt := none, planes := [],
    constantFormat := true, integerSamples := true, bitsPerSample := 8, bytesPerSample := 1,
    width := 720, height := 480, subSamplingW := 1, subSamplingH := 1, gray := false,
    numPlanes := 3, numFrames := 1000, edeint := none }

/-- Arguments of `iscombedCreate` for an 8-bit gray clip of the given size with the given
block sizes and every other parameter absent. -/
def exCombedArgs (width height : Int) (blockx blocky : Option Int) : CombedArgs :=
  { cthresh := none, blockx := blockx, blocky := blocky, chroma := none, mi := none,
    metric := none, constantFormat := true, integerSamples := true, bitsPerSample := 8,
    width := width, height := height, subSamplingW := 0, subSamplingH := 0, gray := true }

/-- The block sizes accepted by `iscombedCreate` according to the spec: the powers of two from
4 to 2048. -/
def LegalBlock (b : Int) : Prop :=
  b = 4 ∨ b = 8 ∨ b = 16 ∨ b = 32 ∨ b = 64 ∨ b = 128 ∨ b = 256 ∨ b = 512 ∨ b = 1024 ∨ b = 2048

/-- A window of motion masks in which every frame is 2 by 2 with every sample set. -/
def exWindow : Int → Frame :=
  fun _ => exFlat 255

/-- The instance data that `iscombedCreate` builds for an 8-bit clip of 1 by 5 samples with
`blockx = blocky = 4` and the other parameters at their defaults. -/
def exSmallComb : IsCombedData :=
  { cthresh := 6, cthresh6 := 36, cthreshsq := 36, MI := 64, metric := 0, chroma := false,
    xHalf := 2, yHalf := 2, xShift := 2, yShift := 2, arraySize := 8, xBlocks4 := 4,
    widtha := 0, heighta := 4, subSamplingW := 0, subSamplingH := 0 }

/-- A frame of 1 by 5 samples, stride 1, with every sample (and the memory around the plane)
equal to `v`. -/
def exStrip (v : Nat) : Frame :=
  Frame.ofFun 1 5 (fun _ => v)

/-- The instance data that `iscombedCreate` builds for an 8-bit clip of 1 by 5 samples with
every parameter at its default (`blockx = blocky = 16`). -/
def exCombLow : IsCombedData :=
  { cthresh := 6, cthresh6 := 36, cthreshsq := 36, MI := 64, metric := 0, chroma := false,
    xHalf := 8, yHalf := 8, xShift := 4, yShift := 4, arraySize := 4, xBlocks4 := 4,
    widtha := 0, heighta := 0, subSamplingW := 0, subSamplingH := 0 }

/-- A bitmap plane of 1 by 5 samples, all clear, followed and preceded by memory that is not
zero. -/
def exBeyond : Buf :=
  fun i => if 0 ≤ i ∧ i < 5 then 0 else 255

/-- Arguments of `iscombedCreate` for a 16-bit gray clip of 1 by 5 samples with
`cthresh = 255`, `blockx = blocky = 4`, `mi = 0` and `metric = 1`. -/
def exOverflowArgs : CombedArgs :=
  { cthresh := some 255, blockx := some 4, blocky := some 4, chroma := none, mi := some 0,
    metric := some 1, constantFormat := true, integerSamples := true, bitsPerSample := 16,
    width := 1, height := 5, subSamplingW := 0, subSamplingH := 0, gray := true }

/-- The instance data that `iscombedCreate` builds from `exOverflowArgs`: the product
`cthresh * cthresh = 65535 * 65535` does not fit an `int` and is stored as -131071. -/
def exCombOverflow : IsCombedData :=
  { cthresh := 65535, cthresh6 := 393210, cthreshsq := -131071, MI := 0, metric := 1,
    chroma := false, xHalf := 2, yHalf := 2, xShift := 2, yShift := 2, arraySize := 8,
    xBlocks4 := 4, widtha := 0, heighta := 4, subSamplingW := 0, subSamplingH := 0 }

/-- The instance data that `iscombedCreate` builds with every parameter at its default for an
8-bit clip of 16 by 16 samples. -/
def exComb16 : IsCombedData :=
  { cthresh := 6, cthresh6 := 36, cthreshsq := 36, MI := 64, metric := 0, chroma := false,
    xHalf := 8, yHalf := 8, xShift := 4, yShift := 4, arraySize := 16, xBlocks4 := 8,
    widtha := 16, heighta := 8, subSamplingW := 0, subSamplingH := 0 }

/-- A gray frame of 16 by 16 samples with every sample equal to `v`. -/
def exGray16 (v : Nat) : Frame :=
  Frame.ofFun 16 16 (fun _ => v)

/-- A frame of 16 by 16 samples whose even rows hold 255 and whose odd rows hold 100. -/
def exRows16 : Frame :=
  Frame.ofFun 16 16 (fun i => if (i / 16) % 2 = 0 then 255 else 100)

/-- A window whose frame 3 is all set and whose other frames are all clear. -/
def exGap : Int → Frame :=
  fun i => exFlat (if i = 3 then 255 else 0)

/-- Arguments of `tdeintmodCreate` for a 4:2:0 clip of 720x480 with `bits` bits per sample,
with `athresh` and `metric` set and every other optional parameter absent. -/
def exSpatialArgs (bits : Nat) (athresh metric : Int) : CreateArgs :=
  { exCreateArgs 10 with
    bitsPerSample := bits, bytesPerSample := if bits ≤ 8 then 1 else 2,
    athresh := some athresh, metric := some metric }

/-- A mask frame of 1 by `h` samples in which every sample is coded 60. -/
def exSixty (h : Nat) : Frame :=
  Frame.ofFun 1 h (fun _ => 60)

/-- A 16-bit frame of 1 by 5 samples holding 0, 65535, 0, 0, 0 from top to bottom. -/
def exPulse16 : Frame :=
  Frame.ofFun 1 5 (fun i => if i = 1 then 65535 else 0)

/-- A padded plane of stacked layers (rows of 68 samples, padding 32) that is set everywhere
except at pixel (2, 3) of the quarter layer. -/
def exSpot : Buf :=
  fun i => if i = 32 + 68 * 3 + 2 then 0 else 255

/-- The configuration `exData` with a window of `length = 10`. -/
def exLong : TDeintModData :=
  { exData with length := 10 }

/-- Arguments of `tdeintmodCreate` for an 8-bit 4:2:0 clip of 4x6 with `link` set. -/
def exLinkArgs : CreateArgs :=
  { exCreateArgs 10 with width := 4, height := 6, link := some true }

/-- A 4:2:0 mask frame of 4x6 (chroma 2x3) with luma memory `y` and every chroma sample coded
10. -/
def exLinkFrame (y : Int → Nat) : Frame :=
  { width := fun p => if p = 0 then 4 else 2, height := fun p => if p = 0 then 6 else 3,
    stride := fun p => if p = 0 then 4 else 2,
    data := fun p => if p = 0 then y else fun _ => 10,
    width_le_stride := fun p => by by_cases h : p = 0 <;> simp [h] }

/-- Luma memory holding 60 on row 4 of a 4x6 plane (offsets 16-19) and 0 elsewhere. -/
def exLumaRow4 : Int → Nat :=
  fun i => if 16 ≤ i ∧ i ≤ 19 then 60 else 0

/-- The memory `exLumaRow4` with 60 also at the offsets 24-27 that follow the 4x6 plane. -/
def exLumaPast : Int → Nat :=
  fun i => if (16 ≤ i ∧ i ≤ 19) ∨ (24 ≤ i ∧ i ≤ 27) then 60 else 0

/-- The instance data that `tdeintmodCreate` builds for `exLinkArgs`. -/
def exLinkData : TDeintModData :=
  createData exLinkArgs (fun _ => true)

/-- The configuration `exData` with `expand = 1`. -/
def exExpand : TDeintModData :=
  { exData with expand := 1 }

/-- A mask frame of 4 by 2 samples whose only 60 is the sample of row 0 and column 1. -/
def exDot : Frame :=
  Frame.ofFun 4 2 (fun i => if i = 1 then 60 else 10)

/-! ## Generic facts about loops and stores -/

theorem forLoop_proj_frame {σ α : Type} (π : σ → α) (body : Nat → σ → σ) (n : Nat) (s : σ)
    (h : ∀ k, k < n → ∀ t, π (body k t) = π t) : π (forLoop body n s) = π s := by
  induction n with
  | zero => rfl
  | succ m ih =>
    show π (body m (forLoop body m s)) = π s
    rw [h m (Nat.lt_succ_self m)]
    exact ih (fun k hk t => h k (Nat.lt_succ_of_lt hk) t)

theorem forLoop_proj_at {σ α : Type} (π : σ → α) (body : Nat → σ → σ) (n : Nat) (s : σ)
    (k0 : Nat) (hk0 : k0 < n)
    (h : ∀ k, k < n → k ≠ k0 → ∀ t, π (body k t) = π t) :
    π (forLoop body n s) = π (body k0 (forLoop body k0 s)) := by
  induction n with
  | zero => exact absurd hk0 (Nat.not_lt_zero _)
  | succ m ih =>
    show π (body m (forLoop body m s)) = _
    by_cases hm : m = k0
    · subst hm; rfl
    · rw [h m (Nat.lt_succ_self m) hm]
      have hlt : k0 < m := by omega
      exact ih hlt (fun k hk hne t => h k (Nat.lt_succ_of_lt hk) hne t)

theorem Buf.write_same (b : Buf) (i : Int) (v : Nat) : (b.write i v) i = v := by
  simp [Buf.write]

theorem Buf.write_other (b : Buf) (i j : Int) (v : Nat) (h : j ≠ i) : (b.write i v) j = b j := by
  simp [Buf.write, h]

/-- Two pixels of a plane share an offset only if they are the same pixel. -/
theorem idx_inj (s y x y2 x2 : Nat) (hx : x < s) (hx2 : x2 < s)
    (h : (s : Int) * (y : Int) + (x : Int) = (s : Int) * (y2 : Int) + (x2 : Int)) :
    y = y2 ∧ x = x2 := by
  have hn : s * y + x = s * y2 + x2 := by exact_mod_cast h
  have hs : 0 < s := by omega
  have h1 : (s * y + x) / s = y := by
    rw [Nat.mul_comm, Nat.add_comm, Nat.add_mul_div_right _ _ hs, Nat.div_eq_of_lt hx]; simp
  have h2 : (s * y2 + x2) / s = y2 := by
    rw [Nat.mul_comm, Nat.add_comm, Nat.add_mul_div_right _ _ hs, Nat.div_eq_of_lt hx2]; simp
  have hy : y = y2 := by rw [← h1, ← h2, hn]
  subst hy
  exact ⟨rfl, by omega⟩

/-- A loop nest that stores one value per pixel, computed from the pixel position and the
value previously held there, leaves exactly that value at every pixel it visits. -/
theorem pixelLoop_at (idx : Nat → Nat → Int) (w h : Nat) (g : Nat → Nat → Nat → Nat)
    (hinj : ∀ y x y2 x2, y < h → x < w → y2 < h → x2 < w → idx y x = idx y2 x2 →
      y = y2 ∧ x = x2)
    (dstp : Buf) (y0 x0 : Nat) (hy : y0 < h) (hx : x0 < w) :
    forLoop (fun y dst => forLoop (fun x dst => dst.write (idx y x) (g y x (dst (idx y x))))
      w dst) h dstp (idx y0 x0) = g y0 x0 (dstp (idx y0 x0)) := by
  have inner_frame : ∀ (y n : Nat) (t : Buf) (j : Int), (∀ x, x < n → idx y x ≠ j) →
      forLoop (fun x dst => dst.write (idx y x) (g y x (dst (idx y x)))) n t j = t j := by
    intro y n t j hne
    refine forLoop_proj_frame (fun b : Buf => b j) _ n t ?_
    intro k hk u
    exact Buf.write_other u _ _ _ (fun e => hne k hk e.symm)
  rw [forLoop_proj_at (fun b : Buf => b (idx y0 x0)) _ h dstp y0 hy]
  · show (forLoop (fun x (dst : Buf) => dst.write (idx y0 x) (g y0 x (dst (idx y0 x)))) w _ : Buf)
      (idx y0 x0) = _
    rw [forLoop_proj_at (fun b : Buf => b (idx y0 x0)) _ w _ x0 hx]
    · show Buf.write _ (idx y0 x0) _ (idx y0 x0) = _
      rw [Buf.write_same, inner_frame]
      · congr 1
        refine forLoop_proj_frame (fun b : Buf => b (idx y0 x0)) _ y0 dstp ?_
        intro k hk u
        refine inner_frame k w u _ ?_
        intro x hxw e
        have := (hinj k x y0 x0 (by omega) hxw hy hx e).1
        omega
      · intro x hxlt e
        have := (hinj y0 x y0 x0 hy (by omega) hy hx e).2
        omega
    · intro k hk hne u
      refine Buf.write_other u _ _ _ ?_
      intro e
      exact hne (hinj y0 k y0 x0 hy hk hy hx e.symm).2
  · intro k hk hne u
    refine inner_frame k w u _ ?_
    intro x hxw e
    exact hne (hinj k x y0 x0 hk hxw hy hx e).1

/-- A pixel loop nest touches no offset outside the pixels it visits. -/
theorem pixelLoop_frame (idx : Nat → Nat → Int) (w h : Nat) (g : Nat → Nat → Nat → Nat)
    (dstp : Buf) (j : Int) (hj : ∀ y x, y < h → x < w → idx y x ≠ j) :
    forLoop (fun y dst => forLoop (fun x dst => dst.write (idx y x) (g y x (dst (idx y x))))
      w dst) h dstp j = dstp j := by
  refine forLoop_proj_frame (fun b : Buf => b j) _ h dstp ?_
  intro y hy t
  refine forLoop_proj_frame (fun b : Buf => b j) _ w t ?_
  intro x hx u
  exact Buf.write_other u _ _ _ (fun e => hj y x hy hx e.symm)

/-- A loop nest whose steps leave offset `j` alone except at pixel `(y0, x0)` ends with the
value that the step of `(y0, x0)` puts there. -/
theorem loopNest_at (step : Nat → Nat → Buf → Buf) (w h : Nat) (dstp : Buf) (j : Int)
    (y0 x0 : Nat) (hy : y0 < h) (hx : x0 < w) (c : Nat)
    (hother : ∀ y x, y < h → x < w → (y ≠ y0 ∨ x ≠ x0) → ∀ t, step y x t j = t j)
    (hval : ∀ t : Buf, t j = dstp j → step y0 x0 t j = c) :
    forLoop (fun y acc => forLoop (fun x (acc : Buf) => step y x acc) w acc) h dstp j = c := by
  rw [forLoop_proj_at (fun b : Buf => b j) _ h dstp y0 hy]
  · show (forLoop (fun x (acc : Buf) => step y0 x acc) w _ : Buf) j = c
    rw [forLoop_proj_at (fun b : Buf => b j) _ w _ x0 hx]
    · apply hval
      rw [forLoop_proj_frame (fun b : Buf => b j) _ x0 _
        (fun k hk t => hother y0 k hy (by omega) (Or.inr (by omega)) t)]
      refine forLoop_proj_frame (fun b : Buf => b j) _ y0 dstp ?_
      intro k hk t
      exact forLoop_proj_frame (fun b : Buf => b j) _ w t
        (fun x hxw u => hother k x (by omega) hxw (Or.inl (by omega)) u)
    · intro k hk hne t
      exact hother y0 k hy hk (Or.inr hne) t
  · intro k hk hne t
    exact forLoop_proj_frame (fun b : Buf => b j) _ w t
      (fun x hxw u => hother k x hk hxw (Or.inl hne) u)

/-- Effect of `std::fill_n`: the `n` samples from `first` on hold `v`, the others are kept. -/
theorem fill_n_apply (b : Buf) (first : Int) (n : Nat) (v : Nat) (j : Int) :
    fill_n b first n v j = if first ≤ j ∧ j < first + (n : Int) then v else b j := by
  induction n with
  | zero =>
    have : ¬ (first ≤ j ∧ j < first + ((0 : Nat) : Int)) := by omega
    rw [if_neg this]
    rfl
  | succ m ih =>
    show Buf.write (fill_n b first m v) (first + (m : Int)) v j = _
    by_cases hj : j = first + (m : Int)
    · subst hj
      rw [Buf.write_same, if_pos (by omega)]
    · rw [Buf.write_other _ _ _ _ hj, ih]
      by_cases hr : first ≤ j ∧ j < first + (m : Int)
      · rw [if_pos hr, if_pos (by omega)]
      · rw [if_neg hr, if_neg (by omega)]

theorem shiftRight_le_self (n k : Nat) : n >>> k ≤ n := by
  rw [Nat.shiftRight_eq_div_pow]
  exact Nat.div_le_self n (2 ^ k)

/-- Variant of `loopNest_at` for a row loop that runs a step `post` after the pixel loop of
each row, where `post` leaves offset `j` alone. -/
theorem rowLoop_at (step : Nat → Nat → Buf → Buf) (post : Nat → Buf → Buf) (w h : Nat)
    (dstp : Buf) (j : Int) (y0 x0 : Nat) (hy : y0 < h) (hx : x0 < w) (c : Nat)
    (hother : ∀ y x, y < h → x < w → (y ≠ y0 ∨ x ≠ x0) → ∀ t, step y x t j = t j)
    (hpost : ∀ y, y < h → ∀ t, post y t j = t j)
    (hval : ∀ t : Buf, t j = dstp j → step y0 x0 t j = c) :
    forLoop (fun y acc => post y (forLoop (fun x (acc : Buf) => step y x acc) w acc)) h dstp j
      = c := by
  rw [forLoop_proj_at (fun b : Buf => b j) _ h dstp y0 hy]
  · show post y0 (forLoop (fun x (acc : Buf) => step y0 x acc) w _) j = c
    rw [hpost y0 hy, forLoop_proj_at (fun b : Buf => b j) _ w _ x0 hx]
    · apply hval
      rw [forLoop_proj_frame (fun b : Buf => b j) _ x0 _
        (fun k hk t => hother y0 k hy (by omega) (Or.inr (by omega)) t)]
      refine forLoop_proj_frame (fun b : Buf => b j) _ y0 dstp ?_
      intro k hk t
      show post k (forLoop (fun x (acc : Buf) => step k x acc) w t) j = t j
      rw [hpost k (by omega)]
      exact forLoop_proj_frame (fun b : Buf => b j) _ w t
        (fun x hxw u => hother k x (by omega) hxw (Or.inl (by omega)) u)
    · intro k hk hne t
      exact hother y0 k hy hk (Or.inr hne) t
  · intro k hk hne t
    show post k (forLoop (fun x (acc : Buf) => step k x acc) w t) j = t j
    rw [hpost k hk]
    exact forLoop_proj_frame (fun b : Buf => b j) _ w t
      (fun x hxw u => hother k x hk hxw (Or.inl hne) u)

/-! ## Facts about the reconstructors -/

theorem shr_eq_div (v : Int) (k : Nat) : v >>> k = v / 2 ^ k := by
  rw [Int.shiftRight_eq_div_pow]; norm_num

theorem typeMax_cast (tb : Nat) : ((typeMax tb : Nat) : Int) = 2 ^ tb - 1 := by
  have h : 1 ≤ 2 ^ tb := Nat.one_le_two_pow
  unfold typeMax
  push_cast [Nat.cast_sub h]
  ring

/-- Storing a value that fits the sample type keeps it. -/
theorem castT_of_fits (tb : Nat) (v : Int) (h0 : 0 ≤ v) (h1 : v ≤ (typeMax tb : Int)) :
    ((castT tb v : Nat) : Int) = v := by
  rw [typeMax_cast] at h1
  have hlt : v < 2 ^ tb := by omega
  unfold castT
  rw [Int.emod_eq_of_lt h0 hlt]
  exact Int.toNat_of_nonneg h0

theorem castT_avg (tb : Nat) (a b : Nat) (ha : a ≤ typeMax tb) (hb : b ≤ typeMax tb) :
    castT tb (((a : Int) + b + 1) >>> (1 : Nat)) = (a + b + 1) >>> 1 := by
  have ha2 : (a : Int) ≤ (typeMax tb : Int) := by exact_mod_cast ha
  have hb2 : (b : Int) ≤ (typeMax tb : Int) := by exact_mod_cast hb
  have h := castT_of_fits tb (((a : Int) + b + 1) >>> (1 : Nat))
    (by rw [shr_eq_div]; omega) (by rw [shr_eq_div]; omega)
  rw [shr_eq_div] at h ⊢
  rw [Nat.shiftRight_eq_div_pow]
  omega

theorem castT_blend (tb : Nat) (p c n : Nat) (hp : p ≤ typeMax tb) (hc : c ≤ typeMax tb)
    (hn : n ≤ typeMax tb) :
    castT tb (((p : Int) + (c : Int) * 2 + n + 2) >>> (2 : Nat)) = (p + 2 * c + n + 2) >>> 2 := by
  have hp2 : (p : Int) ≤ (typeMax tb : Int) := by exact_mod_cast hp
  have hc2 : (c : Int) ≤ (typeMax tb : Int) := by exact_mod_cast hc
  have hn2 : (n : Int) ≤ (typeMax tb : Int) := by exact_mod_cast hn
  have h := castT_of_fits tb (((p : Int) + (c : Int) * 2 + n + 2) >>> (2 : Nat))
    (by rw [shr_eq_div]; omega) (by rw [shr_eq_div]; omega)
  rw [shr_eq_div] at h ⊢
  rw [Nat.shiftRight_eq_div_pow]
  omega

/-- Value of a pixel after the plane loops of `eDeint`. -/
theorem eDeintPlane_pixel (tb width height stride : Nat) (maskp prvp srcp nxtp edeintp dstp : Buf)
    (hws : width ≤ stride) (y x : Nat) (hy : y < height) (hx : x < width) :
    eDeintPlane tb width height stride maskp prvp srcp nxtp edeintp dstp
        ((stride : Int) * (y : Int) + (x : Int))
      = eDeintPixel tb (maskp ((stride : Int) * (y : Int) + (x : Int)))
          (prvp ((stride : Int) * (y : Int) + (x : Int)))
          (srcp ((stride : Int) * (y : Int) + (x : Int)))
          (nxtp ((stride : Int) * (y : Int) + (x : Int)))
          (edeintp ((stride : Int) * (y : Int) + (x : Int)))
          (dstp ((stride : Int) * (y : Int) + (x : Int))) := by
  exact pixelLoop_at (fun y x => (stride : Int) * (y : Int) + (x : Int)) width height
    (fun y x old => eDeintPixel tb (maskp ((stride : Int) * (y : Int) + (x : Int)))
      (prvp ((stride : Int) * (y : Int) + (x : Int)))
      (srcp ((stride : Int) * (y : Int) + (x : Int)))
      (nxtp ((stride : Int) * (y : Int) + (x : Int)))
      (edeintp ((stride : Int) * (y : Int) + (x : Int))) old)
    (fun y x y2 x2 _ hx1 _ hx2 e => idx_inj stride y x y2 x2 (by omega) (by omega) e)
    dstp y x hy hx

/-- Value of a pixel after the plane loops of `cubicDeint`. -/
theorem cubicDeintPlane_pixel (tb : Nat) (peak : Int) (width height stride : Nat)
    (maskp prvp srcp nxtp dstp : Buf)
    (hws : width ≤ stride) (y x : Nat) (hy : y < height) (hx : x < width) :
    cubicDeintPlane tb peak width height stride maskp prvp srcp nxtp dstp
        ((stride : Int) * (y : Int) + (x : Int))
      = cubicDeintPixel tb peak height y (maskp ((stride : Int) * (y : Int) + (x : Int)))
          (prvp ((stride : Int) * (y : Int) + (x : Int)))
          (srcp ((stride : Int) * ((y : Int)) + (x : Int)))
          (nxtp ((stride : Int) * (y : Int) + (x : Int)))
          (srcp ((stride : Int) * ((y : Int) - 1) + (x : Int)))
          (srcp ((stride : Int) * ((y : Int) + 1) + (x : Int)))
          (srcp ((stride : Int) * ((y : Int) - 3) + (x : Int)))
          (srcp ((stride : Int) * ((y : Int) + 3) + (x : Int)))
          (dstp ((stride : Int) * (y : Int) + (x : Int))) := by
  have key := pixelLoop_at (fun y x => (stride : Int) * (y : Int) + (x : Int)) width height
    (fun y x old => cubicDeintPixel tb peak height y
      (maskp ((stride : Int) * (y : Int) + (x : Int)))
      (prvp ((stride : Int) * (y : Int) + (x : Int)))
      (srcp (0 + ((stride : Int) * (y : Int) + (x : Int))))
      (nxtp ((stride : Int) * (y : Int) + (x : Int)))
      (srcp (0 - (stride : Int) + ((stride : Int) * (y : Int) + (x : Int))))
      (srcp (0 + (stride : Int) + ((stride : Int) * (y : Int) + (x : Int))))
      (srcp (0 - (stride : Int) - (stride : Int) * 2 + ((stride : Int) * (y : Int) + (x : Int))))
      (srcp (0 + (stride : Int) + (stride : Int) * 2 + ((stride : Int) * (y : Int) + (x : Int))))
      old)
    (fun y x y2 x2 _ hx1 _ hx2 e => idx_inj stride y x y2 x2 (by omega) (by omega) e)
    dstp y x hy hx
  have e0 : (0 : Int) + ((stride : Int) * (y : Int) + (x : Int))
      = (stride : Int) * (y : Int) + (x : Int) := by ring
  have e1 : (0 : Int) - (stride : Int) + ((stride : Int) * (y : Int) + (x : Int))
      = (stride : Int) * ((y : Int) - 1) + (x : Int) := by ring
  have e2 : (0 : Int) + (stride : Int) + ((stride : Int) * (y : Int) + (x : Int))
      = (stride : Int) * ((y : Int) + 1) + (x : Int) := by ring
  have e3 : (0 : Int) - (stride : Int) - (stride : Int) * 2
      + ((stride : Int) * (y : Int) + (x : Int))
      = (stride : Int) * ((y : Int) - 3) + (x : Int) := by ring
  have e4 : (0 : Int) + (stride : Int) + (stride : Int) * 2
      + ((stride : Int) * (y : Int) + (x : Int))
      = (stride : Int) * ((y : Int) + 3) + (x : Int) := by ring
  simp only [e0, e1, e2, e3, e4] at key
  exact key

/-- A per-plane frame update leaves in each processed plane the result of the plane update
applied to the original plane. -/
theorem planeLoop_data (proc : Nat → Bool) (upd : Nat → Buf → Buf) (n : Nat) (dst : Frame)
    (p : Nat) (hp : p < n) (hproc : proc p = true) :
    (forLoop (fun plane (acc : Frame) =>
      if proc plane then { acc with data := Function.update acc.data plane (upd plane (acc.data plane)) }
      else acc) n dst).data p = upd p (dst.data p) := by
  have hother : ∀ k, k ≠ p → ∀ t : Frame,
      (if proc k then { t with data := Function.update t.data k (upd k (t.data k)) }
        else t).data p = t.data p := by
    intro k hk t
    by_cases hq : proc k = true
    · simp [hq, Function.update, Ne.symm hk]
    · simp [hq]
  rw [forLoop_proj_at (fun f : Frame => f.data p) _ n dst p hp (fun k _ hne t => hother k hne t)]
  simp only [hproc, if_true, Function.update_same]
  refine congrArg (upd p) ?_
  exact forLoop_proj_frame (fun f : Frame => f.data p) _ p dst
    (fun k hk t => hother k (by omega) t)

theorem eDeint_data (tb : Nat) (d : TDeintModData) (dst mask prv src nxt edeint : Frame)
    (p : Nat) (hp : p < d.numPlanes) (hproc : d.process p = true) :
    (eDeint tb d dst mask prv src nxt edeint).data p
      = eDeintPlane tb (src.width p) (src.height p) (src.stride p) (mask.data p) (prv.data p)
          (src.data p) (nxt.data p) (edeint.data p) (dst.data p) :=
  planeLoop_data d.process (fun plane b => eDeintPlane tb (src.width plane) (src.height plane)
    (src.stride plane) (mask.data plane) (prv.data plane) (src.data plane) (nxt.data plane)
    (edeint.data plane) b) d.numPlanes dst p hp hproc

theorem cubicDeint_data (tb : Nat) (d : TDeintModData) (dst mask prv src nxt : Frame)
    (p : Nat) (hp : p < d.numPlanes) (hproc : d.process p = true) :
    (cubicDeint tb d dst mask prv src nxt).data p
      = cubicDeintPlane tb d.peak (src.width p) (src.height p) (src.stride p) (mask.data p)
          (prv.data p) (src.data p) (nxt.data p) (dst.data p) :=
  planeLoop_data d.process (fun plane b => cubicDeintPlane tb d.peak (src.width plane)
    (src.height plane) (src.stride plane) (mask.data plane) (prv.data plane) (src.data plane)
    (nxt.data plane) b) d.numPlanes dst p hp hproc

/-- Value of a pixel of a processed plane after `eDeint`. -/
theorem eDeint_px (tb : Nat) (d : TDeintModData) (dst mask prv src nxt edeint : Frame)
    (p y x : Nat) (hp : p < d.numPlanes) (hproc : d.process p = true)
    (hy : y < src.height p) (hx : x < src.width p) :
    (eDeint tb d dst mask prv src nxt edeint).px (src.stride p) p y x
      = eDeintPixel tb (mask.px (src.stride p) p y x) (prv.px (src.stride p) p y x)
          (src.px (src.stride p) p y x) (nxt.px (src.stride p) p y x)
          (edeint.px (src.stride p) p y x) (dst.px (src.stride p) p y x) := by
  unfold Frame.px
  rw [eDeint_data tb d dst mask prv src nxt edeint p hp hproc]
  exact eDeintPlane_pixel tb _ _ _ _ _ _ _ _ _ (src.width_le_stride p) y x hy hx

/-- Value of a pixel of a processed plane after `cubicDeint`. -/
theorem cubicDeint_px (tb : Nat) (d : TDeintModData) (dst mask prv src nxt : Frame)
    (p y x : Nat) (hp : p < d.numPlanes) (hproc : d.process p = true)
    (hy : y < src.height p) (hx : x < src.width p) :
    (cubicDeint tb d dst mask prv src nxt).px (src.stride p) p y x
      = cubicDeintPixel tb d.peak (src.height p) y (mask.px (src.stride p) p y x)
          (prv.px (src.stride p) p y x) (src.px (src.stride p) p y x)
          (nxt.px (src.stride p) p y x)
          (src.px (src.stride p) p ((y : Int) - 1) x) (src.px (src.stride p) p ((y : Int) + 1) x)
          (src.px (src.stride p) p ((y : Int) - 3) x) (src.px (src.stride p) p ((y : Int) + 3) x)
          (dst.px (src.stride p) p y x) := by
  unfold Frame.px
  rw [cubicDeint_data tb d dst mask prv src nxt p hp hproc]
  exact cubicDeintPlane_pixel tb _ _ _ _ _ _ _ _ _ (src.width_le_stride p) y x hy hx

/-- The temporal branches of the two pixel bodies agree. -/
theorem cubicDeintPixel_of_ne_60 (tb : Nat) (peak : Int) (height y : Nat)
    (maskv prv src nxt spp spn sppp spnn ed old : Nat) (h : maskv ≠ 60) :
    cubicDeintPixel tb peak height y maskv prv src nxt spp spn sppp spnn old
      = eDeintPixel tb maskv prv src nxt ed old := by
  unfold cubicDeintPixel eDeintPixel
  simp only [h, if_false]

/-- The lookup performed by the pixel body of `eDeint` on samples that fit the sample type. -/
theorem eDeintPixel_lookup (tb : Nat) (m pv c n ed old : Nat) (hp : pv ≤ typeMax tb)
    (hc : c ≤ typeMax tb) (hn : n ≤ typeMax tb) :
    (m = 10 → eDeintPixel tb m pv c n ed old = c) ∧
    (m = 20 → eDeintPixel tb m pv c n ed old = pv) ∧
    (m = 30 → eDeintPixel tb m pv c n ed old = n) ∧
    (m = 40 → eDeintPixel tb m pv c n ed old = (c + n + 1) >>> 1) ∧
    (m = 50 → eDeintPixel tb m pv c n ed old = (c + pv + 1) >>> 1) ∧
    (m = 70 → eDeintPixel tb m pv c n ed old = (pv + 2 * c + n + 2) >>> 2) := by
  refine ⟨?_, ?_, ?_, ?_, ?_, ?_⟩ <;> intro hm <;> subst hm
  · simp [eDeintPixel]
  · simp [eDeintPixel]
  · simp [eDeintPixel]
  · simp only [eDeintPixel]; norm_num; exact castT_avg tb c n hc hn
  · simp only [eDeintPixel]; norm_num; exact castT_avg tb c pv hc hp
  · simp only [eDeintPixel]; norm_num; exact castT_blend tb pv c n hp hc hn

/-- Range of the pixel body of `eDeint`: with all inputs at most `peak`, so is the result. -/
theorem eDeintPixel_le_peak (tb : Nat) (peak : Int) (m pv c n ed old : Nat)
    (hpk : peak ≤ (typeMax tb : Int))
    (hp : (pv : Int) ≤ peak) (hc : (c : Int) ≤ peak) (hn : (n : Int) ≤ peak)
    (he : (ed : Int) ≤ peak)
    (hm : m = 10 ∨ m = 20 ∨ m = 30 ∨ m = 40 ∨ m = 50 ∨ m = 60 ∨ m = 70) :
    ((eDeintPixel tb m pv c n ed old : Nat) : Int) ≤ peak := by
  have hp2 : pv ≤ typeMax tb := by exact_mod_cast le_trans hp hpk
  have hc2 : c ≤ typeMax tb := by exact_mod_cast le_trans hc hpk
  have hn2 : n ≤ typeMax tb := by exact_mod_cast le_trans hn hpk
  obtain ⟨h10, h20, h30, h40, h50, h70⟩ := eDeintPixel_lookup tb m pv c n ed old hp2 hc2 hn2
  rcases hm with h | h | h | h | h | h | h
  · rw [h10 h]; exact hc
  · rw [h20 h]; exact hp
  · rw [h30 h]; exact hn
  · rw [h40 h, Nat.shiftRight_eq_div_pow]; omega
  · rw [h50 h, Nat.shiftRight_eq_div_pow]; omega
  · subst h; simp only [eDeintPixel]; norm_num; exact he
  · rw [h70 h, Nat.shiftRight_eq_div_pow]; omega

/-- Every intermediate of the pixel body of `eDeint` fits a 32-bit `int` for 16-bit input. -/
theorem eDeintIntermediates_fit (m pv c n : Nat)
    (hp : (pv : Int) ≤ 65535) (hc : (c : Int) ≤ 65535) (hn : (n : Int) ≤ 65535) :
    ∀ v ∈ eDeintIntermediates m pv c n, FitsInt32 v := by
  intro v hv
  unfold eDeintIntermediates at hv
  unfold FitsInt32
  split_ifs at hv
  · simp only [List.mem_cons, List.mem_singleton, List.not_mem_nil, or_false, shr_eq_div] at hv
    rcases hv with h | h | h <;> subst h <;> constructor <;> omega
  · simp only [List.mem_cons, List.mem_singleton, List.not_mem_nil, or_false, shr_eq_div] at hv
    rcases hv with h | h | h <;> subst h <;> constructor <;> omega
  · simp only [List.mem_cons, List.mem_singleton, List.not_mem_nil, or_false, shr_eq_div] at hv
    rcases hv with h | h | h | h | h <;> subst h <;> constructor <;> omega
  · simp at hv

/-! ## Facts about the mask kernels -/

theorem planeWidth_le (d : TDeintModData) (plane : Nat) : planeWidth d plane ≤ d.viWidth :=
  shiftRight_le_self _ _

/-- On an ordered interval the spec's clamp is the usual three-way clamp. -/
theorem clamp_of_le (v lo hi : Int) (h : lo ≤ hi) :
    clamp v lo hi = if v < lo then lo else if hi < v then hi else v := by
  unfold clamp
  split_ifs <;> omega

/-- An override accepted by `tdeintmodCreate` (0 to 255) is rescaled to a value in
`[0, peak]`, so it is a value of the sample type. -/
theorem scaleToPeak_fits (v peak : Int) (h0 : 0 ≤ v) (h1 : v ≤ 255) (hp : 0 ≤ peak) :
    0 ≤ scaleToPeak v peak ∧ scaleToPeak v peak ≤ peak := by
  have hnn : 0 ≤ v * peak := Int.mul_nonneg h0 hp
  have hle : v * peak ≤ 255 * peak := Int.mul_le_mul_of_nonneg_right h1 hp
  unfold scaleToPeak
  rw [Int.tdiv_eq_ediv hnn (by decide)]
  omega

theorem motionThresh_comm (d : TDeintModData) (m1 m2 : Nat) :
    motionThresh d m1 m2 = motionThresh d m2 m1 := by
  unfold motionThresh
  rw [Nat.min_comm]

/-- Value of the two layers at a pixel after `motionMask_c`. -/
theorem motionMask_c_pixel (tb : Nat) (d : TDeintModData) (plane stride : Nat)
    (src1 msk1 src2 msk2 dst : Buf) (y x : Nat)
    (hstride : planeWidth d plane ≤ stride)
    (hy : y < planeHeight d plane) (hx : x < planeWidth d plane) :
    motionMask_c tb d plane stride src1 msk1 src2 msk2 dst
        ((d.widthPad : Int) + (stride : Int) * (y : Int) + (x : Int))
      = (if |(src1 ((d.widthPad : Int) + (stride : Int) * (y : Int) + (x : Int)) : Int)
              - (src2 ((d.widthPad : Int) + (stride : Int) * (y : Int) + (x : Int)) : Int)|
            ≤ motionThresh d (msk1 ((d.widthPad : Int) + (stride : Int) * (y : Int) + (x : Int)))
                (msk2 ((d.widthPad : Int) + (stride : Int) * (y : Int) + (x : Int)))
          then typeMax tb else 0) ∧
    motionMask_c tb d plane stride src1 msk1 src2 msk2 dst
        ((d.widthPad : Int) + ((stride * planeHeight d plane : Nat) : Int)
          + (stride : Int) * (y : Int) + (x : Int))
      = (if |(src1 ((d.widthPad : Int) + (stride : Int) * (y : Int) + (x : Int)) : Int)
              - (src2 ((d.widthPad : Int) + (stride : Int) * (y : Int) + (x : Int)) : Int)|
            ≤ motionThresh d
                (msk1 ((d.widthPad : Int) + ((stride * planeHeight d plane : Nat) : Int)
                  + (stride : Int) * (y : Int) + (x : Int)))
                (msk2 ((d.widthPad : Int) + ((stride * planeHeight d plane : Nat) : Int)
                  + (stride : Int) * (y : Int) + (x : Int)))
          then typeMax tb else 0) := by
  have sep : ∀ (a b a2 b2 : Nat), b < planeWidth d plane → b2 < planeWidth d plane →
      (stride : Int) * (a : Int) + (b : Int) = (stride : Int) * (a2 : Int) + (b2 : Int) →
      a = a2 ∧ b = b2 :=
    fun a b a2 b2 hb hb2 e => idx_inj stride a b a2 b2 (by omega) (by omega) e
  have hcast : ∀ a : Nat, ((stride * planeHeight d plane : Nat) : Int) + (stride : Int) * (a : Int)
      = (stride : Int) * ((planeHeight d plane + a : Nat) : Int) := by
    intro a; push_cast; ring
  constructor
  · refine loopNest_at _ _ _ dst _ y x hy hx _ ?_ ?_
    · intro y2 x2 hy2 hx2 hne t
      have h1 : (d.widthPad : Int) + (stride : Int) * (y : Int) + (x : Int)
          ≠ (d.widthPad : Int) + ((stride * planeHeight d plane : Nat) : Int)
            + (stride : Int) * (y2 : Int) + (x2 : Int) := by
        intro e
        have := (sep y x (planeHeight d plane + y2) x2 hx hx2
          (by have := hcast y2; omega)).1
        omega
      have h2 : (d.widthPad : Int) + (stride : Int) * (y : Int) + (x : Int)
          ≠ (d.widthPad : Int) + (stride : Int) * (y2 : Int) + (x2 : Int) := by
        intro e
        have := sep y x y2 x2 hx hx2 (by omega)
        omega
      show Buf.write (Buf.write t _ _) _ _ _ = t _
      rw [Buf.write_other _ _ _ _ h1, Buf.write_other _ _ _ _ h2]
    · intro t _
      have h1 : (d.widthPad : Int) + (stride : Int) * (y : Int) + (x : Int)
          ≠ (d.widthPad : Int) + ((stride * planeHeight d plane : Nat) : Int)
            + (stride : Int) * (y : Int) + (x : Int) := by
        intro e
        have := (sep y x (planeHeight d plane + y) x hx hx
          (by have := hcast y; omega)).1
        omega
      show Buf.write (Buf.write t _ _) _ _ _ = _
      rw [Buf.write_other _ _ _ _ h1, Buf.write_same]
  · refine loopNest_at _ _ _ dst _ y x hy hx _ ?_ ?_
    · intro y2 x2 hy2 hx2 hne t
      have h1 : (d.widthPad : Int) + ((stride * planeHeight d plane : Nat) : Int)
            + (stride : Int) * (y : Int) + (x : Int)
          ≠ (d.widthPad : Int) + ((stride * planeHeight d plane : Nat) : Int)
            + (stride : Int) * (y2 : Int) + (x2 : Int) := by
        intro e
        have := sep y x y2 x2 hx hx2 (by omega)
        omega
      have h2 : (d.widthPad : Int) + ((stride * planeHeight d plane : Nat) : Int)
            + (stride : Int) * (y : Int) + (x : Int)
          ≠ (d.widthPad : Int) + (stride : Int) * (y2 : Int) + (x2 : Int) := by
        intro e
        have := (sep (planeHeight d plane + y) x y2 x2 hx hx2
          (by have := hcast y; omega)).1
        omega
      show Buf.write (Buf.write t _ _) _ _ _ = t _
      rw [Buf.write_other _ _ _ _ h1, Buf.write_other _ _ _ _ h2]
    · intro t _
      show Buf.write (Buf.write t _ _) _ _ _ = _
      rw [Buf.write_same]

/-- Value of a picture sample (columns `0 .. width - 1`) of the stacked layers after
`andMasks_c`: the prior destination sample ANDed with both sources. -/
theorem andMasks_c_pixel (tb : Nat) (d : TDeintModData) (plane stride : Nat)
    (src1 src2 dst : Buf) (y x : Nat)
    (hpad : 1 ≤ d.widthPad) (hstride : planeWidth d plane + d.widthPad + 1 ≤ stride)
    (hy : y < stackedHeight d plane) (hx : x < planeWidth d plane) :
    andMasks_c tb d plane stride src1 src2 dst
        ((d.widthPad : Int) + (stride : Int) * (y : Int) + (x : Int))
      = castT tb ((dst ((d.widthPad : Int) + (stride : Int) * (y : Int) + (x : Int)) &&&
          (src1 ((d.widthPad : Int) + (stride : Int) * (y : Int) + (x : Int)) &&&
            src2 ((d.widthPad : Int) + (stride : Int) * (y : Int) + (x : Int))) : Nat) : Int) := by
  have sep : ∀ (a b a2 b2 : Nat), b < planeWidth d plane + 2 → b2 < planeWidth d plane + 2 →
      (stride : Int) * (a : Int) + (b : Int) = (stride : Int) * (a2 : Int) + (b2 : Int) →
      a = a2 ∧ b = b2 :=
    fun a b a2 b2 hb hb2 e => idx_inj stride a b a2 b2 (by omega) (by omega) e
  refine rowLoop_at
    (fun y x (acc : Buf) => acc.write ((d.widthPad : Int) + (stride : Int) * (y : Int) + (x : Int))
      (castT tb ((acc ((d.widthPad : Int) + (stride : Int) * (y : Int) + (x : Int)) &&&
        (src1 ((d.widthPad : Int) + (stride : Int) * (y : Int) + (x : Int)) &&&
          src2 ((d.widthPad : Int) + (stride : Int) * (y : Int) + (x : Int))) : Nat) : Int)))
    (fun y (acc1 : Buf) =>
      (acc1.write ((d.widthPad : Int) + (stride : Int) * (y : Int) + (-1))
        (acc1 ((d.widthPad : Int) + (stride : Int) * (y : Int) + 1))).write
        ((d.widthPad : Int) + (stride : Int) * (y : Int) + (planeWidth d plane : Int))
        ((acc1.write ((d.widthPad : Int) + (stride : Int) * (y : Int) + (-1))
          (acc1 ((d.widthPad : Int) + (stride : Int) * (y : Int) + 1)))
          ((d.widthPad : Int) + (stride : Int) * (y : Int) + ((planeWidth d plane : Int) - 2))))
    (planeWidth d plane) (stackedHeight d plane) dst _ y x hy hx _ ?_ ?_ ?_
  · intro y2 x2 _ hx2 hne t
    refine Buf.write_other t _ _ _ ?_
    intro e
    have := sep y x y2 x2 (by omega) (by omega) (by omega)
    omega
  · intro y2 _ t
    have h1 : (d.widthPad : Int) + (stride : Int) * (y : Int) + (x : Int)
        ≠ (d.widthPad : Int) + (stride : Int) * (y2 : Int) + (planeWidth d plane : Int) := by
      intro e
      have := sep y x y2 (planeWidth d plane) (by omega) (by omega) (by omega)
      omega
    have h2 : (d.widthPad : Int) + (stride : Int) * (y : Int) + (x : Int)
        ≠ (d.widthPad : Int) + (stride : Int) * (y2 : Int) + (-1) := by
      intro e
      have := sep y (x + 1) y2 0 (by omega) (by omega) (by push_cast; omega)
      omega
    beta_reduce
    rw [Buf.write_other _ _ _ _ h1, Buf.write_other _ _ _ _ h2]
  · intro t ht
    beta_reduce
    rw [Buf.write_same, ht]

/-! ## Facts about construction and frame windows -/

theorem markPlanes_error (numPlanes : Int) (l : List Int) (process : Int → Bool)
    (e : CreateError) (h : markPlanes numPlanes l process = .error e) :
    e = CreateError.planeRange ∨ e = CreateError.planeTwice := by
  induction l generalizing process with
  | nil => simp [markPlanes] at h
  | cons n rest ih =>
    unfold markPlanes at h
    split_ifs at h
    · left; injection h with h; exact h.symm
    · right; injection h with h; exact h.symm
    · exact ih _ h

/-- An error reported by a run of checks belongs to one of its checks, whose condition
holds. -/
theorem firstError_some {ε : Type} (l : List (Bool × ε)) (e : ε) (h : firstError l = some e) :
    (true, e) ∈ l := by
  induction l with
  | nil => simp [firstError] at h
  | cons c rest ih =>
    obtain ⟨b, e2⟩ := c
    unfold firstError at h
    cases b with
    | true =>
      simp at h
      subst h
      exact List.mem_cons_self _ _
    | false =>
      simp at h
      exact List.mem_cons_of_mem _ (ih h)

/-- A run of checks one of whose conditions holds reports an error. -/
theorem firstError_of_mem {ε : Type} (l : List (Bool × ε)) (e : ε) (h : (true, e) ∈ l) :
    ∃ e2, firstError l = some e2 := by
  induction l with
  | nil => simp at h
  | cons c rest ih =>
    obtain ⟨b, e3⟩ := c
    unfold firstError
    cases b with
    | true => exact ⟨e3, by simp⟩
    | false =>
      have hmem : (true, e) ∈ rest := by
        rcases List.mem_cons.mp h with h1 | h1
        · cases h1
        · exact h1
      simpa using ih hmem

theorem paramError_of_short (order field mode length mtype ttype mtqL mthL mtqC mthC nt
    minthresh maxthresh athresh metric expand opt : Int) (h : length < 6) :
    ∃ e, paramError order field mode length mtype ttype mtqL mthL mtqC mthC nt minthresh
      maxthresh athresh metric expand opt = some e := by
  apply firstError_of_mem _ CreateError.length
  unfold paramChecks
  simp [h]

theorem paramError_length (order field mode length mtype ttype mtqL mthL mtqC mthC nt
    minthresh maxthresh athresh metric expand opt : Int)
    (h : paramError order field mode length mtype ttype mtqL mthL mtqC mthC nt minthresh
      maxthresh athresh metric expand opt = some CreateError.length) : length < 6 := by
  have hm := firstError_some _ _ h
  unfold paramChecks at hm
  simp at hm
  exact hm

theorem clipError_ne_length (a : CreateArgs) (link : Bool) :
    clipError a link ≠ some CreateError.length := by
  intro h
  have hm := firstError_some _ _ h
  simp at hm

theorem lateError_ne_length (a : CreateArgs) (mode : Int) :
    lateError a mode ≠ some CreateError.length := by
  unfold lateError
  by_cases h1 : mode = 1 ∧ a.numFrames > 2147483647 / 2
  · rw [if_pos h1]
    simp
  · rw [if_neg h1]
    cases a.edeint with
    | none => simp
    | some pr =>
      obtain ⟨sameFormat, frames⟩ := pr
      show (if (!sameFormat) = true then some CreateError.edeintFormat
        else if frames ≠ (if mode = 1 then a.numFrames * 2 else a.numFrames) then
          some CreateError.edeintFrames
        else none) ≠ some CreateError.length
      split_ifs <;> simp

/-- A run of checks reports nothing exactly when none of its conditions holds. -/
theorem firstError_none_iff {ε : Type} (l : List (Bool × ε)) :
    firstError l = none ↔ ∀ c ∈ l, c.1 = false := by
  induction l with
  | nil => simp [firstError]
  | cons c rest ih =>
    obtain ⟨b, e⟩ := c
    unfold firstError
    cases b with
    | true => simp
    | false => simpa using ih

theorem tdiv_two_of_nonneg (v : Int) (h : 0 ≤ v) : Int.tdiv v 2 = v / 2 :=
  Int.tdiv_eq_ediv h (by decide)

/-- On the naturals, `n & (n - 1)` vanishes exactly at the powers of two. -/
theorem nat_and_pred_eq_zero_iff (n : Nat) (hn : 0 < n) :
    n &&& (n - 1) = 0 ↔ ∃ k : Nat, n = 2 ^ k := by
  induction n using Nat.strong_induction_on with
  | _ n ih =>
    by_cases h1 : n = 1
    · subst h1
      exact ⟨fun _ => ⟨0, rfl⟩, fun _ => by decide⟩
    · have hmod : (n &&& (n - 1)) % 2 = 0 := by
        have hne : ¬ ((n &&& (n - 1)) % 2 = 1) := by
          rw [Nat.and_mod_two_eq_one]
          omega
        omega
      have hdiv : (n &&& (n - 1)) / 2 = n / 2 &&& (n - 1) / 2 := Nat.and_div_two
      have hzero : n &&& (n - 1) = 0 ↔ n / 2 &&& (n - 1) / 2 = 0 := by
        rw [← hdiv]
        omega
      rw [hzero]
      rcases Nat.mod_two_eq_zero_or_one n with he | ho
      · have hm : (n - 1) / 2 = n / 2 - 1 := by omega
        rw [hm, ih (n / 2) (by omega) (by omega)]
        constructor
        · rintro ⟨k, hk⟩
          exact ⟨k + 1, by rw [Nat.pow_succ]; omega⟩
        · rintro ⟨k, hk⟩
          cases k with
          | zero => simp at hk; omega
          | succ k => exact ⟨k, by rw [Nat.pow_succ] at hk; omega⟩
      · have hm : (n - 1) / 2 = n / 2 := by omega
        rw [hm, Nat.and_self]
        constructor
        · intro h0
          omega
        · rintro ⟨k, hk⟩
          cases k with
          | zero => simp at hk; omega
          | succ k => rw [Nat.pow_succ] at hk; omega

/-- The function `isPowerOf2` holds exactly at the powers of two. -/
theorem isPowerOf2_iff (i : Int) : isPowerOf2 i = true ↔ ∃ k : Nat, i = 2 ^ k := by
  unfold isPowerOf2
  cases i with
  | ofNat n =>
    by_cases hn : n = 0
    · subst hn
      constructor
      · intro h; simp at h
      · rintro ⟨k, hk⟩
        have : (0 : Int) < 2 ^ k := by positivity
        simp at hk
        omega
    · have hpos : 0 < n := Nat.pos_of_ne_zero hn
      have hsub : (Int.ofNat n) - 1 = Int.ofNat (n - 1) := by
        show (n : Int) - 1 = ((n - 1 : Nat) : Int)
        omega
      have hland : Int.land (Int.ofNat n) (Int.ofNat n - 1) = ((n &&& (n - 1) : Nat) : Int) := by
        rw [hsub]; rfl
      rw [hland]
      have key := nat_and_pred_eq_zero_iff n hpos
      constructor
      · intro h
        simp only [Bool.and_eq_true, decide_eq_true_eq, Bool.not_eq_true', decide_eq_false_iff_not,
          ne_eq, not_not] at h
        obtain ⟨k, hk⟩ := key.mp (by exact_mod_cast h.2)
        exact ⟨k, by show (n : Int) = 2 ^ k; exact_mod_cast hk⟩
      · rintro ⟨k, hk⟩
        have hk2 : n = 2 ^ k := by
          have : (n : Int) = 2 ^ k := hk
          exact_mod_cast this
        have h0 := key.mpr ⟨k, hk2⟩
        simp only [Bool.and_eq_true, decide_eq_true_eq, Bool.not_eq_true', decide_eq_false_iff_not,
          ne_eq, not_not]
        exact ⟨by show (n : Int) ≠ 0; omega, by exact_mod_cast h0⟩
  | negSucc m =>
    constructor
    · intro h
      have hsub : Int.negSucc m - 1 = Int.negSucc (m + 1) := by
        rw [Int.negSucc_eq, Int.negSucc_eq]
        push_cast
        ring
      rw [hsub] at h
      have hl : Int.land (Int.negSucc m) (Int.negSucc (m + 1)) = Int.negSucc (m ||| (m + 1)) := rfl
      rw [hl] at h
      simp at h
    · rintro ⟨k, hk⟩
      have : (0 : Int) < 2 ^ k := by positivity
      have hneg : Int.negSucc m < 0 := Int.negSucc_lt_zero m
      omega

/-- A power of two between 4 and 2048 is one of the ten legal block sizes. -/
theorem legalBlock_iff (b : Int) :
    (isPowerOf2 b = true ∧ 4 ≤ b ∧ b ≤ 2048) ↔ LegalBlock b := by
  unfold LegalBlock
  constructor
  · rintro ⟨hp, hlo, hhi⟩
    obtain ⟨k, hk⟩ := (isPowerOf2_iff b).mp hp
    have hk11 : k ≤ 11 := by
      by_contra hc
      have h12 : 12 ≤ k := by omega
      have : (2 : Int) ^ 12 ≤ 2 ^ k := by
        exact_mod_cast Nat.pow_le_pow_right (by decide : 0 < 2) h12
      norm_num at this
      omega
    subst hk
    interval_cases k <;> norm_num at hlo hhi ⊢
  · intro h
    rcases h with h | h | h | h | h | h | h | h | h | h <;> subst h <;> decide

/-! ## Facts about the temporal mask builder -/

/-- In a row loop over an arbitrary state, a projection that only the step of `(k0, x0)`
changes ends as that step leaves it, applied to the state in which the loop reaches it. -/
theorem stateNest_at {σ α : Type} (π : σ → α) (step : Nat → Nat → σ → σ) (post : Nat → σ → σ)
    (w h : Nat) (s0 : σ) (k0 x0 : Nat) (hk : k0 < h) (hx : x0 < w)
    (hother : ∀ k x, k < h → x < w → (k ≠ k0 ∨ x ≠ x0) → ∀ t, π (step k x t) = π t)
    (hpost : ∀ k, k < h → ∀ t, π (post k t) = π t) :
    π (forLoop (fun k st => post k (forLoop (fun x st => step k x st) w st)) h s0)
      = π (step k0 x0 (forLoop (fun x st => step k0 x st) x0
          (forLoop (fun k st => post k (forLoop (fun x st => step k x st) w st)) k0 s0))) := by
  rw [forLoop_proj_at π _ h s0 k0 hk]
  · show π (post k0 (forLoop (fun x st => step k0 x st) w _)) = _
    rw [hpost k0 hk, forLoop_proj_at π _ w _ x0 hx]
    intro k hkw hne t
    exact hother k0 k hk hkw (Or.inr hne) t
  · intro k hkh hne t
    show π (post k (forLoop (fun x st => step k x st) w t)) = π t
    rw [hpost k hkh]
    exact forLoop_proj_frame π _ w t (fun x hxw u => hother k x hkh hxw (Or.inl hne) u)

/-- A row loop over an arbitrary state keeps a projection that none of its steps changes. -/
theorem stateNest_frame {σ α : Type} (π : σ → α) (step : Nat → Nat → σ → σ)
    (post : Nat → σ → σ) (w h : Nat) (s0 : σ)
    (hstep : ∀ k x, k < h → x < w → ∀ t, π (step k x t) = π t)
    (hpost : ∀ k, k < h → ∀ t, π (post k t) = π t) :
    π (forLoop (fun k st => post k (forLoop (fun x st => step k x st) w st)) h s0) = π s0 := by
  refine forLoop_proj_frame π _ h s0 ?_
  intro k hk t
  show π (post k (forLoop (fun x st => step k x st) w t)) = π t
  rw [hpost k hk]
  exact forLoop_proj_frame π _ w t (fun x hxw u => hstep k x hk hxw u)

/-- A loop that stores `g i` at index `i` of an array. -/
theorem forLoop_update_apply (g : Nat → Nat) (n : Nat) (a0 : Nat → Nat) (i : Nat) :
    forLoop (fun i a => Function.update a i (g i)) n a0 i = if i < n then g i else a0 i := by
  induction n with
  | zero => simp [forLoop]
  | succ m ih =>
    show Function.update (forLoop (fun i a => Function.update a i (g i)) m a0) m (g m) i = _
    by_cases him : i = m
    · subst him
      simp
    · rw [Function.update_noteq him, ih]
      by_cases hlt : i < m
      · rw [if_pos hlt, if_pos (by omega)]
      · rw [if_neg hlt, if_neg (by omega)]

theorem gvlutOf_apply (length i : Nat) :
    gvlutOf length i
      = if i < length then (if i = 0 then 1 else if (i : Int) = (length : Int) - 1 then 4 else 2)
        else 0 :=
  forLoop_update_apply _ length _ i

theorem gvlutOf_lt (length i : Nat) : gvlutOf length i < 8 := by
  rw [gvlutOf_apply]
  split_ifs <;> omega

theorem tmmlutfOf_apply (d : TDeintModData) (order field : Nat) (junk : Nat → Nat) (i : Nat)
    (hi : i < 64) :
    tmmlutfOf d order field junk i = d.tmmlut16 (order * 8 + field * 4 + d.vlut i) := by
  unfold tmmlutfOf
  rw [forLoop_update_apply, if_pos hi]

theorem vlutTable_le (mtype : Int) (i : Nat) : (vlutTable mtype).getD i 0 ≤ 3 := by
  have hall : ∀ v ∈ vlutTable mtype, v ≤ 3 := by
    unfold vlutTable
    split_ifs <;> decide
  rw [List.getD_eq_getElem?_getD]
  cases h : (vlutTable mtype)[i]? with
  | none => simp
  | some v =>
    simp only [Option.getD_some]
    exact hall v (List.getElem?_mem h)

theorem tmmlut16Table_code (k : Nat) (hk : k < 16) :
    IsDecisionCode (tmmlut16Table.getD k 0) := by
  unfold IsDecisionCode tmmlut16Table
  interval_cases k <;> simp

theorem scanStep_lt (d : TDeintModData) (p0 p1 : Nat → Nat) (hg : ∀ i, d.gvlut i < 8)
    (i val : Nat) (hval : val < 64) : scanStep d p0 p1 i val < 64 := by
  have hg8 : d.gvlut i * 8 < 2 ^ 6 := by have := hg i; omega
  have hg1 : d.gvlut i < 2 ^ 6 := by have := hg i; omega
  have hv : val < 2 ^ 6 := hval
  show scanStep d p0 p1 i val < 2 ^ 6
  unfold scanStep
  simp only []
  split_ifs
  · exact Nat.or_lt_two_pow (Nat.or_lt_two_pow hv hg8) hg1
  · exact Nat.or_lt_two_pow hv hg1
  · exact Nat.or_lt_two_pow hv hg8
  · exact hv

/-- The accumulator of the scan stays below 64. -/
theorem scanLoop_lt (d : TDeintModData) (p0 p1 : Nat → Nat) (hg : ∀ i, d.gvlut i < 8)
    (n i val : Nat) (hval : val < 64) : scanLoop d p0 p1 n i val < 64 := by
  induction n generalizing i val with
  | zero => exact hval
  | succ m ih =>
    unfold scanLoop
    split_ifs
    · exact scanStep_lt d p0 p1 hg i val hval
    · exact ih _ _ (scanStep_lt d p0 p1 hg i val hval)

theorem buildMaskPixel_dst (d : TDeintModData) (tmmlutf : Nat → Nat) (cPl oPl : Int → Buf)
    (cCount oCount : Nat) (dstp : Int) (x : Nat) (st : MaskRows) :
    (buildMaskPixel d tmmlutf cPl oPl cCount oCount dstp x st).dst
      = st.dst.write (dstp + (x : Int)) (buildMaskCode d tmmlutf cPl oPl cCount oCount x st) := by
  unfold buildMaskPixel buildMaskCode
  split_ifs <;> rfl

/-- Offsets of row `y2` that hold pixel `(y, x)`: only those of its own row. -/
theorem row_interval (s w y x y2 : Nat) (hx : x < w) (hws : w ≤ s)
    (h : (s : Int) * (y2 : Int) ≤ (s : Int) * (y : Int) + (x : Int) ∧
      (s : Int) * (y : Int) + (x : Int) < (s : Int) * (y2 : Int) + (w : Int)) : y = y2 := by
  have hx2 : ((s : Int) * (y : Int) + (x : Int) - (s : Int) * (y2 : Int)).toNat < s := by omega
  have e : (s : Int) * (y : Int) + (x : Int) = (s : Int) * (y2 : Int)
      + ((((s : Int) * (y : Int) + (x : Int) - (s : Int) * (y2 : Int)).toNat : Nat) : Int) := by
    omega
  exact (idx_inj s y x y2 _ (by omega) hx2 e).1

/-- The rows of the other parity hold code 10 after the filling loops. -/
theorem fillOtherRows_other (field width height stride : Nat) (dst : Buf) (y x : Nat)
    (hf : field ≤ 1) (hws : width ≤ stride) (hy : y < height) (hx : x < width)
    (hpar : y % 2 ≠ field) :
    fillOtherRows field width height stride dst ((stride : Int) * (y : Int) + (x : Int)) = 10 := by
  unfold fillOtherRows
  by_cases h1 : field = 1
  · rw [if_pos h1]
    have e : 2 * (y / 2) = y := by omega
    rw [forLoop_proj_at (fun b : Buf => b ((stride : Int) * (y : Int) + (x : Int))) _ _ dst (y / 2)
      (by omega)]
    · show fill_n _ _ _ _ _ = 10
      rw [fill_n_apply, e, if_pos (by omega)]
    · intro k _ hne t
      show fill_n _ _ _ _ _ = _
      rw [fill_n_apply, if_neg]
      intro hc
      have := row_interval stride width y x (2 * k) hx hws hc
      omega
  · rw [if_neg h1]
    have e : 2 * (y / 2) + 1 = y := by omega
    rw [forLoop_proj_at (fun b : Buf => b ((stride : Int) * (y : Int) + (x : Int))) _ _ dst (y / 2)
      (by omega)]
    · show fill_n _ _ _ _ _ = 10
      rw [fill_n_apply, e, if_pos (by omega)]
    · intro k _ hne t
      show fill_n _ _ _ _ _ = _
      rw [fill_n_apply, if_neg]
      intro hc
      have := row_interval stride width y x (2 * k + 1) hx hws hc
      omega

/-- The filling loops leave the rows of the field parity alone. -/
theorem fillOtherRows_same (field width height stride : Nat) (dst : Buf) (y x : Nat)
    (hf : field ≤ 1) (hws : width ≤ stride) (hx : x < width) (hpar : y % 2 = field) :
    fillOtherRows field width height stride dst ((stride : Int) * (y : Int) + (x : Int))
      = dst ((stride : Int) * (y : Int) + (x : Int)) := by
  unfold fillOtherRows
  by_cases h1 : field = 1
  · rw [if_pos h1]
    refine forLoop_proj_frame (fun b : Buf => b ((stride : Int) * (y : Int) + (x : Int))) _ _ dst ?_
    intro k _ t
    show fill_n _ _ _ _ _ = _
    rw [fill_n_apply, if_neg]
    intro hc
    have := row_interval stride width y x (2 * k) hx hws hc
    omega
  · rw [if_neg h1]
    refine forLoop_proj_frame (fun b : Buf => b ((stride : Int) * (y : Int) + (x : Int))) _ _ dst ?_
    intro k _ t
    show fill_n _ _ _ _ _ = _
    rw [fill_n_apply, if_neg]
    intro hc
    have := row_interval stride width y x (2 * k + 1) hx hws hc
    omega

theorem buildMask_addr (field stride k x : Nat) (hf : field ≤ 1) :
    (if field = 1 then (stride : Int) else 0) + (stride : Int) * 2 * (k : Int) + (x : Int)
      = (stride : Int) * ((field + 2 * k : Nat) : Int) + (x : Int) := by
  by_cases h1 : field = 1
  · rw [if_pos h1, h1]
    push_cast
    ring
  · have h0 : field = 0 := by omega
    rw [if_neg h1, h0]
    push_cast
    ring

/-- After the row loop, a pixel of a row of the field parity holds the code that the pixel body
stored there, computed in the state in which the loop reached it. -/
theorem buildMaskRows_pixel (d : TDeintModData) (tmmlutf : Nat → Nat) (cPl oPl : Int → Buf)
    (cCount oCount field width height stride rows : Nat) (dst : Buf) (plut0 plut1 : Nat → Nat)
    (k x : Nat) (hf : field ≤ 1) (hws : width ≤ stride) (hk : k < rows) (hx : x < width) :
    (buildMaskRows d tmmlutf cPl oPl cCount oCount field width height stride rows
        dst plut0 plut1).dst ((stride : Int) * ((field + 2 * k : Nat) : Int) + (x : Int))
      = buildMaskCode d tmmlutf cPl oPl cCount oCount x
          (buildMaskStateAt d tmmlutf cPl oPl cCount oCount field width height stride k x
            dst plut0 plut1) := by
  unfold buildMaskRows
  rw [stateNest_at
    (fun st : MaskRows => st.dst ((stride : Int) * ((field + 2 * k : Nat) : Int) + (x : Int)))
    (fun k x st => buildMaskPixel d tmmlutf cPl oPl cCount oCount
      ((if field = 1 then (stride : Int) else 0) + (stride : Int) * 2 * (k : Int)) x st)
    (fun k st => buildMaskRowEnd height stride ((field : Int) + 2 * (k : Int)) st)
    width rows _ k x hk hx]
  · show (buildMaskPixel d tmmlutf cPl oPl cCount oCount _ x
      (buildMaskStateAt d tmmlutf cPl oPl cCount oCount field width height stride k x
        dst plut0 plut1)).dst _ = _
    rw [buildMaskPixel_dst, buildMask_addr field stride k x hf, Buf.write_same]
  · intro k2 x2 _ hx2 hne t
    show (buildMaskPixel d tmmlutf cPl oPl cCount oCount _ x2 t).dst _ = _
    rw [buildMaskPixel_dst, buildMask_addr field stride k2 x2 hf]
    refine Buf.write_other _ _ _ _ ?_
    intro e
    have := idx_inj stride (field + 2 * k) x (field + 2 * k2) x2 (by omega) (by omega) e
    omega
  · intro k2 _ t
    rfl

/-- After the row loop, a pixel of a row of the other parity holds code 10. -/
theorem buildMaskRows_other (d : TDeintModData) (tmmlutf : Nat → Nat) (cPl oPl : Int → Buf)
    (cCount oCount field width height stride rows : Nat) (dst : Buf) (plut0 plut1 : Nat → Nat)
    (y x : Nat) (hf : field ≤ 1) (hws : width ≤ stride) (hy : y < height) (hx : x < width)
    (hpar : y % 2 ≠ field) :
    (buildMaskRows d tmmlutf cPl oPl cCount oCount field width height stride rows
        dst plut0 plut1).dst ((stride : Int) * (y : Int) + (x : Int)) = 10 := by
  unfold buildMaskRows
  rw [stateNest_frame
    (fun st : MaskRows => st.dst ((stride : Int) * (y : Int) + (x : Int)))
    (fun k x st => buildMaskPixel d tmmlutf cPl oPl cCount oCount
      ((if field = 1 then (stride : Int) else 0) + (stride : Int) * 2 * (k : Int)) x st)
    (fun k st => buildMaskRowEnd height stride ((field : Int) + 2 * (k : Int)) st)
    width rows _]
  · exact fillOtherRows_other field width height stride dst y x hf hws hy hx hpar
  · intro k2 x2 _ hx2 t
    show (buildMaskPixel d tmmlutf cPl oPl cCount oCount _ x2 t).dst _ = _
    rw [buildMaskPixel_dst, buildMask_addr field stride k2 x2 hf]
    refine Buf.write_other _ _ _ _ ?_
    intro e
    have := idx_inj stride y x (field + 2 * k2) x2 (by omega) (by omega) e
    omega
  · intro k2 _ t
    rfl

/-- The plane loop of `buildMask` leaves in a processed plane the result of the plane work,
started from the phase arrays as the earlier planes left them. -/
theorem buildMask_data (d : TDeintModData) (cSrc oSrc : Int → Frame) (dst : Frame)
    (cCount oCount order field : Nat) (plut0 plut1 junk : Nat → Nat) (p : Nat)
    (hp : p < d.numPlanes) (hproc : d.process p = true) :
    (buildMask d cSrc oSrc dst cCount oCount order field plut0 plut1 junk).data p
      = (buildMaskPlane d (tmmlutfOf d order field junk)
          (fun i => (cSrc i).data p) (fun i => (oSrc i).data p) cCount oCount field
          (dst.width p) (dst.height p) (dst.stride p)
          ((buildMaskPlanes d cSrc oSrc dst cCount oCount order field plut0 plut1 junk p).dst.data
            p)
          (buildMaskPlanes d cSrc oSrc dst cCount oCount order field plut0 plut1 junk p).plut0
          (buildMaskPlanes d cSrc oSrc dst cCount oCount order field plut0 plut1 junk p).plut1).dst
      := by
  unfold buildMask buildMaskPlanes
  refine (forLoop_proj_at (fun acc : MaskState => acc.dst.data p) _ d.numPlanes _ p hp ?_).trans ?_
  · intro k _ hne t
    by_cases hq : d.process k = true
    · simp only [hq, if_true]
      exact Function.update_noteq (Ne.symm hne) _ _
    · simp only [hq]
      rfl
  · simp only [hproc, if_true, Function.update_same]

/-- Every pixel of a plane holds, after the plane work of `buildMask`, either code 10 (rows of
the other parity) or the code stored by the pixel body (rows of the field parity). -/
theorem buildMaskPlane_cases (d : TDeintModData) (tmmlutf : Nat → Nat) (cPl oPl : Int → Buf)
    (cCount oCount field width height stride : Nat) (dst : Buf) (plut0 plut1 : Nat → Nat)
    (y x : Nat) (hf : field ≤ 1) (hws : width ≤ stride) (hy : y < height) (hx : x < width) :
    (y % 2 ≠ field ∧
      (buildMaskPlane d tmmlutf cPl oPl cCount oCount field width height stride
        dst plut0 plut1).dst ((stride : Int) * (y : Int) + (x : Int)) = 10) ∨
    (∃ k, y = field + 2 * k ∧
      (buildMaskPlane d tmmlutf cPl oPl cCount oCount field width height stride
        dst plut0 plut1).dst ((stride : Int) * (y : Int) + (x : Int))
        = buildMaskCode d tmmlutf cPl oPl cCount oCount x
            (buildMaskStateAt d tmmlutf cPl oPl cCount oCount field width height stride k x
              dst plut0 plut1)) := by
  unfold buildMaskPlane
  by_cases hpar : y % 2 = field
  · right
    refine ⟨(y - field) / 2, by omega, ?_⟩
    have e : y = field + 2 * ((y - field) / 2) := by omega
    have hk : (y - field) / 2 < (height - field + 1) / 2 := by omega
    have h := buildMaskRows_pixel d tmmlutf cPl oPl cCount oCount field width height stride
      ((height - field + 1) / 2) dst plut0 plut1 ((y - field) / 2) x hf hws hk hx
    rw [← e] at h
    exact h
  · left
    exact ⟨hpar, buildMaskRows_other d tmmlutf cPl oPl cCount oCount field width height stride
      ((height - field + 1) / 2) dst plut0 plut1 y x hf hws hy hx hpar⟩

/-- With the tables built by `tdeintmodCreate`, the code stored by the pixel body of
`buildMask` is a decision code. -/
theorem buildMaskCode_decision (d0 : TDeintModData) (mtype : Int) (order field : Nat)
    (junk : Nat → Nat) (cPl oPl : Int → Buf) (cCount oCount x : Nat) (st : MaskRows)
    (ho : order ≤ 1) (hf : field ≤ 1) :
    IsDecisionCode (buildMaskCode (createTables d0 mtype)
      (tmmlutfOf (createTables d0 mtype) order field junk) cPl oPl cCount oCount x st) := by
  unfold buildMaskCode
  split_ifs
  · unfold IsDecisionCode
    omega
  · rw [tmmlutfOf_apply _ _ _ _ _
      (scanLoop_lt _ _ _ (fun i => gvlutOf_lt d0.length i) _ _ _ (by omega))]
    show IsDecisionCode (tmmlut16Table.getD (order * 8 + field * 4 + (vlutTable mtype).getD _ 0) 0)
    refine tmmlut16Table_code _ ?_
    have := vlutTable_le mtype (scanLoop (createTables d0 mtype)
      (pixelArrays (createTables d0 mtype) cPl oPl cCount oCount x st).plut0
      (pixelArrays (createTables d0 mtype) cPl oPl cCount oCount x st).plut1
      (createTables d0 mtype).length 0 0)
    omega

theorem windowLoop_iff (p : Nat → Nat) (i n j : Nat) :
    windowLoop p i j n = true ↔ ∀ t, t < n → p (i + (j + t)) ≠ 0 := by
  induction n generalizing j with
  | zero => simp [windowLoop]
  | succ m ih =>
    unfold windowLoop
    by_cases h0 : p (i + j) = 0
    · rw [if_pos h0]
      constructor
      · intro h
        cases h
      · intro h
        exact absurd h0 (h 0 (Nat.succ_pos m))
    · rw [if_neg h0, ih]
      constructor
      · intro h t ht
        cases t with
        | zero => exact h0
        | succ u =>
          have := h u (by omega)
          rwa [show j + 1 + u = j + (u + 1) by omega] at this
      · intro h t ht
        have := h (t + 1) (by omega)
        rwa [show j + (t + 1) = j + 1 + t by omega] at this

theorem allSet_iff (p : Nat → Nat) (i n : Nat) :
    allSet p i n = true ↔ ∀ t, t < n → p (i + t) ≠ 0 := by
  simp [allSet, List.all_eq_true]

/-- The inner loop of the scan runs to its end exactly when the samples it visits are all set. -/
theorem windowLoop_eq_allSet (p : Nat → Nat) (i n : Nat) :
    windowLoop p i 0 n = allSet p i n := by
  rw [Bool.eq_iff_iff, windowLoop_iff, allSet_iff]
  simp

theorem specScanStep_running (d : TDeintModData) (p0 p1 : Nat → Nat) (val i : Nat) :
    specScanStep d p0 p1 (val, false) i
      = (scanStep d p0 p1 i val, decide (d.vlut (scanStep d p0 p1 i val) = 2)) := by
  unfold specScanStep scanStep
  simp only [windowLoop_eq_allSet]
  rfl

theorem specScan_stopped (d : TDeintModData) (p0 p1 : Nat → Nat) (v : Nat) (l : List Nat) :
    l.foldl (specScanStep d p0 p1) (v, true) = (v, true) := by
  induction l with
  | nil => rfl
  | cons a l ih =>
    rw [List.foldl_cons]
    exact ih

theorem scanLoop_eq_fold (d : TDeintModData) (p0 p1 : Nat → Nat) (n i val : Nat) :
    ((List.range' i n).foldl (specScanStep d p0 p1) (val, false)).1
      = scanLoop d p0 p1 n i val := by
  induction n generalizing i val with
  | zero => rfl
  | succ m ih =>
    rw [List.range'_succ, List.foldl_cons, specScanStep_running]
    unfold scanLoop
    by_cases h : d.vlut (scanStep d p0 p1 i val) = 2
    · rw [if_pos h, decide_eq_true h, specScan_stopped]
    · rw [if_neg h, decide_eq_false h]
      exact ih (i + 1) _

/-- The scan loop of `buildMask` computes the accumulator of the scan as the spec words it. -/
theorem scanLoop_eq_specScan (d : TDeintModData) (p0 p1 : Nat → Nat) :
    scanLoop d p0 p1 d.length 0 0 = specScan d p0 p1 := by
  unfold specScan
  rw [List.range_eq_range']
  exact (scanLoop_eq_fold d p0 p1 d.length 0 0).symm

theorem interleave_o (cCount oCount offc offo : Nat) (cAt o0At o2At : Nat → Nat)
    (s : PhaseArrays) (j : Nat) (hj : j < oCount) :
    (interleave cCount oCount offc offo cAt o0At o2At s).plut0 (j * 2 + offo) = o0At j ∧
    (interleave cCount oCount offc offo cAt o0At o2At s).plut1 (j * 2 + offo) = o2At j := by
  unfold interleave
  constructor
  · refine (forLoop_proj_at (fun s : PhaseArrays => s.plut0 (j * 2 + offo)) _ oCount _ j hj
      ?_).trans ?_
    · intro k _ hne t
      exact Function.update_noteq (by omega) _ _
    · exact Function.update_same _ _ _
  · refine (forLoop_proj_at (fun s : PhaseArrays => s.plut1 (j * 2 + offo)) _ oCount _ j hj
      ?_).trans ?_
    · intro k _ hne t
      exact Function.update_noteq (by omega) _ _
    · exact Function.update_same _ _ _

theorem interleave_c (cCount oCount offc offo : Nat) (cAt o0At o2At : Nat → Nat)
    (s : PhaseArrays) (j : Nat) (hj : j < cCount) (hc : offc ≤ 1) (ho : offo ≤ 1)
    (hne : offc ≠ offo) :
    (interleave cCount oCount offc offo cAt o0At o2At s).plut0 (j * 2 + offc) = cAt j ∧
    (interleave cCount oCount offc offo cAt o0At o2At s).plut1 (j * 2 + offc) = cAt j := by
  unfold interleave
  constructor
  · refine (forLoop_proj_frame (fun s : PhaseArrays => s.plut0 (j * 2 + offc)) _ oCount _
      ?_).trans ?_
    · intro k _ t
      exact Function.update_noteq (by omega) _ _
    · refine (forLoop_proj_at (fun s : PhaseArrays => s.plut0 (j * 2 + offc)) _ cCount _ j hj
        ?_).trans ?_
      · intro k _ hne t
        exact Function.update_noteq (by omega) _ _
      · exact Function.update_same _ _ _
  · refine (forLoop_proj_frame (fun s : PhaseArrays => s.plut1 (j * 2 + offc)) _ oCount _
      ?_).trans ?_
    · intro k _ t
      exact Function.update_noteq (by omega) _ _
    · refine (forLoop_proj_at (fun s : PhaseArrays => s.plut1 (j * 2 + offc)) _ cCount _ j hj
        ?_).trans ?_
      · intro k _ hne t
        exact Function.update_noteq (by omega) _ _
      · exact Function.update_same _ _ _

/-- The frame counts of the two windows handed to `buildMask`. -/
theorem windowCounts_eq (length order field : Nat) (hl : 2 ≤ length) (ho : order ≤ 1)
    (hf : field ≤ 1) :
    windowCCount length order field = 2 * ((length - 2) / 2) ∧
    windowOCount length order field = 2 * ((length - 1) / 2) - 1 := by
  have h1 := tdiv_two_of_nonneg ((length : Int) - 2) (by omega)
  have h2 := tdiv_two_of_nonneg ((length : Int) - 1) (by omega)
  unfold windowCCount windowOCount maskWindow
  simp only [h1, h2]
  interval_cases field <;> interval_cases order <;> simp <;> omega

/-- With every sample of both windows set, every entry of the phase arrays that the scan
reads is set. -/
theorem pixelArrays_static (d : TDeintModData) (cPl oPl : Int → Buf) (cCount oCount x : Nat)
    (st : MaskRows) (hl : 6 ≤ d.length)
    (hcc : cCount = 2 * ((d.length - 2) / 2)) (hoc : oCount = 2 * ((d.length - 1) / 2) - 1)
    (hc : ∀ (j : Nat) (off : Int), j < cCount → cPl (j : Int) off ≠ 0)
    (ho : ∀ (j : Nat) (off : Int), j < oCount → oPl (j : Int) off ≠ 0)
    (m : Nat) (hm : m ≤ 2 * d.length - 6) :
    (pixelArrays d cPl oPl cCount oCount x st).plut0 m ≠ 0 ∧
    (pixelArrays d cPl oPl cCount oCount x st).plut1 m ≠ 0 := by
  unfold pixelArrays
  rw [Nat.and_one_is_mod]
  by_cases hodd : d.length % 2 ≠ 0
  · simp only [if_pos hodd]
    by_cases hpar : m % 2 = 0
    · have hj : m / 2 < oCount := by omega
      have e : m = m / 2 * 2 + 0 := by omega
      have h := interleave_o cCount oCount 1 0
        (fun j => cPl (j : Int) (st.pt1 + (x : Int))) (fun j => oPl (j : Int) (st.pt0 + (x : Int)))
        (fun j => oPl (j : Int) (st.pt2 + (x : Int))) { plut0 := st.plut0, plut1 := st.plut1 }
        (m / 2) hj
      rw [← e] at h
      rw [h.1, h.2]
      exact ⟨ho _ _ hj, ho _ _ hj⟩
    · have hj : m / 2 < cCount := by omega
      have e : m = m / 2 * 2 + 1 := by omega
      have h := interleave_c cCount oCount 1 0
        (fun j => cPl (j : Int) (st.pt1 + (x : Int))) (fun j => oPl (j : Int) (st.pt0 + (x : Int)))
        (fun j => oPl (j : Int) (st.pt2 + (x : Int))) { plut0 := st.plut0, plut1 := st.plut1 }
        (m / 2) hj (by omega) (by omega) (by omega)
      rw [← e] at h
      rw [h.1, h.2]
      exact ⟨hc _ _ hj, hc _ _ hj⟩
  · simp only [if_neg hodd]
    by_cases hpar : m % 2 = 0
    · have hj : m / 2 < cCount := by omega
      have e : m = m / 2 * 2 + 0 := by omega
      have h := interleave_c cCount oCount 0 1
        (fun j => cPl (j : Int) (st.pt1 + (x : Int))) (fun j => oPl (j : Int) (st.pt0 + (x : Int)))
        (fun j => oPl (j : Int) (st.pt2 + (x : Int))) { plut0 := st.plut0, plut1 := st.plut1 }
        (m / 2) hj (by omega) (by omega) (by omega)
      rw [← e] at h
      rw [h.1, h.2]
      exact ⟨hc _ _ hj, hc _ _ hj⟩
    · have hj : m / 2 < oCount := by omega
      have e : m = m / 2 * 2 + 1 := by omega
      have h := interleave_o cCount oCount 0 1
        (fun j => cPl (j : Int) (st.pt1 + (x : Int))) (fun j => oPl (j : Int) (st.pt0 + (x : Int)))
        (fun j => oPl (j : Int) (st.pt2 + (x : Int))) { plut0 := st.plut0, plut1 := st.plut1 }
        (m / 2) hj
      rw [← e] at h
      rw [h.1, h.2]
      exact ⟨ho _ _ hj, ho _ _ hj⟩

theorem vlutTable_static (mtype : Int) :
    (vlutTable mtype).getD 9 0 = 1 ∧ (vlutTable mtype).getD 27 0 = 2 := by
  unfold vlutTable
  split_ifs <;> decide

theorem scanStep_all (d : TDeintModData) (p0 p1 : Nat → Nat) (i val : Nat)
    (h0 : windowLoop p0 i 0 (d.length - 4) = true)
    (h1 : windowLoop p1 i 0 (d.length - 4) = true) :
    scanStep d p0 p1 i val = val ||| (d.gvlut i * 8) ||| d.gvlut i := by
  unfold scanStep
  simp only [h0, h1, if_true]

theorem scanLoop_two_steps (d : TDeintModData) (p0 p1 : Nat → Nat) (n : Nat)
    (hs0 : d.vlut (scanStep d p0 p1 0 0) ≠ 2)
    (hs1 : d.vlut (scanStep d p0 p1 1 (scanStep d p0 p1 0 0)) = 2) :
    scanLoop d p0 p1 (n + 2) 0 0 = scanStep d p0 p1 1 (scanStep d p0 p1 0 0) := by
  rw [scanLoop, if_neg hs0, scanLoop, if_pos hs1]

/-- With every entry of the phase arrays that the scan reads set, the scan stops at `i = 1`
with accumulator 27, for every `mtype`. -/
theorem scanLoop_static (d0 : TDeintModData) (mtype : Int) (p0 p1 : Nat → Nat)
    (hl : 6 ≤ d0.length)
    (h0 : ∀ m, m ≤ 2 * d0.length - 6 → p0 m ≠ 0 ∧ p1 m ≠ 0) :
    scanLoop (createTables d0 mtype) p0 p1 d0.length 0 0 = 27 := by
  have hw : ∀ (i : Nat), i ≤ 1 →
      windowLoop p0 i 0 ((createTables d0 mtype).length - 4) = true ∧
      windowLoop p1 i 0 ((createTables d0 mtype).length - 4) = true := by
    intro i hi
    show windowLoop p0 i 0 (d0.length - 4) = true ∧ windowLoop p1 i 0 (d0.length - 4) = true
    rw [windowLoop_iff, windowLoop_iff]
    exact ⟨fun t ht => (h0 _ (by omega)).1, fun t ht => (h0 _ (by omega)).2⟩
  have hg0 : (createTables d0 mtype).gvlut 0 = 1 := by
    show gvlutOf d0.length 0 = 1
    rw [gvlutOf_apply, if_pos (by omega), if_pos rfl]
  have hg1 : (createTables d0 mtype).gvlut 1 = 2 := by
    show gvlutOf d0.length 1 = 2
    rw [gvlutOf_apply, if_pos (by omega), if_neg (by omega), if_neg (by omega)]
  have s0 : scanStep (createTables d0 mtype) p0 p1 0 0 = 9 := by
    rw [scanStep_all _ _ _ _ _ (hw 0 (by omega)).1 (hw 0 (by omega)).2, hg0]
    decide
  have s1 : scanStep (createTables d0 mtype) p0 p1 1 9 = 27 := by
    rw [scanStep_all _ _ _ _ _ (hw 1 (by omega)).1 (hw 1 (by omega)).2, hg1]
    decide
  have hv9 : (createTables d0 mtype).vlut 9 ≠ 2 := by
    show (vlutTable mtype).getD 9 0 ≠ 2
    rw [(vlutTable_static mtype).1]
    decide
  have hv27 : (createTables d0 mtype).vlut 27 = 2 := (vlutTable_static mtype).2
  have key := scanLoop_two_steps (createTables d0 mtype) p0 p1 (d0.length - 2)
    (by rw [s0]; exact hv9) (by rw [s0, s1]; exact hv27)
  rw [show d0.length - 2 + 2 = d0.length by omega, s0, s1] at key
  exact key

/-- With every sample of both windows set, the pixel body of `buildMask` stores a code other
than 60, for every `mtype`. -/
theorem buildMaskCode_static (d0 : TDeintModData) (mtype : Int) (order field : Nat)
    (junk : Nat → Nat) (cPl oPl : Int → Buf) (x : Nat) (st : MaskRows)
    (hl : 6 ≤ d0.length) (ho : order ≤ 1) (hf : field ≤ 1)
    (hc : ∀ (j : Nat) (off : Int), j < windowCCount d0.length order field →
      cPl (j : Int) off ≠ 0)
    (hop : ∀ (j : Nat) (off : Int), j < windowOCount d0.length order field →
      oPl (j : Int) off ≠ 0) :
    buildMaskCode (createTables d0 mtype) (tmmlutfOf (createTables d0 mtype) order field junk)
      cPl oPl (windowCCount d0.length order field) (windowOCount d0.length order field) x st
      ≠ 60 := by
  have hcnt := windowCounts_eq d0.length order field (by omega) ho hf
  have hslow : ¬ fastPath cPl (windowCCount d0.length order field) st.pt1 x := by
    intro h
    exact hc _ _ (by omega) h.2.1
  unfold buildMaskCode
  rw [if_neg hslow]
  have hs := scanLoop_static d0 mtype
    (pixelArrays (createTables d0 mtype) cPl oPl (windowCCount d0.length order field)
      (windowOCount d0.length order field) x st).plut0
    (pixelArrays (createTables d0 mtype) cPl oPl (windowCCount d0.length order field)
      (windowOCount d0.length order field) x st).plut1 hl
    (fun m hm => pixelArrays_static (createTables d0 mtype) cPl oPl _ _ x st hl hcnt.1 hcnt.2
      hc hop m hm)
  show tmmlutfOf (createTables d0 mtype) order field junk
    (scanLoop (createTables d0 mtype) _ _ d0.length 0 0) ≠ 60
  rw [hs, tmmlutfOf_apply _ _ _ _ _ (by omega)]
  show tmmlut16Table.getD (order * 8 + field * 4 + (vlutTable mtype).getD 27 0) 0 ≠ 60
  rw [(vlutTable_static mtype).2]
  interval_cases order <;> interval_cases field <;> decide

/-! ## Facts about the combing detector -/

theorem forLoop_invariant {σ : Type} (P : σ → Prop) (body : Nat → σ → σ) (n : Nat) (s : σ)
    (h0 : P s) (hstep : ∀ k, k < n → ∀ t, P t → P (body k t)) : P (forLoop body n s) := by
  induction n with
  | zero => exact h0
  | succ m ih =>
    exact hstep m (Nat.lt_succ_self m) _ (ih (fun k hk t ht => hstep k (Nat.lt_succ_of_lt hk) t ht))

theorem maxCell_ge (a : Nat → Int) (n x : Nat) (hx : x < n) : a x ≤ maxCell a n := by
  induction n with
  | zero => exact absurd hx (Nat.not_lt_zero _)
  | succ m ih =>
    show a x ≤ (if a m > maxCell a m then a m else maxCell a m)
    by_cases hm : x = m
    · subst hm
      split_ifs <;> omega
    · have := ih (by omega)
      split_ifs <;> omega

theorem maxCell_nonneg (a : Nat → Int) (n : Nat) : 0 ≤ maxCell a n := by
  induction n with
  | zero => exact le_refl _
  | succ m ih =>
    show 0 ≤ (if a m > maxCell a m then a m else maxCell a m)
    split_ifs <;> omega

theorem maxCell_cases (a : Nat → Int) (n : Nat) :
    maxCell a n = 0 ∨ ∃ x, x < n ∧ a x = maxCell a n := by
  induction n with
  | zero => exact Or.inl rfl
  | succ m ih =>
    show (if a m > maxCell a m then a m else maxCell a m) = 0 ∨
      ∃ x, x < m + 1 ∧ a x = (if a m > maxCell a m then a m else maxCell a m)
    by_cases hm : a m > maxCell a m
    · rw [if_pos hm]
      exact Or.inr ⟨m, Nat.lt_succ_self m, rfl⟩
    · rw [if_neg hm]
      rcases ih with h | ⟨x, hx, h⟩
      · exact Or.inl h
      · exact Or.inr ⟨x, Nat.lt_succ_of_lt hx, h⟩

theorem maxCell_gt_iff (a : Nat → Int) (n : Nat) (mi : Int) (hmi : 0 ≤ mi) :
    maxCell a n > mi ↔ ∃ x, x < n ∧ a x > mi := by
  constructor
  · intro h
    rcases maxCell_cases a n with h0 | ⟨x, hx, hv⟩
    · omega
    · exact ⟨x, hx, by omega⟩
  · rintro ⟨x, hx, hv⟩
    have := maxCell_ge a n x hx
    omega

theorem update_add_apply (a : Nat → Int) (i : Nat) (n : Int) (c : Nat) :
    Function.update a i (a i + n) c = a c + (if c = i then n else 0) := by
  by_cases h : c = i
  · subst h
    simp
  · simp [Function.update_noteq h, h]

/-- The four updates of one scatter add `n` to a cell once for each of the four indices that
name it. -/
theorem scatter_apply (d : IsCombedData) (y x : Nat) (n : Int) (a : Nat → Int) (c : Nat) :
    scatter d y x n a c = a c + n * cellHits d y x c := by
  unfold scatter cellHits
  rw [update_add_apply, update_add_apply, update_add_apply, update_add_apply]
  simp only [mul_add, mul_ite, mul_one, mul_zero]
  ring

theorem cellHits_nonneg (d : IsCombedData) (y x c : Nat) : 0 ≤ cellHits d y x c := by
  unfold cellHits
  split_ifs <;> omega

/-- A loop whose body adds `g k c` to every cell `c` adds the sum of the `g k c`. -/
theorem forLoop_sum (F : Nat → (Nat → Int) → (Nat → Int)) (g : Nat → Nat → Int)
    (hF : ∀ k a c, F k a c = a c + g k c) (n : Nat) (a : Nat → Int) (c : Nat) :
    forLoop F n a c = a c + Finset.sum (Finset.range n) (fun k => g k c) := by
  induction n with
  | zero => simp [forLoop]
  | succ m ih =>
    show F m (forLoop F m a) c = _
    rw [hF, ih, Finset.sum_range_succ]
    ring

/-- A counting loop counts the iterations whose test holds. -/
theorem countLoop_eq (t : Nat → Bool) (n : Nat) (s0 : Int) :
    forLoop (fun u sum => if t u then sum + 1 else sum) n s0
      = s0 + Finset.sum (Finset.range n) (fun u => if t u then (1 : Int) else 0) := by
  induction n with
  | zero => simp [forLoop]
  | succ m ih =>
    show (if t m then forLoop (fun u sum => if t u then sum + 1 else sum) m s0 + 1
      else forLoop (fun u sum => if t u then sum + 1 else sum) m s0) = _
    rw [ih, Finset.sum_range_succ]
    split_ifs <;> ring

/-- A histogram loop whose body moves the pointer by `δ` and adds `g k p c` to every cell,
`p` being the pointer on entry. -/
theorem histLoop_apply (body : Nat → HistState → HistState) (δ : Int)
    (g : Nat → Int → Nat → Int)
    (hp : ∀ k s, (body k s).cmkp = s.cmkp + δ)
    (ha : ∀ k s c, (body k s).cArray c = s.cArray c + g k s.cmkp c)
    (n : Nat) (s : HistState) :
    (forLoop body n s).cmkp = s.cmkp + δ * (n : Int) ∧
    ∀ c, (forLoop body n s).cArray c
      = s.cArray c + Finset.sum (Finset.range n) (fun k => g k (s.cmkp + δ * (k : Int)) c) := by
  induction n with
  | zero => simp [forLoop]
  | succ m ih =>
    constructor
    · show (body m (forLoop body m s)).cmkp = _
      rw [hp, ih.1]
      push_cast
      ring
    · intro c
      show (body m (forLoop body m s)).cArray c = _
      rw [ha, ih.2, ih.1, Finset.sum_range_succ]
      ring

theorem pixelRow_cmkp (d : IsCombedData) (cm : Buf) (width stride y : Nat) (s : HistState) :
    (pixelRow d cm width stride y s).cmkp = s.cmkp + (stride : Int) := rfl

theorem pixelRow_cArray (d : IsCombedData) (cm : Buf) (width stride y : Nat) (s : HistState)
    (c : Nat) :
    (pixelRow d cm width stride y s).cArray c
      = s.cArray c + Finset.sum (Finset.range width)
          (fun x => if litAt cm stride s.cmkp x then cellHits d y x c else 0) := by
  unfold pixelRow
  refine forLoop_sum _ (fun x c => if litAt cm stride s.cmkp x then cellHits d y x c else 0)
    ?_ width s.cArray c
  intro k a c
  by_cases h : litAt cm stride s.cmkp k = true
  · simp only [h, if_true]
    rw [scatter_apply]
    ring
  · simp only [h]
    simp

theorem countColumn_eq (d : IsCombedData) (cm : Buf) (stride : Nat) (p : Int) (x : Nat) :
    countColumn d cm stride p x
      = Finset.sum (Finset.range d.yHalf)
          (fun u => if litAt cm stride (p + (stride : Int) * (u : Int)) x then (1 : Int) else 0)
    := by
  unfold countColumn
  rw [countLoop_eq (fun u => litAt cm stride (p + (stride : Int) * (u : Int)) x)]
  simp

/-- A nest of two counting loops counts the pairs whose test holds. -/
theorem countLoop2_eq (t : Nat → Nat → Bool) (n m : Nat) (s0 : Int) :
    forLoop (fun u sum => forLoop (fun v sum => if t u v then sum + 1 else sum) m sum) n s0
      = s0 + Finset.sum (Finset.range n) (fun u => Finset.sum (Finset.range m)
          (fun v => if t u v then (1 : Int) else 0)) := by
  induction n with
  | zero => simp [forLoop]
  | succ k ih =>
    show forLoop (fun v sum => if t k v then sum + 1 else sum) m
      (forLoop (fun u sum => forLoop (fun v sum => if t u v then sum + 1 else sum) m sum) k s0)
      = _
    rw [countLoop_eq (t k), ih, Finset.sum_range_succ]
    ring

theorem countBlock_eq (d : IsCombedData) (cm : Buf) (stride : Nat) (p : Int) (x : Nat) :
    countBlock d cm stride p x
      = Finset.sum (Finset.range d.yHalf) (fun u => Finset.sum (Finset.range d.xHalf)
          (fun v => if litAt cm stride (p + (stride : Int) * (u : Int)) (x + v) then (1 : Int)
            else 0)) := by
  unfold countBlock
  rw [countLoop2_eq (fun u v => litAt cm stride (p + (stride : Int) * (u : Int)) (x + v))]
  simp

theorem blockRow_cmkp (d : IsCombedData) (cm : Buf) (width stride y : Nat) (s : HistState) :
    (blockRow d cm width stride y s).cmkp = s.cmkp + (stride : Int) * (d.yHalf : Int) := rfl

theorem blockRow_cArray (d : IsCombedData) (cm : Buf) (width stride y : Nat) (s : HistState)
    (c : Nat) :
    (blockRow d cm width stride y s).cArray c
      = s.cArray c
        + (Finset.sum (Finset.range ((d.widtha + (d.xHalf - 1)) / d.xHalf)) (fun m =>
            countBlock d cm stride s.cmkp (m * d.xHalf) * cellHits d y (m * d.xHalf) c)
          + Finset.sum (Finset.range (width - d.widtha)) (fun k =>
            countColumn d cm stride s.cmkp (d.widtha + k) * cellHits d y (d.widtha + k) c)) := by
  unfold blockRow
  dsimp only
  rw [forLoop_sum _ (fun k c =>
      countColumn d cm stride s.cmkp (d.widtha + k) * cellHits d y (d.widtha + k) c),
    forLoop_sum _ (fun m c =>
      countBlock d cm stride s.cmkp (m * d.xHalf) * cellHits d y (m * d.xHalf) c)]
  · ring
  · intro k a c
    by_cases h : countBlock d cm stride s.cmkp (k * d.xHalf) = 0
    · simp [h]
    · simp only [ne_eq, h, not_false_eq_true, if_true]
      exact scatter_apply d y _ _ a c
  · intro k a c
    by_cases h : countColumn d cm stride s.cmkp (d.widtha + k) = 0
    · simp [h]
    · simp only [ne_eq, h, not_false_eq_true, if_true]
      exact scatter_apply d y _ _ a c

theorem pixelRow_rowHits (d : IsCombedData) (cm : Buf) (width stride y : Nat) (s : HistState)
    (c : Nat) :
    (pixelRow d cm width stride y s).cArray c
      = s.cArray c + rowHits d cm width stride s.cmkp y c :=
  pixelRow_cArray d cm width stride y s c

theorem blockRow_blockHits (d : IsCombedData) (cm : Buf) (width stride y : Nat)
    (s : HistState) (c : Nat) :
    (blockRow d cm width stride y s).cArray c
      = s.cArray c + blockHits d cm width stride s.cmkp y c :=
  blockRow_cArray d cm width stride y s c

theorem rowHits_nonneg (d : IsCombedData) (cm : Buf) (width stride : Nat) (p : Int)
    (y c : Nat) : 0 ≤ rowHits d cm width stride p y c := by
  unfold rowHits
  refine Finset.sum_nonneg ?_
  intro x _
  have := cellHits_nonneg d y x c
  split_ifs <;> omega

theorem countColumn_nonneg (d : IsCombedData) (cm : Buf) (stride : Nat) (p : Int) (x : Nat) :
    0 ≤ countColumn d cm stride p x := by
  rw [countColumn_eq]
  refine Finset.sum_nonneg ?_
  intro u _
  split_ifs <;> omega

theorem countBlock_nonneg (d : IsCombedData) (cm : Buf) (stride : Nat) (p : Int) (x : Nat) :
    0 ≤ countBlock d cm stride p x := by
  rw [countBlock_eq]
  refine Finset.sum_nonneg (fun u _ => Finset.sum_nonneg ?_)
  intro v _
  split_ifs <;> omega

theorem blockHits_nonneg (d : IsCombedData) (cm : Buf) (width stride : Nat) (p : Int)
    (y c : Nat) : 0 ≤ blockHits d cm width stride p y c := by
  unfold blockHits
  refine add_nonneg (Finset.sum_nonneg ?_) (Finset.sum_nonneg ?_)
  · intro m _
    exact mul_nonneg (countBlock_nonneg d cm stride p _) (cellHits_nonneg d y _ c)
  · intro k _
    exact mul_nonneg (countColumn_nonneg d cm stride p _) (cellHits_nonneg d y _ c)

/-- The first histogram loop: where it leaves the pointer and what it adds to the cells. -/
theorem histPhase1_apply (d : IsCombedData) (cm : Buf) (width stride : Nat) (a0 : Nat → Int) :
    (histPhase1 d cm width stride a0).cmkp
      = (stride : Int) + (stride : Int) * ((d.yHalf - 1 : Nat) : Int) ∧
    ∀ c, (histPhase1 d cm width stride a0).cArray c
      = (if c < d.arraySize then 0 else a0 c)
        + Finset.sum (Finset.range (d.yHalf - 1)) (fun k =>
            rowHits d cm width stride ((stride : Int) + (stride : Int) * (k : Int)) (1 + k) c)
    := by
  unfold histPhase1
  exact histLoop_apply (fun k s => pixelRow d cm width stride (1 + k) s) (stride : Int)
    (fun k p c => rowHits d cm width stride p (1 + k) c)
    (fun k s => rfl) (fun k s c => pixelRow_rowHits d cm width stride (1 + k) s c)
    (d.yHalf - 1) _

/-- The second histogram loop: where it leaves the pointer and what it adds to the cells. -/
theorem histPhase2_apply (d : IsCombedData) (cm : Buf) (width stride : Nat) (a0 : Nat → Int) :
    (histPhase2 d cm width stride a0).cmkp
      = (histPhase1 d cm width stride a0).cmkp + (stride : Int) * (d.yHalf : Int)
          * (((d.heighta - d.yHalf + (d.yHalf - 1)) / d.yHalf : Nat) : Int) ∧
    ∀ c, (histPhase2 d cm width stride a0).cArray c
      = (histPhase1 d cm width stride a0).cArray c
        + Finset.sum (Finset.range ((d.heighta - d.yHalf + (d.yHalf - 1)) / d.yHalf)) (fun k =>
            blockHits d cm width stride
              ((histPhase1 d cm width stride a0).cmkp
                + (stride : Int) * (d.yHalf : Int) * (k : Int))
              (d.yHalf + k * d.yHalf) c) := by
  unfold histPhase2
  exact histLoop_apply (fun k s => blockRow d cm width stride (d.yHalf + k * d.yHalf) s)
    ((stride : Int) * (d.yHalf : Int))
    (fun k p c => blockHits d cm width stride p (d.yHalf + k * d.yHalf) c)
    (fun k s => rfl) (fun k s c => blockRow_blockHits d cm width stride _ s c) _ _

/-- The third histogram loop: what it adds to the cells. -/
theorem combHistogram_apply (d : IsCombedData) (cm : Buf) (width height stride : Nat)
    (a0 : Nat → Int) (c : Nat) :
    combHistogram d cm width height stride a0 c
      = (histPhase2 d cm width stride a0).cArray c
        + Finset.sum (Finset.range (height - 1 - d.heighta)) (fun k =>
            rowHits d cm width stride
              ((histPhase2 d cm width stride a0).cmkp + (stride : Int) * (k : Int))
              (d.heighta + k) c) := by
  unfold combHistogram
  exact (histLoop_apply (fun k s => pixelRow d cm width stride (d.heighta + k) s) (stride : Int)
    (fun k p c => rowHits d cm width stride p (d.heighta + k) c)
    (fun k s => rfl) (fun k s c => pixelRow_rowHits d cm width stride _ s c) _ _).2 c

/-- The cells of the block histogram are counts. -/
theorem combHistogram_nonneg (d : IsCombedData) (cm : Buf) (width height stride : Nat)
    (a0 : Nat → Int) (c : Nat) (hc : c < d.arraySize) :
    0 ≤ combHistogram d cm width height stride a0 c := by
  rw [combHistogram_apply, (histPhase2_apply d cm width stride a0).2,
    (histPhase1_apply d cm width stride a0).2, if_pos hc]
  have h1 := Finset.sum_nonneg (fun k (_ : k ∈ Finset.range (d.yHalf - 1)) =>
    rowHits_nonneg d cm width stride ((stride : Int) + (stride : Int) * (k : Int)) (1 + k) c)
  have h2 := Finset.sum_nonneg
    (fun k (_ : k ∈ Finset.range ((d.heighta - d.yHalf + (d.yHalf - 1)) / d.yHalf)) =>
      blockHits_nonneg d cm width stride
        ((histPhase1 d cm width stride a0).cmkp + (stride : Int) * (d.yHalf : Int) * (k : Int))
        (d.yHalf + k * d.yHalf) c)
  have h3 := Finset.sum_nonneg (fun k (_ : k ∈ Finset.range (height - 1 - d.heighta)) =>
    rowHits_nonneg d cm width stride
      ((histPhase2 d cm width stride a0).cmkp + (stride : Int) * (k : Int)) (d.heighta + k) c)
  omega

theorem litAt_row (cm : Buf) (stride y x : Nat) :
    litAt cm stride ((stride : Int) * (y : Int)) x = pixelLit cm stride y x := by
  unfold litAt pixelLit
  rw [show (stride : Int) * (y : Int) - (stride : Int) + (x : Int)
      = (stride : Int) * ((y : Int) - 1) + (x : Int) by ring,
    show (stride : Int) * (y : Int) + (stride : Int) + (x : Int)
      = (stride : Int) * ((y : Int) + 1) + (x : Int) by ring]

theorem half_block (h k u : Nat) (hu : u < h) : (k * h + u) / (2 * h) = k / 2 := by
  have hpos : 0 < h := by omega
  rw [Nat.mul_comm 2 h, ← Nat.div_div_eq_div_mul, Nat.mul_comm k h, Nat.mul_add_div hpos,
    Nat.div_eq_of_lt hu, Nat.add_zero]

/-- The cells hit by a pixel depend on its row only through the half block of the row. -/
theorem cellHits_rows (d : IsCombedData) (hys : 2 ^ d.yShift = 2 * d.yHalf) (k u x c : Nat)
    (hu : u < d.yHalf) : cellHits d (k * d.yHalf + u) x c = cellHits d (k * d.yHalf) x c := by
  have hpos : 0 < d.yHalf := by omega
  have e1 : (k * d.yHalf + u) / (2 * d.yHalf) = (k * d.yHalf) / (2 * d.yHalf) := by
    rw [half_block _ _ _ hu]
    exact (half_block d.yHalf k 0 hpos).symm
  have e2 : (k * d.yHalf + u + d.yHalf) / (2 * d.yHalf)
      = (k * d.yHalf + d.yHalf) / (2 * d.yHalf) := by
    rw [show k * d.yHalf + u + d.yHalf = (k + 1) * d.yHalf + u by ring,
      show k * d.yHalf + d.yHalf = (k + 1) * d.yHalf + 0 by ring,
      half_block _ _ _ hu, half_block _ _ _ hpos]
  unfold cellHits
  simp only [Nat.shiftRight_eq_div_pow, hys, e1, e2]

/-- The cells hit by a pixel depend on its column only through the half block of the
column. -/
theorem cellHits_cols (d : IsCombedData) (hxs : 2 ^ d.xShift = 2 * d.xHalf) (y m v c : Nat)
    (hv : v < d.xHalf) : cellHits d y (m * d.xHalf + v) c = cellHits d y (m * d.xHalf) c := by
  have hpos : 0 < d.xHalf := by omega
  have e1 : (m * d.xHalf + v) / (2 * d.xHalf) = (m * d.xHalf) / (2 * d.xHalf) := by
    rw [half_block _ _ _ hv]
    exact (half_block d.xHalf m 0 hpos).symm
  have e2 : (m * d.xHalf + v + d.xHalf) / (2 * d.xHalf)
      = (m * d.xHalf + d.xHalf) / (2 * d.xHalf) := by
    rw [show m * d.xHalf + v + d.xHalf = (m + 1) * d.xHalf + v by ring,
      show m * d.xHalf + d.xHalf = (m + 1) * d.xHalf + 0 by ring,
      half_block _ _ _ hv, half_block _ _ _ hpos]
  unfold cellHits
  simp only [Nat.shiftRight_eq_div_pow, hxs, e1, e2]

theorem sum_blocks (f : Nat → Int) (n h : Nat) :
    Finset.sum (Finset.range n) (fun m => Finset.sum (Finset.range h) (fun v => f (m * h + v)))
      = Finset.sum (Finset.range (n * h)) f := by
  induction n with
  | zero => simp
  | succ k ih =>
    rw [Finset.sum_range_succ, ih, Nat.succ_mul, Finset.sum_range_add]

/-- A block-strided row in its proper position adds what the per-pixel loop would add over
the `yHalf` rows of the block. -/
theorem blockHits_eq (d : IsCombedData) (cm : Buf) (width stride : Nat) (k c : Nat)
    (hxs : 2 ^ d.xShift = 2 * d.xHalf) (hys : 2 ^ d.yShift = 2 * d.yHalf)
    (hxh : 0 < d.xHalf) (q : Nat) (hwa : d.widtha = q * d.xHalf) (hwl : d.widtha ≤ width) :
    blockHits d cm width stride ((stride : Int) * ((k * d.yHalf : Nat) : Int)) (k * d.yHalf) c
      = Finset.sum (Finset.range d.yHalf) (fun u =>
          rowHits d cm width stride ((stride : Int) * ((k * d.yHalf + u : Nat) : Int))
            (k * d.yHalf + u) c) := by
  have hnx : (d.widtha + (d.xHalf - 1)) / d.xHalf = q := by
    rw [hwa, Nat.mul_comm q d.xHalf, Nat.mul_add_div hxh, Nat.div_eq_of_lt (by omega),
      Nat.add_zero]
  have hptr : ∀ u : Nat, (stride : Int) * ((k * d.yHalf : Nat) : Int)
      + (stride : Int) * (u : Int) = (stride : Int) * ((k * d.yHalf + u : Nat) : Int) := by
    intro u
    push_cast
    ring
  -- the per-pixel contribution of row `u` of the block at column `x`
  have hrow : ∀ u, u < d.yHalf →
      rowHits d cm width stride ((stride : Int) * ((k * d.yHalf + u : Nat) : Int))
        (k * d.yHalf + u) c
      = Finset.sum (Finset.range q) (fun m => Finset.sum (Finset.range d.xHalf) (fun v =>
          if litAt cm stride ((stride : Int) * ((k * d.yHalf + u : Nat) : Int))
              (m * d.xHalf + v) then cellHits d (k * d.yHalf) (m * d.xHalf) c else 0))
        + Finset.sum (Finset.range (width - d.widtha)) (fun j =>
          if litAt cm stride ((stride : Int) * ((k * d.yHalf + u : Nat) : Int))
              (d.widtha + j) then cellHits d (k * d.yHalf) (d.widtha + j) c else 0) := by
    intro u hu
    unfold rowHits
    have hw : width = q * d.xHalf + (width - d.widtha) := by omega
    conv_lhs => rw [hw]
    rw [Finset.sum_range_add, ← sum_blocks]
    congr 1
    · refine Finset.sum_congr rfl (fun m _ => Finset.sum_congr rfl (fun v hv => ?_))
      rw [cellHits_rows d hys k u _ c hu, cellHits_cols d hxs _ m v c (Finset.mem_range.1 hv)]
    · refine Finset.sum_congr rfl (fun j _ => ?_)
      rw [cellHits_rows d hys k u _ c hu, hwa]
  rw [Finset.sum_congr rfl (fun u hu => hrow u (Finset.mem_range.1 hu)),
    Finset.sum_add_distrib]
  unfold blockHits
  rw [hnx]
  congr 1
  · rw [Finset.sum_comm]
    refine Finset.sum_congr rfl (fun m _ => ?_)
    rw [countBlock_eq, Finset.sum_mul]
    refine Finset.sum_congr rfl (fun u _ => ?_)
    rw [Finset.sum_mul]
    refine Finset.sum_congr rfl (fun v _ => ?_)
    rw [hptr u]
    split_ifs <;> simp
  · rw [Finset.sum_comm]
    refine Finset.sum_congr rfl (fun j _ => ?_)
    rw [countColumn_eq, Finset.sum_mul]
    refine Finset.sum_congr rfl (fun u _ => ?_)
    rw [hptr u]
    split_ifs <;> simp

theorem naiveHistogram_rows (d : IsCombedData) (cm : Buf) (width height stride c : Nat) :
    naiveHistogram d cm width height stride c
      = Finset.sum (Finset.range (height - 2)) (fun k =>
          rowHits d cm width stride ((stride : Int) * ((k + 1 : Nat) : Int)) (k + 1) c) := by
  unfold naiveHistogram rowHits
  refine Finset.sum_congr rfl (fun k _ => Finset.sum_congr rfl (fun x _ => ?_))
  rw [litAt_row]

/-- When the block-strided loop starts on a row inside the bitmap (`yHalf <= heighta`), the
three histogram loops visit every row `1 .. height - 2` once, each with the pointers on that
row, and the histogram is the naive one. -/
theorem combHistogram_eq_naive (d : IsCombedData) (cm : Buf) (width height stride : Nat)
    (a0 : Nat → Int) (c : Nat) (hc : c < d.arraySize)
    (hxs : 2 ^ d.xShift = 2 * d.xHalf) (hys : 2 ^ d.yShift = 2 * d.yHalf)
    (hxh : 0 < d.xHalf) (hyh : 0 < d.yHalf)
    (qx : Nat) (hwa : d.widtha = qx * d.xHalf) (hwl : d.widtha ≤ width)
    (qy : Nat) (hha : d.heighta = (qy + 1) * d.yHalf) (hhl : d.heighta < height) :
    combHistogram d cm width height stride a0 c = naiveHistogram d cm width height stride c := by
  have hnb : (d.heighta - d.yHalf + (d.yHalf - 1)) / d.yHalf = qy := by
    have e : d.heighta - d.yHalf + (d.yHalf - 1) = d.yHalf * qy + (d.yHalf - 1) := by
      rw [hha, Nat.succ_mul, Nat.add_sub_cancel, Nat.mul_comm]
    rw [e, Nat.mul_add_div hyh, Nat.div_eq_of_lt (by omega), Nat.add_zero]
  have hsub : ((d.yHalf - 1 : Nat) : Int) = (d.yHalf : Int) - 1 := by omega
  have hyle : d.yHalf ≤ d.heighta := by
    rw [hha]
    exact Nat.le_mul_of_pos_left _ (Nat.succ_pos qy)
  have hp1 : (histPhase1 d cm width stride a0).cmkp = (stride : Int) * (d.yHalf : Int) := by
    rw [(histPhase1_apply d cm width stride a0).1, hsub]
    ring
  have hp2 : (histPhase2 d cm width stride a0).cmkp = (stride : Int) * (d.heighta : Int) := by
    rw [(histPhase2_apply d cm width stride a0).1, hp1, hnb, hha]
    push_cast
    ring
  -- the contribution of row `y`, the pointers standing on it
  have hR : ∀ (n : Nat) (f : Nat → Nat) (g : Nat → Int),
      (∀ k, g k = (stride : Int) * ((f k : Nat) : Int)) →
      Finset.sum (Finset.range n) (fun k => rowHits d cm width stride (g k) (f k) c)
        = Finset.sum (Finset.range n) (fun k =>
            rowHits d cm width stride ((stride : Int) * ((f k : Nat) : Int)) (f k) c) := by
    intro n f g hg
    refine Finset.sum_congr rfl (fun k _ => ?_)
    rw [hg k]
  rw [combHistogram_apply, (histPhase2_apply d cm width stride a0).2,
    (histPhase1_apply d cm width stride a0).2, if_pos hc, hp1, hp2, hnb, naiveHistogram_rows]
  -- phase 1
  rw [hR (d.yHalf - 1) (fun k => 1 + k)
    (fun k => (stride : Int) + (stride : Int) * (k : Int))
    (fun k => by push_cast; ring)]
  -- phase 3
  rw [hR (height - 1 - d.heighta) (fun k => d.heighta + k)
    (fun k => (stride : Int) * (d.heighta : Int) + (stride : Int) * (k : Int))
    (fun k => by push_cast; ring)]
  -- phase 2
  have h2 : Finset.sum (Finset.range qy) (fun k =>
      blockHits d cm width stride
        ((stride : Int) * (d.yHalf : Int) + (stride : Int) * (d.yHalf : Int) * (k : Int))
        (d.yHalf + k * d.yHalf) c)
      = Finset.sum (Finset.range (qy * d.yHalf)) (fun t =>
          rowHits d cm width stride ((stride : Int) * ((d.yHalf + t : Nat) : Int))
            (d.yHalf + t) c) := by
    rw [← sum_blocks]
    refine Finset.sum_congr rfl (fun k _ => ?_)
    have hy : d.yHalf + k * d.yHalf = (k + 1) * d.yHalf := by ring
    have hpk : (stride : Int) * (d.yHalf : Int) + (stride : Int) * (d.yHalf : Int) * (k : Int)
        = (stride : Int) * (((k + 1) * d.yHalf : Nat) : Int) := by
      push_cast
      ring
    rw [hy, hpk, blockHits_eq d cm width stride (k + 1) c hxs hys hxh qx hwa hwl]
    refine Finset.sum_congr rfl (fun u _ => ?_)
    rw [show (k + 1) * d.yHalf + u = d.yHalf + (k * d.yHalf + u) by ring]
  rw [h2]
  -- the three ranges make up the rows 1 .. height - 2
  have hsplit : ∀ F : Nat → Int,
      Finset.sum (Finset.range (d.yHalf - 1)) (fun k => F (1 + k))
        + Finset.sum (Finset.range (qy * d.yHalf)) (fun t => F (d.yHalf + t))
        + Finset.sum (Finset.range (height - 1 - d.heighta)) (fun k => F (d.heighta + k))
      = Finset.sum (Finset.range (height - 2)) (fun k => F (k + 1)) := by
    intro F
    have e1 : Finset.sum (Finset.range d.yHalf) F
        = F 0 + Finset.sum (Finset.range (d.yHalf - 1)) (fun k => F (1 + k)) := by
      have : d.yHalf = (d.yHalf - 1) + 1 := by omega
      conv_lhs => rw [this]
      rw [Finset.sum_range_succ', Int.add_comm]
      congr 1
      exact Finset.sum_congr rfl (fun k _ => by rw [Nat.add_comm])
    have e2 : Finset.sum (Finset.range (height - 1)) F
        = F 0 + Finset.sum (Finset.range (height - 2)) (fun k => F (k + 1)) := by
      have : height - 1 = (height - 2) + 1 := by omega
      rw [this, Finset.sum_range_succ', Int.add_comm]
    have e3 : Finset.sum (Finset.range (height - 1)) F
        = Finset.sum (Finset.range d.yHalf) F
          + Finset.sum (Finset.range (qy * d.yHalf)) (fun t => F (d.yHalf + t))
          + Finset.sum (Finset.range (height - 1 - d.heighta)) (fun k => F (d.heighta + k)) := by
      have hh : height - 1 = d.yHalf + qy * d.yHalf + (height - 1 - d.heighta) := by
        have : d.yHalf + qy * d.yHalf = d.heighta := by rw [hha]; ring
        omega
      have hq : d.yHalf + qy * d.yHalf = d.heighta := by rw [hha]; ring
      conv_lhs => rw [hh]
      rw [Finset.sum_range_add, Finset.sum_range_add, hq]
    rw [e1] at e3
    rw [e2] at e3
    omega
  have := hsplit (fun y => rowHits d cm width stride ((stride : Int) * ((y : Nat) : Int)) y c)
  simp only [] at this
  omega

theorem markRow_apply (tb width : Nat) (test : Nat → Bool) (row : Int) (cm : Buf) (j : Int) :
    markRow tb width test row cm j
      = if (row ≤ j ∧ j < row + (width : Int)) ∧ test (j - row).toNat = true then typeMax tb
        else cm j := by
  unfold markRow
  induction width with
  | zero =>
    rw [if_neg (fun h => by omega)]
    rfl
  | succ m ih =>
    show (if test m = true then
        (forLoop (fun x (cm : Buf) =>
          if test x = true then cm.write (row + (x : Int)) (typeMax tb) else cm) m cm).write
          (row + (m : Int)) (typeMax tb)
      else forLoop (fun x (cm : Buf) =>
          if test x = true then cm.write (row + (x : Int)) (typeMax tb) else cm) m cm) j = _
    by_cases hj : j = row + (m : Int)
    · have e : (j - row).toNat = m := by omega
      by_cases ht : test m = true
      · rw [if_pos ht, hj, Buf.write_same, if_pos]
        refine ⟨by omega, ?_⟩
        rw [show (row + (m : Int) - row).toNat = m by omega]
        exact ht
      · rw [if_neg ht, ih, if_neg (fun h => by omega), if_neg]
        rw [e]
        exact fun h => ht h.2
    · by_cases ht : test m = true
      · rw [if_pos ht, Buf.write_other _ _ _ _ hj, ih]
        by_cases hr : (row ≤ j ∧ j < row + (m : Int)) ∧ test (j - row).toNat = true
        · rw [if_pos hr, if_pos ⟨by omega, hr.2⟩]
        · rw [if_neg hr, if_neg]
          intro h
          exact hr ⟨by omega, h.2⟩
      · rw [if_neg ht, ih]
        by_cases hr : (row ≤ j ∧ j < row + (m : Int)) ∧ test (j - row).toNat = true
        · rw [if_pos hr, if_pos ⟨by omega, hr.2⟩]
        · rw [if_neg hr, if_neg]
          intro h
          exact hr ⟨by omega, h.2⟩

/-- A marked row changes a pixel only if it is the row of the pixel. -/
theorem markRow_row (tb width stride : Nat) (test : Nat → Bool) (r : Int) (cm : Buf)
    (y x : Nat) (hr : 0 ≤ r) (hx : x < width) (hws : width ≤ stride) :
    markRow tb width test ((stride : Int) * r) cm ((stride : Int) * (y : Int) + (x : Int))
      = if r = (y : Int) ∧ test x = true then typeMax tb
        else cm ((stride : Int) * (y : Int) + (x : Int)) := by
  rw [markRow_apply]
  by_cases hry : r = (y : Int)
  · subst hry
    rw [show ((stride : Int) * (y : Int) + (x : Int) - (stride : Int) * (y : Int)).toNat = x
      by omega]
    by_cases ht : test x = true
    · rw [if_pos ⟨by omega, ht⟩, if_pos ⟨rfl, ht⟩]
    · rw [if_neg (fun h => ht h.2), if_neg (fun h => ht h.2)]
  · rw [if_neg, if_neg (fun h => hry h.1)]
    intro h
    have hr2 : r = ((r.toNat : Nat) : Int) := by omega
    rw [hr2] at h
    have := row_interval stride width y x r.toNat hx hws h.1
    omega

/-- A loop of marked rows changes a pixel only in the iteration of its row. -/
theorem markRows_loop (tb width stride : Nat) (test : Int → Nat → Bool) (r0 : Int) (n : Nat)
    (cm : Buf) (y x : Nat) (hr : 0 ≤ r0) (hx : x < width) (hws : width ≤ stride) :
    forLoop (fun k cm => markRow tb width (test (r0 + (k : Int)))
        ((stride : Int) * (r0 + (k : Int))) cm) n cm ((stride : Int) * (y : Int) + (x : Int))
      = if (r0 ≤ (y : Int) ∧ (y : Int) < r0 + (n : Int)) ∧ test (y : Int) x = true
        then typeMax tb else cm ((stride : Int) * (y : Int) + (x : Int)) := by
  by_cases hin : r0 ≤ (y : Int) ∧ (y : Int) < r0 + (n : Int)
  · have hk : ((y : Int) - r0).toNat < n := by omega
    have e : r0 + ((((y : Int) - r0).toNat : Nat) : Int) = (y : Int) := by omega
    refine (forLoop_proj_at
      (fun b : Buf => b ((stride : Int) * (y : Int) + (x : Int))) _ n cm _ hk ?_).trans ?_
    · intro k _ hne t
      show markRow tb width _ _ t _ = _
      rw [markRow_row _ _ _ _ _ _ _ _ (by omega) hx hws, if_neg]
      intro h
      exact hne (by omega)
    · show markRow tb width _ _ _ _ = _
      rw [markRow_row _ _ _ _ _ _ _ _ (by omega) hx hws, e]
      by_cases ht : test (y : Int) x = true
      · rw [if_pos ⟨rfl, ht⟩, if_pos ⟨hin, ht⟩]
      · rw [if_neg (fun h => ht h.2), if_neg (fun h => ht h.2)]
        refine forLoop_proj_frame
          (fun b : Buf => b ((stride : Int) * (y : Int) + (x : Int))) _ _ cm ?_
        intro k hk2 t
        show markRow tb width _ _ t _ = _
        rw [markRow_row _ _ _ _ _ _ _ _ (by omega) hx hws, if_neg]
        intro h
        omega
  · rw [if_neg (fun h => hin h.1)]
    refine forLoop_proj_frame
      (fun b : Buf => b ((stride : Int) * (y : Int) + (x : Int))) _ n cm ?_
    intro k hk t
    show markRow tb width _ _ t _ = _
    rw [markRow_row _ _ _ _ _ _ _ _ (by omega) hx hws, if_neg]
    intro h
    omega

/-- The `memset` of the bitmap clears every pixel of the plane. -/
theorem memset_pixel (cm : Buf) (stride height y x : Nat) (hy : y < height) (hx : x < stride) :
    fill_n cm 0 (stride * height) 0 ((stride : Int) * (y : Int) + (x : Int)) = 0 := by
  rw [fill_n_apply, if_pos]
  have h1 : stride * (y + 1) ≤ stride * height := Nat.mul_le_mul_left _ hy
  have h2 : stride * y + x < stride * height := by
    rw [Nat.mul_succ] at h1
    omega
  have h3 : ((stride * y + x : Nat) : Int) < ((stride * height : Nat) : Int) := by
    exact_mod_cast h2
  have h4 : (0 : Int) ≤ ((stride * y + x : Nat) : Int) := Int.natCast_nonneg _
  push_cast at h3 h4
  constructor
  · omega
  · omega

/-- Under metric 0 the bitmap of a plane of at least 5 rows holds, at every pixel, the
maximum sample value if the test of the stage of its row holds there, and 0 otherwise. -/
theorem combMaskPlane_metric0 (tb : Nat) (d : IsCombedData) (width height stride : Nat)
    (src cm : Buf) (y x : Nat) (hm : d.metric = 0) (hh : 5 ≤ height) (hws : width ≤ stride)
    (hy : y < height) (hx : x < width) :
    combMaskPlane tb d width height stride stride src cm
        ((stride : Int) * (y : Int) + (x : Int))
      = if combTest0 d src stride (rowStage0 height y) (y : Int) x = true then typeMax tb
        else 0 := by
  unfold combMaskPlane
  rw [if_pos hm]
  have hn : ((height - 4 : Nat) : Int) = (height : Int) - 4 := by omega
  rw [markRow_row _ _ _ _ _ _ _ _ (by omega) hx hws,
    markRow_row _ _ _ _ _ _ _ _ (by omega) hx hws,
    markRows_loop tb width stride (fun r => combTest0 d src stride 2 r) 2 (height - 4) _ y x
      (by omega) hx hws,
    markRow_row _ _ _ _ _ _ _ _ (by omega) hx hws,
    markRow_row _ _ _ _ _ _ _ _ (by omega) hx hws,
    memset_pixel cm stride height y x hy (by omega)]
  unfold rowStage0
  by_cases h0 : y = 0
  · have f4 : ¬ (2 + ((height - 4 : Nat) : Int) + 1 = (y : Int)) := by omega
    have f3 : ¬ (2 + ((height - 4 : Nat) : Int) = (y : Int)) := by omega
    have f2 : ¬ ((2 : Int) ≤ (y : Int) ∧ (y : Int) < 2 + ((height - 4 : Nat) : Int)) := by omega
    have f1 : ¬ ((1 : Int) = (y : Int)) := by omega
    have e : (0 : Int) = (y : Int) := by omega
    simp only [f4, f3, f2, f1, false_and, if_false, if_pos h0]
    rw [← e]
    simp
  · by_cases h1 : y = 1
    · have f4 : ¬ (2 + ((height - 4 : Nat) : Int) + 1 = (y : Int)) := by omega
      have f3 : ¬ (2 + ((height - 4 : Nat) : Int) = (y : Int)) := by omega
      have f2 : ¬ ((2 : Int) ≤ (y : Int) ∧ (y : Int) < 2 + ((height - 4 : Nat) : Int)) := by
        omega
      have f0 : ¬ ((0 : Int) = (y : Int)) := by omega
      have e : (1 : Int) = (y : Int) := by omega
      simp only [f4, f3, f2, f0, false_and, if_false, if_neg h0, if_pos h1]
      rw [← e]
      simp
    · by_cases h2 : y + 2 < height
      · have f4 : ¬ (2 + ((height - 4 : Nat) : Int) + 1 = (y : Int)) := by omega
        have f3 : ¬ (2 + ((height - 4 : Nat) : Int) = (y : Int)) := by omega
        have t2 : (2 : Int) ≤ (y : Int) ∧ (y : Int) < 2 + ((height - 4 : Nat) : Int) := by
          omega
        have f1 : ¬ ((1 : Int) = (y : Int)) := by omega
        have f0 : ¬ ((0 : Int) = (y : Int)) := by omega
        simp only [f4, f3, t2, f1, f0, false_and, true_and, and_self, if_false, if_neg h0,
          if_neg h1, if_pos h2]
      · by_cases h3 : y + 2 = height
        · have f4 : ¬ (2 + ((height - 4 : Nat) : Int) + 1 = (y : Int)) := by omega
          have e : 2 + ((height - 4 : Nat) : Int) = (y : Int) := by omega
          have f2 : ¬ ((2 : Int) ≤ (y : Int) ∧ (y : Int) < 2 + ((height - 4 : Nat) : Int)) := by
            omega
          have f1 : ¬ ((1 : Int) = (y : Int)) := by omega
          have f0 : ¬ ((0 : Int) = (y : Int)) := by omega
          simp only [f4, f2, f1, f0, false_and, if_false, if_neg h0, if_neg h1, if_neg h2,
            if_pos h3]
          rw [e]
          simp
        · have e : 2 + ((height - 4 : Nat) : Int) + 1 = (y : Int) := by omega
          have f3 : ¬ (2 + ((height - 4 : Nat) : Int) = (y : Int)) := by omega
          have f2 : ¬ ((2 : Int) ≤ (y : Int) ∧ (y : Int) < 2 + ((height - 4 : Nat) : Int)) := by
            omega
          have f1 : ¬ ((1 : Int) = (y : Int)) := by omega
          have f0 : ¬ ((0 : Int) = (y : Int)) := by omega
          simp only [f3, f2, f1, f0, false_and, if_false, if_neg h0, if_neg h1, if_neg h2,
            if_neg h3]
          rw [e]
          simp

/-- Under metric 1 the bitmap of a plane of at least 2 rows holds, at every pixel, the
maximum sample value if the test of the stage of its row holds there, and 0 otherwise. -/
theorem combMaskPlane_metric1 (tb : Nat) (d : IsCombedData) (width height stride : Nat)
    (src cm : Buf) (y x : Nat) (hm : d.metric ≠ 0) (hh : 2 ≤ height) (hws : width ≤ stride)
    (hy : y < height) (hx : x < width) :
    combMaskPlane tb d width height stride stride src cm
        ((stride : Int) * (y : Int) + (x : Int))
      = if combTest1 d src stride (rowStage1 height y) (y : Int) x = true then typeMax tb
        else 0 := by
  unfold combMaskPlane
  rw [if_neg hm]
  rw [markRow_row _ _ _ _ _ _ _ _ (by omega) hx hws,
    markRows_loop tb width stride (fun r => combTest1 d src stride 1 r) 1 (height - 2) _ y x
      (by omega) hx hws,
    markRow_row _ _ _ _ _ _ _ _ (by omega) hx hws,
    memset_pixel cm stride height y x hy (by omega)]
  unfold rowStage1
  by_cases h0 : y = 0
  · have f2 : ¬ (1 + ((height - 2 : Nat) : Int) = (y : Int)) := by omega
    have f1 : ¬ ((1 : Int) ≤ (y : Int) ∧ (y : Int) < 1 + ((height - 2 : Nat) : Int)) := by omega
    have e : (0 : Int) = (y : Int) := by omega
    simp only [f2, f1, false_and, if_false, if_pos h0]
    rw [← e]
    simp
  · by_cases h1 : y + 1 < height
    · have f2 : ¬ (1 + ((height - 2 : Nat) : Int) = (y : Int)) := by omega
      have t1 : (1 : Int) ≤ (y : Int) ∧ (y : Int) < 1 + ((height - 2 : Nat) : Int) := by omega
      have f0 : ¬ ((0 : Int) = (y : Int)) := by omega
      simp only [f2, t1, f0, false_and, true_and, and_self, if_false, if_neg h0, if_pos h1]
    · have e : 1 + ((height - 2 : Nat) : Int) = (y : Int) := by omega
      have f1 : ¬ ((1 : Int) ≤ (y : Int) ∧ (y : Int) < 1 + ((height - 2 : Nat) : Int)) := by omega
      have f0 : ¬ ((0 : Int) = (y : Int)) := by omega
      simp only [f1, f0, false_and, if_false, if_neg h0, if_neg h1]
      rw [e]
      simp

theorem twoSided_monotone (d : IsCombedData) (c p n : Int) (ht : 0 ≤ d.cthresh)
    (hmono : (p ≤ c ∧ c ≤ n) ∨ (n ≤ c ∧ c ≤ p)) : twoSided d c p n = false := by
  unfold twoSided
  rw [Bool.eq_false_iff]
  intro h
  simp only [Bool.or_eq_true, Bool.and_eq_true, decide_eq_true_eq] at h
  omega

theorem wrapInt32_of_small (v : Int) (h1 : -2147483648 ≤ v) (h2 : v < 2147483648) :
    wrapInt32 v = v := by
  unfold wrapInt32
  rw [Int.emod_eq_of_lt (by omega) (by omega)]
  omega

theorem productTest_monotone (d : IsCombedData) (c p n : Int) (ht : 0 ≤ d.cthreshsq)
    (hc : 0 ≤ c ∧ c ≤ 65535) (hp : 0 ≤ p ∧ p ≤ 65535) (hn : 0 ≤ n ∧ n ≤ 65535)
    (hmono : (p ≤ c ∧ c ≤ n) ∨ (n ≤ c ∧ c ≤ p)) : productTest d c p n = false := by
  unfold productTest
  rw [Bool.eq_false_iff]
  intro h
  simp only [decide_eq_true_eq] at h
  have hle : (c - p) * (c - n) ≤ 0 := by
    rcases hmono with ⟨h1, h2⟩ | ⟨h1, h2⟩
    · exact mul_nonpos_of_nonneg_of_nonpos (by omega) (by omega)
    · exact mul_nonpos_of_nonpos_of_nonneg (by omega) (by omega)
  have hge : -2147483648 ≤ (c - p) * (c - n) := by
    rcases hmono with ⟨h1, h2⟩ | ⟨h1, h2⟩
    · nlinarith [sq_nonneg ((c - p) - (n - c)), mul_nonneg (show (0 : Int) ≤ c - p by omega)
        (show (0 : Int) ≤ n - c by omega)]
    · nlinarith [sq_nonneg ((p - c) - (c - n)), mul_nonneg (show (0 : Int) ≤ p - c by omega)
        (show (0 : Int) ≤ c - n by omega)]
  rw [wrapInt32_of_small _ hge (by omega)] at h
  omega

theorem combTest0_twoSided (d : IsCombedData) (src : Buf) (stride stage : Nat) (r : Int)
    (x : Nat) (hs : stage = 1 ∨ stage = 2 ∨ stage = 3)
    (h : twoSided d (rowAt src stride r x) (rowAt src stride (r - 1) x)
      (rowAt src stride (r + 1) x) = false) :
    combTest0 d src stride stage r x = false := by
  unfold combTest0
  rcases hs with hs | hs | hs <;> subst hs <;> simp [h]

theorem combTest1_product (d : IsCombedData) (src : Buf) (stride : Nat) (r : Int) (x : Nat) :
    combTest1 d src stride 1 r x
      = productTest d (rowAt src stride r x) (rowAt src stride (r - 1) x)
          (rowAt src stride (r + 1) x) := by
  unfold combTest1
  simp

/-- With chroma disabled the histogram is built from the bitmap of plane 0 alone. -/
theorem combBitmap_luma (tb : Nat) (d : IsCombedData) (src cmask : Frame)
    (hch : d.chroma = false) :
    (combBitmap tb d src cmask).data 0
      = combMaskPlane tb d (src.width 0) (src.height 0) (src.stride 0) (cmask.stride 0)
          (src.data 0) (cmask.data 0) ∧
    (combBitmap tb d src cmask).width 0 = cmask.width 0 ∧
    (combBitmap tb d src cmask).height 0 = cmask.height 0 ∧
    (combBitmap tb d src cmask).stride 0 = cmask.stride 0 := by
  unfold combBitmap combMask
  simp only [hch, Bool.false_eq_true, if_false]
  have h1 : ∀ (body : Nat → Frame → Frame) (s : Frame), forLoop body 1 s = body 0 s :=
    fun _ _ => rfl
  rw [h1]
  refine ⟨?_, rfl, rfl, rfl⟩
  show Function.update cmask.data 0 _ 0 = _
  exact Function.update_same _ _ _

/-- A bitmap whose rows `1 .. height - 2` are clear gives an all-zero naive histogram. -/
theorem naiveHistogram_clear (d : IsCombedData) (cm : Buf) (width height stride c : Nat)
    (hz : ∀ k x, k < height - 2 → x < width →
      cm ((stride : Int) * ((k + 1 : Nat) : Int) + (x : Int)) = 0) :
    naiveHistogram d cm width height stride c = 0 := by
  unfold naiveHistogram
  refine Finset.sum_eq_zero (fun k hk => Finset.sum_eq_zero (fun x hx => ?_))
  have h := hz k x (Finset.mem_range.1 hk) (Finset.mem_range.1 hx)
  have hl : pixelLit cm stride (k + 1) x = false := by
    unfold pixelLit
    rw [h]
    simp
  rw [hl]
  simp

/-- Columns that are monotonic down the frame leave the rows `1 .. height - 2` of the bitmap
clear, for both metrics, whenever the thresholds stored in the instance data are not
negative. -/
theorem combMaskPlane_monotone (tb : Nat) (d : IsCombedData) (width height stride : Nat)
    (src cm : Buf) (y x : Nat) (hh : 5 ≤ height) (hws : width ≤ stride)
    (hy1 : 1 ≤ y) (hy2 : y + 1 < height) (hx : x < width)
    (ht : 0 ≤ d.cthresh) (htsq : 0 ≤ d.cthreshsq)
    (hrange : d.metric ≠ 0 → ∀ r : Nat, r < height →
      (src ((stride : Int) * (r : Int) + (x : Int)) : Int) ≤ 65535)
    (hmono : (∀ r : Nat, r + 1 < height →
        src ((stride : Int) * (r : Int) + (x : Int))
          ≤ src ((stride : Int) * ((r + 1 : Nat) : Int) + (x : Int))) ∨
      (∀ r : Nat, r + 1 < height →
        src ((stride : Int) * ((r + 1 : Nat) : Int) + (x : Int))
          ≤ src ((stride : Int) * (r : Int) + (x : Int)))) :
    combMaskPlane tb d width height stride stride src cm
      ((stride : Int) * (y : Int) + (x : Int)) = 0 := by
  have ep : rowAt src stride ((y : Int) - 1) x
      = (src ((stride : Int) * ((y - 1 : Nat) : Int) + (x : Int)) : Int) := by
    unfold rowAt
    rw [show ((y - 1 : Nat) : Int) = (y : Int) - 1 by omega]
  have en : rowAt src stride ((y : Int) + 1) x
      = (src ((stride : Int) * ((y - 1 + 1 + 1 : Nat) : Int) + (x : Int)) : Int) := by
    unfold rowAt
    rw [show ((y - 1 + 1 + 1 : Nat) : Int) = (y : Int) + 1 by omega]
  have ec : rowAt src stride (y : Int) x
      = (src ((stride : Int) * ((y - 1 + 1 : Nat) : Int) + (x : Int)) : Int) := by
    unfold rowAt
    rw [show ((y - 1 + 1 : Nat) : Int) = (y : Int) by omega]
  have hm3 : (rowAt src stride ((y : Int) - 1) x ≤ rowAt src stride (y : Int) x ∧
        rowAt src stride (y : Int) x ≤ rowAt src stride ((y : Int) + 1) x) ∨
      (rowAt src stride ((y : Int) + 1) x ≤ rowAt src stride (y : Int) x ∧
        rowAt src stride (y : Int) x ≤ rowAt src stride ((y : Int) - 1) x) := by
    rw [ep, en, ec]
    rcases hmono with h | h
    · left
      exact ⟨by exact_mod_cast h (y - 1) (by omega), by exact_mod_cast h (y - 1 + 1) (by omega)⟩
    · right
      exact ⟨by exact_mod_cast h (y - 1 + 1) (by omega), by exact_mod_cast h (y - 1) (by omega)⟩
  by_cases hm : d.metric = 0
  · rw [combMaskPlane_metric0 tb d width height stride src cm y x hm hh hws (by omega) hx,
      combTest0_twoSided d src stride _ _ x ?_ (twoSided_monotone d _ _ _ ht hm3)]
    · simp
    · unfold rowStage0
      split_ifs <;> omega
  · have hst : rowStage1 height y = 1 := by
      unfold rowStage1
      rw [if_neg (by omega), if_pos hy2]
    have hb : ∀ r : Int, 0 ≤ r → r < (height : Int) →
        0 ≤ rowAt src stride r x ∧ rowAt src stride r x ≤ 65535 := by
      intro r h0 h1
      have hr := hrange hm r.toNat (by omega)
      rw [show ((r.toNat : Nat) : Int) = r by omega] at hr
      exact ⟨Int.natCast_nonneg _, hr⟩
    rw [combMaskPlane_metric1 tb d width height stride src cm y x hm (by omega) hws (by omega) hx,
      hst, combTest1_product,
      productTest_monotone d _ _ _ htsq (hb _ (by omega) (by omega))
        (hb _ (by omega) (by omega)) (hb _ (by omega) (by omega)) hm3]
    simp

/-- For a frame whose columns are monotonic, when the block-strided loop starts inside the
bitmap (`yHalf <= heighta`) and the thresholds are not negative, the block histogram is all
zero. -/
theorem checkCombedHistogram_monotone (tb : Nat) (d : IsCombedData) (src cmask : Frame)
    (a0 : Nat → Int) (c : Nat) (hc : c < d.arraySize) (hch : d.chroma = false)
    (hcw : cmask.width 0 = src.width 0) (hchh : cmask.height 0 = src.height 0)
    (hcs : cmask.stride 0 = src.stride 0) (hh : 5 ≤ src.height 0)
    (hxs : 2 ^ d.xShift = 2 * d.xHalf) (hys : 2 ^ d.yShift = 2 * d.yHalf)
    (hxh : 0 < d.xHalf) (hyh : 0 < d.yHalf)
    (qx : Nat) (hwa : d.widtha = qx * d.xHalf) (hwl : d.widtha ≤ src.width 0)
    (qy : Nat) (hha : d.heighta = (qy + 1) * d.yHalf) (hhl : d.heighta < src.height 0)
    (ht : 0 ≤ d.cthresh) (htsq : 0 ≤ d.cthreshsq)
    (hrange : d.metric ≠ 0 → ∀ y x : Nat, y < src.height 0 → x < src.width 0 →
      (src.px (src.stride 0) 0 (y : Int) x : Int) ≤ 65535)
    (hmono : ∀ x, x < src.width 0 →
      (∀ r : Nat, r + 1 < src.height 0 →
        src.px (src.stride 0) 0 (r : Int) x ≤ src.px (src.stride 0) 0 ((r + 1 : Nat) : Int) x) ∨
      (∀ r : Nat, r + 1 < src.height 0 →
        src.px (src.stride 0) 0 ((r + 1 : Nat) : Int) x ≤ src.px (src.stride 0) 0 (r : Int) x)) :
    checkCombedHistogram tb d src cmask a0 c = 0 := by
  unfold checkCombedHistogram
  obtain ⟨e1, e2, e3, e4⟩ := combBitmap_luma tb d src cmask hch
  rw [e1, e2, e3, e4, hcw, hchh, hcs,
    combHistogram_eq_naive d _ _ _ _ a0 c hc hxs hys hxh hyh qx hwa hwl qy hha hhl]
  refine naiveHistogram_clear d _ _ _ _ c ?_
  intro k x hk hx
  exact combMaskPlane_monotone tb d _ _ _ _ _ (k + 1) x hh (src.width_le_stride 0) (by omega)
    (by omega) hx ht htsq (fun hm r hr => hrange hm r x hr hx) (hmono x hx)

theorem iscombedCreate_ex16 : iscombedCreate (exCombedArgs 16 16 none none) = .ok exComb16 := by
  have h1 : Int.land 16 15 = 0 := by decide
  have h2 : Int.tdiv 1530 255 = 6 := by decide
  have h3 : Int.tdiv 16 2 = 8 := by decide
  simp [iscombedCreate, combedChecks, firstError, exCombedArgs, isPowerOf2, combedData,
    exComb16, Nat.log2, wrapInt32, h1, h2, h3]

theorem combTest0_stage0 (d : IsCombedData) (src : Buf) (stride : Nat) (r : Int) (x : Nat) :
    combTest0 d src stride 0 r x
      = (oneSided d (rowAt src stride r x) (rowAt src stride (r + 1) x) &&
         secondDiff d (rowAt src stride (r + 2) x) (rowAt src stride r x)
           (rowAt src stride (r + 2) x) (rowAt src stride (r + 1) x)
           (rowAt src stride (r + 1) x)) := rfl

theorem combTest0_stage1 (d : IsCombedData) (src : Buf) (stride : Nat) (r : Int) (x : Nat) :
    combTest0 d src stride 1 r x
      = (twoSided d (rowAt src stride r x) (rowAt src stride (r - 1) x)
           (rowAt src stride (r + 1) x) &&
         secondDiff d (rowAt src stride (r + 2) x) (rowAt src stride r x)
           (rowAt src stride (r + 2) x) (rowAt src stride (r - 1) x)
           (rowAt src stride (r + 1) x)) := rfl

theorem combTest0_stage2 (d : IsCombedData) (src : Buf) (stride : Nat) (r : Int) (x : Nat) :
    combTest0 d src stride 2 r x
      = (twoSided d (rowAt src stride r x) (rowAt src stride (r - 1) x)
           (rowAt src stride (r + 1) x) &&
         secondDiff d (rowAt src stride (r - 2) x) (rowAt src stride r x)
           (rowAt src stride (r + 2) x) (rowAt src stride (r - 1) x)
           (rowAt src stride (r + 1) x)) := rfl

theorem combTest0_stage3 (d : IsCombedData) (src : Buf) (stride : Nat) (r : Int) (x : Nat) :
    combTest0 d src stride 3 r x
      = (twoSided d (rowAt src stride r x) (rowAt src stride (r - 1) x)
           (rowAt src stride (r + 1) x) &&
         secondDiff d (rowAt src stride (r - 2) x) (rowAt src stride r x)
           (rowAt src stride (r - 2) x) (rowAt src stride (r - 1) x)
           (rowAt src stride (r + 1) x)) := rfl

theorem combTest0_stage4 (d : IsCombedData) (src : Buf) (stride : Nat) (r : Int) (x : Nat) :
    combTest0 d src stride 4 r x
      = (oneSided d (rowAt src stride r x) (rowAt src stride (r - 1) x) &&
         secondDiff d (rowAt src stride (r - 2) x) (rowAt src stride r x)
           (rowAt src stride (r - 2) x) (rowAt src stride (r - 1) x)
           (rowAt src stride (r - 1) x)) := rfl

/-- On a column that alternates between two values more than `cthresh` apart, every test of
metric 0 holds. -/
theorem combTest0_comb (d : IsCombedData) (src : Buf) (stride height y x : Nat) (v w : Int)
    (hh : 5 ≤ height) (hy : y < height) (h6 : d.cthresh6 = d.cthresh * 6) (ht : 0 ≤ d.cthresh)
    (hvw : v - w > d.cthresh ∨ v - w < -d.cthresh)
    (hsame : ∀ r : Int, 0 ≤ r → r < (height : Int) → (r - (y : Int)) % 2 = 0 →
      rowAt src stride r x = v)
    (hdiff : ∀ r : Int, 0 ≤ r → r < (height : Int) → (r - (y : Int)) % 2 = 1 →
      rowAt src stride r x = w) :
    combTest0 d src stride (rowStage0 height y) (y : Int) x = true := by
  have hc := hsame (y : Int) (by omega) (by omega) (by omega)
  unfold rowStage0
  by_cases h0 : y = 0
  · rw [if_pos h0, combTest0_stage0, hc, hdiff ((y : Int) + 1) (by omega) (by omega) (by omega),
      hsame ((y : Int) + 2) (by omega) (by omega) (by omega)]
    unfold oneSided secondDiff
    simp only [Bool.and_eq_true, Bool.or_eq_true, decide_eq_true_eq]
    rw [h6]
    omega
  · by_cases h1 : y = 1
    · rw [if_neg h0, if_pos h1, combTest0_stage1, hc,
        hdiff ((y : Int) + 1) (by omega) (by omega) (by omega),
        hdiff ((y : Int) - 1) (by omega) (by omega) (by omega),
        hsame ((y : Int) + 2) (by omega) (by omega) (by omega)]
      unfold twoSided secondDiff
      simp only [Bool.and_eq_true, Bool.or_eq_true, decide_eq_true_eq]
      rw [h6]
      omega
    · by_cases h2 : y + 2 < height
      · rw [if_neg h0, if_neg h1, if_pos h2, combTest0_stage2, hc,
          hdiff ((y : Int) + 1) (by omega) (by omega) (by omega),
          hdiff ((y : Int) - 1) (by omega) (by omega) (by omega),
          hsame ((y : Int) + 2) (by omega) (by omega) (by omega),
          hsame ((y : Int) - 2) (by omega) (by omega) (by omega)]
        unfold twoSided secondDiff
        simp only [Bool.and_eq_true, Bool.or_eq_true, decide_eq_true_eq]
        rw [h6]
        omega
      · by_cases h3 : y + 2 = height
        · rw [if_neg h0, if_neg h1, if_neg h2, if_pos h3, combTest0_stage3, hc,
            hdiff ((y : Int) + 1) (by omega) (by omega) (by omega),
            hdiff ((y : Int) - 1) (by omega) (by omega) (by omega),
            hsame ((y : Int) - 2) (by omega) (by omega) (by omega)]
          unfold twoSided secondDiff
          simp only [Bool.and_eq_true, Bool.or_eq_true, decide_eq_true_eq]
          rw [h6]
          omega
        · rw [if_neg h0, if_neg h1, if_neg h2, if_neg h3, combTest0_stage4, hc,
            hdiff ((y : Int) - 1) (by omega) (by omega) (by omega),
            hsame ((y : Int) - 2) (by omega) (by omega) (by omega)]
          unfold oneSided secondDiff
          simp only [Bool.and_eq_true, Bool.or_eq_true, decide_eq_true_eq]
          rw [h6]
          omega

/-- A bitmap with every pixel set gives the naive histogram in which every pixel of rows
`1 .. height - 2` counts. -/
theorem naiveHistogram_full (d : IsCombedData) (cm : Buf) (width height stride c : Nat)
    (hset : ∀ y x : Nat, y < height → x < width →
      cm ((stride : Int) * (y : Int) + (x : Int)) ≠ 0) :
    naiveHistogram d cm width height stride c
      = Finset.sum (Finset.range (height - 2)) (fun k =>
          Finset.sum (Finset.range width) (fun x => cellHits d (k + 1) x c)) := by
  unfold naiveHistogram
  refine Finset.sum_congr rfl (fun k hk => Finset.sum_congr rfl (fun x hx => ?_))
  have hk2 := Finset.mem_range.1 hk
  have hx2 := Finset.mem_range.1 hx
  have hl : pixelLit cm stride (k + 1) x = true := by
    unfold pixelLit
    have a1 := hset k x (by omega) hx2
    have a2 := hset (k + 1) x (by omega) hx2
    have a3 := hset (k + 2) x (by omega) hx2
    rw [show ((k + 1 : Nat) : Int) - 1 = ((k : Nat) : Int) by omega,
      show ((k + 1 : Nat) : Int) + 1 = ((k + 2 : Nat) : Int) by omega]
    simp only [Bool.and_eq_true, decide_eq_true_eq]
    exact ⟨⟨a1, a2⟩, a3⟩
  rw [if_pos hl]

theorem cellHits_ex16 (k x : Nat) (hk : k < 14) (hx : x < 16) :
    cellHits exComb16 (k + 1) x 0 = 1 := by
  unfold cellHits exComb16
  simp only [Nat.shiftRight_eq_div_pow]
  have e1 : (k + 1) / 2 ^ 4 = 0 := by omega
  have e2 : x / 2 ^ 4 = 0 := by omega
  rw [e1, e2]
  simp

theorem checkCombed_of_clear (tb : Nat) (d : IsCombedData) (src cmask : Frame)
    (a0 : Nat → Int) (hmi : 0 ≤ d.MI)
    (hz : ∀ c, c < d.arraySize → checkCombedHistogram tb d src cmask a0 c = 0) :
    checkCombed tb d src cmask a0 = false := by
  unfold checkCombed checkCombedScore
  rw [decide_eq_false_iff_not]
  intro h
  obtain ⟨c, hc, hv⟩ := (maxCell_gt_iff _ _ _ hmi).1 h
  rw [hz c hc] at hv
  omega

theorem checkCombed_of_cell (tb : Nat) (d : IsCombedData) (src cmask : Frame)
    (a0 : Nat → Int) (c : Nat) (hc : c < d.arraySize)
    (hv : checkCombedHistogram tb d src cmask a0 c > d.MI) :
    checkCombed tb d src cmask a0 = true := by
  unfold checkCombed checkCombedScore
  rw [decide_eq_true_iff]
  have := maxCell_ge (checkCombedHistogram tb d src cmask a0) d.arraySize c hc
  omega

theorem iscombedCreate_exSmall :
    iscombedCreate (exCombedArgs 1 5 (some 4) (some 4)) = .ok exSmallComb := by
  have h1 : Int.land 4 3 = 0 := by decide
  have h2 : Int.tdiv 1530 255 = 6 := by decide
  have h3 : Int.tdiv 4 2 = 2 := by decide
  simp [iscombedCreate, combedChecks, firstError, exCombedArgs, isPowerOf2, combedData,
    exSmallComb, Nat.log2, wrapInt32, h1, h2, h3]

theorem iscombedCreate_exLow : iscombedCreate (exCombedArgs 1 5 none none) = .ok exCombLow := by
  have h1 : Int.land 16 15 = 0 := by decide
  have h2 : Int.tdiv 1530 255 = 6 := by decide
  have h3 : Int.tdiv 16 2 = 8 := by decide
  simp [iscombedCreate, combedChecks, firstError, exCombedArgs, isPowerOf2, combedData,
    exCombLow, Nat.log2, wrapInt32, h1, h2, h3]

theorem iscombedCreate_exOverflow : iscombedCreate exOverflowArgs = .ok exCombOverflow := by
  have h1 : Int.land 4 3 = 0 := by decide
  have h2 : Int.tdiv 16711425 255 = 65535 := by decide
  have h3 : Int.tdiv 4 2 = 2 := by decide
  simp [iscombedCreate, combedChecks, firstError, exOverflowArgs, isPowerOf2, combedData,
    exCombOverflow, Nat.log2, wrapInt32, h1, h2, h3]

theorem log2_double (n : Nat) (hn : 1 ≤ n) : Nat.log2 (2 * n) = Nat.log2 n + 1 := by
  conv_lhs => rw [Nat.log2]
  rw [if_pos (by omega)]
  congr 2
  omega

theorem log2_two_pow (k : Nat) : Nat.log2 (2 ^ k) = k := by
  induction k with
  | zero =>
    rw [Nat.log2]
    simp
  | succ m ih =>
    rw [pow_succ, Nat.mul_comm, log2_double _ (Nat.one_le_two_pow), ih]

/-- A legal block size is `2 ^ (k + 1)`: its shift is `k + 1` and its half is `2 ^ k`. -/
theorem legalBlock_half (b : Int) (hb : LegalBlock b) :
    ∃ k : Nat, Nat.log2 b.toNat = k + 1 ∧ (Int.tdiv b 2).toNat = 2 ^ k := by
  rcases hb with h1 | h2 | h3 | h4 | h5 | h6 | h7 | h8 | h9 | h10
  · subst h1
    exact ⟨1, by rw [show (4 : Int).toNat = 2 ^ (1 + 1) by decide, log2_two_pow], by decide⟩
  · subst h2
    exact ⟨2, by rw [show (8 : Int).toNat = 2 ^ (2 + 1) by decide, log2_two_pow], by decide⟩
  · subst h3
    exact ⟨3, by rw [show (16 : Int).toNat = 2 ^ (3 + 1) by decide, log2_two_pow], by decide⟩
  · subst h4
    exact ⟨4, by rw [show (32 : Int).toNat = 2 ^ (4 + 1) by decide, log2_two_pow], by decide⟩
  · subst h5
    exact ⟨5, by rw [show (64 : Int).toNat = 2 ^ (5 + 1) by decide, log2_two_pow], by decide⟩
  · subst h6
    exact ⟨6, by rw [show (128 : Int).toNat = 2 ^ (6 + 1) by decide, log2_two_pow], by decide⟩
  · subst h7
    exact ⟨7, by rw [show (256 : Int).toNat = 2 ^ (7 + 1) by decide, log2_two_pow], by decide⟩
  · subst h8
    exact ⟨8, by rw [show (512 : Int).toNat = 2 ^ (8 + 1) by decide, log2_two_pow], by decide⟩
  · subst h9
    exact ⟨9, by rw [show (1024 : Int).toNat = 2 ^ (9 + 1) by decide, log2_two_pow], by decide⟩
  · subst h10
    exact ⟨10, by rw [show (2048 : Int).toNat = 2 ^ (10 + 1) by decide, log2_two_pow], by decide⟩

/-- The geometry of the instance data that `iscombedCreate` derives: the shifts match the
half blocks, `widtha` is the width rounded down to a multiple of `xHalf`, and, when the frame
is higher than half a block, `heighta` is a positive multiple of `yHalf` below the height. -/
theorem combedData_geometry (a : CombedArgs)
    (hbx : LegalBlock (a.blockx.getD 16)) (hby : LegalBlock (a.blocky.getD 16))
    (hhigh : (combedData a).yHalf < a.height.toNat) :
    2 ^ (combedData a).xShift = 2 * (combedData a).xHalf ∧
    2 ^ (combedData a).yShift = 2 * (combedData a).yHalf ∧
    0 < (combedData a).xHalf ∧ 0 < (combedData a).yHalf ∧
    (∃ qx, (combedData a).widtha = qx * (combedData a).xHalf) ∧
    (combedData a).widtha ≤ a.width.toNat ∧
    (∃ qy, (combedData a).heighta = (qy + 1) * (combedData a).yHalf) ∧
    (combedData a).heighta < a.height.toNat := by
  obtain ⟨kx, hx1, hx2⟩ := legalBlock_half _ hbx
  obtain ⟨ky, hy1, hy2⟩ := legalBlock_half _ hby
  have exs : (combedData a).xShift = kx + 1 := hx1
  have exh : (combedData a).xHalf = 2 ^ kx := hx2
  have eys : (combedData a).yShift = ky + 1 := hy1
  have eyh : (combedData a).yHalf = 2 ^ ky := hy2
  have ewa : (combedData a).widtha = a.width.toNat / 2 ^ kx * 2 ^ kx := by
    show (a.width.toNat >>> (Nat.log2 (a.blockx.getD 16).toNat - 1))
      <<< (Nat.log2 (a.blockx.getD 16).toNat - 1) = _
    rw [hx1, Nat.add_sub_cancel, Nat.shiftRight_eq_div_pow, Nat.shiftLeft_eq]
  have eha : (combedData a).heighta
      = if a.height.toNat / 2 ^ ky * 2 ^ ky = a.height.toNat
        then a.height.toNat - 2 ^ ky else a.height.toNat / 2 ^ ky * 2 ^ ky := by
    show (if (a.height.toNat >>> (Nat.log2 (a.blocky.getD 16).toNat - 1))
        <<< (Nat.log2 (a.blocky.getD 16).toNat - 1) = a.height.toNat
      then a.height.toNat - (Int.tdiv (a.blocky.getD 16) 2).toNat
      else (a.height.toNat >>> (Nat.log2 (a.blocky.getD 16).toNat - 1))
        <<< (Nat.log2 (a.blocky.getD 16).toNat - 1)) = _
    rw [hy1, hy2, Nat.add_sub_cancel, Nat.shiftRight_eq_div_pow, Nat.shiftLeft_eq]
  rw [eyh] at hhigh
  have hpx : 0 < 2 ^ kx := pow_pos (by decide) kx
  have hpy : 0 < 2 ^ ky := pow_pos (by decide) ky
  rw [exs, exh, eys, eyh, ewa, eha]
  refine ⟨by rw [pow_succ]; ring, by rw [pow_succ]; ring, hpx, hpy, ⟨_, rfl⟩,
    Nat.div_mul_le_self _ _, ?_, ?_⟩
  · -- heighta is a positive multiple of yHalf
    have hq : 1 ≤ a.height.toNat / 2 ^ ky := (Nat.one_le_div_iff hpy).2 (Nat.le_of_lt hhigh)
    by_cases he : a.height.toNat / 2 ^ ky * 2 ^ ky = a.height.toNat
    · rw [if_pos he]
      have hq2 : 2 ≤ a.height.toNat / 2 ^ ky := by
        by_contra hlt
        have h1 : a.height.toNat / 2 ^ ky = 1 := by omega
        rw [h1] at he
        omega
      refine ⟨a.height.toNat / 2 ^ ky - 2, ?_⟩
      have e2 : a.height.toNat / 2 ^ ky - 2 + 1 = a.height.toNat / 2 ^ ky - 1 := by omega
      rw [e2, Nat.sub_mul, Nat.one_mul, he]
    · rw [if_neg he]
      refine ⟨a.height.toNat / 2 ^ ky - 1, ?_⟩
      rw [Nat.sub_add_cancel hq]
  · by_cases he : a.height.toNat / 2 ^ ky * 2 ^ ky = a.height.toNat
    · rw [if_pos he]
      omega
    · rw [if_neg he]
      have := Nat.div_mul_le_self a.height.toNat (2 ^ ky)
      omega

/-- What acceptance by `iscombedCreate` says about the arguments and the instance data. -/
theorem iscombedCreate_ok (a : CombedArgs) (d : IsCombedData)
    (hd : iscombedCreate a = .ok d) :
    d = combedData a ∧ 5 ≤ a.height ∧ 0 ≤ a.cthresh.getD 6 ∧
    LegalBlock (a.blockx.getD 16) ∧ LegalBlock (a.blocky.getD 16) ∧ 0 ≤ a.mi.getD 64 := by
  unfold iscombedCreate at hd
  cases hf : firstError (combedChecks a) with
  | some e =>
    rw [hf] at hd
    cases hd
  | none =>
    rw [hf] at hd
    have hall := (firstError_none_iff _).1 hf
    unfold combedChecks at hall
    simp only [List.mem_cons, List.mem_singleton, List.not_mem_nil, or_false, forall_eq_or_imp,
      forall_eq, decide_eq_false_iff_not] at hall
    obtain ⟨-, hh, -, -, hct, hbx, hby, -, hmi, -⟩ := hall
    simp only [not_or, Bool.not_eq_true', Bool.not_eq_false, not_lt] at hbx hby
    refine ⟨(Except.ok.inj hd).symm, by omega, by omega, ?_, ?_, by omega⟩
    · exact (legalBlock_iff _).1 ⟨hbx.1, hbx.2.1, hbx.2.2⟩
    · exact (legalBlock_iff _).1 ⟨hby.1, hby.2.1, hby.2.2⟩

/-- For every configuration that `iscombedCreate` accepts with chroma disabled, a frame
higher than half a block whose columns are monotonic is reported as not combed, provided the
stored square of the threshold did not leave the range of `int`. -/
theorem checkCombed_monotone_not_combed (tb : Nat) (a : CombedArgs) (d : IsCombedData)
    (hd : iscombedCreate a = .ok d) (src cmask : Frame) (a0 : Nat → Int)
    (hch : d.chroma = false)
    (hw : src.width 0 = a.width.toNat) (hh : src.height 0 = a.height.toNat)
    (hcw : cmask.width 0 = src.width 0) (hchh : cmask.height 0 = src.height 0)
    (hcs : cmask.stride 0 = src.stride 0)
    (hhigh : d.yHalf < src.height 0) (htsq : 0 ≤ d.cthreshsq)
    (hrange : d.metric ≠ 0 → ∀ y x : Nat, y < src.height 0 → x < src.width 0 →
      (src.px (src.stride 0) 0 (y : Int) x : Int) ≤ 65535)
    (hmono : ∀ x, x < src.width 0 →
      (∀ r : Nat, r + 1 < src.height 0 →
        src.px (src.stride 0) 0 (r : Int) x ≤ src.px (src.stride 0) 0 ((r + 1 : Nat) : Int) x) ∨
      (∀ r : Nat, r + 1 < src.height 0 →
        src.px (src.stride 0) 0 ((r + 1 : Nat) : Int) x ≤ src.px (src.stride 0) 0 (r : Int) x)) :
    (∀ c, c < d.arraySize → checkCombedHistogram tb d src cmask a0 c = 0) ∧
    checkCombed tb d src cmask a0 = false := by
  obtain ⟨hde, h5, hct, hbx, hby, hmi⟩ := iscombedCreate_ok a d hd
  subst hde
  obtain ⟨g1, g2, g3, g4, ⟨qx, g5⟩, g6, ⟨qy, g7⟩, g8⟩ :=
    combedData_geometry a hbx hby (by rw [← hh]; exact hhigh)
  have hthr : 0 ≤ (combedData a).cthresh := by
    show 0 ≤ Int.tdiv (a.cthresh.getD 6 * ((2 : Int) ^ a.bitsPerSample - 1)) 255
    refine Int.tdiv_nonneg (mul_nonneg hct ?_) (by decide)
    have : (1 : Int) ≤ 2 ^ a.bitsPerSample := one_le_pow₀ (by decide)
    omega
  have hz : ∀ c, c < (combedData a).arraySize →
      checkCombedHistogram tb (combedData a) src cmask a0 c = 0 := by
    intro c hc
    exact checkCombedHistogram_monotone tb (combedData a) src cmask a0 c hc hch hcw hchh hcs
      (by rw [hh]; omega) g1 g2 g3 g4 qx g5 (by rw [hw]; exact g6) qy g7
      (by rw [hh]; exact g8) hthr htsq hrange hmono
  exact ⟨hz, checkCombed_of_clear tb (combedData a) src cmask a0 hmi hz⟩

/-- For every configuration that `iscombedCreate` accepts, on a frame higher than half a
block the three histogram loops produce the naive histogram of the bitmap, whatever the
bitmap and the width. -/
theorem combHistogram_naive_of_high (a : CombedArgs) (d : IsCombedData)
    (hd : iscombedCreate a = .ok d) (cm : Buf) (stride : Nat) (a0 : Nat → Int) (c : Nat)
    (hc : c < d.arraySize) (hhigh : d.yHalf < a.height.toNat) :
    combHistogram d cm a.width.toNat a.height.toNat stride a0 c
      = naiveHistogram d cm a.width.toNat a.height.toNat stride c := by
  obtain ⟨hde, h5, hct, hbx, hby, hmi⟩ := iscombedCreate_ok a d hd
  subst hde
  obtain ⟨g1, g2, g3, g4, ⟨qx, g5⟩, g6, ⟨qy, g7⟩, g8⟩ := combedData_geometry a hbx hby hhigh
  exact combHistogram_eq_naive (combedData a) cm _ _ stride a0 c hc g1 g2 g3 g4 qx g5 g6 qy g7 g8

/-- The entry that a window loop stores for the window index `i`. -/
theorem windowSources_entry (start stop numFrames i : Int) (h1 : start ≤ i) (h2 : i ≤ stop) :
    (windowSources start stop numFrames)[(i - start).toNat]?
      = some (if i < 0 ∨ i ≥ numFrames - 2 then none else some i) := by
  unfold windowSources
  have hk : (i - start).toNat < (stop - start + 1).toNat := by omega
  have e : start + (((i - start).toNat : Nat) : Int) = i := by omega
  rw [List.getElem?_map, List.getElem?_range hk]
  simp only [Option.map_some', e]

theorem buildMaskPixel_pt1 (d : TDeintModData) (tmmlutf : Nat → Nat) (cPl oPl : Int → Buf)
    (cCount oCount : Nat) (dstp : Int) (x : Nat) (st : MaskRows) :
    (buildMaskPixel d tmmlutf cPl oPl cCount oCount dstp x st).pt1 = st.pt1 := by
  unfold buildMaskPixel
  split_ifs <;> rfl

/-- The pointers of the current-polarity window stand `k` rows down when the row loop of
`buildMask` reaches its `k`-th row. -/
theorem buildMaskRows_pt1 (d : TDeintModData) (tmmlutf : Nat → Nat) (cPl oPl : Int → Buf)
    (cCount oCount field width height stride rows : Nat) (dst : Buf) (plut0 plut1 : Nat → Nat) :
    (buildMaskRows d tmmlutf cPl oPl cCount oCount field width height stride rows
        dst plut0 plut1).pt1 = (stride : Int) * (rows : Int) := by
  unfold buildMaskRows
  induction rows with
  | zero => simp [forLoop]
  | succ m ih =>
    show (forLoop (fun x (st : MaskRows) => buildMaskPixel d tmmlutf cPl oPl cCount oCount _ x st)
      width _).pt1 + (stride : Int) = _
    rw [forLoop_proj_frame (fun st : MaskRows => st.pt1) _ width _
      (fun x _ t => buildMaskPixel_pt1 d tmmlutf cPl oPl cCount oCount _ x t)]
    show MaskRows.pt1 (forLoop _ m _) + (stride : Int) = _
    rw [ih]
    push_cast
    ring

theorem buildMaskReach_pt1 (d : TDeintModData) (cSrc oSrc : Int → Frame) (dst : Frame)
    (cCount oCount order field : Nat) (plut0 plut1 junk : Nat → Nat) (p k x : Nat) :
    (buildMaskReach d cSrc oSrc dst cCount oCount order field plut0 plut1 junk p k x).pt1
      = (dst.stride p : Int) * (k : Int) := by
  unfold buildMaskReach buildMaskStateAt
  rw [forLoop_proj_frame (fun st : MaskRows => st.pt1) _ x _
    (fun x _ t => buildMaskPixel_pt1 _ _ _ _ _ _ _ x t)]
  exact buildMaskRows_pt1 _ _ _ _ _ _ _ _ _ _ _ _ _ _

/-- A pixel of a processed plane that takes the fast path of `buildMask` ends with code 60. -/
theorem buildMask_fast (d : TDeintModData) (cSrc oSrc : Int → Frame) (dst : Frame)
    (cCount oCount order field : Nat) (plut0 plut1 junk : Nat → Nat) (p k x : Nat)
    (hf : field ≤ 1) (hp : p < d.numPlanes) (hproc : d.process p = true)
    (hy : field + 2 * k < dst.height p) (hx : x < dst.width p)
    (hfast : fastPath (fun i => (cSrc i).data p) cCount
      (buildMaskReach d cSrc oSrc dst cCount oCount order field plut0 plut1 junk p k x).pt1 x) :
    (buildMask d cSrc oSrc dst cCount oCount order field plut0 plut1 junk).px
        (dst.stride p) p ((field + 2 * k : Nat) : Int) x = 60 := by
  unfold Frame.px
  rw [buildMask_data d cSrc oSrc dst cCount oCount order field plut0 plut1 junk p hp hproc]
  unfold buildMaskPlane
  rw [buildMaskRows_pixel _ _ _ _ _ _ _ _ _ _ _ _ _ _ k x hf (dst.width_le_stride p)
    (by omega) hx]
  show buildMaskCode d (tmmlutfOf d order field junk) (fun i => (cSrc i).data p)
    (fun i => (oSrc i).data p) cCount oCount x
    (buildMaskReach d cSrc oSrc dst cCount oCount order field plut0 plut1 junk p k x) = _
  unfold buildMaskCode
  rw [if_pos hfast]

/-- The test of the fast path in terms of the pixels of the window frames. -/
theorem fastPath_reach (d : TDeintModData) (cSrc oSrc : Int → Frame) (dst : Frame)
    (cCount oCount order field : Nat) (plut0 plut1 junk : Nat → Nat) (p k x : Nat) :
    fastPath (fun i => (cSrc i).data p) cCount
      (buildMaskReach d cSrc oSrc dst cCount oCount order field plut0 plut1 junk p k x).pt1 x ↔
    ((cSrc (((cCount / 2 : Nat) : Int) - 2)).px (dst.stride p) p (k : Int) x = 0 ∧
      (cSrc ((cCount / 2 : Nat) : Int)).px (dst.stride p) p (k : Int) x = 0 ∧
      (cSrc (((cCount / 2 : Nat) : Int) + 1)).px (dst.stride p) p (k : Int) x = 0) := by
  rw [buildMaskReach_pt1]
  exact Iff.rfl

/-- After `andMasks_c`, the two padding samples next to the picture mirror the samples one
column inside it, on every row of the stacked layers. -/
theorem andMasks_c_padding (tb : Nat) (d : TDeintModData) (plane stride : Nat)
    (src1 src2 dst : Buf) (y : Nat)
    (hpad : 1 ≤ d.widthPad) (hstride : planeWidth d plane + d.widthPad + 1 ≤ stride)
    (hw : 1 ≤ planeWidth d plane) (hy : y < stackedHeight d plane) :
    andMasks_c tb d plane stride src1 src2 dst
        ((d.widthPad : Int) + (stride : Int) * (y : Int) + (-1))
      = andMasks_c tb d plane stride src1 src2 dst
        ((d.widthPad : Int) + (stride : Int) * (y : Int) + 1) ∧
    andMasks_c tb d plane stride src1 src2 dst
        ((d.widthPad : Int) + (stride : Int) * (y : Int) + (planeWidth d plane : Int))
      = andMasks_c tb d plane stride src1 src2 dst
        ((d.widthPad : Int) + (stride : Int) * (y : Int) + ((planeWidth d plane : Int) - 2)) := by
  have sep : ∀ (a a2 : Nat) (c e : Int), -1 ≤ c → c ≤ (planeWidth d plane : Int) → -1 ≤ e →
      e ≤ (planeWidth d plane : Int) →
      (stride : Int) * (a : Int) + c = (stride : Int) * (a2 : Int) + e → a = a2 := by
    intro a a2 c e h1 h2 h3 h4 h
    exact (idx_inj stride a (c + 1).toNat a2 (e + 1).toNat (by omega) (by omega) (by omega)).1
  have hrow : ∀ (k : Nat), k ≠ y → ∀ (t : Buf) (c : Int), -1 ≤ c →
      c ≤ (planeWidth d plane : Int) →
      ((forLoop (fun x (acc : Buf) =>
          acc.write ((d.widthPad : Int) + (stride : Int) * (k : Int) + (x : Int))
            (castT tb ((acc ((d.widthPad : Int) + (stride : Int) * (k : Int) + (x : Int)) &&&
              (src1 ((d.widthPad : Int) + (stride : Int) * (k : Int) + (x : Int)) &&&
                src2 ((d.widthPad : Int) + (stride : Int) * (k : Int) + (x : Int))) : Nat) : Int)))
          (planeWidth d plane) t).write
            ((d.widthPad : Int) + (stride : Int) * (k : Int) + (-1))
            ((forLoop (fun x (acc : Buf) =>
              acc.write ((d.widthPad : Int) + (stride : Int) * (k : Int) + (x : Int))
                (castT tb ((acc ((d.widthPad : Int) + (stride : Int) * (k : Int) + (x : Int)) &&&
                  (src1 ((d.widthPad : Int) + (stride : Int) * (k : Int) + (x : Int)) &&&
                    src2 ((d.widthPad : Int) + (stride : Int) * (k : Int) + (x : Int))) : Nat) :
                      Int)))
              (planeWidth d plane) t)
              ((d.widthPad : Int) + (stride : Int) * (k : Int) + 1)))
        ((d.widthPad : Int) + (stride : Int) * (y : Int) + c)
        = t ((d.widthPad : Int) + (stride : Int) * (y : Int) + c) := by
    intro k hne t c h1 h2
    rw [Buf.write_other _ _ _ _ (fun e => hne (sep y k c (-1) h1 h2 (by omega) (by omega)
      (by omega)).symm)]
    refine forLoop_proj_frame
      (fun b : Buf => b ((d.widthPad : Int) + (stride : Int) * (y : Int) + c)) _ _ t ?_
    intro x hx u
    exact Buf.write_other _ _ _ _ (fun e => hne (sep y k c (x : Int) h1 h2 (by omega) (by omega)
      (by omega)).symm)
  have hbody : ∀ (k : Nat), k ≠ y → ∀ (t : Buf) (c : Int), -1 ≤ c →
      c ≤ (planeWidth d plane : Int) →
      (fun (y : Nat) (acc : Buf) =>
        let row : Int := (stride : Int) * (y : Int)
        let acc1 := forLoop (fun x (acc : Buf) =>
          acc.write ((d.widthPad : Int) + row + (x : Int))
            (castT tb ((acc ((d.widthPad : Int) + row + (x : Int)) &&&
              (src1 ((d.widthPad : Int) + row + (x : Int)) &&&
                src2 ((d.widthPad : Int) + row + (x : Int))) : Nat) : Int)))
          (planeWidth d plane) acc
        let acc2 := acc1.write ((d.widthPad : Int) + row + (-1)) (acc1 ((d.widthPad : Int) + row + 1))
        acc2.write ((d.widthPad : Int) + row + (planeWidth d plane : Int))
          (acc2 ((d.widthPad : Int) + row + ((planeWidth d plane : Int) - 2)))) k t
        ((d.widthPad : Int) + (stride : Int) * (y : Int) + c)
        = t ((d.widthPad : Int) + (stride : Int) * (y : Int) + c) := by
    intro k hne t c h1 h2
    beta_reduce
    simp only []
    rw [Buf.write_other _ _ _ _ (fun e => hne (sep y k c (planeWidth d plane : Int) h1 h2
      (by omega) (by omega) (by omega)).symm)]
    exact hrow k hne t c h1 h2
  have pair : ∀ (c e : Int), -1 ≤ c → c ≤ (planeWidth d plane : Int) → -1 ≤ e →
      e ≤ (planeWidth d plane : Int) →
      (∀ t : Buf, (fun (y : Nat) (acc : Buf) =>
        let row : Int := (stride : Int) * (y : Int)
        let acc1 := forLoop (fun x (acc : Buf) =>
          acc.write ((d.widthPad : Int) + row + (x : Int))
            (castT tb ((acc ((d.widthPad : Int) + row + (x : Int)) &&&
              (src1 ((d.widthPad : Int) + row + (x : Int)) &&&
                src2 ((d.widthPad : Int) + row + (x : Int))) : Nat) : Int)))
          (planeWidth d plane) acc
        let acc2 := acc1.write ((d.widthPad : Int) + row + (-1)) (acc1 ((d.widthPad : Int) + row + 1))
        acc2.write ((d.widthPad : Int) + row + (planeWidth d plane : Int))
          (acc2 ((d.widthPad : Int) + row + ((planeWidth d plane : Int) - 2)))) y t
          ((d.widthPad : Int) + (stride : Int) * (y : Int) + c)
        = (fun (y : Nat) (acc : Buf) =>
        let row : Int := (stride : Int) * (y : Int)
        let acc1 := forLoop (fun x (acc : Buf) =>
          acc.write ((d.widthPad : Int) + row + (x : Int))
            (castT tb ((acc ((d.widthPad : Int) + row + (x : Int)) &&&
              (src1 ((d.widthPad : Int) + row + (x : Int)) &&&
                src2 ((d.widthPad : Int) + row + (x : Int))) : Nat) : Int)))
          (planeWidth d plane) acc
        let acc2 := acc1.write ((d.widthPad : Int) + row + (-1)) (acc1 ((d.widthPad : Int) + row + 1))
        acc2.write ((d.widthPad : Int) + row + (planeWidth d plane : Int))
          (acc2 ((d.widthPad : Int) + row + ((planeWidth d plane : Int) - 2)))) y t
          ((d.widthPad : Int) + (stride : Int) * (y : Int) + e)) →
      andMasks_c tb d plane stride src1 src2 dst
          ((d.widthPad : Int) + (stride : Int) * (y : Int) + c)
        = andMasks_c tb d plane stride src1 src2 dst
          ((d.widthPad : Int) + (stride : Int) * (y : Int) + e) := by
    intro c e h1 h2 h3 h4 hrowy
    have h := forLoop_proj_at
      (fun b : Buf => (b ((d.widthPad : Int) + (stride : Int) * (y : Int) + c),
        b ((d.widthPad : Int) + (stride : Int) * (y : Int) + e)))
      (fun (y : Nat) (acc : Buf) =>
        let row : Int := (stride : Int) * (y : Int)
        let acc1 := forLoop (fun x (acc : Buf) =>
          acc.write ((d.widthPad : Int) + row + (x : Int))
            (castT tb ((acc ((d.widthPad : Int) + row + (x : Int)) &&&
              (src1 ((d.widthPad : Int) + row + (x : Int)) &&&
                src2 ((d.widthPad : Int) + row + (x : Int))) : Nat) : Int)))
          (planeWidth d plane) acc
        let acc2 := acc1.write ((d.widthPad : Int) + row + (-1)) (acc1 ((d.widthPad : Int) + row + 1))
        acc2.write ((d.widthPad : Int) + row + (planeWidth d plane : Int))
          (acc2 ((d.widthPad : Int) + row + ((planeWidth d plane : Int) - 2))))
      (stackedHeight d plane) dst y hy
      (fun k _ hne t => Prod.ext (hbody k hne t c h1 h2) (hbody k hne t e h3 h4))
    have h1 := congrArg Prod.fst h
    have h2 := congrArg Prod.snd h
    show forLoop _ (stackedHeight d plane) dst _ = forLoop _ (stackedHeight d plane) dst _
    exact h1.trans ((hrowy _).trans h2.symm)
  constructor
  · refine pair (-1) 1 (by omega) (by omega) (by omega) (by omega) ?_
    intro t
    beta_reduce
    simp only []
    by_cases h1 : planeWidth d plane = 1
    · rw [Buf.write_other _ _ _ _ (by omega), Buf.write_same,
        show (d.widthPad : Int) + (stride : Int) * (y : Int) + 1
          = (d.widthPad : Int) + (stride : Int) * (y : Int) + (planeWidth d plane : Int) by omega,
        Buf.write_same,
        show (d.widthPad : Int) + (stride : Int) * (y : Int) + ((planeWidth d plane : Int) - 2)
          = (d.widthPad : Int) + (stride : Int) * (y : Int) + (-1) by omega,
        Buf.write_same]
    · rw [Buf.write_other _ _ _ _ (by omega), Buf.write_same,
        Buf.write_other _ _ _ _ (by omega), Buf.write_other _ _ _ _ (by omega)]
  · refine pair (planeWidth d plane : Int) ((planeWidth d plane : Int) - 2) (by omega) (by omega)
      (by omega) (by omega) ?_
    intro t
    beta_reduce
    simp only []
    rw [Buf.write_same]
    exact (Buf.write_other _ _ _ _ (by omega)).symm

/-- The block copy `vs_bitblt` puts sample `(y, x)` of the source block at `(y, x)` of the
destination block. -/
theorem bitblt_pixel (dst : Buf) (dstp : Int) (dstStride : Nat) (src : Buf) (srcp : Int)
    (srcStride width height y x : Nat) (hws : width ≤ dstStride) (hy : y < height)
    (hx : x < width) :
    bitblt dst dstp dstStride src srcp srcStride width height
        (dstp + (dstStride : Int) * (y : Int) + (x : Int))
      = src (srcp + (srcStride : Int) * (y : Int) + (x : Int)) := by
  unfold bitblt
  exact pixelLoop_at (fun y x => dstp + (dstStride : Int) * (y : Int) + (x : Int)) width height
    (fun y x _ => src (srcp + (srcStride : Int) * (y : Int) + (x : Int)))
    (fun a b a2 b2 _ hb _ hb2 e => idx_inj dstStride a b a2 b2 (by omega) (by omega)
      (by beta_reduce at e; omega))
    dst y x hy hx

/-- The mirroring loop shared by the padded kernels leaves row `y` of the picture as it was and
sets the two padding samples next to it from columns 1 and `width - 2`. -/
theorem mirrorLoop_row (b : Buf) (dstp : Int) (stride width height y : Nat)
    (hw : 2 ≤ width) (hstride : width + 2 ≤ stride) (hy : y < height) :
    (∀ x, x < width →
      forLoop (fun y (acc : Buf) =>
        let row : Int := dstp + (stride : Int) * (y : Int)
        let acc1 := acc.write (row + (-1)) (acc (row + 1))
        acc1.write (row + (width : Int)) (acc1 (row + ((width : Int) - 2)))) height b
        (dstp + (stride : Int) * (y : Int) + (x : Int))
        = b (dstp + (stride : Int) * (y : Int) + (x : Int))) ∧
    forLoop (fun y (acc : Buf) =>
        let row : Int := dstp + (stride : Int) * (y : Int)
        let acc1 := acc.write (row + (-1)) (acc (row + 1))
        acc1.write (row + (width : Int)) (acc1 (row + ((width : Int) - 2)))) height b
        (dstp + (stride : Int) * (y : Int) + (-1))
      = b (dstp + (stride : Int) * (y : Int) + 1) ∧
    forLoop (fun y (acc : Buf) =>
        let row : Int := dstp + (stride : Int) * (y : Int)
        let acc1 := acc.write (row + (-1)) (acc (row + 1))
        acc1.write (row + (width : Int)) (acc1 (row + ((width : Int) - 2)))) height b
        (dstp + (stride : Int) * (y : Int) + (width : Int))
      = b (dstp + (stride : Int) * (y : Int) + ((width : Int) - 2)) := by
  have sep : ∀ (a a2 : Nat) (c e : Int), -1 ≤ c → c ≤ (width : Int) → -1 ≤ e →
      e ≤ (width : Int) →
      (stride : Int) * (a : Int) + c = (stride : Int) * (a2 : Int) + e → a = a2 := by
    intro a a2 c e h1 h2 h3 h4 h
    exact (idx_inj stride a (c + 1).toNat a2 (e + 1).toNat (by omega) (by omega) (by omega)).1
  have hbody : ∀ (k : Nat), k ≠ y → ∀ (t : Buf) (c : Int), -1 ≤ c → c ≤ (width : Int) →
      ((t.write (dstp + (stride : Int) * (k : Int) + (-1))
          (t (dstp + (stride : Int) * (k : Int) + 1))).write
        (dstp + (stride : Int) * (k : Int) + (width : Int))
        ((t.write (dstp + (stride : Int) * (k : Int) + (-1))
          (t (dstp + (stride : Int) * (k : Int) + 1)))
          (dstp + (stride : Int) * (k : Int) + ((width : Int) - 2))))
        (dstp + (stride : Int) * (y : Int) + c)
      = t (dstp + (stride : Int) * (y : Int) + c) := by
    intro k hne t c h1 h2
    rw [Buf.write_other _ _ _ _ (fun e => hne (sep y k c (width : Int) h1 h2
        (by omega) (by omega) (by omega)).symm),
      Buf.write_other _ _ _ _ (fun e => hne (sep y k c (-1) h1 h2
        (by omega) (by omega) (by omega)).symm)]
  have hat : ∀ (c : Int), -1 ≤ c → c ≤ (width : Int) →
      forLoop (fun y (acc : Buf) =>
        let row : Int := dstp + (stride : Int) * (y : Int)
        let acc1 := acc.write (row + (-1)) (acc (row + 1))
        acc1.write (row + (width : Int)) (acc1 (row + ((width : Int) - 2)))) height b
        (dstp + (stride : Int) * (y : Int) + c)
      = ((forLoop (fun y (acc : Buf) =>
            let row : Int := dstp + (stride : Int) * (y : Int)
            let acc1 := acc.write (row + (-1)) (acc (row + 1))
            acc1.write (row + (width : Int)) (acc1 (row + ((width : Int) - 2)))) y b).write
          (dstp + (stride : Int) * (y : Int) + (-1))
          (forLoop (fun y (acc : Buf) =>
            let row : Int := dstp + (stride : Int) * (y : Int)
            let acc1 := acc.write (row + (-1)) (acc (row + 1))
            acc1.write (row + (width : Int)) (acc1 (row + ((width : Int) - 2)))) y b
            (dstp + (stride : Int) * (y : Int) + 1))).write
        (dstp + (stride : Int) * (y : Int) + (width : Int))
        (((forLoop (fun y (acc : Buf) =>
            let row : Int := dstp + (stride : Int) * (y : Int)
            let acc1 := acc.write (row + (-1)) (acc (row + 1))
            acc1.write (row + (width : Int)) (acc1 (row + ((width : Int) - 2)))) y b).write
          (dstp + (stride : Int) * (y : Int) + (-1))
          (forLoop (fun y (acc : Buf) =>
            let row : Int := dstp + (stride : Int) * (y : Int)
            let acc1 := acc.write (row + (-1)) (acc (row + 1))
            acc1.write (row + (width : Int)) (acc1 (row + ((width : Int) - 2)))) y b
            (dstp + (stride : Int) * (y : Int) + 1)))
          (dstp + (stride : Int) * (y : Int) + ((width : Int) - 2)))
        (dstp + (stride : Int) * (y : Int) + c) := by
    intro c h1 h2
    exact forLoop_proj_at (fun t : Buf => t (dstp + (stride : Int) * (y : Int) + c)) _ height b
      y hy (fun k _ hne t => hbody k hne t c h1 h2)
  have hbefore : ∀ (c : Int), -1 ≤ c → c ≤ (width : Int) →
      forLoop (fun y (acc : Buf) =>
        let row : Int := dstp + (stride : Int) * (y : Int)
        let acc1 := acc.write (row + (-1)) (acc (row + 1))
        acc1.write (row + (width : Int)) (acc1 (row + ((width : Int) - 2)))) y b
        (dstp + (stride : Int) * (y : Int) + c)
      = b (dstp + (stride : Int) * (y : Int) + c) := by
    intro c h1 h2
    exact forLoop_proj_frame (fun t : Buf => t (dstp + (stride : Int) * (y : Int) + c)) _ y b
      (fun k hk t => hbody k (by omega) t c h1 h2)
  refine ⟨?_, ?_, ?_⟩
  · intro x hx
    rw [hat (x : Int) (by omega) (by omega), Buf.write_other _ _ _ _ (by omega),
      Buf.write_other _ _ _ _ (by omega), hbefore (x : Int) (by omega) (by omega)]
  · rw [hat (-1) (by omega) (by omega), Buf.write_other _ _ _ _ (by omega), Buf.write_same,
      hbefore 1 (by omega) (by omega)]
  · rw [hat (width : Int) (by omega) (by omega), Buf.write_same,
      Buf.write_other _ _ _ _ (by omega), hbefore ((width : Int) - 2) (by omega) (by omega)]

/-! ## Facts about the spatial check -/

/-- A demoted row turns into 10 exactly the samples of the row that held 60 and fail the
test. -/
theorem demoteRow_apply (width : Nat) (test : Nat → Bool) (row : Int) (dst : Buf) (j : Int) :
    demoteRow width test row dst j
      = if (row ≤ j ∧ j < row + (width : Int)) ∧ dst j = 60 ∧ test (j - row).toNat = false
        then 10 else dst j := by
  unfold demoteRow
  induction width generalizing j with
  | zero =>
    rw [if_neg (fun h => by omega)]
    rfl
  | succ m ih =>
    have hprev : forLoop (fun x (dst : Buf) =>
        if dst (row + (x : Int)) = 60 ∧ test x = false then dst.write (row + (x : Int)) 10
        else dst) m dst (row + (m : Int)) = dst (row + (m : Int)) := by
      rw [ih, if_neg (fun h => by omega)]
    show (if forLoop (fun x (dst : Buf) =>
          if dst (row + (x : Int)) = 60 ∧ test x = false then dst.write (row + (x : Int)) 10
          else dst) m dst (row + (m : Int)) = 60 ∧ test m = false then
        (forLoop (fun x (dst : Buf) =>
          if dst (row + (x : Int)) = 60 ∧ test x = false then dst.write (row + (x : Int)) 10
          else dst) m dst).write (row + (m : Int)) 10
      else forLoop (fun x (dst : Buf) =>
          if dst (row + (x : Int)) = 60 ∧ test x = false then dst.write (row + (x : Int)) 10
          else dst) m dst) j = _
    rw [hprev]
    clear hprev
    by_cases hj : j = row + (m : Int)
    · have e : (j - row).toNat = m := by omega
      by_cases ht : dst (row + (m : Int)) = 60 ∧ test m = false
      · rw [if_pos ht, hj, Buf.write_same, if_pos]
        refine ⟨by omega, ht.1, ?_⟩
        rw [show (row + (m : Int) - row).toNat = m by omega]
        exact ht.2
      · rw [if_neg ht, ih, if_neg (fun h => by omega), if_neg]
        rw [e, hj]
        exact fun h => ht h.2
    · by_cases ht : dst (row + (m : Int)) = 60 ∧ test m = false
      · rw [if_pos ht, Buf.write_other _ _ _ _ hj, ih]
        by_cases hr : (row ≤ j ∧ j < row + (m : Int)) ∧ dst j = 60 ∧ test (j - row).toNat = false
        · rw [if_pos hr, if_pos ⟨by omega, hr.2⟩]
        · rw [if_neg hr, if_neg]
          intro h
          exact hr ⟨by omega, h.2⟩
      · rw [if_neg ht, ih]
        by_cases hr : (row ≤ j ∧ j < row + (m : Int)) ∧ dst j = 60 ∧ test (j - row).toNat = false
        · rw [if_pos hr, if_pos ⟨by omega, hr.2⟩]
        · rw [if_neg hr, if_neg]
          intro h
          exact hr ⟨by omega, h.2⟩

/-- A demoted row changes a pixel only if it is the row of the pixel. -/
theorem demoteRow_row (width stride : Nat) (test : Nat → Bool) (r : Int) (dst : Buf)
    (y x : Nat) (hr : 0 ≤ r) (hx : x < width) (hws : width ≤ stride) :
    demoteRow width test ((stride : Int) * r) dst ((stride : Int) * (y : Int) + (x : Int))
      = if r = (y : Int) ∧ dst ((stride : Int) * (y : Int) + (x : Int)) = 60 ∧ test x = false
        then 10 else dst ((stride : Int) * (y : Int) + (x : Int)) := by
  rw [demoteRow_apply]
  by_cases hry : r = (y : Int)
  · subst hry
    rw [show ((stride : Int) * (y : Int) + (x : Int) - (stride : Int) * (y : Int)).toNat = x
      by omega]
    by_cases ht : dst ((stride : Int) * (y : Int) + (x : Int)) = 60 ∧ test x = false
    · rw [if_pos ⟨by omega, ht⟩, if_pos ⟨rfl, ht⟩]
    · rw [if_neg (fun h => ht h.2), if_neg (fun h => ht h.2)]
  · rw [if_neg, if_neg (fun h => hry h.1)]
    intro h
    have hr2 : r = ((r.toNat : Nat) : Int) := by omega
    rw [hr2] at h
    have := row_interval stride width y x r.toNat hx hws h.1
    omega

/-- A loop of demoted rows changes a pixel only in the iteration of its row. -/
theorem demoteRows_loop (width stride : Nat) (test : Int → Nat → Bool) (r0 : Int) (n : Nat)
    (dst : Buf) (y x : Nat) (hr : 0 ≤ r0) (hx : x < width) (hws : width ≤ stride) :
    forLoop (fun k m => demoteRow width (test (r0 + (k : Int)))
        ((stride : Int) * (r0 + (k : Int))) m) n dst ((stride : Int) * (y : Int) + (x : Int))
      = if (r0 ≤ (y : Int) ∧ (y : Int) < r0 + (n : Int)) ∧
          dst ((stride : Int) * (y : Int) + (x : Int)) = 60 ∧ test (y : Int) x = false
        then 10 else dst ((stride : Int) * (y : Int) + (x : Int)) := by
  have hbefore : ∀ (m : Nat), (∀ k, k < m → r0 + (k : Int) ≠ (y : Int)) →
      forLoop (fun k m => demoteRow width (test (r0 + (k : Int)))
        ((stride : Int) * (r0 + (k : Int))) m) m dst ((stride : Int) * (y : Int) + (x : Int))
      = dst ((stride : Int) * (y : Int) + (x : Int)) := by
    intro m hm
    refine forLoop_proj_frame
      (fun b : Buf => b ((stride : Int) * (y : Int) + (x : Int))) _ m dst ?_
    intro k hk t
    show demoteRow width _ _ t _ = _
    rw [demoteRow_row _ _ _ _ _ _ _ (by omega) hx hws, if_neg]
    intro h
    exact hm k hk h.1
  by_cases hin : r0 ≤ (y : Int) ∧ (y : Int) < r0 + (n : Int)
  · have hk : ((y : Int) - r0).toNat < n := by omega
    have e : r0 + ((((y : Int) - r0).toNat : Nat) : Int) = (y : Int) := by omega
    refine (forLoop_proj_at
      (fun b : Buf => b ((stride : Int) * (y : Int) + (x : Int))) _ n dst _ hk ?_).trans ?_
    · intro k _ hne t
      show demoteRow width _ _ t _ = _
      rw [demoteRow_row _ _ _ _ _ _ _ (by omega) hx hws, if_neg]
      intro h
      exact hne (by omega)
    · show demoteRow width _ _ _ _ = _
      rw [demoteRow_row _ _ _ _ _ _ _ (by omega) hx hws, e,
        hbefore _ (fun k hk2 => by omega)]
      by_cases ht : dst ((stride : Int) * (y : Int) + (x : Int)) = 60 ∧ test (y : Int) x = false
      · rw [if_pos ⟨rfl, ht⟩, if_pos ⟨hin, ht⟩]
      · rw [if_neg (fun h => ht h.2), if_neg (fun h => ht h.2)]
  · rw [if_neg (fun h => hin h.1)]
    exact hbefore n (fun k hk => by omega)

theorem Demoted.trans {a b c : Nat} (h1 : Demoted a b) (h2 : Demoted b c) : Demoted a c := by
  unfold Demoted at *
  omega

theorem demoteRow_demoted (width : Nat) (test : Nat → Bool) (row : Int) (dst : Buf) (j : Int) :
    Demoted (dst j) (demoteRow width test row dst j) := by
  rw [demoteRow_apply]
  unfold Demoted
  split_ifs with h
  · exact Or.inr ⟨h.2.1, rfl⟩
  · exact Or.inl rfl

theorem demoteRows_demoted (width : Nat) (test : Nat → Nat → Bool) (row : Nat → Int) (n : Nat)
    (dst : Buf) (j : Int) :
    Demoted (dst j) (forLoop (fun k m => demoteRow width (test k) (row k) m) n dst j) := by
  induction n with
  | zero => exact Or.inl rfl
  | succ m ih => exact ih.trans (demoteRow_demoted width (test m) (row m) _ j)

/-- On one plane `checkSpatial` leaves every sample as it was or turns a 60 into 10. -/
theorem checkSpatialPlane_demoted (d : TDeintModData) (width height stride : Nat)
    (src dst : Buf) (j : Int) :
    Demoted (dst j) (checkSpatialPlane d width height stride src dst j) := by
  unfold checkSpatialPlane
  split_ifs
  · exact ((((demoteRow_demoted _ _ _ _ j).trans (demoteRow_demoted _ _ _ _ j)).trans
      (demoteRows_demoted width (fun k => spatialTest0 d src stride 2 (2 + (k : Int)))
        (fun k => (stride : Int) * (2 + (k : Int))) _ _ j)).trans
      (demoteRow_demoted _ _ _ _ j)).trans (demoteRow_demoted _ _ _ _ j)
  · exact ((demoteRow_demoted _ _ _ _ j).trans
      (demoteRows_demoted width (fun k => spatialTest1 d src stride 1 (1 + (k : Int)))
        (fun k => (stride : Int) * (1 + (k : Int))) _ _ j)).trans
      (demoteRow_demoted _ _ _ _ j)

/-- The plane loop of `checkSpatial` leaves in a processed plane the result of the plane
work, and leaves the other planes alone. -/
theorem checkSpatial_data (d : TDeintModData) (src dst : Frame) (p : Nat) :
    (checkSpatial d src dst).data p
      = if p < d.numPlanes ∧ d.process p = true then
          checkSpatialPlane d (src.width p) (src.height p) (src.stride p) (src.data p)
            (dst.data p)
        else dst.data p := by
  have hother : ∀ (k : Nat), k ≠ p → ∀ (t : Frame),
      ((fun plane (acc : Frame) =>
        if d.process plane then
          { acc with
            data := Function.update acc.data plane
              (checkSpatialPlane d (src.width plane) (src.height plane) (src.stride plane)
                (src.data plane) (acc.data plane)) }
        else acc) k t).data p = t.data p := by
    intro k hne t
    by_cases hq : d.process k = true
    · simp only [hq, if_true]
      exact Function.update_noteq (Ne.symm hne) _ _
    · simp only [hq]
      rfl
  unfold checkSpatial
  by_cases hp : p < d.numPlanes
  · refine (forLoop_proj_at (fun acc : Frame => acc.data p) _ d.numPlanes dst p hp
      (fun k _ hne t => hother k hne t)).trans ?_
    have hb : (forLoop (fun plane (acc : Frame) =>
        if d.process plane then
          { acc with
            data := Function.update acc.data plane
              (checkSpatialPlane d (src.width plane) (src.height plane) (src.stride plane)
                (src.data plane) (acc.data plane)) }
        else acc) p dst).data p = dst.data p :=
      forLoop_proj_frame (fun acc : Frame => acc.data p) _ p dst
        (fun k hk t => hother k (by omega) t)
    by_cases hq : d.process p = true
    · simp only [hq, if_true, hp, and_self, Function.update_same]
      rw [hb]
    · simp only [hq, hp, and_false]
      exact hb
  · rw [if_neg (fun h => hp h.1)]
    exact forLoop_proj_frame (fun acc : Frame => acc.data p) _ d.numPlanes dst
      (fun k hk t => hother k (by omega) t)

/-- Under metric 0, a pixel of a plane of at least 5 rows is demoted exactly when it held 60
and fails the test of the stage of its row. -/
theorem checkSpatialPlane_metric0 (d : TDeintModData) (width height stride : Nat)
    (src dst : Buf) (y x : Nat) (hm : d.metric = 0) (hh : 5 ≤ height) (hws : width ≤ stride)
    (hy : y < height) (hx : x < width) :
    checkSpatialPlane d width height stride src dst ((stride : Int) * (y : Int) + (x : Int))
      = if dst ((stride : Int) * (y : Int) + (x : Int)) = 60 ∧
          spatialTest0 d src stride (rowStage0 height y) (y : Int) x = false then 10
        else dst ((stride : Int) * (y : Int) + (x : Int)) := by
  unfold checkSpatialPlane
  rw [if_pos hm]
  have hn : ((height - 4 : Nat) : Int) = (height : Int) - 4 := by omega
  rw [demoteRow_row _ _ _ _ _ _ _ (by omega) hx hws,
    demoteRow_row _ _ _ _ _ _ _ (by omega) hx hws,
    demoteRows_loop width stride (fun r => spatialTest0 d src stride 2 r) 2 (height - 4) _ y x
      (by omega) hx hws,
    demoteRow_row _ _ _ _ _ _ _ (by omega) hx hws,
    demoteRow_row _ _ _ _ _ _ _ (by omega) hx hws]
  unfold rowStage0
  by_cases h0 : y = 0
  · have f4 : ¬ (2 + ((height - 4 : Nat) : Int) + 1 = (y : Int)) := by omega
    have f3 : ¬ (2 + ((height - 4 : Nat) : Int) = (y : Int)) := by omega
    have f2 : ¬ ((2 : Int) ≤ (y : Int) ∧ (y : Int) < 2 + ((height - 4 : Nat) : Int)) := by omega
    have f1 : ¬ ((1 : Int) = (y : Int)) := by omega
    have e : (0 : Int) = (y : Int) := by omega
    simp only [f4, f3, f2, f1, false_and, if_false, if_pos h0]
    rw [← e]
    simp
  · by_cases h1 : y = 1
    · have f4 : ¬ (2 + ((height - 4 : Nat) : Int) + 1 = (y : Int)) := by omega
      have f3 : ¬ (2 + ((height - 4 : Nat) : Int) = (y : Int)) := by omega
      have f2 : ¬ ((2 : Int) ≤ (y : Int) ∧ (y : Int) < 2 + ((height - 4 : Nat) : Int)) := by
        omega
      have f0 : ¬ ((0 : Int) = (y : Int)) := by omega
      have e : (1 : Int) = (y : Int) := by omega
      simp only [f4, f3, f2, f0, false_and, if_false, if_neg h0, if_pos h1]
      rw [← e]
      simp
    · by_cases h2 : y + 2 < height
      · have f4 : ¬ (2 + ((height - 4 : Nat) : Int) + 1 = (y : Int)) := by omega
        have f3 : ¬ (2 + ((height - 4 : Nat) : Int) = (y : Int)) := by omega
        have t2 : (2 : Int) ≤ (y : Int) ∧ (y : Int) < 2 + ((height - 4 : Nat) : Int) := by
          omega
        have f1 : ¬ ((1 : Int) = (y : Int)) := by omega
        have f0 : ¬ ((0 : Int) = (y : Int)) := by omega
        simp only [f4, f3, t2, f1, f0, false_and, true_and, and_self, if_false, if_neg h0,
          if_neg h1, if_pos h2]
      · by_cases h3 : y + 2 = height
        · have f4 : ¬ (2 + ((height - 4 : Nat) : Int) + 1 = (y : Int)) := by omega
          have e : 2 + ((height - 4 : Nat) : Int) = (y : Int) := by omega
          have f2 : ¬ ((2 : Int) ≤ (y : Int) ∧ (y : Int) < 2 + ((height - 4 : Nat) : Int)) := by
            omega
          have f1 : ¬ ((1 : Int) = (y : Int)) := by omega
          have f0 : ¬ ((0 : Int) = (y : Int)) := by omega
          simp only [f4, f2, f1, f0, false_and, if_false, if_neg h0, if_neg h1, if_neg h2,
            if_pos h3]
          rw [e]
          simp
        · have e : 2 + ((height - 4 : Nat) : Int) + 1 = (y : Int) := by omega
          have f3 : ¬ (2 + ((height - 4 : Nat) : Int) = (y : Int)) := by omega
          have f2 : ¬ ((2 : Int) ≤ (y : Int) ∧ (y : Int) < 2 + ((height - 4 : Nat) : Int)) := by
            omega
          have f1 : ¬ ((1 : Int) = (y : Int)) := by omega
          have f0 : ¬ ((0 : Int) = (y : Int)) := by omega
          simp only [f3, f2, f1, f0, false_and, if_false, if_neg h0, if_neg h1, if_neg h2,
            if_neg h3]
          rw [e]
          simp

/-- Under metric 1, a pixel of a plane of at least 2 rows is demoted exactly when it held 60
and fails the test of the stage of its row. -/
theorem checkSpatialPlane_metric1 (d : TDeintModData) (width height stride : Nat)
    (src dst : Buf) (y x : Nat) (hm : d.metric ≠ 0) (hh : 2 ≤ height) (hws : width ≤ stride)
    (hy : y < height) (hx : x < width) :
    checkSpatialPlane d width height stride src dst ((stride : Int) * (y : Int) + (x : Int))
      = if dst ((stride : Int) * (y : Int) + (x : Int)) = 60 ∧
          spatialTest1 d src stride (rowStage1 height y) (y : Int) x = false then 10
        else dst ((stride : Int) * (y : Int) + (x : Int)) := by
  unfold checkSpatialPlane
  rw [if_neg hm]
  rw [demoteRow_row _ _ _ _ _ _ _ (by omega) hx hws,
    demoteRows_loop width stride (fun r => spatialTest1 d src stride 1 r) 1 (height - 2) _ y x
      (by omega) hx hws,
    demoteRow_row _ _ _ _ _ _ _ (by omega) hx hws]
  unfold rowStage1
  by_cases h0 : y = 0
  · have f2 : ¬ (1 + ((height - 2 : Nat) : Int) = (y : Int)) := by omega
    have f1 : ¬ ((1 : Int) ≤ (y : Int) ∧ (y : Int) < 1 + ((height - 2 : Nat) : Int)) := by omega
    have e : (0 : Int) = (y : Int) := by omega
    simp only [f2, f1, false_and, if_false, if_pos h0]
    rw [← e]
    simp
  · by_cases h1 : y + 1 < height
    · have f2 : ¬ (1 + ((height - 2 : Nat) : Int) = (y : Int)) := by omega
      have t1 : (1 : Int) ≤ (y : Int) ∧ (y : Int) < 1 + ((height - 2 : Nat) : Int) := by omega
      have f0 : ¬ ((0 : Int) = (y : Int)) := by omega
      simp only [f2, t1, f0, false_and, true_and, and_self, if_false, if_neg h0, if_pos h1]
    · have e : 1 + ((height - 2 : Nat) : Int) = (y : Int) := by omega
      have f1 : ¬ ((1 : Int) ≤ (y : Int) ∧ (y : Int) < 1 + ((height - 2 : Nat) : Int)) := by
        omega
      have f0 : ¬ ((0 : Int) = (y : Int)) := by omega
      simp only [f1, f0, false_and, if_false, if_neg h0, if_neg h1]
      rw [e]
      simp

theorem ite_proj {α β : Type} (c : Prop) [Decidable c] (f : α → β) (a b : α) (v : β)
    (ha : f a = v) (hb : f b = v) : f (if c then a else b) = v := by
  split_ifs
  · exact ha
  · exact hb

theorem createData_metric (a : CreateArgs) (process : Int → Bool) :
    (createData a process).metric = a.metric.getD 0 :=
  ite_proj _ TDeintModData.metric _ _ _ rfl rfl

theorem createData_athresh (a : CreateArgs) (process : Int → Bool) :
    (createData a process).athresh
      = if a.athresh.getD (-1) > -1
        then Int.tdiv (a.athresh.getD (-1) * ((2 : Int) ^ a.bitsPerSample - 1)) 255
        else a.athresh.getD (-1) :=
  ite_proj _ TDeintModData.athresh _ _ _ rfl rfl

theorem createData_athresh6 (a : CreateArgs) (process : Int → Bool)
    (hset : a.athresh.getD (-1) > -1) :
    (createData a process).athresh6 = (createData a process).athresh * 6 := by
  rw [createData_athresh, if_pos hset]
  exact ite_proj _ TDeintModData.athresh6 _ _ _
    (by show (if _ then _ else _) = _; rw [if_pos hset, if_pos hset])
    (by show (if _ then _ else _) = _; rw [if_pos hset, if_pos hset])

theorem createData_athreshsq (a : CreateArgs) (process : Int → Bool)
    (hset : a.athresh.getD (-1) > -1) :
    (createData a process).athreshsq
      = wrapInt32 ((createData a process).athresh * (createData a process).athresh) := by
  rw [createData_athresh, if_pos hset]
  exact ite_proj _ TDeintModData.athreshsq _ _ _
    (by show (if _ then _ else _) = _; rw [if_pos hset, if_pos hset])
    (by show (if _ then _ else _) = _; rw [if_pos hset, if_pos hset])

/-- The test of the rows `2 .. height - 3` under metric 0 is the test of the spec, the
threshold of the second difference being `athresh * 6`. -/
theorem spatialTest0_spec (d : TDeintModData) (src : Buf) (stride : Nat) (r : Int) (x : Nat)
    (h6 : d.athresh6 = d.athresh * 6) :
    spatialTest0 d src stride 2 r x = true ↔
      specGeneral d.athresh (rowAt src stride (r - 2) x) (rowAt src stride (r - 1) x)
        (rowAt src stride r x) (rowAt src stride (r + 1) x) (rowAt src stride (r + 2) x) := by
  unfold spatialTest0 spatialTwo spatialSecond specGeneral
  rw [if_neg (by decide), if_neg (by decide), if_pos rfl, h6, ← Int.natCast_natAbs]
  simp only [Bool.and_eq_true, Bool.or_eq_true, decide_eq_true_eq]
  omega

theorem product_fits (c p n : Int) (m : Int) (hc0 : 0 ≤ c) (hc : c ≤ m) (hp0 : 0 ≤ p)
    (hp : p ≤ m) (hn0 : 0 ≤ n) (hn : n ≤ m) :
    -(m * m) ≤ (c - p) * (c - n) ∧ (c - p) * (c - n) ≤ m * m := by
  constructor <;> nlinarith [mul_nonneg hc0 hp0, mul_nonneg hc0 hn0, mul_nonneg hp0 hn0,
    mul_nonneg (sub_nonneg.mpr hc) (sub_nonneg.mpr hp),
    mul_nonneg (sub_nonneg.mpr hc) (sub_nonneg.mpr hn),
    mul_nonneg (sub_nonneg.mpr hp) (sub_nonneg.mpr hn),
    mul_nonneg hc0 (sub_nonneg.mpr hp), mul_nonneg hc0 (sub_nonneg.mpr hn),
    mul_nonneg hp0 (sub_nonneg.mpr hc), mul_nonneg hn0 (sub_nonneg.mpr hc),
    mul_nonneg hp0 (sub_nonneg.mpr hn), mul_nonneg hn0 (sub_nonneg.mpr hp),
    mul_nonneg hc0 hc0, mul_nonneg (sub_nonneg.mpr hc) (sub_nonneg.mpr hc)]

/-- When the samples and the threshold are at most 46340, the products of metric 1 fit an
`int` and the test of the code is the test of the spec. -/
theorem spatialProduct_spec (d : TDeintModData) (c p n : Int)
    (hsq : d.athreshsq = wrapInt32 (d.athresh * d.athresh))
    (ha0 : 0 ≤ d.athresh) (ha : d.athresh ≤ 46340)
    (hc0 : 0 ≤ c) (hc : c ≤ 46340) (hp0 : 0 ≤ p) (hp : p ≤ 46340) (hn0 : 0 ≤ n)
    (hn : n ≤ 46340) :
    spatialProduct d c p n = true ↔ specSquared d.athresh p c n := by
  have h1 := product_fits c p n 46340 hc0 hc hp0 hp hn0 hn
  have h2 : d.athresh * d.athresh ≤ 46340 * 46340 := mul_le_mul ha ha ha0 (by omega)
  have h3 : 0 ≤ d.athresh * d.athresh := mul_nonneg ha0 ha0
  unfold spatialProduct specSquared
  rw [hsq, wrapInt32_of_small _ (by omega) (by omega), wrapInt32_of_small _ (by omega) (by omega),
    decide_eq_true_eq, pow_two]

/-- Under metric 1, when samples and threshold are at most 46340 (every bit depth below 16),
a code-60 pixel stays 60 exactly when the test of the spec for its row holds, and is demoted to
10 otherwise. -/
theorem checkSpatialPlane_metric1_spec (d : TDeintModData) (width height stride : Nat)
    (src dst : Buf) (y x : Nat) (hm : d.metric ≠ 0) (hh : 2 ≤ height) (hws : width ≤ stride)
    (hy : y < height) (hx : x < width)
    (hsq : d.athreshsq = wrapInt32 (d.athresh * d.athresh))
    (ha0 : 0 ≤ d.athresh) (ha : d.athresh ≤ 46340) (hsrc : ∀ i, src i ≤ 46340)
    (h60 : dst ((stride : Int) * (y : Int) + (x : Int)) = 60) :
    checkSpatialPlane d width height stride src dst ((stride : Int) * (y : Int) + (x : Int))
      = if specSquared d.athresh
          (rowAt src stride (if y = 0 then 1 else (y : Int) - 1) x) (rowAt src stride y x)
          (rowAt src stride (if y + 1 = height then (y : Int) - 1 else (y : Int) + 1) x)
        then 60 else 10 := by
  have hr : ∀ (r : Int) (x : Nat), 0 ≤ rowAt src stride r x ∧ rowAt src stride r x ≤ 46340 := by
    intro r x
    unfold rowAt
    have := hsrc ((stride : Int) * r + (x : Int))
    omega
  have key : ∀ (p n : Int),
      (if True ∧ spatialProduct d (rowAt src stride y x) (rowAt src stride p x)
          (rowAt src stride n x) = false then (10 : Nat) else 60)
        = if specSquared d.athresh (rowAt src stride p x) (rowAt src stride y x)
            (rowAt src stride n x) then 60 else 10 := by
    intro p n
    have h := spatialProduct_spec d (rowAt src stride y x) (rowAt src stride p x)
      (rowAt src stride n x) hsq ha0 ha (hr _ _).1 (hr _ _).2 (hr _ _).1 (hr _ _).2
      (hr _ _).1 (hr _ _).2
    by_cases hs : specSquared d.athresh (rowAt src stride p x) (rowAt src stride y x)
        (rowAt src stride n x)
    · rw [if_pos hs, if_neg]
      intro hc
      rw [h.mpr hs] at hc
      exact absurd hc.2 (by decide)
    · rw [if_neg hs, if_pos]
      refine ⟨trivial, ?_⟩
      cases hb : spatialProduct d (rowAt src stride y x) (rowAt src stride p x)
        (rowAt src stride n x)
      · rfl
      · exact absurd (h.mp hb) hs
  rw [checkSpatialPlane_metric1 d width height stride src dst y x hm hh hws hy hx, h60]
  unfold rowStage1 spatialTest1
  by_cases h0 : y = 0
  · have h1 : ¬ (y + 1 = height) := by omega
    simp only [if_pos h0, if_neg h1, if_true]
    rw [show ((y : Int) + 1) = 1 by omega]
    exact key 1 1
  · by_cases h1 : y + 1 < height
    · have h2 : ¬ (y + 1 = height) := by omega
      simp only [if_neg h0, if_pos h1, if_neg h2, if_false, if_true,
        show ¬ ((1 : Nat) = 0) by decide]
      exact key _ _
    · have h2 : y + 1 = height := by omega
      simp only [if_neg h0, if_neg h1, if_pos h2, if_false,
        show ¬ ((2 : Nat) = 0) by decide, show ¬ ((2 : Nat) = 1) by decide]
      exact key _ _

/-! ## Facts about the 3-row windows of the mask kernels -/

/-- A pointer that every iteration advances by `δ` stands `δ * n` further after `n`
iterations. -/
theorem forLoop_linear {σ : Type} (π : σ → Int) (body : Nat → σ → σ) (δ : Int)
    (h : ∀ k t, π (body k t) = π t + δ) (n : Nat) (s : σ) :
    π (forLoop body n s) = π s + δ * (n : Int) := by
  induction n with
  | zero => simp [forLoop]
  | succ m ih =>
    show π (body m (forLoop body m s)) = _
    rw [h, ih]
    push_cast
    ring

/-- The rotation `pp = p; p = pn; pn += (y < height - 2) ? stride : -stride`, started with
`pp = pn = base + stride` and `p = base`, keeps `p` on row `y` and `pp`, `pn` on the rows that
the spec names for the window of row `y`. -/
theorem rowRotation {σ : Type} (pp p pn : σ → Int) (body : Nat → σ → σ) (stride height : Nat)
    (base : Int) (s0 : σ) (hh : 2 ≤ height)
    (h0 : pp s0 = base + (stride : Int) ∧ p s0 = base ∧ pn s0 = base + (stride : Int))
    (hstep : ∀ y s, pp (body y s) = p s ∧ p (body y s) = pn s ∧
      pn (body y s) = pn s + (if (y : Int) < (height : Int) - 2 then (stride : Int)
        else -(stride : Int)))
    (y : Nat) (hy : y < height) :
    pp (forLoop body y s0) = base + (stride : Int) * (rowAbove y : Int) ∧
    p (forLoop body y s0) = base + (stride : Int) * (y : Int) ∧
    pn (forLoop body y s0) = base + (stride : Int) * (rowBelow height y : Int) := by
  induction y with
  | zero =>
    unfold rowAbove rowBelow
    rw [if_pos rfl, if_neg (by omega)]
    refine ⟨?_, ?_, ?_⟩
    · show pp s0 = _
      rw [h0.1]
      simp
    · show p s0 = _
      rw [h0.2.1]
      simp
    · show pn s0 = _
      rw [h0.2.2]
      simp
  | succ m ih =>
    obtain ⟨_, i2, i3⟩ := ih (by omega)
    obtain ⟨s1, s2, s3⟩ := hstep m (forLoop body m s0)
    have hb : rowBelow height m = m + 1 := by
      unfold rowBelow
      rw [if_neg (by omega)]
    have ha : rowAbove (m + 1) = m := by
      unfold rowAbove
      rw [if_neg (by omega)]
      rfl
    refine ⟨?_, ?_, ?_⟩
    · show pp (body m (forLoop body m s0)) = _
      rw [s1, i2, ha]
    · show p (body m (forLoop body m s0)) = _
      rw [s2, i3, hb]
    · show pn (body m (forLoop body m s0)) = _
      rw [s3, i3, hb]
      unfold rowBelow
      by_cases hl : m + 1 + 1 = height
      · rw [if_pos hl, if_neg (by omega)]
        have e : ((height - 2 : Nat) : Int) = (m : Int) := by omega
        rw [e]
        push_cast
        ring
      · rw [if_neg hl, if_pos (by omega)]
        push_cast
        ring

/-- Without an override, `threshMask_c` returns the destination left by its row loop. -/
theorem threshMask_c_rows (tb : Nat) (d : TDeintModData) (plane stride : Nat) (src dst : Buf)
    (hq : quarterOverride d plane ≤ -1) (hh : halfOverride d plane ≤ -1) :
    threshMask_c tb d plane stride src dst
      = (threshMaskStateAt tb d plane stride src dst (planeHeight d plane)).dst := by
  unfold quarterOverride at hq
  unfold halfOverride at hh
  unfold threshMask_c
  by_cases hp : plane = 0
  · rw [if_pos hp] at hq hh
    simp only [show ¬ (plane = 0 ∧ d.mtqL > -1 ∧ d.mthL > -1) from fun h => by omega,
      show ¬ (plane > 0 ∧ d.mtqC > -1 ∧ d.mthC > -1) from fun h => by omega,
      show ¬ (plane = 0 ∧ d.mtqL > -1) from fun h => by omega,
      show ¬ (plane = 0 ∧ d.mthL > -1) from fun h => by omega,
      show ¬ (plane > 0 ∧ d.mtqC > -1) from fun h => by omega,
      show ¬ (plane > 0 ∧ d.mthC > -1) from fun h => by omega, if_false]
    rfl
  · rw [if_neg hp] at hq hh
    simp only [show ¬ (plane = 0 ∧ d.mtqL > -1 ∧ d.mthL > -1) from fun h => by omega,
      show ¬ (plane > 0 ∧ d.mtqC > -1 ∧ d.mthC > -1) from fun h => by omega,
      show ¬ (plane = 0 ∧ d.mtqL > -1) from fun h => by omega,
      show ¬ (plane = 0 ∧ d.mthL > -1) from fun h => by omega,
      show ¬ (plane > 0 ∧ d.mtqC > -1) from fun h => by omega,
      show ¬ (plane > 0 ∧ d.mthC > -1) from fun h => by omega, if_false]
    rfl

/-- The three row pointers of `threshMask_c` when its row loop reaches row `y`. -/
theorem threshMaskStateAt_rows (tb : Nat) (d : TDeintModData) (plane stride : Nat)
    (src dst : Buf) (y : Nat) (hh : 2 ≤ planeHeight d plane) (hy : y < planeHeight d plane) :
    (threshMaskStateAt tb d plane stride src dst y).srcpp
      = (d.widthPad : Int) + (stride : Int) * (rowAbove y : Int) ∧
    (threshMaskStateAt tb d plane stride src dst y).srcp
      = (d.widthPad : Int) + (stride : Int) * (y : Int) ∧
    (threshMaskStateAt tb d plane stride src dst y).srcpn
      = (d.widthPad : Int) + (stride : Int) * (rowBelow (planeHeight d plane) y : Int) :=
  rowRotation ThreshRows.srcpp ThreshRows.srcp ThreshRows.srcpn
    (threshMaskRow tb d plane stride src) stride (planeHeight d plane) (d.widthPad : Int) _ hh
    ⟨rfl, rfl, rfl⟩ (fun _ _ => ⟨rfl, rfl, rfl⟩) y hy

/-- The three row pointers of `combineMasks_c`, its half-layer pointer and its destination
pointer when its row loop reaches row `y`. -/
theorem combineMasksStateAt_rows (tb : Nat) (d : TDeintModData)
    (width height srcStride dstStride : Nat) (src dst : Buf) (y : Nat) (hh : 2 ≤ height)
    (hy : y < height) :
    (combineMasksStateAt tb d width height srcStride dstStride src dst y).srcpp0
      = (d.widthPad : Int) + (srcStride : Int) * (rowAbove y : Int) ∧
    (combineMasksStateAt tb d width height srcStride dstStride src dst y).srcp0
      = (d.widthPad : Int) + (srcStride : Int) * (y : Int) ∧
    (combineMasksStateAt tb d width height srcStride dstStride src dst y).srcpn0
      = (d.widthPad : Int) + (srcStride : Int) * (rowBelow height y : Int) :=
  rowRotation CombineRows.srcpp0 CombineRows.srcp0 CombineRows.srcpn0
    (combineMasksRow tb d width height srcStride dstStride src) srcStride height
    (d.widthPad : Int) _ hh ⟨rfl, rfl, rfl⟩ (fun _ _ => ⟨rfl, rfl, rfl⟩) y hy

theorem combineMasksStateAt_ptrs (tb : Nat) (d : TDeintModData)
    (width height srcStride dstStride : Nat) (src dst : Buf) (y : Nat) :
    (combineMasksStateAt tb d width height srcStride dstStride src dst y).srcp1
      = (d.widthPad : Int) + (srcStride : Int) * (height : Int) + (srcStride : Int) * (y : Int) ∧
    (combineMasksStateAt tb d width height srcStride dstStride src dst y).dstp
      = (dstStride : Int) * (y : Int) := by
  constructor
  · exact forLoop_linear CombineRows.srcp1
      (combineMasksRow tb d width height srcStride dstStride src) (srcStride : Int)
      (fun _ _ => rfl) y _
  · refine (forLoop_linear CombineRows.dstp
      (combineMasksRow tb d width height srcStride dstStride src) (dstStride : Int)
      (fun _ _ => rfl) y _).trans ?_
    show (0 : Int) + _ = _
    ring

theorem foldl_accMin (l : List Nat) (m : Nat) :
    l.foldl accMin (m : Int) = ((l.foldl min m : Nat) : Int) := by
  induction l generalizing m with
  | nil => rfl
  | cons v l ih =>
    have e : accMin (m : Int) v = ((min m v : Nat) : Int) := by
      unfold accMin
      split_ifs <;> omega
    show l.foldl accMin (accMin (m : Int) v) = _
    rw [e, ih]
    rfl

theorem foldl_accMax (l : List Nat) (m : Nat) :
    l.foldl accMax (m : Int) = ((l.foldl max m : Nat) : Int) := by
  induction l generalizing m with
  | nil => rfl
  | cons v l ih =>
    have e : accMax (m : Int) v = ((max m v : Nat) : Int) := by
      unfold accMax
      split_ifs <;> omega
    show l.foldl accMax (accMax (m : Int) v) = _
    rw [e, ih]
    rfl

/-- A running minimum started at the maximum sample value is the minimum of the samples. -/
theorem foldl_accMin_peak (tb : Nat) (a : Nat) (l : List Nat) (ha : a ≤ typeMax tb) :
    (a :: l).foldl accMin (typeMax tb : Int) = ((minOf a l : Nat) : Int) := by
  have e : accMin (typeMax tb : Int) a = (a : Int) := by
    unfold accMin
    split_ifs <;> omega
  show l.foldl accMin (accMin (typeMax tb : Int) a) = _
  rw [e, foldl_accMin]
  rfl

/-- A running maximum started at 0 is the maximum of the samples. -/
theorem foldl_accMax_zero (a : Nat) (l : List Nat) :
    (a :: l).foldl accMax 0 = ((maxOf a l : Nat) : Int) := by
  have e : accMax 0 a = (a : Int) := by
    unfold accMax
    split_ifs <;> omega
  show l.foldl accMax (accMax 0 a) = _
  rw [e, foldl_accMax]
  rfl

/-- In the compensated modes the pixel body of `threshMask_c` computes the value `atmax` of
the spec, the samples being values of the sample type. -/
theorem threshAt_spec (tb : Nat) (d : TDeintModData) (plane : Nat) (pp pc pn : Int → Nat)
    (htt : d.ttype = 0 ∨ d.ttype = 1) (hpp : ∀ k, pp k ≤ typeMax tb)
    (hpc : ∀ k, pc k ≤ typeMax tb) :
    threshAt tb d plane pp pc pn
      = specAtmax d plane (decide (d.ttype = 1)) (pc 0) pp pn (pc (-1)) (pc 1) := by
  unfold threshAt specAtmax compensated
  rcases htt with h | h
  · have h1 : ¬ (d.ttype = 1) := by omega
    rw [if_pos h, decide_eq_false h1]
    simp only [Bool.false_eq_true, if_false]
    rw [foldl_accMin_peak tb _ _ (hpp _), foldl_accMin_peak tb _ _ (hpc _),
      foldl_accMax_zero, foldl_accMax_zero]
  · have h0 : ¬ (d.ttype = 0) := by omega
    rw [if_neg h0, if_pos h, decide_eq_true h]
    simp only [if_true]
    rw [foldl_accMin_peak tb _ _ (hpp _), foldl_accMin_peak tb _ _ (hpc _),
      foldl_accMax_zero, foldl_accMax_zero]

theorem minOf_le (tb : Nat) (a : Nat) (l : List Nat) (ha : a ≤ typeMax tb) :
    minOf a l ≤ typeMax tb := by
  unfold minOf
  induction l generalizing a with
  | nil => exact ha
  | cons v l ih => exact ih (min a v) (le_trans (Nat.min_le_left a v) ha)

theorem maxOf_le (tb : Nat) (a : Nat) (l : List Nat) (ha : a ≤ typeMax tb)
    (hl : ∀ v ∈ l, v ≤ typeMax tb) : maxOf a l ≤ typeMax tb := by
  unfold maxOf
  induction l generalizing a with
  | nil => exact ha
  | cons v l ih =>
    exact ih (max a v) (max_le ha (hl v (List.mem_cons_self v l)))
      (fun w hw => hl w (List.mem_cons_of_mem v hw))

/-- A rounded, shifted absolute difference of two samples is a sample value. -/
theorem shifted_diff_fits (P c m half : Int) (s : Nat) (hc0 : 0 ≤ c) (hc : c ≤ P)
    (hm0 : 0 ≤ m) (hm : m ≤ P) (hh0 : 0 ≤ half) (hh : half < 2 ^ s) :
    0 ≤ (|c - m| + half) >>> s ∧ (|c - m| + half) >>> s ≤ P := by
  have hp : (0 : Int) < 2 ^ s := pow_pos (by decide) s
  have habs : |c - m| ≤ P := abs_le.mpr ⟨by omega, by omega⟩
  have habs0 : 0 ≤ |c - m| := abs_nonneg _
  rw [Int.shiftRight_eq_div_pow]
  push_cast
  constructor
  · exact Int.ediv_nonneg (by omega) (le_of_lt hp)
  · have h1 : |c - m| + half < (P + 1) * 2 ^ s := by
      have h2 : P ≤ P * 2 ^ s := by nlinarith
      nlinarith
    have := Int.ediv_lt_of_lt_mul hp h1
    omega

/-- The value `atmax` of the compensated modes is a sample value. -/
theorem specAtmax_fits (tb : Nat) (d : TDeintModData) (plane : Nat) (wide : Bool) (c : Nat)
    (up down : Int → Nat) (left right : Nat)
    (hv : 0 ≤ d.vHalf plane ∧ d.vHalf plane < 2 ^ d.vShift plane)
    (hh : 0 ≤ d.hHalf plane ∧ d.hHalf plane < 2 ^ d.hShift plane)
    (hc : c ≤ typeMax tb) (hup : ∀ k, up k ≤ typeMax tb) (hdown : ∀ k, down k ≤ typeMax tb)
    (hl : left ≤ typeMax tb) (hr : right ≤ typeMax tb) :
    0 ≤ specAtmax d plane wide c up down left right ∧
    specAtmax d plane wide c up down left right ≤ (typeMax tb : Int) := by
  have hall : ∀ v ∈ [up 0, up 1, down (-1), down 0, down 1], v ≤ typeMax tb := by
    intro v hv
    simp only [List.mem_cons, List.mem_singleton, List.not_mem_nil, or_false] at hv
    rcases hv with h | h | h | h | h <;> rw [h]
    · exact hup _
    · exact hup _
    · exact hdown _
    · exact hdown _
    · exact hdown _
  have hone : ∀ v ∈ [down 0], v ≤ typeMax tb := by
    intro v hv
    simp only [List.mem_singleton] at hv
    rw [hv]
    exact hdown _
  have hright : ∀ v ∈ [right], v ≤ typeMax tb := by
    intro v hv
    simp only [List.mem_singleton] at hv
    rw [hv]
    exact hr
  have mk : ∀ (m : Nat) (half : Int) (s : Nat), m ≤ typeMax tb → 0 ≤ half → half < 2 ^ s →
      0 ≤ (|(c : Int) - (m : Int)| + half) >>> s ∧
      (|(c : Int) - (m : Int)| + half) >>> s ≤ (typeMax tb : Int) := by
    intro m half s hm h0 h1
    exact shifted_diff_fits (typeMax tb : Int) c m half s (by omega) (by omega) (by omega)
      (by omega) h0 h1
  unfold specAtmax
  cases wide
  · have a1 := mk (minOf (up 0) [down 0]) _ _ (minOf_le tb _ _ (hup 0)) hv.1 hv.2
    have a2 := mk (maxOf (up 0) [down 0]) _ _ (maxOf_le tb _ _ (hup 0) hone) hv.1 hv.2
    have a3 := mk (minOf left [right]) _ _ (minOf_le tb _ _ hl) hh.1 hh.2
    have a4 := mk (maxOf left [right]) _ _ (maxOf_le tb _ _ hl hright) hh.1 hh.2
    simp only [Bool.false_eq_true, if_false]
    omega
  · have a1 := mk (minOf (up (-1)) [up 0, up 1, down (-1), down 0, down 1]) _ _
      (minOf_le tb _ _ (hup (-1))) hv.1 hv.2
    have a2 := mk (maxOf (up (-1)) [up 0, up 1, down (-1), down 0, down 1]) _ _
      (maxOf_le tb _ _ (hup (-1)) hall) hv.1 hv.2
    have a3 := mk (minOf left [right]) _ _ (minOf_le tb _ _ hl) hh.1 hh.2
    have a4 := mk (maxOf left [right]) _ _ (maxOf_le tb _ _ hl hright) hh.1 hh.2
    simp only [if_true]
    omega

/-- After the row loop of `threshMask_c`, pixel `(y, x)` of the quarter layer and of the half
layer hold `(at + 2) >> 2` and `(at + 1) >> 1` for the value `at` that the pixel body computes
with the row pointers as they stand at row `y`. -/
theorem threshMask_rows_pixel (tb : Nat) (d : TDeintModData) (plane stride : Nat)
    (src dst : Buf) (y x : Nat) (hws : planeWidth d plane ≤ stride)
    (hy : y < planeHeight d plane) (hx : x < planeWidth d plane) :
    (threshMaskStateAt tb d plane stride src dst (planeHeight d plane)).dst
        ((d.widthPad : Int) + (stride : Int) * (y : Int) + (x : Int))
      = castT tb ((threshAt tb d plane
          (fun k => src ((threshMaskStateAt tb d plane stride src dst y).srcpp + (x : Int) + k))
          (fun k => src ((threshMaskStateAt tb d plane stride src dst y).srcp + (x : Int) + k))
          (fun k => src ((threshMaskStateAt tb d plane stride src dst y).srcpn + (x : Int) + k))
          + 2) >>> (2 : Nat)) ∧
    (threshMaskStateAt tb d plane stride src dst (planeHeight d plane)).dst
        ((d.widthPad : Int) + ((stride * planeHeight d plane : Nat) : Int)
          + (stride : Int) * (y : Int) + (x : Int))
      = castT tb ((threshAt tb d plane
          (fun k => src ((threshMaskStateAt tb d plane stride src dst y).srcpp + (x : Int) + k))
          (fun k => src ((threshMaskStateAt tb d plane stride src dst y).srcp + (x : Int) + k))
          (fun k => src ((threshMaskStateAt tb d plane stride src dst y).srcpn + (x : Int) + k))
          + 1) >>> (1 : Nat)) := by
  have eH : ∀ k : Nat, (stride : Int) * ((planeHeight d plane + k : Nat) : Int)
      = ((stride * planeHeight d plane : Nat) : Int) + (stride : Int) * (k : Int) := by
    intro k
    push_cast
    ring
  have qq : ∀ (k x2 : Nat), x2 < planeWidth d plane →
      (d.widthPad : Int) + (stride : Int) * (y : Int) + (x : Int)
        = (d.widthPad : Int) + (stride : Int) * (k : Int) + (x2 : Int) → y = k ∧ x = x2 :=
    fun k x2 hx2 e => idx_inj stride y x k x2 (by omega) (by omega) (by omega)
  have qh : ∀ (k x2 : Nat), x2 < planeWidth d plane → k < planeHeight d plane →
      (d.widthPad : Int) + (stride : Int) * (y : Int) + (x : Int)
        ≠ (d.widthPad : Int) + ((stride * planeHeight d plane : Nat) : Int)
          + (stride : Int) * (k : Int) + (x2 : Int) := by
    intro k x2 hx2 hk e
    have := idx_inj stride y x (planeHeight d plane + k) x2 (by omega) (by omega)
      (by rw [eH k]; omega)
    omega
  have hq : ∀ (k x2 : Nat), x2 < planeWidth d plane → k < planeHeight d plane →
      (d.widthPad : Int) + ((stride * planeHeight d plane : Nat) : Int)
          + (stride : Int) * (y : Int) + (x : Int)
        ≠ (d.widthPad : Int) + (stride : Int) * (k : Int) + (x2 : Int) := by
    intro k x2 hx2 hk e
    have := idx_inj stride (planeHeight d plane + y) x k x2 (by omega) (by omega)
      (by rw [eH y]; omega)
    omega
  have hhh : ∀ (k x2 : Nat), x2 < planeWidth d plane →
      (d.widthPad : Int) + ((stride * planeHeight d plane : Nat) : Int)
          + (stride : Int) * (y : Int) + (x : Int)
        = (d.widthPad : Int) + ((stride * planeHeight d plane : Nat) : Int)
          + (stride : Int) * (k : Int) + (x2 : Int) → y = k ∧ x = x2 :=
    fun k x2 hx2 e => idx_inj stride y x k x2 (by omega) (by omega) (by omega)
  constructor
  · unfold threshMaskStateAt
    refine (forLoop_proj_at (fun st : ThreshRows =>
      st.dst ((d.widthPad : Int) + (stride : Int) * (y : Int) + (x : Int))) _ _ _ y hy ?_).trans ?_
    · intro k hk hne t
      show (forLoop _ (planeWidth d plane) t.dst : Buf) _ = _
      refine forLoop_proj_frame (fun b : Buf =>
        b ((d.widthPad : Int) + (stride : Int) * (y : Int) + (x : Int))) _ _ t.dst ?_
      intro x2 hx2 u
      show Buf.write (Buf.write u _ _) _ _ _ = _
      rw [Buf.write_other _ _ _ _ (qh k x2 hx2 hk),
        Buf.write_other _ _ _ _ (fun e => hne (qq k x2 hx2 e).1.symm)]
    · show (forLoop _ (planeWidth d plane) _ : Buf) _ = _
      refine (forLoop_proj_at (fun b : Buf =>
        b ((d.widthPad : Int) + (stride : Int) * (y : Int) + (x : Int))) _ _ _ x hx ?_).trans ?_
      · intro x2 hx2 hne u
        show Buf.write (Buf.write u _ _) _ _ _ = _
        rw [Buf.write_other _ _ _ _ (qh y x2 hx2 hy),
          Buf.write_other _ _ _ _ (fun e => hne (qq y x2 hx2 e).2.symm)]
      · show Buf.write (Buf.write _ _ _) _ _ _ = _
        rw [Buf.write_other _ _ _ _ (qh y x hx hy), Buf.write_same]
  · unfold threshMaskStateAt
    refine (forLoop_proj_at (fun st : ThreshRows =>
      st.dst ((d.widthPad : Int) + ((stride * planeHeight d plane : Nat) : Int)
        + (stride : Int) * (y : Int) + (x : Int))) _ _ _ y hy ?_).trans ?_
    · intro k hk hne t
      show (forLoop _ (planeWidth d plane) t.dst : Buf) _ = _
      refine forLoop_proj_frame (fun b : Buf =>
        b ((d.widthPad : Int) + ((stride * planeHeight d plane : Nat) : Int)
          + (stride : Int) * (y : Int) + (x : Int))) _ _ t.dst ?_
      intro x2 hx2 u
      show Buf.write (Buf.write u _ _) _ _ _ = _
      rw [Buf.write_other _ _ _ _ (fun e => hne (hhh k x2 hx2 e).1.symm),
        Buf.write_other _ _ _ _ (hq k x2 hx2 hk)]
    · show (forLoop _ (planeWidth d plane) _ : Buf) _ = _
      refine (forLoop_proj_at (fun b : Buf =>
        b ((d.widthPad : Int) + ((stride * planeHeight d plane : Nat) : Int)
          + (stride : Int) * (y : Int) + (x : Int))) _ _ _ x hx ?_).trans ?_
      · intro x2 hx2 hne u
        show Buf.write (Buf.write u _ _) _ _ _ = _
        rw [Buf.write_other _ _ _ _ (fun e => hne (hhh y x2 hx2 e).2.symm),
          Buf.write_other _ _ _ _ (hq y x2 hx2 hy)]
      · show Buf.write (Buf.write _ _ _) _ _ _ = _
        rw [Buf.write_same]

/-- The pixel body of `threshMask_c` at pixel `(y, x)` of a plane of at least 2 rows, in the
compensated modes: the value `atmax` of the spec over the window of row `y`. -/
theorem threshAt_window (tb : Nat) (d : TDeintModData) (plane stride : Nat)
    (src dst : Buf) (y x : Nat) (htt : d.ttype = 0 ∨ d.ttype = 1) (hsrc : src.InRange tb)
    (hheight : 2 ≤ planeHeight d plane) (hy : y < planeHeight d plane) :
    threshAt tb d plane
        (fun k => src ((threshMaskStateAt tb d plane stride src dst y).srcpp + (x : Int) + k))
        (fun k => src ((threshMaskStateAt tb d plane stride src dst y).srcp + (x : Int) + k))
        (fun k => src ((threshMaskStateAt tb d plane stride src dst y).srcpn + (x : Int) + k))
      = specAtmax d plane (decide (d.ttype = 1)) (paddedAt src d.widthPad stride y (x : Int))
          (fun k => paddedAt src d.widthPad stride (rowAbove y) ((x : Int) + k))
          (fun k => paddedAt src d.widthPad stride (rowBelow (planeHeight d plane) y)
            ((x : Int) + k))
          (paddedAt src d.widthPad stride y ((x : Int) - 1))
          (paddedAt src d.widthPad stride y ((x : Int) + 1)) := by
  obtain ⟨p1, p2, p3⟩ := threshMaskStateAt_rows tb d plane stride src dst y hheight hy
  rw [p1, p2, p3, threshAt_spec tb d plane _ _ _ htt (fun _ => hsrc _) (fun _ => hsrc _)]
  unfold paddedAt
  simp only [add_zero, add_assoc, sub_eq_add_neg]

theorem foldl_countStep (l : List Nat) (acc : Int) :
    l.foldl countStep acc = acc + ((l.countP (fun v => decide (v ≠ 0)) : Nat) : Int) := by
  induction l generalizing acc with
  | nil => simp
  | cons v l ih =>
    show l.foldl countStep (countStep acc v) = _
    rw [ih]
    unfold countStep
    by_cases hv : v = 0
    · rw [if_neg (fun h => h hv), List.countP_cons_of_neg]
      simp [hv]
    · rw [if_pos hv, List.countP_cons_of_pos]
      · push_cast
        ring
      · simp [hv]

/-- The neighbour count of `combineMasks_c`, with the row pointers on the rows `up`, `y` and
`down`, is the number of set neighbours. -/
theorem combineCount_spec (src : Buf) (widthPad srcStride up y down x : Nat) :
    combineCount src ((widthPad : Int) + (srcStride : Int) * (up : Int))
        ((widthPad : Int) + (srcStride : Int) * (y : Int))
        ((widthPad : Int) + (srcStride : Int) * (down : Int)) x
      = ((neighbourCount (paddedAt src widthPad srcStride) up y down (x : Int) : Nat) : Int) := by
  unfold combineCount neighbourCount paddedAt
  rw [foldl_countStep, zero_add]

/-- After `combineMasks_c`, a pixel holds the maximum sample value if the quarter layer is
clear there, the half layer is set and at least `cstr` of the 8 neighbours in the quarter layer
are set, and the sample of the quarter layer otherwise. -/
theorem combineMasks_pixel (tb : Nat) (d : TDeintModData)
    (width height srcStride dstStride : Nat) (src dst : Buf) (y x : Nat)
    (hh : 2 ≤ height) (hws : width ≤ dstStride) (hy : y < height) (hx : x < width) :
    combineMasks_c tb d width height srcStride dstStride src dst
        ((dstStride : Int) * (y : Int) + (x : Int))
      = if paddedAt src d.widthPad srcStride y (x : Int) = 0 ∧
          halfAt src d.widthPad srcStride height y (x : Int) ≠ 0 ∧
          ((neighbourCount (paddedAt src d.widthPad srcStride) (rowAbove y) y
            (rowBelow height y) (x : Int) : Nat) : Int) ≥ d.cstr
        then typeMax tb else paddedAt src d.widthPad srcStride y (x : Int) := by
  have hblt : bitblt dst 0 dstStride src (d.widthPad : Int) srcStride width height
      ((dstStride : Int) * (y : Int) + (x : Int)) = paddedAt src d.widthPad srcStride y (x : Int) := by
    have := bitblt_pixel dst 0 dstStride src (d.widthPad : Int) srcStride width height y x
      hws hy hx
    rw [zero_add] at this
    exact this
  have key : ∀ n, n ≤ height →
      (combineMasksStateAt tb d width height srcStride dstStride src dst n).dst
          ((dstStride : Int) * (y : Int) + (x : Int))
        = if y < n then
            (if paddedAt src d.widthPad srcStride y (x : Int) = 0 ∧
              halfAt src d.widthPad srcStride height y (x : Int) ≠ 0 ∧
              ((neighbourCount (paddedAt src d.widthPad srcStride) (rowAbove y) y
                (rowBelow height y) (x : Int) : Nat) : Int) ≥ d.cstr
            then typeMax tb else paddedAt src d.widthPad srcStride y (x : Int))
          else paddedAt src d.widthPad srcStride y (x : Int) := by
    intro n
    induction n with
    | zero =>
      intro _
      rw [if_neg (by omega)]
      exact hblt
    | succ n ih =>
      intro hn
      have ihn := ih (by omega)
      obtain ⟨q1, q2⟩ :=
        combineMasksStateAt_ptrs tb d width height srcStride dstStride src dst n
      obtain ⟨r1, r2, r3⟩ :=
        combineMasksStateAt_rows tb d width height srcStride dstStride src dst n hh (by omega)
      show (forLoop (fun x (acc : Buf) =>
          if src ((combineMasksStateAt tb d width height srcStride dstStride src dst n).srcp0
                + (x : Int)) ≠ 0 ∨
              src ((combineMasksStateAt tb d width height srcStride dstStride src dst n).srcp1
                + (x : Int)) = 0 then acc
          else if combineCount src
              (combineMasksStateAt tb d width height srcStride dstStride src dst n).srcpp0
              (combineMasksStateAt tb d width height srcStride dstStride src dst n).srcp0
              (combineMasksStateAt tb d width height srcStride dstStride src dst n).srcpn0 x
              ≥ d.cstr then
            acc.write ((combineMasksStateAt tb d width height srcStride dstStride src dst n).dstp
              + (x : Int)) (typeMax tb)
          else acc) width
          (combineMasksStateAt tb d width height srcStride dstStride src dst n).dst : Buf) _ = _
      rw [q1, q2, r1, r2, r3]
      have hstep : ∀ (x2 : Nat), x2 < width → (n ≠ y ∨ x2 ≠ x) → ∀ u : Buf,
          (if src ((d.widthPad : Int) + (srcStride : Int) * (n : Int) + (x2 : Int)) ≠ 0 ∨
              src ((d.widthPad : Int) + (srcStride : Int) * (height : Int)
                + (srcStride : Int) * (n : Int) + (x2 : Int)) = 0 then u
            else if combineCount src
                ((d.widthPad : Int) + (srcStride : Int) * (rowAbove n : Int))
                ((d.widthPad : Int) + (srcStride : Int) * (n : Int))
                ((d.widthPad : Int) + (srcStride : Int) * (rowBelow height n : Int)) x2
                ≥ d.cstr then
              u.write ((dstStride : Int) * (n : Int) + (x2 : Int)) (typeMax tb)
            else u) ((dstStride : Int) * (y : Int) + (x : Int))
          = u ((dstStride : Int) * (y : Int) + (x : Int)) := by
        intro x2 hx2 hne u
        split_ifs
        · rfl
        · refine Buf.write_other _ _ _ _ ?_
          intro e
          have := idx_inj dstStride y x n x2 (by omega) (by omega) e
          omega
        · rfl
      by_cases hny : n = y
      · subst hny
        rw [if_neg (show ¬ n < n by omega)] at ihn
        rw [if_pos (show n < n + 1 by omega)]
        refine (forLoop_proj_at (fun b : Buf => b ((dstStride : Int) * (n : Int) + (x : Int)))
          _ width _ x hx (fun x2 hx2 hne u => hstep x2 hx2 (Or.inr hne) u)).trans ?_
        have hacc : forLoop (fun x (acc : Buf) =>
            if src ((d.widthPad : Int) + (srcStride : Int) * (n : Int) + (x : Int)) ≠ 0 ∨
                src ((d.widthPad : Int) + (srcStride : Int) * (height : Int)
                  + (srcStride : Int) * (n : Int) + (x : Int)) = 0 then acc
            else if combineCount src
                ((d.widthPad : Int) + (srcStride : Int) * (rowAbove n : Int))
                ((d.widthPad : Int) + (srcStride : Int) * (n : Int))
                ((d.widthPad : Int) + (srcStride : Int) * (rowBelow height n : Int)) x
                ≥ d.cstr then
              acc.write ((dstStride : Int) * (n : Int) + (x : Int)) (typeMax tb)
            else acc) x
            (combineMasksStateAt tb d width height srcStride dstStride src dst n).dst
            ((dstStride : Int) * (n : Int) + (x : Int))
          = paddedAt src d.widthPad srcStride n (x : Int) :=
          (forLoop_proj_frame (fun b : Buf => b ((dstStride : Int) * (n : Int) + (x : Int)))
            _ x _ (fun x2 hx2 u => hstep x2 (by omega) (Or.inr (by omega)) u)).trans ihn
        rw [combineCount_spec]
        unfold paddedAt halfAt at *
        split_ifs <;>
          first
          | exact hacc
          | exact Buf.write_same _ _ _
          | (exfalso; tauto)
      · refine (forLoop_proj_frame (fun b : Buf => b ((dstStride : Int) * (y : Int) + (x : Int)))
          _ width _ (fun x2 hx2 u => hstep x2 hx2 (Or.inl hny) u)).trans ?_
        rw [ihn]
        by_cases hlt : y < n
        · rw [if_pos hlt, if_pos (show y < n + 1 by omega)]
        · rw [if_neg hlt, if_neg (show ¬ y < n + 1 by omega)]
  unfold combineMasks_c
  rw [key height (Nat.le_refl _), if_pos hy]

/-! ## Facts about the lookup tables and the scan -/

theorem tmmlut16Table_temporal (k : Nat) (hk : k < 16) :
    IsTemporalCode (tmmlut16Table.getD k 0) := by
  unfold IsTemporalCode tmmlut16Table
  interval_cases k <;> simp

/-- With the tables built by `tdeintmodCreate`, the code stored by the pixel body of
`buildMask` is one of 10, 20, 30, 40, 50, 60. -/
theorem buildMaskCode_temporal (d0 : TDeintModData) (mtype : Int) (order field : Nat)
    (junk : Nat → Nat) (cPl oPl : Int → Buf) (cCount oCount x : Nat) (st : MaskRows)
    (ho : order ≤ 1) (hf : field ≤ 1) :
    IsTemporalCode (buildMaskCode (createTables d0 mtype)
      (tmmlutfOf (createTables d0 mtype) order field junk) cPl oPl cCount oCount x st) := by
  unfold buildMaskCode
  split_ifs
  · unfold IsTemporalCode
    omega
  · rw [tmmlutfOf_apply _ _ _ _ _
      (scanLoop_lt _ _ _ (fun i => gvlutOf_lt d0.length i) _ _ _ (by omega))]
    show IsTemporalCode (tmmlut16Table.getD (order * 8 + field * 4 + (vlutTable mtype).getD _ 0) 0)
    refine tmmlut16Table_temporal _ ?_
    have := vlutTable_le mtype (scanLoop (createTables d0 mtype)
      (pixelArrays (createTables d0 mtype) cPl oPl cCount oCount x st).plut0
      (pixelArrays (createTables d0 mtype) cPl oPl cCount oCount x st).plut1
      (createTables d0 mtype).length 0 0)
    omega

theorem vlutTable_length (mtype : Int) : (vlutTable mtype).length = 64 := by
  unfold vlutTable
  split_ifs <;> rfl

set_option maxRecDepth 100000 in
theorem vlut0_or_closed : ∀ v, v < 64 → ∀ w, w < 64 →
    (vlutTable 0).getD v 0 = 2 → (vlutTable 0).getD (v ||| w) 0 = 2 := by
  decide

set_option maxRecDepth 100000 in
theorem vlut1_or_closed : ∀ v, v < 64 → ∀ w, w < 64 →
    (vlutTable 1).getD v 0 = 2 → (vlutTable 1).getD (v ||| w) 0 = 2 := by
  decide

set_option maxRecDepth 100000 in
theorem vlut2_or_closed : ∀ v, v < 64 → ∀ w, w < 64 →
    (vlutTable 2).getD v 0 = 2 → (vlutTable 2).getD (v ||| w) 0 = 2 := by
  decide

/-- In each of the three tables `vlut`, an accumulator classified 2 stays classified 2 when
more bits are ORed in. -/
theorem vlutTable_or_closed (mtype : Int) (v w : Nat) (hv : v < 64) (hw : w < 64)
    (h : (vlutTable mtype).getD v 0 = 2) : (vlutTable mtype).getD (v ||| w) 0 = 2 := by
  by_cases h0 : mtype = 0
  · subst h0
    exact vlut0_or_closed v hv w hw h
  · by_cases h1 : mtype = 1
    · subst h1
      exact vlut1_or_closed v hv w hw h
    · have e : vlutTable mtype = vlutTable 2 := by
        unfold vlutTable
        rw [if_neg h0, if_neg h1]
        rfl
      rw [e] at h ⊢
      exact vlut2_or_closed v hv w hw h

/-- A step of the scan ORs into the accumulator a contribution that does not depend on it. -/
theorem scanStep_or (d : TDeintModData) (p0 p1 : Nat → Nat) (i val : Nat) :
    scanStep d p0 p1 i val = val ||| scanStep d p0 p1 i 0 := by
  unfold scanStep
  simp only []
  split_ifs <;> simp [Nat.or_assoc]

/-- The scan without the early exit ORs bits into the accumulator it starts from. -/
theorem scanAll_or (d : TDeintModData) (p0 p1 : Nat → Nat) (hg : ∀ i, d.gvlut i < 8)
    (n i val : Nat) : ∃ w, w < 64 ∧ scanAll d p0 p1 n i val = val ||| w := by
  induction n generalizing i val with
  | zero => exact ⟨0, by decide, by simp [scanAll]⟩
  | succ m ih =>
    obtain ⟨w, hw, e⟩ := ih (i + 1) (scanStep d p0 p1 i val)
    refine ⟨scanStep d p0 p1 i 0 ||| w, ?_, ?_⟩
    · have h0 : scanStep d p0 p1 i 0 < 2 ^ 6 := scanStep_lt d p0 p1 hg i 0 (by decide)
      have hw2 : w < 2 ^ 6 := hw
      exact Nat.or_lt_two_pow h0 hw2
    · show scanAll d p0 p1 m (i + 1) (scanStep d p0 p1 i val) = _
      rw [e, scanStep_or, Nat.or_assoc]

/-- When `vlut` is closed under ORing bits into an accumulator classified 2, the scan with the
early exit and the scan without it end with accumulators of the same class. -/
theorem scanLoop_class_eq_scanAll (d : TDeintModData) (p0 p1 : Nat → Nat)
    (hg : ∀ i, d.gvlut i < 8)
    (hclosed : ∀ v w, v < 64 → w < 64 → d.vlut v = 2 → d.vlut (v ||| w) = 2)
    (n i val : Nat) (hval : val < 64) :
    d.vlut (scanLoop d p0 p1 n i val) = d.vlut (scanAll d p0 p1 n i val) := by
  induction n generalizing i val with
  | zero => rfl
  | succ m ih =>
    have hs := scanStep_lt d p0 p1 hg i val hval
    unfold scanLoop
    show _ = d.vlut (scanAll d p0 p1 m (i + 1) (scanStep d p0 p1 i val))
    by_cases h2 : d.vlut (scanStep d p0 p1 i val) = 2
    · rw [if_pos h2]
      obtain ⟨w, hw, e⟩ := scanAll_or d p0 p1 hg m (i + 1) (scanStep d p0 p1 i val)
      rw [e, h2, hclosed _ w hs hw h2]
    · rw [if_neg h2]
      exact ih _ _ hs

theorem scanAll_lt (d : TDeintModData) (p0 p1 : Nat → Nat) (hg : ∀ i, d.gvlut i < 8)
    (n i val : Nat) (hval : val < 64) : scanAll d p0 p1 n i val < 64 := by
  induction n generalizing i val with
  | zero => exact hval
  | succ m ih => exact ih _ _ (scanStep_lt d p0 p1 hg i val hval)

/-- With the tables of `tdeintmodCreate`, the code of a pixel does not depend on the early
exit of the scan. -/
theorem buildMaskCode_eq_all (d0 : TDeintModData) (mtype : Int) (order field : Nat)
    (junk : Nat → Nat) (cPl oPl : Int → Buf) (cCount oCount x : Nat) (st : MaskRows) :
    buildMaskCode (createTables d0 mtype)
        (tmmlutfOf (createTables d0 mtype) order field junk) cPl oPl cCount oCount x st
      = buildMaskCodeAll (createTables d0 mtype)
        (tmmlutfOf (createTables d0 mtype) order field junk) cPl oPl cCount oCount x st := by
  have hg : ∀ i, (createTables d0 mtype).gvlut i < 8 := fun i => gvlutOf_lt d0.length i
  unfold buildMaskCode buildMaskCodeAll
  split_ifs
  · rfl
  · rw [tmmlutfOf_apply _ _ _ _ _ (scanLoop_lt _ _ _ hg _ _ _ (by omega)),
      tmmlutfOf_apply _ _ _ _ _ (scanAll_lt _ _ _ hg _ _ _ (by omega)),
      scanLoop_class_eq_scanAll _ _ _ hg
        (fun v w hv hw h => vlutTable_or_closed mtype v w hv hw h) _ _ _ (by omega)]

/-- The window sizes of `tdeintmodBuildMMGetFrame` do not depend on the frame number. -/
theorem maskWindow_counts (length order field : Nat) (n : Int) (hl : 3 ≤ length)
    (ho : order ≤ 1) (hf : field ≤ 1) :
    (maskWindow (length : Int) (order : Int) (field : Int) n).cCount
      = (windowCCount length order field : Int) ∧
    (maskWindow (length : Int) (order : Int) (field : Int) n).oCount
      = (windowOCount length order field : Int) := by
  obtain ⟨e1, e2⟩ := windowCounts_eq length order field (by omega) ho hf
  rw [e1, e2]
  have h1 := tdiv_two_of_nonneg ((length : Int) - 2) (by omega)
  have h2 := tdiv_two_of_nonneg ((length : Int) - 1) (by omega)
  unfold maskWindow
  simp only [h1, h2]
  interval_cases field <;> interval_cases order <;> simp <;> constructor <;> omega

/-- One of the inner loops of the scan looks only at the entries `i .. i + n - 1`. -/
theorem windowLoop_congr (p q : Nat → Nat) (i n : Nat)
    (h : ∀ t, t < n → p (i + t) = q (i + t)) :
    windowLoop p i 0 n = windowLoop q i 0 n := by
  have hp := windowLoop_iff p i n 0
  have hq := windowLoop_iff q i n 0
  have e : (∀ t, t < n → p (i + (0 + t)) ≠ 0) ↔ (∀ t, t < n → q (i + (0 + t)) ≠ 0) := by
    constructor
    · intro hh t ht
      have := hh t ht
      rw [Nat.zero_add] at this ⊢
      rw [← h t ht]
      exact this
    · intro hh t ht
      have := hh t ht
      rw [Nat.zero_add] at this ⊢
      rw [h t ht]
      exact this
  cases hwp : windowLoop p i 0 n <;> cases hwq : windowLoop q i 0 n
  · rfl
  · exact absurd (hp.mpr (e.mpr (hq.mp hwq))) (by rw [hwp]; decide)
  · exact absurd (hq.mpr (e.mp (hp.mp hwp))) (by rw [hwq]; decide)
  · rfl

/-- The scan looks only at the entries `0 .. 2 * length - 6` of the phase arrays. -/
theorem scanLoop_congr (d : TDeintModData) (p0 p1 q0 q1 : Nat → Nat)
    (h : ∀ m, m ≤ 2 * d.length - 6 → p0 m = q0 m ∧ p1 m = q1 m) (hl : 5 ≤ d.length)
    (n i val : Nat) (hn : i + n ≤ d.length) :
    scanLoop d p0 p1 n i val = scanLoop d q0 q1 n i val := by
  induction n generalizing i val with
  | zero => rfl
  | succ m ih =>
    have e : scanStep d p0 p1 i val = scanStep d q0 q1 i val := by
      unfold scanStep
      rw [windowLoop_congr p0 q0 i (d.length - 4) (fun t ht => (h (i + t) (by omega)).1),
        windowLoop_congr p1 q1 i (d.length - 4) (fun t ht => (h (i + t) (by omega)).2)]
    unfold scanLoop
    rw [e, ih (i + 1) _ (by omega)]

/-- The phase arrays filled for a pixel do not depend, at the entries
`0 .. 2 * length - 6`, on what the arrays held before. -/
theorem pixelArrays_overwritten (d : TDeintModData) (cPl oPl : Int → Buf)
    (cCount oCount x : Nat) (st : MaskRows) (q0 q1 : Nat → Nat) (hl : 6 ≤ d.length)
    (hcc : cCount = 2 * ((d.length - 2) / 2)) (hoc : oCount = 2 * ((d.length - 1) / 2) - 1)
    (m : Nat) (hm : m ≤ 2 * d.length - 6) :
    (pixelArrays d cPl oPl cCount oCount x st).plut0 m
      = (pixelArrays d cPl oPl cCount oCount x { st with plut0 := q0, plut1 := q1 }).plut0 m ∧
    (pixelArrays d cPl oPl cCount oCount x st).plut1 m
      = (pixelArrays d cPl oPl cCount oCount x { st with plut0 := q0, plut1 := q1 }).plut1 m := by
  unfold pixelArrays
  rw [Nat.and_one_is_mod]
  by_cases hodd : d.length % 2 ≠ 0
  · simp only [if_pos hodd]
    by_cases hpar : m % 2 = 0
    · have hj : m / 2 < oCount := by omega
      have e : m = m / 2 * 2 + 0 := by omega
      rw [e]
      have h := fun s => interleave_o cCount oCount 1 0
        (fun j => cPl (j : Int) (st.pt1 + (x : Int))) (fun j => oPl (j : Int) (st.pt0 + (x : Int)))
        (fun j => oPl (j : Int) (st.pt2 + (x : Int))) s (m / 2) hj
      exact ⟨(h _).1.trans (h _).1.symm, (h _).2.trans (h _).2.symm⟩
    · have hj : m / 2 < cCount := by omega
      have e : m = m / 2 * 2 + 1 := by omega
      rw [e]
      have h := fun s => interleave_c cCount oCount 1 0
        (fun j => cPl (j : Int) (st.pt1 + (x : Int))) (fun j => oPl (j : Int) (st.pt0 + (x : Int)))
        (fun j => oPl (j : Int) (st.pt2 + (x : Int))) s (m / 2) hj (by omega) (by omega)
        (by omega)
      exact ⟨(h _).1.trans (h _).1.symm, (h _).2.trans (h _).2.symm⟩
  · simp only [if_neg hodd]
    by_cases hpar : m % 2 = 0
    · have hj : m / 2 < cCount := by omega
      have e : m = m / 2 * 2 + 0 := by omega
      rw [e]
      have h := fun s => interleave_c cCount oCount 0 1
        (fun j => cPl (j : Int) (st.pt1 + (x : Int))) (fun j => oPl (j : Int) (st.pt0 + (x : Int)))
        (fun j => oPl (j : Int) (st.pt2 + (x : Int))) s (m / 2) hj (by omega) (by omega)
        (by omega)
      exact ⟨(h _).1.trans (h _).1.symm, (h _).2.trans (h _).2.symm⟩
    · have hj : m / 2 < oCount := by omega
      have e : m = m / 2 * 2 + 1 := by omega
      rw [e]
      have h := fun s => interleave_o cCount oCount 0 1
        (fun j => cPl (j : Int) (st.pt1 + (x : Int))) (fun j => oPl (j : Int) (st.pt0 + (x : Int)))
        (fun j => oPl (j : Int) (st.pt2 + (x : Int))) s (m / 2) hj
      exact ⟨(h _).1.trans (h _).1.symm, (h _).2.trans (h _).2.symm⟩

/-! ## Facts about `linkMask` -/

/-- The pixel loop of a row of `linkMask` stores 60 at the columns that pass the test and
leaves every other sample of both chroma planes alone. -/
theorem linkPixels_apply (test : Nat → Bool) (p : Int) (width : Nat) (st : LinkState)
    (j : Int) :
    (forLoop (fun x (st : LinkState) =>
        if test x = true then
          ({ u := st.u.write (p + (x : Int)) 0x3C, v := st.v.write (p + (x : Int)) 0x3C } :
            LinkState)
        else st) width st).u j
      = (if (p ≤ j ∧ j < p + (width : Int)) ∧ test (j - p).toNat = true then 60 else st.u j) ∧
    (forLoop (fun x (st : LinkState) =>
        if test x = true then
          ({ u := st.u.write (p + (x : Int)) 0x3C, v := st.v.write (p + (x : Int)) 0x3C } :
            LinkState)
        else st) width st).v j
      = (if (p ≤ j ∧ j < p + (width : Int)) ∧ test (j - p).toNat = true then 60 else st.v j) := by
  induction width with
  | zero =>
    rw [if_neg (fun h => by omega), if_neg (fun h => by omega)]
    exact ⟨rfl, rfl⟩
  | succ m ih =>
    obtain ⟨ihu, ihv⟩ := ih
    show (if test m = true then
        ({ u := (forLoop _ m st).u.write (p + (m : Int)) 0x3C,
           v := (forLoop _ m st).v.write (p + (m : Int)) 0x3C } : LinkState)
      else forLoop _ m st).u j = _ ∧
      (if test m = true then
        ({ u := (forLoop _ m st).u.write (p + (m : Int)) 0x3C,
           v := (forLoop _ m st).v.write (p + (m : Int)) 0x3C } : LinkState)
      else forLoop _ m st).v j = _
    by_cases hj : j = p + (m : Int)
    · have e : (j - p).toNat = m := by omega
      by_cases ht : test m = true
      · rw [if_pos ht, if_pos ⟨by omega, by rw [e]; exact ht⟩,
          if_pos ⟨by omega, by rw [e]; exact ht⟩]
        show Buf.write _ _ _ j = _ ∧ Buf.write _ _ _ j = _
        rw [hj, Buf.write_same, Buf.write_same]
        exact ⟨rfl, rfl⟩
      · have hL : ¬ ((p ≤ j ∧ j < p + (m : Int)) ∧ test (j - p).toNat = true) :=
          fun h => by omega
        have hR : ¬ ((p ≤ j ∧ j < p + ((m + 1 : Nat) : Int)) ∧ test (j - p).toNat = true) :=
          fun h => ht (by rw [← e]; exact h.2)
        rw [if_neg ht, ihu, ihv, if_neg hL, if_neg hL, if_neg hR, if_neg hR]
        exact ⟨rfl, rfl⟩
    · by_cases ht : test m = true
      · rw [if_pos ht]
        show Buf.write _ _ _ j = _ ∧ Buf.write _ _ _ j = _
        rw [Buf.write_other _ _ _ _ hj, Buf.write_other _ _ _ _ hj, ihu, ihv]
        by_cases hr : (p ≤ j ∧ j < p + (m : Int)) ∧ test (j - p).toNat = true
        · rw [if_pos hr, if_pos ⟨by omega, hr.2⟩, if_pos hr, if_pos ⟨by omega, hr.2⟩]
          exact ⟨rfl, rfl⟩
        · rw [if_neg hr, if_neg (fun h => hr ⟨by omega, h.2⟩), if_neg hr,
            if_neg (fun h => hr ⟨by omega, h.2⟩)]
          exact ⟨rfl, rfl⟩
      · rw [if_neg ht, ihu, ihv]
        by_cases hr : (p ≤ j ∧ j < p + (m : Int)) ∧ test (j - p).toNat = true
        · rw [if_pos hr, if_pos ⟨by omega, hr.2⟩, if_pos hr, if_pos ⟨by omega, hr.2⟩]
          exact ⟨rfl, rfl⟩
        · rw [if_neg hr, if_neg (fun h => hr ⟨by omega, h.2⟩), if_neg hr,
            if_neg (fun h => hr ⟨by omega, h.2⟩)]
          exact ⟨rfl, rfl⟩

/-- The offset of the chroma row of iteration `k` of `linkMask`. -/
theorem linkOffset_eq (s field k : Nat) :
    (s : Int) * (field : Int) + (s : Int) * 2 * (k : Int)
      = (s : Int) * ((field + 2 * k : Nat) : Int) := by
  push_cast
  ring

/-- The row loop of `linkMask` leaves alone every chroma sample outside the rows it visits. -/
theorem linkRows_frame (tb : Nat) (d : TDeintModData) (width strideY strideUV field : Nat)
    (y : Buf) (rows : Nat) (st : LinkState) (j : Int)
    (h : ∀ k, k < rows → ¬ ((strideUV : Int) * ((field + 2 * k : Nat) : Int) ≤ j ∧
      j < (strideUV : Int) * ((field + 2 * k : Nat) : Int) + (width : Int))) :
    (linkRows tb d width strideY strideUV field y rows st).u j = st.u j ∧
    (linkRows tb d width strideY strideUV field y rows st).v j = st.v j := by
  have key : (fun t : LinkState => (t.u j, t.v j))
      (linkRows tb d width strideY strideUV field y rows st)
      = (fun t : LinkState => (t.u j, t.v j)) st := by
    unfold linkRows
    refine forLoop_proj_frame (fun t : LinkState => (t.u j, t.v j)) _ rows st ?_
    intro k hk t
    have hp := linkPixels_apply
      (fun x => linkTest tb d y ((strideY : Int) * (linkRow d field k : Int))
        ((strideY : Int) * (linkRow d field k : Int) + (strideY : Int) * 2) x)
      ((strideUV : Int) * (field : Int) + (strideUV : Int) * 2 * (k : Int)) width t j
    have hn := h k hk
    rw [← linkOffset_eq] at hn
    rw [if_neg (fun hh => hn hh.1), if_neg (fun hh => hn hh.1)] at hp
    exact Prod.ext hp.1 hp.2
  exact ⟨congrArg Prod.fst key, congrArg Prod.snd key⟩

/-- The row loop of `linkMask` at the chroma pixel `(field + 2 * k0, x0)`: both chroma planes
hold 60 there if the test of that pixel passes, and what they held before otherwise. -/
theorem linkRows_at (tb : Nat) (d : TDeintModData) (width strideY strideUV field : Nat)
    (y : Buf) (rows : Nat) (st : LinkState) (k0 x0 : Nat) (hk : k0 < rows) (hx : x0 < width)
    (hws : width ≤ strideUV) :
    (linkRows tb d width strideY strideUV field y rows st).u
        ((strideUV : Int) * ((field + 2 * k0 : Nat) : Int) + (x0 : Int))
      = (if linkTest tb d y ((strideY : Int) * (linkRow d field k0 : Int))
          ((strideY : Int) * (linkRow d field k0 : Int) + (strideY : Int) * 2) x0 = true
        then 60 else st.u ((strideUV : Int) * ((field + 2 * k0 : Nat) : Int) + (x0 : Int))) ∧
    (linkRows tb d width strideY strideUV field y rows st).v
        ((strideUV : Int) * ((field + 2 * k0 : Nat) : Int) + (x0 : Int))
      = (if linkTest tb d y ((strideY : Int) * (linkRow d field k0 : Int))
          ((strideY : Int) * (linkRow d field k0 : Int) + (strideY : Int) * 2) x0 = true
        then 60 else st.v ((strideUV : Int) * ((field + 2 * k0 : Nat) : Int) + (x0 : Int))) := by
  have hdis : ∀ k, k ≠ k0 →
      ¬ ((strideUV : Int) * ((field + 2 * k : Nat) : Int)
          ≤ (strideUV : Int) * ((field + 2 * k0 : Nat) : Int) + (x0 : Int) ∧
        (strideUV : Int) * ((field + 2 * k0 : Nat) : Int) + (x0 : Int)
          < (strideUV : Int) * ((field + 2 * k : Nat) : Int) + (width : Int)) := by
    intro k hne hh
    have := row_interval strideUV width (field + 2 * k0) x0 (field + 2 * k) hx hws hh
    omega
  have hbefore := linkRows_frame tb d width strideY strideUV field y k0 st
    ((strideUV : Int) * ((field + 2 * k0 : Nat) : Int) + (x0 : Int))
    (fun k hk2 => hdis k (by omega))
  have key : (fun t : LinkState =>
        (t.u ((strideUV : Int) * ((field + 2 * k0 : Nat) : Int) + (x0 : Int)),
          t.v ((strideUV : Int) * ((field + 2 * k0 : Nat) : Int) + (x0 : Int))))
      (linkRows tb d width strideY strideUV field y rows st)
      = ((if linkTest tb d y ((strideY : Int) * (linkRow d field k0 : Int))
          ((strideY : Int) * (linkRow d field k0 : Int) + (strideY : Int) * 2) x0 = true
        then 60 else st.u ((strideUV : Int) * ((field + 2 * k0 : Nat) : Int) + (x0 : Int))),
        (if linkTest tb d y ((strideY : Int) * (linkRow d field k0 : Int))
          ((strideY : Int) * (linkRow d field k0 : Int) + (strideY : Int) * 2) x0 = true
        then 60 else st.v ((strideUV : Int) * ((field + 2 * k0 : Nat) : Int) + (x0 : Int)))) := by
    unfold linkRows at hbefore ⊢
    refine (forLoop_proj_at (fun t : LinkState =>
        (t.u ((strideUV : Int) * ((field + 2 * k0 : Nat) : Int) + (x0 : Int)),
          t.v ((strideUV : Int) * ((field + 2 * k0 : Nat) : Int) + (x0 : Int))))
      _ rows st k0 hk ?_).trans ?_
    · intro k _ hne t
      have hp := linkPixels_apply
        (fun x => linkTest tb d y ((strideY : Int) * (linkRow d field k : Int))
          ((strideY : Int) * (linkRow d field k : Int) + (strideY : Int) * 2) x)
        ((strideUV : Int) * (field : Int) + (strideUV : Int) * 2 * (k : Int)) width t
        ((strideUV : Int) * ((field + 2 * k0 : Nat) : Int) + (x0 : Int))
      have hn := hdis k hne
      rw [← linkOffset_eq strideUV field k] at hn
      rw [if_neg (fun hh => hn hh.1), if_neg (fun hh => hn hh.1)] at hp
      exact Prod.ext hp.1 hp.2
    · have hp := linkPixels_apply
        (fun x => linkTest tb d y ((strideY : Int) * (linkRow d field k0 : Int))
          ((strideY : Int) * (linkRow d field k0 : Int) + (strideY : Int) * 2) x)
        ((strideUV : Int) * (field : Int) + (strideUV : Int) * 2 * (k0 : Int)) width
        (forLoop (fun k (st : LinkState) =>
          forLoop (fun x (st : LinkState) =>
            if linkTest tb d y ((strideY : Int) * (linkRow d field k : Int))
                ((strideY : Int) * (linkRow d field k : Int) + (strideY : Int) * 2) x = true then
              ({ u := st.u.write ((strideUV : Int) * (field : Int)
                    + (strideUV : Int) * 2 * (k : Int) + (x : Int)) 0x3C,
                 v := st.v.write ((strideUV : Int) * (field : Int)
                    + (strideUV : Int) * 2 * (k : Int) + (x : Int)) 0x3C } : LinkState)
            else st) width st) k0 st)
        ((strideUV : Int) * ((field + 2 * k0 : Nat) : Int) + (x0 : Int))
      have e : ((strideUV : Int) * ((field + 2 * k0 : Nat) : Int) + (x0 : Int)
          - ((strideUV : Int) * (field : Int) + (strideUV : Int) * 2 * (k0 : Int))).toNat
            = x0 := by
        rw [linkOffset_eq]
        omega
      rw [e] at hp
      have hin : (strideUV : Int) * (field : Int) + (strideUV : Int) * 2 * (k0 : Int)
            ≤ (strideUV : Int) * ((field + 2 * k0 : Nat) : Int) + (x0 : Int) ∧
          (strideUV : Int) * ((field + 2 * k0 : Nat) : Int) + (x0 : Int)
            < (strideUV : Int) * (field : Int) + (strideUV : Int) * 2 * (k0 : Int)
              + (width : Int) := by
        rw [linkOffset_eq]
        omega
      by_cases ht : linkTest tb d y ((strideY : Int) * (linkRow d field k0 : Int))
          ((strideY : Int) * (linkRow d field k0 : Int) + (strideY : Int) * 2) x0 = true
      · rw [if_pos ⟨hin, ht⟩, if_pos ⟨hin, ht⟩] at hp
        rw [if_pos ht, if_pos ht]
        exact Prod.ext hp.1 hp.2
      · rw [if_neg (fun hh => ht hh.2), if_neg (fun hh => ht hh.2)] at hp
        rw [if_neg ht, if_neg ht]
        exact Prod.ext (hp.1.trans hbefore.1) (hp.2.trans hbefore.2)
  exact ⟨congrArg Prod.fst key, congrArg Prod.snd key⟩

/-- A pair of `tb`-bit samples read as one word equals the word of two 60s exactly when both
samples are 60. -/
theorem packedWord_iff (tb : Nat) (b : Buf) (p : Int) (x : Nat) (hb : b.InRange tb) :
    (tb = 8 → (packedWord 8 b p x = 0x3C3C ↔
      b (p + 2 * (x : Int)) = 60 ∧ b (p + 2 * (x : Int) + 1) = 60)) ∧
    (tb = 16 → (packedWord 16 b p x = 0x3C003C ↔
      b (p + 2 * (x : Int)) = 60 ∧ b (p + 2 * (x : Int) + 1) = 60)) := by
  have h0 := hb (p + 2 * (x : Int))
  have h1 := hb (p + 2 * (x : Int) + 1)
  unfold typeMax at h0 h1
  unfold packedWord
  constructor
  · intro e
    subst e
    norm_num at h0 h1 ⊢
    omega
  · intro e
    subst e
    norm_num at h0 h1 ⊢
    omega

/-- The test of `linkMask` on the luma row `r` is the per-sample test of the spec. -/
theorem linkTest_iff_linkSpec (tb : Nat) (d : TDeintModData) (y : Buf) (strideY r x : Nat)
    (htb : tb = 8 ∨ tb = 16) (hy : y.InRange tb) :
    linkTest tb d y ((strideY : Int) * (r : Int))
        ((strideY : Int) * (r : Int) + (strideY : Int) * 2) x = true
      ↔ linkSpec d y strideY r x := by
  have er : (strideY : Int) * ((r + 2 : Nat) : Int)
      = (strideY : Int) * (r : Int) + (strideY : Int) * 2 := by
    push_cast
    ring
  have c0 : ∀ q : Int, q + ((2 * x : Nat) : Int) = q + 2 * (x : Int) := by
    intro q
    push_cast
    rfl
  have c1 : ∀ q : Int, q + ((2 * x + 1 : Nat) : Int) = q + 2 * (x : Int) + 1 := by
    intro q
    push_cast
    ring
  have pw8 := fun p => (packedWord_iff tb y p x hy).1
  have pw16 := fun p => (packedWord_iff tb y p x hy).2
  unfold linkTest linkSpec
  simp only [er, c0, c1]
  by_cases hw : d.subSamplingW = 0
  · by_cases hh : d.subSamplingH = 0
    · simp [hw, hh]
    · simp [hw, hh]
  · rcases htb with e | e
    · have p8 := fun p => pw8 p e
      by_cases hh : d.subSamplingH = 0
      · simp [hw, hh, e, p8]
      · simp [hw, hh, e, p8]
    · have p16 := fun p => pw16 p e
      by_cases hh : d.subSamplingH = 0
      · simp [hw, hh, e, p16]
      · simp [hw, hh, e, p16]

/-- The row loop of `linkMask` visits the chroma rows `field + 2 * k` below the height. -/
theorem linkRows_count (height field k : Nat) :
    k < (height - field + 1) / 2 ↔ field + 2 * k < height := by
  omega

/-- The luma memory `exLumaRow4` holds 8-bit samples. -/
theorem exLumaRow4_inRange : ((exLinkFrame exLumaRow4).data 0).InRange 8 := by
  intro i
  show (if 16 ≤ i ∧ i ≤ 19 then 60 else 0) ≤ typeMax 8
  split_ifs <;> decide

/-! ## Facts relating the combing bitmap and the spatial check -/

/-- Under metric 0 the bitmap of a plane of any height holds, at every pixel of the plane,
the maximum sample value if the test of the stage standing on its row holds there, and 0
otherwise. -/
theorem combMaskPlane_stage0 (tb : Nat) (d : IsCombedData) (width height stride : Nat)
    (src cm : Buf) (y x : Nat) (hm : d.metric = 0) (hws : width ≤ stride)
    (hy : y < height) (hx : x < width) :
    combMaskPlane tb d width height stride stride src cm
        ((stride : Int) * (y : Int) + (x : Int))
      = if combTest0 d src stride (rowStageAt0 height y) (y : Int) x = true then typeMax tb
        else 0 := by
  unfold combMaskPlane
  rw [if_pos hm]
  rw [markRow_row _ _ _ _ _ _ _ _ (by omega) hx hws,
    markRow_row _ _ _ _ _ _ _ _ (by omega) hx hws,
    markRows_loop tb width stride (fun r => combTest0 d src stride 2 r) 2 (height - 4) _ y x
      (by omega) hx hws,
    markRow_row _ _ _ _ _ _ _ _ (by omega) hx hws,
    markRow_row _ _ _ _ _ _ _ _ (by omega) hx hws,
    memset_pixel cm stride height y x hy (by omega)]
  unfold rowStageAt0
  by_cases h0 : y = 0
  · have f4 : ¬ (2 + ((height - 4 : Nat) : Int) + 1 = (y : Int)) := by omega
    have f3 : ¬ (2 + ((height - 4 : Nat) : Int) = (y : Int)) := by omega
    have f2 : ¬ ((2 : Int) ≤ (y : Int) ∧ (y : Int) < 2 + ((height - 4 : Nat) : Int)) := by omega
    have f1 : ¬ ((1 : Int) = (y : Int)) := by omega
    have e : (0 : Int) = (y : Int) := by omega
    simp only [f4, f3, f2, f1, false_and, if_false, if_pos h0]
    rw [← e]
    simp
  · by_cases h1 : y = 1
    · have f4 : ¬ (2 + ((height - 4 : Nat) : Int) + 1 = (y : Int)) := by omega
      have f3 : ¬ (2 + ((height - 4 : Nat) : Int) = (y : Int)) := by omega
      have f2 : ¬ ((2 : Int) ≤ (y : Int) ∧ (y : Int) < 2 + ((height - 4 : Nat) : Int)) := by
        omega
      have f0 : ¬ ((0 : Int) = (y : Int)) := by omega
      have e : (1 : Int) = (y : Int) := by omega
      simp only [f4, f3, f2, f0, false_and, if_false, if_neg h0, if_pos h1]
      rw [← e]
      simp
    · by_cases h2 : y < 2 + (height - 4)
      · have f4 : ¬ (2 + ((height - 4 : Nat) : Int) + 1 = (y : Int)) := by omega
        have f3 : ¬ (2 + ((height - 4 : Nat) : Int) = (y : Int)) := by omega
        have t2 : (2 : Int) ≤ (y : Int) ∧ (y : Int) < 2 + ((height - 4 : Nat) : Int) := by
          omega
        have f1 : ¬ ((1 : Int) = (y : Int)) := by omega
        have f0 : ¬ ((0 : Int) = (y : Int)) := by omega
        simp only [f4, f3, t2, f1, f0, false_and, true_and, and_self, if_false, if_neg h0,
          if_neg h1, if_pos h2]
      · by_cases h3 : y = 2 + (height - 4)
        · have f4 : ¬ (2 + ((height - 4 : Nat) : Int) + 1 = (y : Int)) := by omega
          have e : 2 + ((height - 4 : Nat) : Int) = (y : Int) := by omega
          have f2 : ¬ ((2 : Int) ≤ (y : Int) ∧ (y : Int) < 2 + ((height - 4 : Nat) : Int)) := by
            omega
          have f1 : ¬ ((1 : Int) = (y : Int)) := by omega
          have f0 : ¬ ((0 : Int) = (y : Int)) := by omega
          simp only [f4, f2, f1, f0, false_and, if_false, if_neg h0, if_neg h1, if_neg h2,
            if_pos h3]
          rw [e]
          simp
        · have e : 2 + ((height - 4 : Nat) : Int) + 1 = (y : Int) := by omega
          have f3 : ¬ (2 + ((height - 4 : Nat) : Int) = (y : Int)) := by omega
          have f2 : ¬ ((2 : Int) ≤ (y : Int) ∧ (y : Int) < 2 + ((height - 4 : Nat) : Int)) := by
            omega
          have f1 : ¬ ((1 : Int) = (y : Int)) := by omega
          have f0 : ¬ ((0 : Int) = (y : Int)) := by omega
          simp only [f3, f2, f1, f0, false_and, if_false, if_neg h0, if_neg h1, if_neg h2,
            if_neg h3]
          rw [e]
          simp

/-- Under metric 1 the bitmap of a plane of any height holds, at every pixel of the plane,
the maximum sample value if the test of the stage standing on its row holds there, and 0
otherwise. -/
theorem combMaskPlane_stage1 (tb : Nat) (d : IsCombedData) (width height stride : Nat)
    (src cm : Buf) (y x : Nat) (hm : d.metric ≠ 0) (hws : width ≤ stride)
    (hy : y < height) (hx : x < width) :
    combMaskPlane tb d width height stride stride src cm
        ((stride : Int) * (y : Int) + (x : Int))
      = if combTest1 d src stride (rowStageAt1 height y) (y : Int) x = true then typeMax tb
        else 0 := by
  unfold combMaskPlane
  rw [if_neg hm]
  rw [markRow_row _ _ _ _ _ _ _ _ (by omega) hx hws,
    markRows_loop tb width stride (fun r => combTest1 d src stride 1 r) 1 (height - 2) _ y x
      (by omega) hx hws,
    markRow_row _ _ _ _ _ _ _ _ (by omega) hx hws,
    memset_pixel cm stride height y x hy (by omega)]
  unfold rowStageAt1
  by_cases h0 : y = 0
  · have f2 : ¬ (1 + ((height - 2 : Nat) : Int) = (y : Int)) := by omega
    have f1 : ¬ ((1 : Int) ≤ (y : Int) ∧ (y : Int) < 1 + ((height - 2 : Nat) : Int)) := by omega
    have e : (0 : Int) = (y : Int) := by omega
    simp only [f2, f1, false_and, if_false, if_pos h0]
    rw [← e]
    simp
  · by_cases h1 : y < 1 + (height - 2)
    · have f2 : ¬ (1 + ((height - 2 : Nat) : Int) = (y : Int)) := by omega
      have t1 : (1 : Int) ≤ (y : Int) ∧ (y : Int) < 1 + ((height - 2 : Nat) : Int) := by omega
      have f0 : ¬ ((0 : Int) = (y : Int)) := by omega
      simp only [f2, t1, f0, false_and, true_and, and_self, if_false, if_neg h0, if_pos h1]
    · have e : 1 + ((height - 2 : Nat) : Int) = (y : Int) := by omega
      have f1 : ¬ ((1 : Int) ≤ (y : Int) ∧ (y : Int) < 1 + ((height - 2 : Nat) : Int)) := by omega
      have f0 : ¬ ((0 : Int) = (y : Int)) := by omega
      simp only [f1, f0, false_and, if_false, if_neg h0, if_neg h1]
      rw [e]
      simp

/-- Under metric 0, a pixel of a plane of any height is demoted exactly when it held 60 and
fails the test of the stage standing on its row. -/
theorem checkSpatialPlane_stage0 (d : TDeintModData) (width height stride : Nat)
    (src dst : Buf) (y x : Nat) (hm : d.metric = 0) (hws : width ≤ stride)
    (hy : y < height) (hx : x < width) :
    checkSpatialPlane d width height stride src dst ((stride : Int) * (y : Int) + (x : Int))
      = if dst ((stride : Int) * (y : Int) + (x : Int)) = 60 ∧
          spatialTest0 d src stride (rowStageAt0 height y) (y : Int) x = false then 10
        else dst ((stride : Int) * (y : Int) + (x : Int)) := by
  unfold checkSpatialPlane
  rw [if_pos hm]
  rw [demoteRow_row _ _ _ _ _ _ _ (by omega) hx hws,
    demoteRow_row _ _ _ _ _ _ _ (by omega) hx hws,
    demoteRows_loop width stride (fun r => spatialTest0 d src stride 2 r) 2 (height - 4) _ y x
      (by omega) hx hws,
    demoteRow_row _ _ _ _ _ _ _ (by omega) hx hws,
    demoteRow_row _ _ _ _ _ _ _ (by omega) hx hws]
  unfold rowStageAt0
  by_cases h0 : y = 0
  · have f4 : ¬ (2 + ((height - 4 : Nat) : Int) + 1 = (y : Int)) := by omega
    have f3 : ¬ (2 + ((height - 4 : Nat) : Int) = (y : Int)) := by omega
    have f2 : ¬ ((2 : Int) ≤ (y : Int) ∧ (y : Int) < 2 + ((height - 4 : Nat) : Int)) := by omega
    have f1 : ¬ ((1 : Int) = (y : Int)) := by omega
    have e : (0 : Int) = (y : Int) := by omega
    simp only [f4, f3, f2, f1, false_and, if_false, if_pos h0]
    rw [← e]
    simp
  · by_cases h1 : y = 1
    · have f4 : ¬ (2 + ((height - 4 : Nat) : Int) + 1 = (y : Int)) := by omega
      have f3 : ¬ (2 + ((height - 4 : Nat) : Int) = (y : Int)) := by omega
      have f2 : ¬ ((2 : Int) ≤ (y : Int) ∧ (y : Int) < 2 + ((height - 4 : Nat) : Int)) := by
        omega
      have f0 : ¬ ((0 : Int) = (y : Int)) := by omega
      have e : (1 : Int) = (y : Int) := by omega
      simp only [f4, f3, f2, f0, false_and, if_false, if_neg h0, if_pos h1]
      rw [← e]
      simp
    · by_cases h2 : y < 2 + (height - 4)
      · have f4 : ¬ (2 + ((height - 4 : Nat) : Int) + 1 = (y : Int)) := by omega
        have f3 : ¬ (2 + ((height - 4 : Nat) : Int) = (y : Int)) := by omega
        have t2 : (2 : Int) ≤ (y : Int) ∧ (y : Int) < 2 + ((height - 4 : Nat) : Int) := by
          omega
        have f1 : ¬ ((1 : Int) = (y : Int)) := by omega
        have f0 : ¬ ((0 : Int) = (y : Int)) := by omega
        simp only [f4, f3, t2, f1, f0, false_and, true_and, and_self, if_false, if_neg h0,
          if_neg h1, if_pos h2]
      · by_cases h3 : y = 2 + (height - 4)
        · have f4 : ¬ (2 + ((height - 4 : Nat) : Int) + 1 = (y : Int)) := by omega
          have e : 2 + ((height - 4 : Nat) : Int) = (y : Int) := by omega
          have f2 : ¬ ((2 : Int) ≤ (y : Int) ∧ (y : Int) < 2 + ((height - 4 : Nat) : Int)) := by
            omega
          have f1 : ¬ ((1 : Int) = (y : Int)) := by omega
          have f0 : ¬ ((0 : Int) = (y : Int)) := by omega
          simp only [f4, f2, f1, f0, false_and, if_false, if_neg h0, if_neg h1, if_neg h2,
            if_pos h3]
          rw [e]
          simp
        · have e : 2 + ((height - 4 : Nat) : Int) + 1 = (y : Int) := by omega
          have f3 : ¬ (2 + ((height - 4 : Nat) : Int) = (y : Int)) := by omega
          have f2 : ¬ ((2 : Int) ≤ (y : Int) ∧ (y : Int) < 2 + ((height - 4 : Nat) : Int)) := by
            omega
          have f1 : ¬ ((1 : Int) = (y : Int)) := by omega
          have f0 : ¬ ((0 : Int) = (y : Int)) := by omega
          simp only [f3, f2, f1, f0, false_and, if_false, if_neg h0, if_neg h1, if_neg h2,
            if_neg h3]
          rw [e]
          simp

/-- Under metric 1, a pixel of a plane of any height is demoted exactly when it held 60 and
fails the test of the stage standing on its row. -/
theorem checkSpatialPlane_stage1 (d : TDeintModData) (width height stride : Nat)
    (src dst : Buf) (y x : Nat) (hm : d.metric ≠ 0) (hws : width ≤ stride)
    (hy : y < height) (hx : x < width) :
    checkSpatialPlane d width height stride src dst ((stride : Int) * (y : Int) + (x : Int))
      = if dst ((stride : Int) * (y : Int) + (x : Int)) = 60 ∧
          spatialTest1 d src stride (rowStageAt1 height y) (y : Int) x = false then 10
        else dst ((stride : Int) * (y : Int) + (x : Int)) := by
  unfold checkSpatialPlane
  rw [if_neg hm]
  rw [demoteRow_row _ _ _ _ _ _ _ (by omega) hx hws,
    demoteRows_loop width stride (fun r => spatialTest1 d src stride 1 r) 1 (height - 2) _ y x
      (by omega) hx hws,
    demoteRow_row _ _ _ _ _ _ _ (by omega) hx hws]
  unfold rowStageAt1
  by_cases h0 : y = 0
  · have f2 : ¬ (1 + ((height - 2 : Nat) : Int) = (y : Int)) := by omega
    have f1 : ¬ ((1 : Int) ≤ (y : Int) ∧ (y : Int) < 1 + ((height - 2 : Nat) : Int)) := by omega
    have e : (0 : Int) = (y : Int) := by omega
    simp only [f2, f1, false_and, if_false, if_pos h0]
    rw [← e]
    simp
  · by_cases h1 : y < 1 + (height - 2)
    · have f2 : ¬ (1 + ((height - 2 : Nat) : Int) = (y : Int)) := by omega
      have t1 : (1 : Int) ≤ (y : Int) ∧ (y : Int) < 1 + ((height - 2 : Nat) : Int) := by omega
      have f0 : ¬ ((0 : Int) = (y : Int)) := by omega
      simp only [f2, t1, f0, false_and, true_and, and_self, if_false, if_neg h0, if_pos h1]
    · have e : 1 + ((height - 2 : Nat) : Int) = (y : Int) := by omega
      have f1 : ¬ ((1 : Int) ≤ (y : Int) ∧ (y : Int) < 1 + ((height - 2 : Nat) : Int)) := by omega
      have f0 : ¬ ((0 : Int) = (y : Int)) := by omega
      simp only [f1, f0, false_and, if_false, if_neg h0, if_neg h1]
      rw [e]
      simp

/-- With equal thresholds the test of metric 0 of `checkCombed` is that of `checkSpatial`, in
every stage. -/
theorem combTest0_eq_spatialTest0 (dc : IsCombedData) (ds : TDeintModData)
    (h1 : dc.cthresh = ds.athresh) (h6 : dc.cthresh6 = ds.athresh6) (src : Buf)
    (stride stage : Nat) (r : Int) (x : Nat) :
    combTest0 dc src stride stage r x = spatialTest0 ds src stride stage r x := by
  unfold combTest0 spatialTest0 oneSided twoSided secondDiff spatialOne spatialTwo spatialSecond
  rw [h1, h6]

/-- With equal thresholds the test of metric 1 of `checkCombed` is that of `checkSpatial`, in
every stage. -/
theorem combTest1_eq_spatialTest1 (dc : IsCombedData) (ds : TDeintModData)
    (hsq : dc.cthreshsq = ds.athreshsq) (src : Buf) (stride stage : Nat) (r : Int) (x : Nat) :
    combTest1 dc src stride stage r x = spatialTest1 ds src stride stage r x := by
  unfold combTest1 spatialTest1 productTest spatialProduct
  rw [hsq]

/-- The thresholds that `iscombedCreate` stores for `cthresh = t` are those that
`tdeintmodCreate` stores for `athresh = t`, for a clip of the same bit depth. -/
theorem thresholds_agree (ac : CombedArgs) (a : CreateArgs) (process : Int → Bool) (t : Int)
    (ht : 0 ≤ t) (hc : ac.cthresh.getD 6 = t) (ha : a.athresh.getD (-1) = t)
    (hbits : ac.bitsPerSample = a.bitsPerSample) :
    (combedData ac).cthresh = (createData a process).athresh ∧
    (combedData ac).cthresh6 = (createData a process).athresh6 ∧
    (combedData ac).cthreshsq = (createData a process).athreshsq := by
  have hset : a.athresh.getD (-1) > -1 := by omega
  have e1 : (combedData ac).cthresh = (createData a process).athresh := by
    rw [createData_athresh, if_pos hset, ha, ← hbits, ← hc]
    rfl
  refine ⟨e1, ?_, ?_⟩
  · rw [createData_athresh6 a process hset, ← e1]
    rfl
  · rw [createData_athreshsq a process hset, ← e1]
    rfl

/-! ## Facts about `expandMask` -/

/-- The left sweep ends, having stored 60 at the columns `max 0 (x - dis) .. xt`. -/
theorem sweepLeft_spec (row x dis : Int) (n : Nat) (xt : Int) (m : Buf)
    (hn : xt + 1 ≤ (n : Int)) :
    ∃ m1, sweepLeft row x dis n xt m = some m1 ∧
      ∀ j : Int, m1 j
        = if (0 ≤ j - row ∧ x - dis ≤ j - row) ∧ j - row ≤ xt then 60 else m j := by
  induction n generalizing xt m with
  | zero =>
    refine ⟨m, ?_, ?_⟩
    · unfold sweepLeft
      rw [if_neg (fun h => by omega)]
    · intro j
      rw [if_neg (fun h => by omega)]
  | succ k ih =>
    unfold sweepLeft
    by_cases h : xt ≥ 0 ∧ xt ≥ x - dis
    · rw [if_pos h]
      obtain ⟨m1, e, hs⟩ := ih (xt - 1) (m.write (row + xt) 60) (by omega)
      refine ⟨m1, e, ?_⟩
      intro j
      rw [hs j]
      unfold Buf.write
      by_cases hj : j = row + xt
      · rw [if_pos hj, if_pos (show (0 ≤ j - row ∧ x - dis ≤ j - row) ∧ j - row ≤ xt by omega)]
        split_ifs <;> rfl
      · rw [if_neg hj]
        by_cases hc : (0 ≤ j - row ∧ x - dis ≤ j - row) ∧ j - row ≤ xt - 1
        · rw [if_pos hc, if_pos (show (0 ≤ j - row ∧ x - dis ≤ j - row) ∧ j - row ≤ xt by omega)]
        · rw [if_neg hc,
            if_neg (show ¬ ((0 ≤ j - row ∧ x - dis ≤ j - row) ∧ j - row ≤ xt) by omega)]
    · rw [if_neg h]
      refine ⟨m, rfl, ?_⟩
      intro j
      rw [if_neg (fun hh => by omega)]

/-- The right sweep ends with some `nc` in `xt .. x + dis + 1`, having stored 60 at the columns
`xt .. nc - 1` of the picture, none of which held 60; and either `nc = x + dis + 1` or the
sample at column `nc` is 60. -/
theorem sweepRight_spec (row : Int) (width : Nat) (x dis : Int) (n : Nat) (xt : Int) (m : Buf)
    (hn : (width : Int) - xt ≤ (n : Int)) (hxt : xt ≤ x + dis + 1) :
    ∃ m2 nc, sweepRight row width x dis n xt m = some (m2, nc) ∧ xt ≤ nc ∧ nc ≤ x + dis + 1 ∧
      (∀ j : Int, m2 j
        = if (xt ≤ j - row ∧ j - row < nc) ∧ j - row < (width : Int) then 60 else m j) ∧
      (∀ t : Int, xt ≤ t → t < nc → t < (width : Int) → m (row + t) ≠ 60) ∧
      (nc = x + dis + 1 ∨ (nc < (width : Int) ∧ m (row + nc) = 60)) := by
  induction n generalizing xt m with
  | zero =>
    refine ⟨m, x + dis + 1, ?_, hxt, le_refl _, ?_, ?_, Or.inl rfl⟩
    · unfold sweepRight
      rw [if_neg (fun h => by omega)]
    · intro j
      rw [if_neg (fun h => by omega)]
    · intro t h1 h2 h3
      omega
  | succ k ih =>
    unfold sweepRight
    by_cases h : xt < (width : Int) ∧ xt ≤ x + dis
    · rw [if_pos h]
      by_cases h60 : m (row + xt) = 60
      · rw [if_pos h60]
        refine ⟨m, xt, rfl, le_refl _, by omega, ?_, ?_, Or.inr ⟨h.1, h60⟩⟩
        · intro j
          rw [if_neg (fun hh => by omega)]
        · intro t h1 h2 h3
          omega
      · rw [if_neg h60]
        obtain ⟨m2, nc, e, hle, hub, hs, hno, hend⟩ :=
          ih (xt + 1) (m.write (row + xt) 60) (by omega) (by omega)
        refine ⟨m2, nc, e, by omega, hub, ?_, ?_, ?_⟩
        · intro j
          rw [hs j]
          unfold Buf.write
          by_cases hj : j = row + xt
          · rw [if_pos hj, if_pos (show (xt ≤ j - row ∧ j - row < nc) ∧ j - row < (width : Int)
              by omega)]
            split_ifs <;> rfl
          · rw [if_neg hj]
            by_cases hc : (xt + 1 ≤ j - row ∧ j - row < nc) ∧ j - row < (width : Int)
            · rw [if_pos hc, if_pos (show (xt ≤ j - row ∧ j - row < nc) ∧ j - row < (width : Int)
                by omega)]
            · rw [if_neg hc, if_neg (show ¬ ((xt ≤ j - row ∧ j - row < nc) ∧
                j - row < (width : Int)) by omega)]
        · intro t h1 h2 h3
          by_cases ht : t = xt
          · rw [ht]
            exact h60
          · have := hno t (by omega) h2 h3
            rw [Buf.write_other _ _ _ _ (by omega)] at this
            exact this
        · rcases hend with hh | ⟨hh, hh2⟩
          · exact Or.inl hh
          · rw [Buf.write_other _ _ _ _ (by omega)] at hh2
            exact Or.inr ⟨hh, hh2⟩
    · rw [if_neg h]
      refine ⟨m, x + dis + 1, rfl, hxt, le_refl _, ?_, ?_, Or.inl rfl⟩
      · intro j
        rw [if_neg (fun hh => by omega)]
      · intro t h1 h2 h3
        omega

/-- The invariant of the pixel loop holds on entry. -/
theorem scanInv_init (m0 : Buf) (row : Int) (width : Nat) (dis : Int) :
    ScanInv m0 row width dis 0 m0 :=
  ⟨fun _ _ => rfl, fun _ _ _ => rfl, fun t h0 h1 _ => absurd h1 (by omega),
    fun x0 h0 h1 _ _ => absurd h1 (by omega)⟩

/-- The invariant of the pixel loop survives a column that does not hold 60. -/
theorem scanInv_step (m0 m : Buf) (row : Int) (width : Nat) (dis x : Int)
    (hxw : x < (width : Int)) (hne : m (row + x) ≠ 60)
    (hinv : ScanInv m0 row width dis x m) : ScanInv m0 row width dis (x + 1) m := by
  obtain ⟨i1, i2, i3, i4⟩ := hinv
  have horig : m0 (row + x) ≠ 60 := by
    rw [← i2 x (le_refl _) hxw]
    exact hne
  refine ⟨i1, fun t ht htw => i2 t (by omega) htw, ?_, ?_⟩
  · intro t ht0 htx htw
    by_cases c : t < x
    · obtain ⟨a, b⟩ := i3 t ht0 c htw
      refine ⟨⟨?_, ?_⟩, b⟩
      · intro h
        obtain ⟨x0, hx, h60, hd⟩ := a.mp h
        exact ⟨x0, ⟨hx.1, by omega, hx.2.2⟩, h60, hd⟩
      · rintro ⟨x0, hx, h60, hd⟩
        refine a.mpr ⟨x0, ⟨hx.1, ?_, hx.2.2⟩, h60, hd⟩
        by_contra hge
        have e : x0 = x := by omega
        rw [e] at h60
        exact horig h60
    · have e : t = x := by omega
      rw [e]
      refine ⟨⟨fun h => absurd h hne, ?_⟩, fun _ => i2 x (le_refl _) hxw⟩
      rintro ⟨x0, hx, h60, hd⟩
      exfalso
      by_cases c2 : x0 = x
      · rw [c2] at h60
        exact horig h60
      · rcases i4 x0 hx.1 (by omega) hx.2.2 h60 with h | h
        · omega
        · exact horig h.2
  · intro x0 h0 h1 hw h60
    by_cases c2 : x0 = x
    · rw [c2] at h60
      exact absurd h60 horig
    · rcases i4 x0 h0 (by omega) hw h60 with h | h
      · left
        omega
      · exact absurd h.2 horig

/-- The invariant of the pixel loop survives a column that holds 60 and the two sweeps made
from it; the loop continues at `nc`. -/
theorem scanInv_step60 (m0 m m1 m2 : Buf) (row : Int) (width : Nat) (dis x nc : Int)
    (hx0 : 0 ≤ x) (hxw : x < (width : Int)) (h60 : m (row + x) = 60)
    (hinv : ScanInv m0 row width dis x m)
    (h1 : ∀ j : Int, m1 j
      = if (0 ≤ j - row ∧ x - dis ≤ j - row) ∧ j - row ≤ x - 1 then 60 else m j)
    (hnc1 : x + 1 ≤ nc) (hnc2 : nc ≤ x + dis + 1)
    (h2 : ∀ j : Int, m2 j
      = if (x + 1 ≤ j - row ∧ j - row < nc) ∧ j - row < (width : Int) then 60 else m1 j)
    (hno : ∀ t : Int, x + 1 ≤ t → t < nc → t < (width : Int) → m1 (row + t) ≠ 60)
    (hend : nc = x + dis + 1 ∨ (nc < (width : Int) ∧ m1 (row + nc) = 60)) :
    ScanInv m0 row width dis nc m2 := by
  obtain ⟨i1, i2, i3, i4⟩ := hinv
  have hm1 : ∀ t : Int, x ≤ t → m1 (row + t) = m (row + t) := by
    intro t ht
    rw [h1, if_neg (fun hh => by omega)]
  have horig : m0 (row + x) = 60 := by
    rw [← i2 x (le_refl _) hxw]
    exact h60
  have hno0 : ∀ t : Int, x + 1 ≤ t → t < nc → t < (width : Int) → m0 (row + t) ≠ 60 := by
    intro t a b c
    rw [← i2 t (by omega) c, ← hm1 t (by omega)]
    exact hno t a b c
  have hend0 : nc = x + dis + 1 ∨ (nc < (width : Int) ∧ m0 (row + nc) = 60) := by
    rcases hend with h | ⟨h, h3⟩
    · exact Or.inl h
    · refine Or.inr ⟨h, ?_⟩
      rw [← i2 nc (by omega) h, ← hm1 nc (by omega)]
      exact h3
  refine ⟨?_, ?_, ?_, ?_⟩
  · intro j hj
    rw [h2, if_neg (fun hh => by omega), h1, if_neg (fun hh => by omega)]
    exact i1 j hj
  · intro t ht htw
    rw [h2, if_neg (fun hh => by omega), hm1 t (by omega)]
    exact i2 t (by omega) htw
  · intro t ht0 htn htw
    by_cases c1 : t < x - dis
    · have e : m2 (row + t) = m (row + t) := by
        rw [h2, if_neg (fun hh => by omega), h1, if_neg (fun hh => by omega)]
      obtain ⟨a, b⟩ := i3 t ht0 (by omega) htw
      rw [e]
      refine ⟨⟨?_, ?_⟩, b⟩
      · intro h
        obtain ⟨x0, hx, hx60, hd⟩ := a.mp h
        exact ⟨x0, ⟨hx.1, by omega, hx.2.2⟩, hx60, hd⟩
      · rintro ⟨x0, hx, hx60, hd⟩
        refine a.mpr ⟨x0, ⟨hx.1, ?_, hx.2.2⟩, hx60, hd⟩
        by_contra hge
        by_cases c : x0 = x
        · omega
        · exact hno0 x0 (by omega) hx.2.1 hx.2.2 hx60
    · have e : m2 (row + t) = 60 := by
        by_cases c2 : t < x
        · rw [h2, if_neg (fun hh => by omega), h1, if_pos (by omega)]
        · by_cases c3 : t = x
          · rw [h2, if_neg (fun hh => by omega), hm1 t (by omega), c3]
            exact h60
          · rw [h2, if_pos (by omega)]
      refine ⟨⟨fun _ => ⟨x, ⟨hx0, by omega, hxw⟩, horig, by omega⟩, fun _ => e⟩,
        fun h => absurd e h⟩
  · intro x0 h0 hlt hw hx60
    by_cases c : x0 < x
    · rcases i4 x0 h0 c hw hx60 with h | h
      · left
        omega
      · rcases hend0 with e | e
        · left
          omega
        · exact Or.inr e
    · by_cases c2 : x0 = x
      · rcases hend0 with e | e
        · left
          omega
        · exact Or.inr e
      · exact absurd hx60 (hno0 x0 (by omega) hlt hw)

/-- The pixel loop of `expandMask` ends, and with the invariant holding at a column past the
last one. -/
theorem expandScan_inv (m0 : Buf) (row : Int) (width : Nat) (dis : Int) (hdis : 0 ≤ dis)
    (n : Nat) (x : Int) (m : Buf) (hx0 : 0 ≤ x) (hn : (width : Int) - x ≤ (n : Int))
    (hinv : ScanInv m0 row width dis x m) :
    ∃ m3 x3, expandScan row width dis n x m = some m3 ∧ (width : Int) ≤ x3 ∧
      ScanInv m0 row width dis x3 m3 := by
  induction n generalizing x m with
  | zero =>
    refine ⟨m, x, ?_, by omega, hinv⟩
    unfold expandScan
    rw [if_neg (by omega)]
  | succ k ih =>
    by_cases hxw : x < (width : Int)
    · by_cases h60 : m (row + x) = 60
      · obtain ⟨m1, e1, h1⟩ := sweepLeft_spec row x dis (width + 1) (x - 1) m
          (by push_cast; omega)
        obtain ⟨m2, nc, e2, hnc1, hnc2, h2, hno, hend⟩ :=
          sweepRight_spec row width x dis (width + 1) (x + 1) m1 (by push_cast; omega)
            (by omega)
        have key : expandScan row width dis (k + 1) x m = expandScan row width dis k nc m2 := by
          rw [expandScan, if_pos hxw, if_pos h60, e1]
          simp only [e2]
          rw [show nc - 1 + 1 = nc by omega]
        rw [key]
        exact ih nc m2 (by omega) (by omega)
          (scanInv_step60 m0 m m1 m2 row width dis x nc hx0 hxw h60 hinv h1 hnc1 hnc2 h2 hno
            hend)
      · have key : expandScan row width dis (k + 1) x m
            = expandScan row width dis k (x + 1) m := by
          rw [expandScan, if_pos hxw, if_neg h60]
        rw [key]
        exact ih (x + 1) m (by omega) (by omega) (scanInv_step m0 m row width dis x hxw h60 hinv)
    · refine ⟨m, x, ?_, by omega, hinv⟩
      rw [expandScan, if_neg hxw]

/-- The pixel loop of `expandMask` on one row is the dilation of the row by `dis`: it ends; it
changes nothing outside the row; and a column of the row holds 60 afterwards exactly when it
is covered, and is unchanged otherwise. -/
theorem expandScan_spec (m0 : Buf) (row : Int) (width : Nat) (dis : Int) (hdis : 0 ≤ dis) :
    ∃ m3, expandScan row width dis (width + 1) 0 m0 = some m3 ∧
      (∀ j : Int, ¬ (row ≤ j ∧ j < row + (width : Int)) → m3 j = m0 j) ∧
      (∀ t : Int, 0 ≤ t → t < (width : Int) →
        (m3 (row + t) = 60 ↔ Covered m0 row width dis t) ∧
        (m3 (row + t) ≠ 60 → m3 (row + t) = m0 (row + t))) := by
  obtain ⟨m3, x3, e, hx3, i1, _, i3, _⟩ :=
    expandScan_inv m0 row width dis hdis (width + 1) 0 m0 (le_refl _) (by push_cast; omega)
      (scanInv_init m0 row width dis)
  refine ⟨m3, e, i1, ?_⟩
  intro t ht0 htw
  obtain ⟨a, b⟩ := i3 t ht0 (by omega) htw
  refine ⟨a.trans ?_, b⟩
  unfold Covered
  constructor
  · rintro ⟨x0, hx, h60, hd⟩
    exact ⟨x0, hx.1, hx.2.2, h60, abs_le.mpr ⟨by omega, by omega⟩⟩
  · rintro ⟨x0, hx1, hx2, h60, hd⟩
    have := abs_le.mp hd
    exact ⟨x0, ⟨hx1, by omega, hx2⟩, h60, by omega, by omega⟩

/-- Whether a sample is covered depends only on the samples of the row. -/
theorem covered_congr (a b : Buf) (row : Int) (width : Nat) (dis t : Int)
    (h : ∀ x0 : Int, 0 ≤ x0 → x0 < (width : Int) → a (row + x0) = b (row + x0)) :
    Covered a row width dis t ↔ Covered b row width dis t := by
  unfold Covered
  constructor
  · rintro ⟨x0, h1, h2, h3, h4⟩
    exact ⟨x0, h1, h2, (h x0 h1 h2) ▸ h3, h4⟩
  · rintro ⟨x0, h1, h2, h3, h4⟩
    exact ⟨x0, h1, h2, (h x0 h1 h2).symm ▸ h3, h4⟩

/-- The row loop of `expandMask` on one plane dilates each of the rows `field + 2 * k` that it
visits and changes nothing else. -/
theorem expandRows_spec (width stride field : Nat) (dis : Int) (hdis : 0 ≤ dis)
    (hws : width ≤ stride) (rows : Nat) (m : Buf) :
    ∃ out, expandRows width stride field dis rows m = some out ∧
      (∀ j : Int, (∀ k, k < rows → ¬ ((stride : Int) * ((field + 2 * k : Nat) : Int) ≤ j ∧
        j < (stride : Int) * ((field + 2 * k : Nat) : Int) + (width : Int))) → out j = m j) ∧
      (∀ k x, k < rows → x < width →
        (out ((stride : Int) * ((field + 2 * k : Nat) : Int) + (x : Int)) = 60 ↔
          Covered m ((stride : Int) * ((field + 2 * k : Nat) : Int)) width dis (x : Int)) ∧
        (out ((stride : Int) * ((field + 2 * k : Nat) : Int) + (x : Int)) ≠ 60 →
          out ((stride : Int) * ((field + 2 * k : Nat) : Int) + (x : Int))
            = m ((stride : Int) * ((field + 2 * k : Nat) : Int) + (x : Int)))) := by
  induction rows with
  | zero =>
    exact ⟨m, rfl, fun _ _ => rfl, fun k x hk _ => absurd hk (Nat.not_lt_zero k)⟩
  | succ r ih =>
    obtain ⟨prev, e, hout, hin⟩ := ih
    obtain ⟨out, e2, o1, o3⟩ := expandScan_spec prev
      ((stride : Int) * ((field + 2 * r : Nat) : Int)) width dis hdis
    have hdisj : ∀ k1 k2 x, k1 ≠ k2 → x < width →
        ¬ ((stride : Int) * ((field + 2 * k2 : Nat) : Int)
            ≤ (stride : Int) * ((field + 2 * k1 : Nat) : Int) + (x : Int) ∧
          (stride : Int) * ((field + 2 * k1 : Nat) : Int) + (x : Int)
            < (stride : Int) * ((field + 2 * k2 : Nat) : Int) + (width : Int)) := by
      intro k1 k2 x hne hx hh
      have := row_interval stride width (field + 2 * k1) x (field + 2 * k2) hx hws hh
      omega
    have hprev : ∀ x0 : Int, 0 ≤ x0 → x0 < (width : Int) →
        prev ((stride : Int) * ((field + 2 * r : Nat) : Int) + x0)
          = m ((stride : Int) * ((field + 2 * r : Nat) : Int) + x0) := by
      intro x0 h0 h1
      refine hout _ (fun k hk hh => ?_)
      have hx : x0.toNat < width := by omega
      have e0 : ((x0.toNat : Nat) : Int) = x0 := Int.toNat_of_nonneg h0
      rw [← e0] at hh
      exact hdisj r k x0.toNat (by omega) hx hh
    refine ⟨out, ?_, ?_, ?_⟩
    · show (expandRows width stride field dis r m).bind _ = _
      rw [e]
      show expandScan _ width dis (width + 1) 0 prev = _
      rw [linkOffset_eq]
      exact e2
    · intro j hj
      rw [o1 j (hj r (Nat.lt_succ_self r))]
      exact hout j (fun k hk => hj k (Nat.lt_succ_of_lt hk))
    · intro k x hk hx
      by_cases c : k = r
      · rw [c]
        obtain ⟨a, b⟩ := o3 (x : Int) (by omega) (by omega)
        refine ⟨a.trans (covered_congr prev m _ width dis _ hprev), ?_⟩
        intro hne
        rw [b hne]
        exact hprev (x : Int) (by omega) (by omega)
      · rw [o1 _ (hdisj k r x c hx)]
        exact hin k x (by omega) hx

/-- The distance of `expandMask` is not negative when `expand` is not. -/
theorem expandDis_nonneg (d : TDeintModData) (plane : Nat) (hexp : 0 ≤ d.expand) :
    0 ≤ expandDis d plane := by
  unfold expandDis
  rw [Int.shiftRight_eq_div_pow]
  exact Int.ediv_nonneg hexp (by positivity)

/-- The plane loop of `expandMask` ends; it keeps the geometry of the frame and the planes that
are not processed, and leaves in every processed plane the result of the row loop on the
plane that was passed in. -/
theorem expandPlanes_spec (d : TDeintModData) (mask : Frame) (field : Nat)
    (hexp : 0 ≤ d.expand) (planes : Nat) :
    ∃ out, expandPlanes d mask field planes = some out ∧
      (out.width = mask.width ∧ out.height = mask.height ∧ out.stride = mask.stride) ∧
      (∀ p, ¬ (p < planes ∧ d.process p = true) → out.data p = mask.data p) ∧
      (∀ p, p < planes → d.process p = true →
        expandPlane (mask.width p) (mask.height p) (mask.stride p) field (expandDis d p)
          (mask.data p) = some (out.data p)) := by
  induction planes with
  | zero =>
    exact ⟨mask, rfl, ⟨rfl, rfl, rfl⟩, fun _ _ => rfl, fun p hp _ => absurd hp (Nat.not_lt_zero p)⟩
  | succ r ih =>
    obtain ⟨prev, e, hgeo, hkeep, hdone⟩ := ih
    have hstep : expandPlanes d mask field (r + 1)
        = (if d.process r = true then
            (expandPlane (mask.width r) (mask.height r) (mask.stride r) field
              (expandDis d r) (prev.data r)).map
              (fun b => { prev with data := Function.update prev.data r b })
          else some prev) := by
      show (expandPlanes d mask field r).bind _ = _
      rw [e]
      rfl
    rw [hstep]
    by_cases hp : d.process r = true
    · rw [if_pos hp, hkeep r (fun h => absurd h.1 (Nat.lt_irrefl r))]
      obtain ⟨b, eb, _, _⟩ := expandRows_spec (mask.width r) (mask.stride r) field
        (expandDis d r) (expandDis_nonneg d r hexp) (mask.width_le_stride r)
        ((mask.height r - field + 1) / 2) (mask.data r)
      have eb2 : expandPlane (mask.width r) (mask.height r) (mask.stride r) field
          (expandDis d r) (mask.data r) = some b := eb
      rw [eb2]
      refine ⟨{ prev with data := Function.update prev.data r b }, rfl, hgeo, ?_, ?_⟩
      · intro p hn
        have hne : p ≠ r := fun h => hn ⟨by omega, h ▸ hp⟩
        show Function.update prev.data r b p = _
        rw [Function.update_noteq hne]
        exact hkeep p (fun h => hn ⟨by omega, h.2⟩)
      · intro p hlt hpp
        show _ = some (Function.update prev.data r b p)
        by_cases c : p = r
        · rw [c, Function.update_same]
          exact eb2
        · rw [Function.update_noteq c]
          exact hdone p (by omega) hpp
    · rw [if_neg hp]
      refine ⟨prev, rfl, hgeo, ?_, ?_⟩
      · intro p hn
        refine hkeep p (fun h => hn ⟨by omega, h.2⟩)
      · intro p hlt hpp
        have hne : p ≠ r := fun h => hp (h ▸ hpp)
        exact hdone p (by omega) hpp

/-! ## Claims -/

/-- C1: for every pixel of a processed plane, `eDeint` and `cubicDeint` both write the current
sample when the mask code is 10, the previous sample when 20, the next sample when 30,
`(cur + next + 1) >> 1` when 40, `(cur + prev + 1) >> 1` when 50 and
`(prev + 2 * cur + next + 2) >> 2` when 70 (the samples being values of the sample type). -/
theorem reconstructors_lookup (tb : Nat) (d : TDeintModData)
    (dst mask prv src nxt edeint : Frame) (p y x : Nat)
    (hp : p < d.numPlanes) (hproc : d.process p = true)
    (hy : y < src.height p) (hx : x < src.width p)
    (hprv : (prv.data p).InRange tb) (hsrc : (src.data p).InRange tb)
    (hnxt : (nxt.data p).InRange tb) :
    ∀ out : Nat,
      (out = (eDeint tb d dst mask prv src nxt edeint).px (src.stride p) p y x ∨
        out = (cubicDeint tb d dst mask prv src nxt).px (src.stride p) p y x) →
      (mask.px (src.stride p) p y x = 10 → out = src.px (src.stride p) p y x) ∧
      (mask.px (src.stride p) p y x = 20 → out = prv.px (src.stride p) p y x) ∧
      (mask.px (src.stride p) p y x = 30 → out = nxt.px (src.stride p) p y x) ∧
      (mask.px (src.stride p) p y x = 40 →
        out = (src.px (src.stride p) p y x + nxt.px (src.stride p) p y x + 1) >>> 1) ∧
      (mask.px (src.stride p) p y x = 50 →
        out = (src.px (src.stride p) p y x + prv.px (src.stride p) p y x + 1) >>> 1) ∧
      (mask.px (src.stride p) p y x = 70 →
        out = (prv.px (src.stride p) p y x + 2 * src.px (src.stride p) p y x
          + nxt.px (src.stride p) p y x + 2) >>> 2) := by
  have hlook := eDeintPixel_lookup tb (mask.px (src.stride p) p y x)
    (prv.px (src.stride p) p y x) (src.px (src.stride p) p y x) (nxt.px (src.stride p) p y x)
    (edeint.px (src.stride p) p y x) (dst.px (src.stride p) p y x)
    (hprv _) (hsrc _) (hnxt _)
  intro out hout
  rcases hout with h | h
  · rw [h, eDeint_px tb d dst mask prv src nxt edeint p y x hp hproc hy hx]
    exact hlook
  · rw [h, cubicDeint_px tb d dst mask prv src nxt p y x hp hproc hy hx]
    obtain ⟨h10, h20, h30, h40, h50, h70⟩ := hlook
    refine ⟨?_, ?_, ?_, ?_, ?_, ?_⟩ <;> intro hm
    · rw [cubicDeintPixel_of_ne_60 tb _ _ _ _ _ _ _ _ _ _ _ (edeint.px (src.stride p) p y x) _
        (by omega)]
      exact h10 hm
    · rw [cubicDeintPixel_of_ne_60 tb _ _ _ _ _ _ _ _ _ _ _ (edeint.px (src.stride p) p y x) _
        (by omega)]
      exact h20 hm
    · rw [cubicDeintPixel_of_ne_60 tb _ _ _ _ _ _ _ _ _ _ _ (edeint.px (src.stride p) p y x) _
        (by omega)]
      exact h30 hm
    · rw [cubicDeintPixel_of_ne_60 tb _ _ _ _ _ _ _ _ _ _ _ (edeint.px (src.stride p) p y x) _
        (by omega)]
      exact h40 hm
    · rw [cubicDeintPixel_of_ne_60 tb _ _ _ _ _ _ _ _ _ _ _ (edeint.px (src.stride p) p y x) _
        (by omega)]
      exact h50 hm
    · rw [cubicDeintPixel_of_ne_60 tb _ _ _ _ _ _ _ _ _ _ _ (edeint.px (src.stride p) p y x) _
        (by omega)]
      exact h70 hm

/-- Witness for C1: an 8-bit 2x2 plane with mask code 40, current sample 20 and next sample
30; both reconstructors write `(20 + 30 + 1) >> 1 = 25` at pixel (1, 1). -/
theorem reconstructors_lookup_witness :
    (eDeint 8 exData (exFlat 0) (exFlat 40) (exFlat 10) (exFlat 20) (exFlat 30) (exFlat 0)).px
        2 0 1 1 = 25 ∧
    (cubicDeint 8 exData (exFlat 0) (exFlat 40) (exFlat 10) (exFlat 20) (exFlat 30)).px
        2 0 1 1 = 25 :=
  ⟨(reconstructors_lookup 8 exData (exFlat 0) (exFlat 40) (exFlat 10) (exFlat 20) (exFlat 30)
      (exFlat 0) 0 1 1 (by decide) rfl (by decide) (by decide) (fun _ => show 10 ≤ typeMax 8 by decide)
      (fun _ => show 20 ≤ typeMax 8 by decide) (fun _ => show 30 ≤ typeMax 8 by decide) _ (Or.inl rfl)).2.2.2.1 rfl,
   (reconstructors_lookup 8 exData (exFlat 0) (exFlat 40) (exFlat 10) (exFlat 20) (exFlat 30)
      (exFlat 0) 0 1 1 (by decide) rfl (by decide) (by decide) (fun _ => show 10 ≤ typeMax 8 by decide)
      (fun _ => show 20 ≤ typeMax 8 by decide) (fun _ => show 30 ≤ typeMax 8 by decide) _ (Or.inr rfl)).2.2.2.1 rfl⟩

/-- C2: if the mask holds code 10 at every pixel of a processed plane, then `cubicDeint` and
`eDeint` (for any external clip) return the current source frame sample for sample, whatever
the previous and next frames (and the prior content of the destination) are. -/
theorem reconstructors_identity (tb : Nat) (d : TDeintModData)
    (dst mask prv src nxt edeint : Frame) (p : Nat)
    (hp : p < d.numPlanes) (hproc : d.process p = true)
    (hmask : ∀ y x : Nat, y < src.height p → x < src.width p →
      mask.px (src.stride p) p y x = 10) :
    ∀ y x : Nat, y < src.height p → x < src.width p →
      (cubicDeint tb d dst mask prv src nxt).px (src.stride p) p y x
          = src.px (src.stride p) p y x ∧
      (eDeint tb d dst mask prv src nxt edeint).px (src.stride p) p y x
          = src.px (src.stride p) p y x := by
  intro y x hy hx
  rw [cubicDeint_px tb d dst mask prv src nxt p y x hp hproc hy hx,
    eDeint_px tb d dst mask prv src nxt edeint p y x hp hproc hy hx, hmask y x hy hx]
  exact ⟨by simp [cubicDeintPixel], by simp [eDeintPixel]⟩

/-- Witness for C2: an all-10 mask over a 2x2 plane of value 20, with previous samples 99 and
next samples 77, returns 20 at pixel (1, 0) from both reconstructors. -/
theorem reconstructors_identity_witness :
    (cubicDeint 8 exData (exFlat 0) (exFlat 10) (exFlat 99) (exFlat 20) (exFlat 77)).px
        2 0 1 0 = 20 ∧
    (eDeint 8 exData (exFlat 0) (exFlat 10) (exFlat 99) (exFlat 20) (exFlat 77) (exFlat 5)).px
        2 0 1 0 = 20 :=
  reconstructors_identity 8 exData (exFlat 0) (exFlat 10) (exFlat 99) (exFlat 20) (exFlat 77)
    (exFlat 5) 0 (by decide) rfl (fun _ _ _ _ => rfl) 1 0 (by decide) (by decide)

/-- C3 as stated fails: on a one-column plane of seven rows 0, 255, 100, 7, 100, 255, 0 with
code 60 at row 3, `cubicDeint` writes 119 (outer taps taken from rows 0 and 6), whereas the
formula with the outer taps at rows 1 and 5 gives 71. -/
theorem cubicDeint_outer_taps_counterexample :
    ¬ (((cubicDeint 8 exData (exTall (fun _ => 0)) (exTall (fun _ => 60)) (exTall (fun _ => 0))
          (exTall exColumn) (exTall (fun _ => 0))).px 1 0 3 0 : Int)
        = min (max ((19 * (((exTall exColumn).px 1 0 2 0 : Int) + (exTall exColumn).px 1 0 4 0)
            - 3 * (((exTall exColumn).px 1 0 1 0 : Int) + (exTall exColumn).px 1 0 5 0) + 16)
              >>> (5 : Nat)) 0) 255) := by
  have h : (cubicDeint 8 exData (exTall (fun _ => 0)) (exTall (fun _ => 60))
      (exTall (fun _ => 0)) (exTall exColumn) (exTall (fun _ => 0))).px 1 0 3 0 = _ :=
    cubicDeint_px 8 exData _ _ _ _ _ 0 3 0 (by decide) rfl (by decide) (by decide)
  rw [h]
  decide

/-- C3 (amended): in `cubicDeint`, a code-60 pixel at a row `y` with `3 <= y <= height - 4`
receives `(19 * (a + b) - 3 * (c + d) + 16) >> 5` clamped to `[0, peak]`, where `a`, `b` are
the source samples of the same column at rows `y - 1` and `y + 1` and `c`, `d` are the source
samples at rows `y - 3` and `y + 3`. -/
theorem cubicDeint_code60_interior (tb : Nat) (d : TDeintModData)
    (dst mask prv src nxt : Frame) (p y x : Nat)
    (hp : p < d.numPlanes) (hproc : d.process p = true)
    (hy : y < src.height p) (hx : x < src.width p)
    (hpk0 : 0 ≤ d.peak) (hpk : d.peak ≤ (typeMax tb : Int))
    (hm : mask.px (src.stride p) p y x = 60)
    (hlo : 3 ≤ y) (hhi : (y : Int) ≤ (src.height p : Int) - 4) :
    (((cubicDeint tb d dst mask prv src nxt).px (src.stride p) p y x : Nat) : Int)
      = min (max ((19 * ((src.px (src.stride p) p ((y : Int) - 1) x : Int)
            + src.px (src.stride p) p ((y : Int) + 1) x)
          - 3 * ((src.px (src.stride p) p ((y : Int) - 3) x : Int)
            + src.px (src.stride p) p ((y : Int) + 3) x) + 16) >>> (5 : Nat)) 0) d.peak := by
  rw [cubicDeint_px tb d dst mask prv src nxt p y x hp hproc hy hx, hm]
  have h0 : y ≠ 0 := by omega
  have h1 : ¬ ((y : Int) = (src.height p : Int) - 1) := by omega
  have h2 : ¬ ((y : Int) < 3 ∨ (y : Int) > (src.height p : Int) - 4) := by omega
  simp only [cubicDeintPixel, h0, h1, h2, if_false, if_true]
  norm_num
  unfold cubicTemp
  exact castT_of_fits tb _ (by omega) (by omega)

/-- Witness for C3 (amended): the seven-row column 0, 255, 100, 7, 100, 255, 0 with code 60
at row 3 yields `(19 * 200 - 3 * 0 + 16) >> 5 = 119`. -/
theorem cubicDeint_code60_interior_witness :
    (((cubicDeint 8 exData (exTall (fun _ => 0)) (exTall (fun _ => 60)) (exTall (fun _ => 0))
        (exTall exColumn) (exTall (fun _ => 0))).px 1 0 3 0 : Nat) : Int) = 119 :=
  cubicDeint_code60_interior 8 exData (exTall (fun _ => 0)) (exTall (fun _ => 60))
    (exTall (fun _ => 0)) (exTall exColumn) (exTall (fun _ => 0)) 0 3 0 (by decide) rfl
    (by decide) (by decide) (by decide) (by decide) rfl (by decide) (by decide)

/-- C6: in `eDeint`, every pixel whose mask code is 60 receives the sample of the external
clip at the same position, whatever the previous, current and next frames hold. -/
theorem eDeint_code60_external (tb : Nat) (d : TDeintModData)
    (dst mask prv src nxt edeint : Frame) (p y x : Nat)
    (hp : p < d.numPlanes) (hproc : d.process p = true)
    (hy : y < src.height p) (hx : x < src.width p)
    (hm : mask.px (src.stride p) p y x = 60) :
    (eDeint tb d dst mask prv src nxt edeint).px (src.stride p) p y x
      = edeint.px (src.stride p) p y x := by
  rw [eDeint_px tb d dst mask prv src nxt edeint p y x hp hproc hy hx, hm]
  simp [eDeintPixel]

/-- Witness for C6: with code 60 everywhere and an external clip of value 5, pixel (0, 1) of
the output is 5. -/
theorem eDeint_code60_external_witness :
    (eDeint 8 exData (exFlat 0) (exFlat 60) (exFlat 99) (exFlat 20) (exFlat 77) (exFlat 5)).px
        2 0 0 1 = 5 :=
  eDeint_code60_external 8 exData (exFlat 0) (exFlat 60) (exFlat 99) (exFlat 20) (exFlat 77)
    (exFlat 5) 0 0 1 (by decide) rfl (by decide) (by decide) rfl

/-- C4: for a code-60 pixel of `cubicDeint` near a frame boundary (plane of at least two
rows): at row 0 the output is the source sample of row 1, at row `height - 1` it is the source
sample of row `height - 2`, and at every other row `y` with `y < 3` or `y > height - 4` it is
the rounded average `(p[y-1] + p[y+1] + 1) >> 1` of the rows directly above and below. -/
theorem cubicDeint_code60_boundary (tb : Nat) (d : TDeintModData)
    (dst mask prv src nxt : Frame) (p y x : Nat)
    (hp : p < d.numPlanes) (hproc : d.process p = true)
    (hy : y < src.height p) (hx : x < src.width p)
    (hh : 2 ≤ src.height p) (hsrc : (src.data p).InRange tb)
    (hm : mask.px (src.stride p) p y x = 60) :
    (y = 0 → (cubicDeint tb d dst mask prv src nxt).px (src.stride p) p y x
        = src.px (src.stride p) p 1 x) ∧
    ((y : Int) = (src.height p : Int) - 1 →
      (cubicDeint tb d dst mask prv src nxt).px (src.stride p) p y x
        = src.px (src.stride p) p ((src.height p : Int) - 2) x) ∧
    (y ≠ 0 → (y : Int) ≠ (src.height p : Int) - 1 →
      ((y : Int) < 3 ∨ (y : Int) > (src.height p : Int) - 4) →
      (cubicDeint tb d dst mask prv src nxt).px (src.stride p) p y x
        = (src.px (src.stride p) p ((y : Int) - 1) x
            + src.px (src.stride p) p ((y : Int) + 1) x + 1) >>> 1) := by
  rw [cubicDeint_px tb d dst mask prv src nxt p y x hp hproc hy hx, hm]
  refine ⟨?_, ?_, ?_⟩
  · intro h0
    subst h0
    simp [cubicDeintPixel]
  · intro h1
    have h0 : y ≠ 0 := by omega
    have e : (y : Int) - 1 = (src.height p : Int) - 2 := by omega
    rw [← e]
    simp [cubicDeintPixel, h0, h1]
  · intro h0 h1 h2
    simp only [cubicDeintPixel, h0, h1, h2, if_false, if_true]
    norm_num
    have key := castT_avg tb (src.px (src.stride p) p ((y : Int) + 1) x)
      (src.px (src.stride p) p ((y : Int) - 1) x) (hsrc _) (hsrc _)
    rw [key]
    congr 1
    omega

/-- Witness for C4: on the seven-row column 0, 255, 100, 7, 100, 255, 0 with code 60
everywhere, row 1 receives `(0 + 100 + 1) >> 1 = 50`. -/
theorem cubicDeint_code60_boundary_witness :
    (cubicDeint 8 exData (exTall (fun _ => 0)) (exTall (fun _ => 60)) (exTall (fun _ => 0))
        (exTall exColumn) (exTall (fun _ => 0))).px 1 0 1 0 = 50 :=
  (cubicDeint_code60_boundary 8 exData (exTall (fun _ => 0)) (exTall (fun _ => 60))
    (exTall (fun _ => 0)) (exTall exColumn) (exTall (fun _ => 0)) 0 1 0 (by decide) rfl
    (by decide) (by decide) (by decide)
    (fun i => show exColumn i ≤ typeMax 8 by unfold exColumn typeMax; split_ifs <;> omega)
    rfl).2.2 (by decide) (by decide) (Or.inl (by decide))

/-- C5: for every decision code in {10, 20, 30, 40, 50, 60, 70} and all input samples
(previous, current, next, vertical neighbours, external sample) in `[0, peak]` with
`peak = 2^bits - 1` and `bits <= 16`, the value written by `eDeint` and by `cubicDeint` lies
in `[0, peak]`, and every intermediate value of the sample arithmetic fits a 32-bit signed
integer. -/
theorem reconstructors_in_range (tb bits : Nat) (d : TDeintModData)
    (dst mask prv src nxt edeint : Frame) (p y x : Nat)
    (hp : p < d.numPlanes) (hproc : d.process p = true)
    (hy : y < src.height p) (hx : x < src.width p)
    (hbits : bits ≤ 16) (hbt : bits ≤ tb) (hpeak : d.peak = 2 ^ bits - 1)
    (hprv : (prv.data p).Below d.peak) (hsrc : (src.data p).Below d.peak)
    (hnxt : (nxt.data p).Below d.peak) (hed : (edeint.data p).Below d.peak)
    (hm : mask.px (src.stride p) p y x = 10 ∨ mask.px (src.stride p) p y x = 20 ∨
      mask.px (src.stride p) p y x = 30 ∨ mask.px (src.stride p) p y x = 40 ∨
      mask.px (src.stride p) p y x = 50 ∨ mask.px (src.stride p) p y x = 60 ∨
      mask.px (src.stride p) p y x = 70) :
    (0 ≤ (((eDeint tb d dst mask prv src nxt edeint).px (src.stride p) p y x : Nat) : Int) ∧
      (((eDeint tb d dst mask prv src nxt edeint).px (src.stride p) p y x : Nat) : Int)
        ≤ d.peak) ∧
    (0 ≤ (((cubicDeint tb d dst mask prv src nxt).px (src.stride p) p y x : Nat) : Int) ∧
      (((cubicDeint tb d dst mask prv src nxt).px (src.stride p) p y x : Nat) : Int)
        ≤ d.peak) ∧
    (∀ v ∈ eDeintIntermediates (mask.px (src.stride p) p y x) (prv.px (src.stride p) p y x)
        (src.px (src.stride p) p y x) (nxt.px (src.stride p) p y x), FitsInt32 v) ∧
    (∀ v ∈ cubicDeintIntermediates d.peak (src.height p) y (mask.px (src.stride p) p y x)
        (prv.px (src.stride p) p y x) (src.px (src.stride p) p y x)
        (nxt.px (src.stride p) p y x)
        (src.px (src.stride p) p ((y : Int) - 1) x) (src.px (src.stride p) p ((y : Int) + 1) x)
        (src.px (src.stride p) p ((y : Int) - 3) x) (src.px (src.stride p) p ((y : Int) + 3) x),
      FitsInt32 v) := by
  have hpow : (2 : Int) ^ bits ≤ 2 ^ 16 := by
    exact_mod_cast Nat.pow_le_pow_right (by decide : 0 < 2) hbits
  have hpow2 : (2 : Int) ^ bits ≤ 2 ^ tb := by
    exact_mod_cast Nat.pow_le_pow_right (by decide : 0 < 2) hbt
  have hpos : (1 : Int) ≤ 2 ^ bits := by exact_mod_cast (Nat.one_le_two_pow : 1 ≤ 2 ^ bits)
  have hpk16 : d.peak ≤ 65535 := by rw [hpeak]; norm_num at hpow; omega
  have hpk0 : 0 ≤ d.peak := by rw [hpeak]; omega
  have hpkT : d.peak ≤ (typeMax tb : Int) := by rw [hpeak, typeMax_cast]; omega
  have hE := eDeintPixel_le_peak tb d.peak (mask.px (src.stride p) p y x)
    (prv.px (src.stride p) p y x) (src.px (src.stride p) p y x) (nxt.px (src.stride p) p y x)
    (edeint.px (src.stride p) p y x) (dst.px (src.stride p) p y x) hpkT (hprv _) (hsrc _)
    (hnxt _) (hed _) hm
  have hEI := eDeintIntermediates_fit (mask.px (src.stride p) p y x)
    (prv.px (src.stride p) p y x) (src.px (src.stride p) p y x) (nxt.px (src.stride p) p y x)
    (le_trans (hprv _) hpk16) (le_trans (hsrc _) hpk16) (le_trans (hnxt _) hpk16)
  have ha := hsrc ((src.stride p : Int) * ((y : Int) - 1) + (x : Int))
  have hb := hsrc ((src.stride p : Int) * ((y : Int) + 1) + (x : Int))
  have hc := hsrc ((src.stride p : Int) * ((y : Int) - 3) + (x : Int))
  have hd := hsrc ((src.stride p : Int) * ((y : Int) + 3) + (x : Int))
  refine ⟨⟨Int.ofNat_nonneg _, ?_⟩, ⟨Int.ofNat_nonneg _, ?_⟩, hEI, ?_⟩
  · rw [eDeint_px tb d dst mask prv src nxt edeint p y x hp hproc hy hx]
    exact hE
  · rw [cubicDeint_px tb d dst mask prv src nxt p y x hp hproc hy hx]
    by_cases h60 : mask.px (src.stride p) p y x = 60
    · rw [h60]
      unfold Frame.px
      simp only [cubicDeintPixel]
      norm_num
      split_ifs
      · exact hb
      · exact ha
      · have hax : src.data p ((src.stride p : Int) * ((y : Int) - 1) + (x : Int))
            ≤ typeMax tb := by exact_mod_cast le_trans ha hpkT
        have hbx : src.data p ((src.stride p : Int) * ((y : Int) + 1) + (x : Int))
            ≤ typeMax tb := by exact_mod_cast le_trans hb hpkT
        rw [castT_avg tb _ _ hbx hax, Nat.shiftRight_eq_div_pow]
        omega
      · rw [castT_of_fits tb _ (by omega) (by omega)]
        omega
    · rw [cubicDeintPixel_of_ne_60 tb _ _ _ _ _ _ _ _ _ _ _ (edeint.px (src.stride p) p y x) _
        h60]
      exact hE
  · intro v hv
    unfold cubicDeintIntermediates at hv
    by_cases h60 : mask.px (src.stride p) p y x = 60
    · rw [if_pos h60] at hv
      unfold Frame.px at hv
      unfold FitsInt32
      split_ifs at hv
      · simp at hv
      · simp at hv
      · simp only [List.mem_cons, List.mem_singleton, List.not_mem_nil, or_false,
          shr_eq_div] at hv
        rcases hv with h | h | h <;> subst h <;> constructor <;> omega
      · simp only [List.mem_cons, List.mem_singleton, List.not_mem_nil, or_false,
          cubicTemp, shr_eq_div] at hv
        rcases hv with h | h | h | h | h | h | h | h | h <;> subst h <;> constructor <;> omega
    · rw [if_neg h60] at hv
      exact hEI v hv

/-- Witness for C5: 8-bit data (`peak = 255 = 2^8 - 1`), the seven-row column with code 60 at
row 3; both outputs stay within `[0, 255]`. -/
theorem reconstructors_in_range_witness :
    ((((eDeint 8 exData (exTall (fun _ => 0)) (exTall (fun _ => 60)) (exTall (fun _ => 9))
        (exTall exColumn) (exTall (fun _ => 200)) (exTall (fun _ => 31))).px 1 0 3 0 : Nat) : Int)
        ≤ 255) ∧
    ((((cubicDeint 8 exData (exTall (fun _ => 0)) (exTall (fun _ => 60)) (exTall (fun _ => 9))
        (exTall exColumn) (exTall (fun _ => 200))).px 1 0 3 0 : Nat) : Int) ≤ 255) :=
  have h := reconstructors_in_range 8 8 exData (exTall (fun _ => 0)) (exTall (fun _ => 60))
    (exTall (fun _ => 9)) (exTall exColumn) (exTall (fun _ => 200)) (exTall (fun _ => 31))
    0 3 0 (by decide) rfl (by decide) (by decide) (by decide) (by decide) (by decide)
    (fun _ => show ((9 : Nat) : Int) ≤ 255 by decide)
    (fun i => show ((exColumn i : Nat) : Int) ≤ 255 by unfold exColumn; split_ifs <;> decide)
    (fun _ => show ((200 : Nat) : Int) ≤ 255 by decide)
    (fun _ => show ((31 : Nat) : Int) ≤ 255 by decide)
    (Or.inr (Or.inr (Or.inr (Or.inr (Or.inr (Or.inl rfl))))))
  ⟨h.1.2, h.2.1.2⟩

/-- C7: for every pixel, `motionMask_c` writes the maximum sample value to the quarter layer
iff `|src1 - src2| <= clamp(min(q1, q2) + nt, minthresh, maxthresh)` and 0 otherwise, and
independently writes the maximum sample value to the half layer iff
`|src1 - src2| <= clamp(min(h1, h2) + nt, minthresh, maxthresh)` and 0 otherwise, where `q`
and `h` are the quarter and half layers of the two threshold masks. -/
theorem motionMask_flags (tb : Nat) (d : TDeintModData) (plane stride : Nat)
    (src1 msk1 src2 msk2 dst : Buf) (y x : Nat)
    (htb : 0 < tb) (hstride : d.viWidth + 2 * d.widthPad ≤ stride)
    (hy : y < planeHeight d plane) (hx : x < planeWidth d plane) :
    (motionMask_c tb d plane stride src1 msk1 src2 msk2 dst
          ((d.widthPad : Int) + (stride : Int) * (y : Int) + (x : Int)) = typeMax tb ↔
      |(src1 ((d.widthPad : Int) + (stride : Int) * (y : Int) + (x : Int)) : Int)
          - (src2 ((d.widthPad : Int) + (stride : Int) * (y : Int) + (x : Int)) : Int)|
        ≤ clamp (((min (msk1 ((d.widthPad : Int) + (stride : Int) * (y : Int) + (x : Int)))
            (msk2 ((d.widthPad : Int) + (stride : Int) * (y : Int) + (x : Int))) : Nat) : Int)
            + d.nt) d.minthresh d.maxthresh) ∧
    (¬ |(src1 ((d.widthPad : Int) + (stride : Int) * (y : Int) + (x : Int)) : Int)
          - (src2 ((d.widthPad : Int) + (stride : Int) * (y : Int) + (x : Int)) : Int)|
        ≤ clamp (((min (msk1 ((d.widthPad : Int) + (stride : Int) * (y : Int) + (x : Int)))
            (msk2 ((d.widthPad : Int) + (stride : Int) * (y : Int) + (x : Int))) : Nat) : Int)
            + d.nt) d.minthresh d.maxthresh →
      motionMask_c tb d plane stride src1 msk1 src2 msk2 dst
          ((d.widthPad : Int) + (stride : Int) * (y : Int) + (x : Int)) = 0) ∧
    (motionMask_c tb d plane stride src1 msk1 src2 msk2 dst
          ((d.widthPad : Int) + ((stride * planeHeight d plane : Nat) : Int)
            + (stride : Int) * (y : Int) + (x : Int)) = typeMax tb ↔
      |(src1 ((d.widthPad : Int) + (stride : Int) * (y : Int) + (x : Int)) : Int)
          - (src2 ((d.widthPad : Int) + (stride : Int) * (y : Int) + (x : Int)) : Int)|
        ≤ clamp (((min
            (msk1 ((d.widthPad : Int) + ((stride * planeHeight d plane : Nat) : Int)
              + (stride : Int) * (y : Int) + (x : Int)))
            (msk2 ((d.widthPad : Int) + ((stride * planeHeight d plane : Nat) : Int)
              + (stride : Int) * (y : Int) + (x : Int))) : Nat) : Int)
            + d.nt) d.minthresh d.maxthresh) ∧
    (¬ |(src1 ((d.widthPad : Int) + (stride : Int) * (y : Int) + (x : Int)) : Int)
          - (src2 ((d.widthPad : Int) + (stride : Int) * (y : Int) + (x : Int)) : Int)|
        ≤ clamp (((min
            (msk1 ((d.widthPad : Int) + ((stride * planeHeight d plane : Nat) : Int)
              + (stride : Int) * (y : Int) + (x : Int)))
            (msk2 ((d.widthPad : Int) + ((stride * planeHeight d plane : Nat) : Int)
              + (stride : Int) * (y : Int) + (x : Int))) : Nat) : Int)
            + d.nt) d.minthresh d.maxthresh →
      motionMask_c tb d plane stride src1 msk1 src2 msk2 dst
          ((d.widthPad : Int) + ((stride * planeHeight d plane : Nat) : Int)
            + (stride : Int) * (y : Int) + (x : Int)) = 0) := by
  have hw : planeWidth d plane ≤ stride := by
    have := planeWidth_le d plane
    omega
  have hpk : typeMax tb ≠ 0 := by
    have : 2 ^ 1 ≤ 2 ^ tb := Nat.pow_le_pow_right (by decide) htb
    unfold typeMax
    omega
  obtain ⟨hq, hh⟩ := motionMask_c_pixel tb d plane stride src1 msk1 src2 msk2 dst y x hw hy hx
  rw [hq, hh]
  unfold clamp
  unfold motionThresh
  refine ⟨?_, ?_, ?_, ?_⟩
  · constructor
    · intro h
      by_contra hc
      rw [if_neg hc] at h
      exact hpk h.symm
    · intro h
      rw [if_pos h]
  · intro h
    rw [if_neg h]
  · constructor
    · intro h
      by_contra hc
      rw [if_neg hc] at h
      exact hpk h.symm
    · intro h
      rw [if_pos h]
  · intro h
    rw [if_neg h]

/-- Witness for C7: 8-bit planes of value 10 and 12 under zero threshold masks with the
default `nt = 2`, `minthresh = 4`, `maxthresh = 75`: the difference 2 is within the clamped
threshold 4, so pixel (1, 2) of the quarter layer is set to 255. -/
theorem motionMask_flags_witness :
    motionMask_c 8 exData 0 68 (fun _ => 10) (fun _ => 0) (fun _ => 12) (fun _ => 0)
      (fun _ => 7) (32 + 68 * 1 + 2) = 255 :=
  (motionMask_flags 8 exData 0 68 (fun _ => 10) (fun _ => 0) (fun _ => 12) (fun _ => 0)
    (fun _ => 7) 1 2 (by decide) (by decide) (by decide) (by decide)).1.mpr (by decide)

/-- C8: `motionMask_c` is symmetric: swapping `(src1, msk1)` with `(src2, msk2)` leaves every
sample of the output, hence the quarter and half layers at every pixel, unchanged. -/
theorem motionMask_symmetric (tb : Nat) (d : TDeintModData) (plane stride : Nat)
    (src1 msk1 src2 msk2 dst : Buf) :
    ∀ j : Int, motionMask_c tb d plane stride src1 msk1 src2 msk2 dst j
      = motionMask_c tb d plane stride src2 msk2 src1 msk1 dst j := by
  intro j
  unfold motionMask_c
  simp only [abs_sub_comm (src1 _ : Int) (src2 _ : Int), motionThresh_comm d (msk1 _) (msk2 _)]

/-- C9: when both overrides of a plane kind are set (`mtqL > -1` and `mthL > -1` for plane 0,
`mtqC > -1` and `mthC > -1` for a chroma plane; values of the sample type, as produced by
`tdeintmodCreate`), `threshMask_c` fills every sample of the quarter layer with the quarter
override and every sample of the half layer with the half override, for every source plane
content and every `ttype`. -/
theorem threshMask_override_fill (tb : Nat) (d : TDeintModData) (plane stride : Nat)
    (src dst : Buf)
    (hq : -1 < quarterOverride d plane) (hh : -1 < halfOverride d plane)
    (hqT : quarterOverride d plane ≤ (typeMax tb : Int))
    (hhT : halfOverride d plane ≤ (typeMax tb : Int)) :
    ∀ j : Int,
      (0 ≤ j ∧ j < ((stride * planeHeight d plane : Nat) : Int) →
        ((threshMask_c tb d plane stride src dst j : Nat) : Int) = quarterOverride d plane) ∧
      (((stride * planeHeight d plane : Nat) : Int) ≤ j ∧
          j < 2 * ((stride * planeHeight d plane : Nat) : Int) →
        ((threshMask_c tb d plane stride src dst j : Nat) : Int) = halfOverride d plane) := by
  intro j
  have cq := castT_of_fits tb (quarterOverride d plane) (by omega) hqT
  have ch := castT_of_fits tb (halfOverride d plane) (by omega) hhT
  unfold quarterOverride at hq cq ⊢
  unfold halfOverride at hh ch ⊢
  have e0 : (d.widthPad : Int) - (d.widthPad : Int) = 0 := by omega
  have e1 : (d.widthPad : Int) + ((stride * planeHeight d plane : Nat) : Int)
      - (d.widthPad : Int) = ((stride * planeHeight d plane : Nat) : Int) := by omega
  by_cases hp : plane = 0
  · rw [if_pos hp] at hq hh cq ch ⊢
    have hc : plane = 0 ∧ d.mtqL > -1 ∧ d.mthL > -1 := ⟨hp, hq, hh⟩
    have hfun : threshMask_c tb d plane stride src dst
        = fill_n (fill_n dst 0 (stride * planeHeight d plane) (castT tb d.mtqL))
            ((stride * planeHeight d plane : Nat) : Int) (stride * planeHeight d plane)
            (castT tb d.mthL) := by
      unfold threshMask_c
      simp only [if_pos hc, e0, e1]
    rw [hfun, fill_n_apply, fill_n_apply]
    constructor
    · intro hj
      rw [if_neg (by omega), if_pos (by omega)]
      exact cq
    · intro hj
      rw [if_pos (by omega), if_pos hp]
      exact ch
  · rw [if_neg hp] at hq hh cq ch ⊢
    have hc1 : ¬ (plane = 0 ∧ d.mtqL > -1 ∧ d.mthL > -1) := fun h => hp h.1
    have hc2 : plane > 0 ∧ d.mtqC > -1 ∧ d.mthC > -1 := ⟨Nat.pos_of_ne_zero hp, hq, hh⟩
    have hfun : threshMask_c tb d plane stride src dst
        = fill_n (fill_n dst 0 (stride * planeHeight d plane) (castT tb d.mtqC))
            ((stride * planeHeight d plane : Nat) : Int) (stride * planeHeight d plane)
            (castT tb d.mthC) := by
      unfold threshMask_c
      simp only [if_neg hc1, if_pos hc2, e0, e1]
    rw [hfun, fill_n_apply, fill_n_apply]
    constructor
    · intro hj
      rw [if_neg (by omega), if_pos (by omega)]
      exact cq
    · intro hj
      rw [if_pos (by omega), if_neg hp]
      exact ch

/-- Witness for C9: with the luma overrides 10 and 20 on an 8-bit plane of 8 rows and stride
68, sample 5 of the quarter layer holds 10 whatever the source holds. -/
theorem threshMask_override_fill_witness :
    ((threshMask_c 8 exOverride 0 68 (fun _ => 99) (fun _ => 0) 5 : Nat) : Int) = 10 :=
  ((threshMask_override_fill 8 exOverride 0 68 (fun _ => 99) (fun _ => 0) (by decide)
    (by decide) (by decide) (by decide)) 5).1 (by decide)

/-- C10 as stated fails: fusing the all-255 bitmap with itself into a destination that holds
0 leaves 0, not 255, at pixel (0, 0). -/
theorem andMasks_self_counterexample :
    ¬ (andMasks_c 8 exData 0 68 (fun _ => 255) (fun _ => 255) (fun _ => 0) (32 + 68 * 0 + 0)
        = (fun _ => 255 : Buf) (32 + 68 * 0 + 0)) := by
  have h : andMasks_c 8 exData 0 68 (fun _ => 255) (fun _ => 255) (fun _ => 0)
      (32 + 68 * 0 + 0) = _ :=
    andMasks_c_pixel 8 exData 0 68 (fun _ => 255) (fun _ => 255) (fun _ => 0) 0 0
      (by decide) (by decide) (by decide) (by decide)
  rw [h]
  decide

/-- C10 (amended): `andMasks_c` accumulates into its destination: with `src1 = src2 = m` it
leaves `dst AND m` at every picture sample of the quarter and half layers, which equals `m`
wherever the destination already held `m` (all three operands equal). -/
theorem andMasks_self (tb : Nat) (d : TDeintModData) (plane stride : Nat)
    (m dst : Buf) (y x : Nat)
    (hpad : 1 ≤ d.widthPad) (hstride : d.viWidth + 2 * d.widthPad ≤ stride)
    (hm : m.InRange tb)
    (hy : y < stackedHeight d plane) (hx : x < planeWidth d plane) :
    andMasks_c tb d plane stride m m dst
        ((d.widthPad : Int) + (stride : Int) * (y : Int) + (x : Int))
      = dst ((d.widthPad : Int) + (stride : Int) * (y : Int) + (x : Int)) &&&
          m ((d.widthPad : Int) + (stride : Int) * (y : Int) + (x : Int)) ∧
    (dst ((d.widthPad : Int) + (stride : Int) * (y : Int) + (x : Int))
        = m ((d.widthPad : Int) + (stride : Int) * (y : Int) + (x : Int)) →
      andMasks_c tb d plane stride m m dst
          ((d.widthPad : Int) + (stride : Int) * (y : Int) + (x : Int))
        = m ((d.widthPad : Int) + (stride : Int) * (y : Int) + (x : Int))) := by
  have hw := planeWidth_le d plane
  have key : andMasks_c tb d plane stride m m dst
        ((d.widthPad : Int) + (stride : Int) * (y : Int) + (x : Int))
      = dst ((d.widthPad : Int) + (stride : Int) * (y : Int) + (x : Int)) &&&
          m ((d.widthPad : Int) + (stride : Int) * (y : Int) + (x : Int)) := by
    rw [andMasks_c_pixel tb d plane stride m m dst y x hpad (by omega) hy hx, Nat.and_self]
    have hle : dst ((d.widthPad : Int) + (stride : Int) * (y : Int) + (x : Int)) &&&
        m ((d.widthPad : Int) + (stride : Int) * (y : Int) + (x : Int)) ≤ typeMax tb :=
      le_trans Nat.and_le_right (hm _)
    have := castT_of_fits tb _ (Int.ofNat_nonneg _) (by exact_mod_cast hle)
    exact_mod_cast this
  refine ⟨key, ?_⟩
  intro e
  rw [key, e, Nat.and_self]

/-- Witness for C10 (amended): fusing the all-255 bitmap with itself into a destination that
already holds 255 leaves 255 at pixel (3, 1). -/
theorem andMasks_self_witness :
    andMasks_c 8 exData 0 68 (fun _ => 255) (fun _ => 255) (fun _ => 255) (32 + 68 * 3 + 1)
      = 255 :=
  (andMasks_self 8 exData 0 68 (fun _ => 255) (fun _ => 255) 3 1 (by decide) (by decide)
    (fun _ => show 255 ≤ typeMax 8 by decide) (by decide) (by decide)).2 rfl

/-- C17: `tdeintmodCreate` ends with an error (so no filter instance is created) for every
configuration whose `length` is below 6, and never raises the length error when `length` is at
least 6. -/
theorem tdeintmodCreate_length_check (a : CreateArgs) :
    (a.length.getD 10 < 6 → ∃ e, tdeintmodCreate a = .error e) ∧
    (6 ≤ a.length.getD 10 → tdeintmodCreate a ≠ .error CreateError.length) := by
  constructor
  · intro h
    obtain ⟨e, he⟩ := paramError_of_short a.order (a.field.getD (-1)) (a.mode.getD 0)
      (a.length.getD 10) (a.mtype.getD 1) (a.ttype.getD 1) (a.mtql.getD (-1))
      (a.mthl.getD (-1)) (a.mtqc.getD (-1)) (a.mthc.getD (-1)) (a.nt.getD 2)
      (a.minthresh.getD 4) (a.maxthresh.getD 75) (a.athresh.getD (-1)) (a.metric.getD 0)
      (a.expand.getD 0) (a.opt.getD 0) h
    refine ⟨e, ?_⟩
    unfold tdeintmodCreate
    rw [he]
  · intro h heq
    unfold tdeintmodCreate at heq
    split at heq
    · rename_i e he
      injection heq with heq
      subst heq
      have := paramError_length _ _ _ _ _ _ _ _ _ _ _ _ _ _ _ _ _ he
      omega
    · split at heq
      · rename_i e he
        injection heq with heq
        subst heq
        exact clipError_ne_length a _ he
      · split at heq
        · rename_i e hmp
          injection heq with heq
          subst heq
          rcases markPlanes_error _ _ _ _ hmp with h1 | h1 <;> cases h1
        · split at heq
          · rename_i e he
            injection heq with heq
            subst heq
            exact lateError_ne_length a _ he
          · cases heq

/-- Witness for C17: with `length = 5` on an otherwise valid 720x480 clip the construction
ends with the length error; with `length = 6` it does not. -/
theorem tdeintmodCreate_length_check_witness :
    (∃ e, tdeintmodCreate (exCreateArgs 5) = .error e) ∧
    tdeintmodCreate (exCreateArgs 6) ≠ .error CreateError.length :=
  ⟨(tdeintmodCreate_length_check (exCreateArgs 5)).1 (by decide),
   (tdeintmodCreate_length_check (exCreateArgs 6)).2 (by decide)⟩

/-- C18: `isPowerOf2(i)` is true exactly for the positive integers `i` that are powers of
two, it is false for 0, and (every other check passing) `iscombedCreate` accepts the
configuration iff `blockx` and `blocky` are each one of the powers of two 4, 8, ..., 2048. -/
theorem iscombedCreate_block_sizes :
    (∀ i : Int, isPowerOf2 i = true ↔ ∃ k : Nat, i = 2 ^ k) ∧
    isPowerOf2 0 = false ∧
    (∀ a : CombedArgs,
      a.constantFormat = true → a.integerSamples = true → a.bitsPerSample ≤ 16 →
      5 ≤ a.height → a.subSamplingW ≤ 2 → a.subSamplingH ≤ 2 →
      (0 ≤ a.cthresh.getD 6 ∧ a.cthresh.getD 6 ≤ 255) →
      (a.chroma.getD false && a.gray) = false → 0 ≤ a.mi.getD 64 →
      (0 ≤ a.metric.getD 0 ∧ a.metric.getD 0 ≤ 1) →
      ((∃ d, iscombedCreate a = .ok d) ↔
        LegalBlock (a.blockx.getD 16) ∧ LegalBlock (a.blocky.getD 16))) := by
  refine ⟨isPowerOf2_iff, by decide, ?_⟩
  intro a h1 h2 h3 h4 h5 h6 h7 h8 h9 h10
  have hx := legalBlock_iff (a.blockx.getD 16)
  have hy := legalBlock_iff (a.blocky.getD 16)
  have hnone : firstError (combedChecks a) = none ↔
      LegalBlock (a.blockx.getD 16) ∧ LegalBlock (a.blocky.getD 16) := by
    rw [firstError_none_iff, ← hx, ← hy]
    unfold combedChecks
    simp only [List.mem_cons, List.mem_singleton, List.not_mem_nil, or_false, forall_eq_or_imp,
      forall_eq, decide_eq_false_iff_not, h1, h2, h8]
    constructor
    · rintro ⟨-, -, -, -, -, hbx, hby, -, -, -⟩
      simp only [not_or, Bool.not_eq_true', Bool.not_eq_false, not_lt] at hbx hby
      exact ⟨⟨hbx.1, hbx.2.1, hbx.2.2⟩, ⟨hby.1, hby.2.1, hby.2.2⟩⟩
    · rintro ⟨⟨p1, p2, p3⟩, ⟨q1, q2, q3⟩⟩
      refine ⟨?_, ?_, ?_, ?_, ?_, ?_, ?_, ?_, ?_, ?_⟩
      · simp; omega
      · omega
      · omega
      · omega
      · omega
      · simp [p1]; omega
      · simp [q1]; omega
      · trivial
      · omega
      · omega
  unfold iscombedCreate
  rw [← hnone]
  constructor
  · rintro ⟨d, hd⟩
    split at hd
    · cases hd
    · assumption
  · intro h
    rw [h]
    exact ⟨_, rfl⟩

/-- Witness for C18: an 8-bit gray 64x48 clip with `blockx = 32` and the default `blocky = 16`
is accepted. -/
theorem iscombedCreate_block_sizes_witness :
    ∃ d, iscombedCreate (exCombedArgs 64 48 (some 32) none) = .ok d :=
  (iscombedCreate_block_sizes.2.2 (exCombedArgs 64 48 (some 32) none) rfl rfl (by decide)
    (by decide) (by decide) (by decide) (by decide) rfl (by decide) (by decide)).mpr
    ⟨by unfold LegalBlock; decide, by unfold LegalBlock; decide⟩

/-- C19: for every output frame `n`, every `length >= 6` and every `order`, `field` in {0, 1},
each frame index that `tdeintmodBuildMMGetFrame` fetches from the motion-mask clips (the
indices of the top and bottom windows that are not zero-filled) lies inside the window
`[max(n-1-(length-2)/2, 0), min(n+(length-2)/2-1, numFrames-3)]` requested in the initial
activation, and is one of the requested frames. -/
theorem fetched_frames_requested (length order field n numFrames i : Int)
    (hlen : 6 ≤ length) (horder : order = 0 ∨ order = 1) (hfield : field = 0 ∨ field = 1)
    (hfetch : some i ∈ windowSources (maskWindow length order field n).tStart
        (maskWindow length order field n).tStop numFrames ∨
      some i ∈ windowSources (maskWindow length order field n).bStart
        (maskWindow length order field n).bStop numFrames) :
    max (n - 1 - (length - 2) / 2) 0 ≤ i ∧ i ≤ min (n + (length - 2) / 2 - 1) (numFrames - 3) ∧
    i ∈ requestedFrames length n numFrames := by
  have e1 := tdiv_two_of_nonneg (length - 1) (by omega)
  have e2 := tdiv_two_of_nonneg (length - 2) (by omega)
  have hmem : ∀ start stop : Int, some i ∈ windowSources start stop numFrames →
      start ≤ i ∧ i ≤ stop ∧ 0 ≤ i ∧ i ≤ numFrames - 3 := by
    intro start stop hm
    unfold windowSources at hm
    obtain ⟨k, hk, hkv⟩ := List.mem_map.mp hm
    have hk2 := List.mem_range.mp hk
    split_ifs at hkv with hc
    injection hkv with hkv
    omega
  have hbounds : max (n - 1 - (length - 2) / 2) 0 ≤ i ∧
      i ≤ min (n + (length - 2) / 2 - 1) (numFrames - 3) := by
    rcases hfetch with h | h
    · have := hmem _ _ h
      unfold maskWindow at this
      rcases hfield with hf | hf <;> rcases horder with ho | ho <;> subst hf <;> subst ho <;>
        simp only [e1, e2] at this <;> norm_num at this <;> omega
    · have := hmem _ _ h
      unfold maskWindow at this
      rcases hfield with hf | hf <;> rcases horder with ho | ho <;> subst hf <;> subst ho <;>
        simp only [e1, e2] at this <;> norm_num at this <;> omega
  refine ⟨hbounds.1, hbounds.2, ?_⟩
  unfold requestedFrames requestStart requestStop
  rw [e2]
  refine List.mem_map.mpr ⟨(i - max (n - 1 - (length - 2) / 2) 0).toNat, ?_, ?_⟩
  · rw [List.mem_range]
    omega
  · omega

/-- Witness for C19: with `length = 10`, `order = 1`, `field = 1` at frame 20 of a 100-frame
mask clip, frame 16 is fetched for the top window and lies in the requested window 15..23. -/
theorem fetched_frames_requested_witness :
    max ((20 : Int) - 1 - (10 - 2) / 2) 0 ≤ 16 ∧ (16 : Int) ≤ min (20 + (10 - 2) / 2 - 1) (100 - 3) ∧
      (16 : Int) ∈ requestedFrames 10 20 100 :=
  fetched_frames_requested 10 1 1 20 100 16 (by decide) (Or.inr rfl) (Or.inr rfl)
    (Or.inl (by decide))

/-- Claim C12.  After `buildMask`, run with the tables that `tdeintmodCreate` builds for any
`mtype` and any `length`, every pixel of every processed plane holds one of the decision codes
10, 20, 30, 40, 50, 60, 70, whatever the motion masks of the two windows, the previous contents
of the destination and of the scratch arrays, and for `order` and `field` in {0, 1}. -/
theorem buildMask_decision_codes (d0 : TDeintModData) (mtype : Int) (cSrc oSrc : Int → Frame)
    (dst : Frame) (cCount oCount order field : Nat) (plut0 plut1 junk : Nat → Nat)
    (p y x : Nat) (ho : order ≤ 1) (hf : field ≤ 1)
    (hp : p < d0.numPlanes) (hproc : d0.process p = true)
    (hy : y < dst.height p) (hx : x < dst.width p) :
    IsDecisionCode
      ((buildMask (createTables d0 mtype) cSrc oSrc dst cCount oCount order field
        plut0 plut1 junk).px (dst.stride p) p (y : Int) x) := by
  unfold Frame.px
  rw [buildMask_data (createTables d0 mtype) cSrc oSrc dst cCount oCount order field
    plut0 plut1 junk p hp hproc]
  rcases buildMaskPlane_cases (createTables d0 mtype)
      (tmmlutfOf (createTables d0 mtype) order field junk)
      (fun i => (cSrc i).data p) (fun i => (oSrc i).data p) cCount oCount field
      (dst.width p) (dst.height p) (dst.stride p)
      ((buildMaskPlanes (createTables d0 mtype) cSrc oSrc dst cCount oCount order field
        plut0 plut1 junk p).dst.data p)
      (buildMaskPlanes (createTables d0 mtype) cSrc oSrc dst cCount oCount order field
        plut0 plut1 junk p).plut0
      (buildMaskPlanes (createTables d0 mtype) cSrc oSrc dst cCount oCount order field
        plut0 plut1 junk p).plut1
      y x hf (dst.width_le_stride p) hy hx with ⟨_, h⟩ | ⟨k, _, h⟩
  · rw [h]
    unfold IsDecisionCode
    omega
  · rw [h]
    exact buildMaskCode_decision d0 mtype order field junk _ _ cCount oCount x _ ho hf

/-- Claim C12 at a concrete input: a 2x2 single-plane mask built from all-set windows with the
tables of `mtype = 1`, `length = 10`, `order = 1`, `field = 1`. -/
theorem buildMask_decision_codes_witness :
    IsDecisionCode
      ((buildMask (createTables exData 1) (fun _ => exFlat 255) (fun _ => exFlat 255)
        (exFlat 0) 8 7 1 1 (fun _ => 0) (fun _ => 0) (fun _ => 0)).px
        ((exFlat 0).stride 0) 0 ((1 : Nat) : Int) 1) :=
  buildMask_decision_codes exData 1 (fun _ => exFlat 255) (fun _ => exFlat 255) (exFlat 0)
    8 7 1 1 (fun _ => 0) (fun _ => 0) (fun _ => 0) 0 1 1 (by decide) (by decide) (by decide)
    rfl (by decide) (by decide)

/-- Claim C20.  At every pixel of a processed plane that does not take the fast path,
`buildMask` leaves `tmmlut16[order * 8 + field * 4 + vlut[val]]`, where `val` is the
accumulator of the scan over `i = 0 .. length - 1` that ORs in `gvlut[i] * 8` when the
`length - 4` samples of `plut[0]` from `i` on are all set and `gvlut[i]` when those of `plut[1]`
are, and stops after the first `i` at which `vlut[val] = 2`; the phase arrays are those filled
for the pixel.  The entries of `gvlut` are below 8, as `tdeintmodCreate` builds them. -/
theorem buildMask_scan_code (d : TDeintModData) (cSrc oSrc : Int → Frame) (dst : Frame)
    (cCount oCount order field : Nat) (plut0 plut1 junk : Nat → Nat) (p k x : Nat)
    (hg : ∀ i, d.gvlut i < 8) (hf : field ≤ 1)
    (hp : p < d.numPlanes) (hproc : d.process p = true)
    (hy : field + 2 * k < dst.height p) (hx : x < dst.width p)
    (hslow : ¬ fastPath (fun i => (cSrc i).data p) cCount
      (buildMaskReach d cSrc oSrc dst cCount oCount order field plut0 plut1 junk p k x).pt1 x) :
    (buildMask d cSrc oSrc dst cCount oCount order field plut0 plut1 junk).px
        (dst.stride p) p ((field + 2 * k : Nat) : Int) x
      = d.tmmlut16 (order * 8 + field * 4 + d.vlut (specScan d
          (pixelArrays d (fun i => (cSrc i).data p) (fun i => (oSrc i).data p) cCount oCount x
            (buildMaskReach d cSrc oSrc dst cCount oCount order field plut0 plut1 junk p k x)).plut0
          (pixelArrays d (fun i => (cSrc i).data p) (fun i => (oSrc i).data p) cCount oCount x
            (buildMaskReach d cSrc oSrc dst cCount oCount order field plut0 plut1 junk p k x)).plut1))
    := by
  unfold Frame.px
  rw [buildMask_data d cSrc oSrc dst cCount oCount order field plut0 plut1 junk p hp hproc]
  unfold buildMaskPlane
  rw [buildMaskRows_pixel _ _ _ _ _ _ _ _ _ _ _ _ _ _ k x hf (dst.width_le_stride p)
    (by omega) hx]
  show buildMaskCode d (tmmlutfOf d order field junk) (fun i => (cSrc i).data p)
    (fun i => (oSrc i).data p) cCount oCount x
    (buildMaskReach d cSrc oSrc dst cCount oCount order field plut0 plut1 junk p k x) = _
  unfold buildMaskCode
  rw [if_neg hslow, tmmlutfOf_apply _ _ _ _ _ (scanLoop_lt _ _ _ hg _ _ _ (by omega)),
    scanLoop_eq_specScan]

/-- Claim C20 at a concrete input: the top-left pixel of the field row of a 2x2 mask built
from all-set windows (`mtype = 1`, `length = 10`, `order = 1`, `field = 1`). -/
theorem buildMask_scan_code_witness :
    (buildMask (createTables exData 1) exWindow exWindow (exFlat 0) 8 7 1 1
        (fun _ => 0) (fun _ => 0) (fun _ => 0)).px
        ((exFlat 0).stride 0) 0 ((1 + 2 * 0 : Nat) : Int) 0
      = (createTables exData 1).tmmlut16 (1 * 8 + 1 * 4 + (createTables exData 1).vlut
          (specScan (createTables exData 1)
            (pixelArrays (createTables exData 1) (fun i => (exWindow i).data 0)
              (fun i => (exWindow i).data 0) 8 7 0
              (buildMaskReach (createTables exData 1) exWindow exWindow (exFlat 0) 8 7 1 1
                (fun _ => 0) (fun _ => 0) (fun _ => 0) 0 0 0)).plut0
            (pixelArrays (createTables exData 1) (fun i => (exWindow i).data 0)
              (fun i => (exWindow i).data 0) 8 7 0
              (buildMaskReach (createTables exData 1) exWindow exWindow (exFlat 0) 8 7 1 1
                (fun _ => 0) (fun _ => 0) (fun _ => 0) 0 0 0)).plut1)) :=
  buildMask_scan_code (createTables exData 1) exWindow exWindow (exFlat 0) 8 7 1 1
    (fun _ => 0) (fun _ => 0) (fun _ => 0) 0 0 0 (fun i => gvlutOf_lt 10 i) (by decide)
    (by decide) rfl (by decide) (by decide)
    (fun h => absurd h.1 (show (255 : Nat) ≠ 0 by decide))

/-- Claim C11.  When every motion-mask sample of the current-polarity and opposite-polarity
windows handed to `buildMask` is set (the masks of a fully static sequence), every pixel of
every processed plane resolves to a code different from 60, for the tables of every `mtype`,
for `order` and `field` in {0, 1}, and for every `length >= 6`; the window sizes are those that
`tdeintmodBuildMMGetFrame` passes. -/
theorem buildMask_static_not_60 (d0 : TDeintModData) (mtype : Int) (cSrc oSrc : Int → Frame)
    (dst : Frame) (order field : Nat) (plut0 plut1 junk : Nat → Nat) (p y x : Nat)
    (hl : 6 ≤ d0.length) (ho : order ≤ 1) (hf : field ≤ 1)
    (hp : p < d0.numPlanes) (hproc : d0.process p = true)
    (hy : y < dst.height p) (hx : x < dst.width p)
    (hc : ∀ (j : Nat) (off : Int), j < windowCCount d0.length order field →
      (cSrc (j : Int)).data p off ≠ 0)
    (hop : ∀ (j : Nat) (off : Int), j < windowOCount d0.length order field →
      (oSrc (j : Int)).data p off ≠ 0) :
    (buildMask (createTables d0 mtype) cSrc oSrc dst (windowCCount d0.length order field)
      (windowOCount d0.length order field) order field plut0 plut1 junk).px
      (dst.stride p) p (y : Int) x ≠ 60 := by
  unfold Frame.px
  rw [buildMask_data (createTables d0 mtype) cSrc oSrc dst _ _ order field
    plut0 plut1 junk p hp hproc]
  rcases buildMaskPlane_cases (createTables d0 mtype)
      (tmmlutfOf (createTables d0 mtype) order field junk)
      (fun i => (cSrc i).data p) (fun i => (oSrc i).data p)
      (windowCCount d0.length order field) (windowOCount d0.length order field) field
      (dst.width p) (dst.height p) (dst.stride p)
      ((buildMaskPlanes (createTables d0 mtype) cSrc oSrc dst
        (windowCCount d0.length order field) (windowOCount d0.length order field) order field
        plut0 plut1 junk p).dst.data p)
      (buildMaskPlanes (createTables d0 mtype) cSrc oSrc dst
        (windowCCount d0.length order field) (windowOCount d0.length order field) order field
        plut0 plut1 junk p).plut0
      (buildMaskPlanes (createTables d0 mtype) cSrc oSrc dst
        (windowCCount d0.length order field) (windowOCount d0.length order field) order field
        plut0 plut1 junk p).plut1
      y x hf (dst.width_le_stride p) hy hx with ⟨_, h⟩ | ⟨k, _, h⟩
  · rw [h]
    decide
  · rw [h]
    exact buildMaskCode_static d0 mtype order field junk _ _ x _ hl ho hf hc hop

/-- Claim C11 at a concrete input: a 2x2 single-plane mask built from all-set windows with the
tables of `mtype = 0`, `length = 10`, `order = 1`, `field = 0`. -/
theorem buildMask_static_not_60_witness :
    (buildMask (createTables exData 0) exWindow exWindow (exFlat 0)
      (windowCCount exData.length 1 0) (windowOCount exData.length 1 0) 1 0
      (fun _ => 0) (fun _ => 0) (fun _ => 0)).px
      ((exFlat 0).stride 0) 0 ((0 : Nat) : Int) 1 ≠ 60 :=
  buildMask_static_not_60 exData 0 exWindow exWindow (exFlat 0) 1 0
    (fun _ => 0) (fun _ => 0) (fun _ => 0) 0 0 1 (by decide) (by decide) (by decide)
    (by decide) rfl (by decide) (by decide)
    (fun _ _ _ => show (255 : Nat) ≠ 0 by decide) (fun _ _ _ => show (255 : Nat) ≠ 0 by decide)

/-- Claim C13.  `checkCombed` reports a frame as combed exactly when its score exceeds `MI`,
and the score is the maximum over the cells of the block histogram: it bounds every cell and,
the cells being counts, is attained by one of them.  So for `MI >= 0` the frame is reported
combed iff some cell exceeds `MI`, and a histogram that is all zero is never reported
combed. -/
theorem checkCombed_max_cell (tb : Nat) (d : IsCombedData) (src cmask : Frame)
    (a0 : Nat → Int) :
    (checkCombed tb d src cmask a0 = true ↔ checkCombedScore tb d src cmask a0 > d.MI) ∧
    (∀ c, c < d.arraySize →
      checkCombedHistogram tb d src cmask a0 c ≤ checkCombedScore tb d src cmask a0) ∧
    (0 < d.arraySize → ∃ c, c < d.arraySize ∧
      checkCombedHistogram tb d src cmask a0 c = checkCombedScore tb d src cmask a0) ∧
    (0 ≤ d.MI → (checkCombed tb d src cmask a0 = true ↔
      ∃ c, c < d.arraySize ∧ checkCombedHistogram tb d src cmask a0 c > d.MI)) ∧
    (0 ≤ d.MI → (∀ c, c < d.arraySize → checkCombedHistogram tb d src cmask a0 c = 0) →
      checkCombed tb d src cmask a0 = false) := by
  have hiff : checkCombed tb d src cmask a0 = true ↔ checkCombedScore tb d src cmask a0 > d.MI :=
    by
      unfold checkCombed
      exact decide_eq_true_iff
  refine ⟨hiff, ?_, ?_, ?_, ?_⟩
  · intro c hc
    exact maxCell_ge _ _ c hc
  · intro hpos
    rcases maxCell_cases (checkCombedHistogram tb d src cmask a0) d.arraySize with h0 | h
    · refine ⟨0, hpos, ?_⟩
      have hle := maxCell_ge (checkCombedHistogram tb d src cmask a0) d.arraySize 0 hpos
      have hge : 0 ≤ checkCombedHistogram tb d src cmask a0 0 :=
        combHistogram_nonneg d _ _ _ _ a0 0 hpos
      show checkCombedHistogram tb d src cmask a0 0
        = maxCell (checkCombedHistogram tb d src cmask a0) d.arraySize
      omega
    · exact h
  · intro hmi
    rw [hiff]
    exact maxCell_gt_iff _ _ _ hmi
  · intro hmi hz
    rw [Bool.eq_false_iff]
    intro ht
    obtain ⟨c, hc, hv⟩ := (maxCell_gt_iff _ _ _ hmi).1 (hiff.1 ht)
    rw [hz c hc] at hv
    omega

/-- Claim C13 at a concrete input: a constant frame of 1 by 5 samples with block size 4 has
an all-zero histogram and is reported as not combed. -/
theorem checkCombed_max_cell_witness :
    (0 : Int) ≤ exSmallComb.MI ∧
    (∀ c, c < exSmallComb.arraySize →
      checkCombedHistogram 8 exSmallComb (exStrip 7) (exStrip 0) (fun _ => 0) c = 0) ∧
    checkCombed 8 exSmallComb (exStrip 7) (exStrip 0) (fun _ => 0) = false :=
  ⟨by decide, by decide,
    (checkCombed_max_cell 8 exSmallComb (exStrip 7) (exStrip 0) (fun _ => 0)).2.2.2.2
      (by decide) (by decide)⟩

/-- Claim C15.  End to end with the default `IsCombed` parameters (cthresh 6, blockx = blocky
= 16, MI 64, metric 0, chroma off) on a 16x16 8-bit frame: a constant gray frame is reported
as not combed, and the frame in which every other row holds 255 and the remaining rows the
gray value `g`, with `255 - g > 6`, is reported as combed; `par` says whether the even or the
odd rows hold 255. -/
theorem iscombed_end_to_end (d : IsCombedData)
    (hd : iscombedCreate (exCombedArgs 16 16 none none) = .ok d)
    (src cmask : Frame) (a0 : Nat → Int) (g : Nat)
    (hw : src.width 0 = 16) (hh : src.height 0 = 16)
    (hcw : cmask.width 0 = 16) (hch : cmask.height 0 = 16)
    (hcs : cmask.stride 0 = src.stride 0) :
    ((∀ y x : Nat, y < 16 → x < 16 → src.px (src.stride 0) 0 (y : Int) x = g) →
      checkCombed 8 d src cmask a0 = false) ∧
    (∀ par : Nat, par < 2 → 255 - g > 6 →
      (∀ y x : Nat, y < 16 → x < 16 →
        src.px (src.stride 0) 0 (y : Int) x = if y % 2 = par then 255 else g) →
      checkCombed 8 d src cmask a0 = true) := by
  have hde : d = exComb16 := by
    rw [iscombedCreate_ex16] at hd
    exact (Except.ok.inj hd).symm
  subst hde
  have hws := src.width_le_stride 0
  constructor
  · intro hconst
    refine checkCombed_of_clear 8 exComb16 src cmask a0 (by decide) ?_
    intro c hc
    refine checkCombedHistogram_monotone 8 exComb16 src cmask a0 c hc rfl (by rw [hcw, hw])
      (by rw [hch, hh]) hcs (by omega) (by decide) (by decide) (by decide) (by decide)
      2 (by decide) (by rw [hw]; decide) 0 (by decide) (by rw [hh]; decide) (by decide)
      (by decide) (fun hm => absurd rfl hm) ?_
    intro x hx
    left
    intro r hr
    rw [hconst r x (by omega) (by omega), hconst (r + 1) x (by omega) (by omega)]
  · intro par hpar hg hrows
    refine checkCombed_of_cell 8 exComb16 src cmask a0 0 (by decide) ?_
    unfold checkCombedHistogram
    obtain ⟨e1, e2, e3, e4⟩ := combBitmap_luma 8 exComb16 src cmask rfl
    rw [e1, e2, e3, e4, hcw, hch, hcs, hw, hh,
      combHistogram_eq_naive exComb16 _ 16 16 _ a0 0 (by decide) (by decide) (by decide)
        (by decide) (by decide) 2 (by decide) (by decide) 0 (by decide) (by decide),
      naiveHistogram_full exComb16 _ 16 16 _ 0 ?_,
      Finset.sum_congr rfl (fun k hk => Finset.sum_congr rfl (fun x hx =>
        cellHits_ex16 k x (Finset.mem_range.1 hk) (Finset.mem_range.1 hx)))]
    · simp only [Finset.sum_const, Finset.card_range]
      decide
    · intro y x hy hx
      have hrow : ∀ r : Int, 0 ≤ r → r < 16 → rowAt (src.data 0) (src.stride 0) r x
          = (((if r.toNat % 2 = par then 255 else g : Nat) : Nat) : Int) := by
        intro r h0 h1
        have h := hrows r.toNat x (by omega) hx
        unfold Frame.px at h
        rw [show ((r.toNat : Nat) : Int) = r by omega] at h
        unfold rowAt
        rw [h]
      rw [combMaskPlane_metric0 8 exComb16 16 16 _ _ _ y x rfl (by omega) (by omega) hy hx]
      by_cases hp : y % 2 = par
      · rw [combTest0_comb exComb16 _ _ 16 y x 255 (g : Int) (by omega) hy (by decide)
          (by decide) (Or.inl (by show (255 : Int) - (g : Int) > 6; omega)) ?_ ?_]
        · decide
        · intro r h0 h1 hm
          rw [hrow r h0 (by omega), if_pos (by omega)]
          rfl
        · intro r h0 h1 hm
          rw [hrow r h0 (by omega), if_neg (by omega)]
      · rw [combTest0_comb exComb16 _ _ 16 y x (g : Int) 255 (by omega) hy (by decide)
          (by decide) (Or.inr (by show (g : Int) - 255 < -6; omega)) ?_ ?_]
        · decide
        · intro r h0 h1 hm
          rw [hrow r h0 (by omega), if_neg (by omega)]
        · intro r h0 h1 hm
          rw [hrow r h0 (by omega), if_pos (by omega)]
          rfl

/-- Claim C15 at concrete inputs: the constant frame of value 100, and the frame whose even
rows hold 255 and whose odd rows hold 100. -/
theorem iscombed_end_to_end_witness :
    checkCombed 8 exComb16 (exGray16 100) (exGray16 0) (fun _ => 0) = false ∧
    checkCombed 8 exComb16 exRows16 (exGray16 0) (fun _ => 0) = true :=
  ⟨(iscombed_end_to_end exComb16 iscombedCreate_ex16 (exGray16 100) (exGray16 0) (fun _ => 0)
      100 rfl rfl rfl rfl rfl).1 (fun _ _ _ _ => rfl),
    (iscombed_end_to_end exComb16 iscombedCreate_ex16 exRows16 (exGray16 0) (fun _ => 0)
      100 rfl rfl rfl rfl rfl).2 0 (by decide) (by decide)
      (fun y x hy hx => by
        show (if ((16 : Int) * (y : Int) + (x : Int)) / 16 % 2 = 0 then 255 else 100)
          = if y % 2 = 0 then 255 else 100
        rw [show ((16 : Int) * (y : Int) + (x : Int)) / 16 = (y : Int) by omega]
        split_ifs <;> omega)⟩

/-- Claim C14, evaluated at a failing input.  `iscombedCreate` accepts a 16-bit clip with
`cthresh = 255` and `metric = 1`, and stores `cthreshsq = 65535 * 65535` reduced to the `int`
-131071.  On the constant frame (monotonic down every column) the test
`(c - p) * (c - n) > cthreshsq` then holds at every pixel: cell 0 of the block histogram is 3,
not 0, and with `MI = 0` the frame is reported as combed. -/
theorem checkCombed_constant_overflow :
    iscombedCreate exOverflowArgs = .ok exCombOverflow ∧
    checkCombedHistogram 16 exCombOverflow (exStrip 0) (exStrip 0) (fun _ => 0) 0 = 3 ∧
    checkCombed 16 exCombOverflow (exStrip 0) (exStrip 0) (fun _ => 0) = true :=
  ⟨iscombedCreate_exOverflow, by decide, by decide⟩

/-- Claim C16, evaluated at a failing input.  `iscombedCreate` accepts a clip of height 5 with
the default `blocky = 16`, so `yHalf = 8` and `heighta = 0`.  The first histogram loop then
runs over `y = 1 .. 7` and the third over `y = 0 .. 3` with the pointers on rows 8 .. 11, both
reading rows that the bitmap of 5 rows does not have.  With a clear bitmap followed by memory
that is not zero, cell 0 of the histogram is 6, while the naive histogram of the bitmap
is 0. -/
theorem combHistogram_low_frame :
    iscombedCreate (exCombedArgs 1 5 none none) = .ok exCombLow ∧
    combHistogram exCombLow exBeyond 1 5 1 (fun _ => 0) 0 = 6 ∧
    naiveHistogram exCombLow exBeyond 1 5 1 0 = 0 :=
  ⟨iscombedCreate_exLow, by decide, by decide⟩

/-- Claim C22 (counterexample).  With `length = 10`, `order = 1`, `field = 1` at frame 7 of a
10-frame motion-mask clip, the top window is 3..9 and its entry for frame 8, which lies inside
the clip (0 <= 8 <= numFrames - 1), is a zero-filled buffer. -/
theorem windowSources_inside_clip_counterexample :
    (0 : Int) ≤ 8 ∧ (8 : Int) ≤ 10 - 1 ∧
    (windowSources (maskWindow 10 1 1 7).tStart (maskWindow 10 1 1 7).tStop 10)[5]? = some none ∧
    (maskWindow 10 1 1 7).tStart + 5 = 8 := by
  decide

/-- Claim C22 (amended).  In each of the two window loops of `tdeintmodBuildMMGetFrame`, the
entry for the window index `i` is a zero-filled buffer exactly when `i < 0` or
`i >= numFrames - 2`, and is frame `i` of the motion-mask clip exactly when
`0 <= i <= numFrames - 3`: the last two frames of the clip are replaced by zero-filled buffers
as well. -/
theorem window_zero_fill (start stop numFrames i : Int) (h1 : start ≤ i) (h2 : i ≤ stop) :
    ((windowSources start stop numFrames)[(i - start).toNat]? = some none ↔
      (i < 0 ∨ i ≥ numFrames - 2)) ∧
    ((windowSources start stop numFrames)[(i - start).toNat]? = some (some i) ↔
      (0 ≤ i ∧ i ≤ numFrames - 3)) := by
  rw [windowSources_entry start stop numFrames i h1 h2]
  by_cases h : i < 0 ∨ i ≥ numFrames - 2
  · rw [if_pos h]
    constructor
    · exact ⟨fun _ => h, fun _ => rfl⟩
    · constructor
      · intro e
        cases e
      · intro e
        omega
  · rw [if_neg h]
    constructor
    · constructor
      · intro e
        cases e
      · intro e
        exact absurd e h
    · exact ⟨fun _ => by omega, fun _ => rfl⟩

/-- Claim C22 at a concrete input: the entry for frame 16 of the top window at frame 20 of a
100-frame clip (`length = 10`, `order = 1`, `field = 1`). -/
theorem window_zero_fill_witness :
    ((windowSources (maskWindow 10 1 1 20).tStart (maskWindow 10 1 1 20).tStop 100)[
        ((16 : Int) - (maskWindow 10 1 1 20).tStart).toNat]? = some none ↔
      ((16 : Int) < 0 ∨ (16 : Int) ≥ 100 - 2)) ∧
    ((windowSources (maskWindow 10 1 1 20).tStart (maskWindow 10 1 1 20).tStop 100)[
        ((16 : Int) - (maskWindow 10 1 1 20).tStart).toNat]? = some (some 16) ↔
      ((0 : Int) ≤ 16 ∧ (16 : Int) ≤ 100 - 3)) :=
  window_zero_fill (maskWindow 10 1 1 20).tStart (maskWindow 10 1 1 20).tStop 100 16
    (by decide) (by decide)

/-- Claim C21 (counterexample).  With 8 current-polarity frames (`ct = 4`) of which only frame 3
is set, the top-left pixel of the field row takes the fast path and ends with code 60, although
the three consecutive frames 3, 4, 5 centred on `ct` are not all unset. -/
theorem buildMask_fast_path_counterexample :
    (buildMask (createTables exData 1) exGap exWindow (exFlat 0) 8 7 1 1
        (fun _ => 0) (fun _ => 0) (fun _ => 0)).px
        ((exFlat 0).stride 0) 0 ((1 + 2 * 0 : Nat) : Int) 0 = 60 ∧
    fastPath (fun i => (exGap i).data 0) 8
      (buildMaskReach (createTables exData 1) exGap exWindow (exFlat 0) 8 7 1 1
        (fun _ => 0) (fun _ => 0) (fun _ => 0) 0 0 0).pt1 0 ∧
    ¬ centralUnset (fun i => (exGap i).data 0) 8
      (buildMaskReach (createTables exData 1) exGap exWindow (exFlat 0) 8 7 1 1
        (fun _ => 0) (fun _ => 0) (fun _ => 0) 0 0 0).pt1 0 := by
  have hfast : fastPath (fun i => (exGap i).data 0) 8
      (buildMaskReach (createTables exData 1) exGap exWindow (exFlat 0) 8 7 1 1
        (fun _ => 0) (fun _ => 0) (fun _ => 0) 0 0 0).pt1 0 := by
    rw [buildMaskReach_pt1]
    decide
  refine ⟨?_, hfast, ?_⟩
  · exact buildMask_fast (createTables exData 1) exGap exWindow (exFlat 0) 8 7 1 1
      (fun _ => 0) (fun _ => 0) (fun _ => 0) 0 0 0 (by decide) (by decide) rfl (by decide)
      (by decide) hfast
  · rw [buildMaskReach_pt1]
    intro h
    exact absurd h.1 (by decide)

/-- Claim C21 (amended).  At column `x` of the `k`-th row of the field parity (row
`field + 2 * k`) of a processed plane, `buildMask` takes the fast path exactly when the samples
at row `k`, column `x` of the current-polarity frames `ct - 2`, `ct` and `ct + 1`
(`ct = cCount / 2`) are all unset, and a pixel that takes the fast path ends with code 60. -/
theorem buildMask_fast_path (d : TDeintModData) (cSrc oSrc : Int → Frame) (dst : Frame)
    (cCount oCount order field : Nat) (plut0 plut1 junk : Nat → Nat) (p k x : Nat)
    (hf : field ≤ 1) (hp : p < d.numPlanes) (hproc : d.process p = true)
    (hy : field + 2 * k < dst.height p) (hx : x < dst.width p) :
    (fastPath (fun i => (cSrc i).data p) cCount
        (buildMaskReach d cSrc oSrc dst cCount oCount order field plut0 plut1 junk p k x).pt1 x ↔
      ((cSrc (((cCount / 2 : Nat) : Int) - 2)).px (dst.stride p) p (k : Int) x = 0 ∧
        (cSrc ((cCount / 2 : Nat) : Int)).px (dst.stride p) p (k : Int) x = 0 ∧
        (cSrc (((cCount / 2 : Nat) : Int) + 1)).px (dst.stride p) p (k : Int) x = 0)) ∧
    (fastPath (fun i => (cSrc i).data p) cCount
        (buildMaskReach d cSrc oSrc dst cCount oCount order field plut0 plut1 junk p k x).pt1 x →
      (buildMask d cSrc oSrc dst cCount oCount order field plut0 plut1 junk).px
        (dst.stride p) p ((field + 2 * k : Nat) : Int) x = 60) :=
  ⟨fastPath_reach d cSrc oSrc dst cCount oCount order field plut0 plut1 junk p k x,
    buildMask_fast d cSrc oSrc dst cCount oCount order field plut0 plut1 junk p k x
      hf hp hproc hy hx⟩

/-- Claim C21 at a concrete input: the top-left pixel of the field row of a 2x2 mask built from
the window `exGap` (`length = 10`, `order = 1`, `field = 1`). -/
theorem buildMask_fast_path_witness :
    (fastPath (fun i => (exGap i).data 0) 8
        (buildMaskReach (createTables exData 1) exGap exWindow (exFlat 0) 8 7 1 1
          (fun _ => 0) (fun _ => 0) (fun _ => 0) 0 0 0).pt1 0 ↔
      ((exGap (((8 / 2 : Nat) : Int) - 2)).px ((exFlat 0).stride 0) 0 ((0 : Nat) : Int) 0 = 0 ∧
        (exGap ((8 / 2 : Nat) : Int)).px ((exFlat 0).stride 0) 0 ((0 : Nat) : Int) 0 = 0 ∧
        (exGap (((8 / 2 : Nat) : Int) + 1)).px ((exFlat 0).stride 0) 0 ((0 : Nat) : Int) 0 = 0)) ∧
    (fastPath (fun i => (exGap i).data 0) 8
        (buildMaskReach (createTables exData 1) exGap exWindow (exFlat 0) 8 7 1 1
          (fun _ => 0) (fun _ => 0) (fun _ => 0) 0 0 0).pt1 0 →
      (buildMask (createTables exData 1) exGap exWindow (exFlat 0) 8 7 1 1
        (fun _ => 0) (fun _ => 0) (fun _ => 0)).px
        ((exFlat 0).stride 0) 0 ((1 + 2 * 0 : Nat) : Int) 0 = 60) :=
  buildMask_fast_path (createTables exData 1) exGap exWindow (exFlat 0) 8 7 1 1
    (fun _ => 0) (fun _ => 0) (fun _ => 0) 0 0 0 (by decide) (by decide) rfl (by decide)
    (by decide)

/-- Claim C23 (counterexample).  Fusing two all-255 bitmaps into a destination that holds 0
leaves 0 at row 2, column 3, where the AND of the two inputs is 255. -/
theorem andMasks_two_inputs_counterexample :
    andMasks_c 8 exData 0 68 (fun _ => 255) (fun _ => 255) (fun _ => 0) (32 + 68 * 2 + 3) = 0 ∧
    ((fun _ => 255 : Buf) (32 + 68 * 2 + 3) &&& (fun _ => 255 : Buf) (32 + 68 * 2 + 3)) = 255 := by
  have h : andMasks_c 8 exData 0 68 (fun _ => 255) (fun _ => 255) (fun _ => 0)
      (32 + 68 * 2 + 3) = _ :=
    andMasks_c_pixel 8 exData 0 68 (fun _ => 255) (fun _ => 255) (fun _ => 0) 2 3
      (by decide) (by decide) (by decide) (by decide)
  rw [h]
  decide

/-- Claim C23 (amended).  `andMasks_c` accumulates into its destination: on every row of the
stacked quarter and half layers and for every `x` in `[0, width)` it leaves
`dst[x] & src1[x] & src2[x]`, `dst` being the destination as it was on entry; afterwards the
padding columns satisfy `dst[-1] = dst[1]` and `dst[width] = dst[width - 2]` on every row. -/
theorem andMasks_fuse (tb : Nat) (d : TDeintModData) (plane stride : Nat)
    (src1 src2 dst : Buf) (y : Nat)
    (hpad : 1 ≤ d.widthPad) (hstride : d.viWidth + 2 * d.widthPad ≤ stride)
    (hdst : dst.InRange tb) (hw : 1 ≤ planeWidth d plane) (hy : y < stackedHeight d plane) :
    (∀ x, x < planeWidth d plane →
      andMasks_c tb d plane stride src1 src2 dst
          ((d.widthPad : Int) + (stride : Int) * (y : Int) + (x : Int))
        = dst ((d.widthPad : Int) + (stride : Int) * (y : Int) + (x : Int)) &&&
            (src1 ((d.widthPad : Int) + (stride : Int) * (y : Int) + (x : Int)) &&&
              src2 ((d.widthPad : Int) + (stride : Int) * (y : Int) + (x : Int)))) ∧
    andMasks_c tb d plane stride src1 src2 dst
        ((d.widthPad : Int) + (stride : Int) * (y : Int) + (-1))
      = andMasks_c tb d plane stride src1 src2 dst
        ((d.widthPad : Int) + (stride : Int) * (y : Int) + 1) ∧
    andMasks_c tb d plane stride src1 src2 dst
        ((d.widthPad : Int) + (stride : Int) * (y : Int) + (planeWidth d plane : Int))
      = andMasks_c tb d plane stride src1 src2 dst
        ((d.widthPad : Int) + (stride : Int) * (y : Int) + ((planeWidth d plane : Int) - 2)) := by
  have hwl := planeWidth_le d plane
  refine ⟨?_, andMasks_c_padding tb d plane stride src1 src2 dst y hpad (by omega) hw hy⟩
  intro x hx
  rw [andMasks_c_pixel tb d plane stride src1 src2 dst y x hpad (by omega) hy hx]
  have hle : dst ((d.widthPad : Int) + (stride : Int) * (y : Int) + (x : Int)) &&&
      (src1 ((d.widthPad : Int) + (stride : Int) * (y : Int) + (x : Int)) &&&
        src2 ((d.widthPad : Int) + (stride : Int) * (y : Int) + (x : Int))) ≤ typeMax tb :=
    le_trans Nat.and_le_left (hdst _)
  have := castT_of_fits tb _ (Int.ofNat_nonneg _) (by exact_mod_cast hle)
  exact_mod_cast this

/-- Claim C23 at a concrete input: row 3 of the layers of an 8-bit plane of width 4, fused
from all-255 bitmaps into a destination that holds 255. -/
theorem andMasks_fuse_witness :
    (∀ x, x < planeWidth exData 0 →
      andMasks_c 8 exData 0 68 (fun _ => 255) (fun _ => 255) (fun _ => 255)
          ((exData.widthPad : Int) + ((68 : Nat) : Int) * ((3 : Nat) : Int) + (x : Int))
        = (fun _ => 255 : Buf)
            ((exData.widthPad : Int) + ((68 : Nat) : Int) * ((3 : Nat) : Int) + (x : Int)) &&&
          ((fun _ => 255 : Buf)
              ((exData.widthPad : Int) + ((68 : Nat) : Int) * ((3 : Nat) : Int) + (x : Int)) &&&
            (fun _ => 255 : Buf)
              ((exData.widthPad : Int) + ((68 : Nat) : Int) * ((3 : Nat) : Int) + (x : Int)))) ∧
    andMasks_c 8 exData 0 68 (fun _ => 255) (fun _ => 255) (fun _ => 255)
        ((exData.widthPad : Int) + ((68 : Nat) : Int) * ((3 : Nat) : Int) + (-1))
      = andMasks_c 8 exData 0 68 (fun _ => 255) (fun _ => 255) (fun _ => 255)
        ((exData.widthPad : Int) + ((68 : Nat) : Int) * ((3 : Nat) : Int) + 1) ∧
    andMasks_c 8 exData 0 68 (fun _ => 255) (fun _ => 255) (fun _ => 255)
        ((exData.widthPad : Int) + ((68 : Nat) : Int) * ((3 : Nat) : Int)
          + (planeWidth exData 0 : Int))
      = andMasks_c 8 exData 0 68 (fun _ => 255) (fun _ => 255) (fun _ => 255)
        ((exData.widthPad : Int) + ((68 : Nat) : Int) * ((3 : Nat) : Int)
          + ((planeWidth exData 0 : Int) - 2)) :=
  andMasks_fuse 8 exData 0 68 (fun _ => 255) (fun _ => 255) (fun _ => 255) 3
    (by decide) (by decide) (fun _ => show 255 ≤ typeMax 8 by decide) (by decide) (by decide)

/-- Claim C27.  For every plane of width at least 2, after `copyPad` each row `y` of the padded
buffer holds the source row: `dst[x] = src[x]` for `0 <= x < width`, `dst[-1] = src[1]` and
`dst[width] = src[width - 2]`, `dst` standing `widthPad` samples into row `y` of the padded
plane.  The rows of the padded plane are at least `width + 2` samples apart. -/
theorem copyPad_rows (widthPad width height stride srcStride : Nat) (src dst : Buf) (y : Nat)
    (hw : 2 ≤ width) (hstride : width + 2 ≤ stride) (hy : y < height) :
    (∀ x, x < width →
      copyPad widthPad width height stride srcStride src dst
          ((widthPad : Int) + (stride : Int) * (y : Int) + (x : Int))
        = src ((srcStride : Int) * (y : Int) + (x : Int))) ∧
    copyPad widthPad width height stride srcStride src dst
        ((widthPad : Int) + (stride : Int) * (y : Int) + (-1))
      = src ((srcStride : Int) * (y : Int) + 1) ∧
    copyPad widthPad width height stride srcStride src dst
        ((widthPad : Int) + (stride : Int) * (y : Int) + (width : Int))
      = src ((srcStride : Int) * (y : Int) + ((width : Int) - 2)) := by
  have hsrc : ∀ x, x < width →
      bitblt dst (widthPad : Int) stride src 0 srcStride width height
          ((widthPad : Int) + (stride : Int) * (y : Int) + (x : Int))
        = src ((srcStride : Int) * (y : Int) + (x : Int)) := by
    intro x hx
    rw [bitblt_pixel dst (widthPad : Int) stride src 0 srcStride width height y x (by omega) hy hx]
    congr 1
    omega
  have h1 : bitblt dst (widthPad : Int) stride src 0 srcStride width height
        ((widthPad : Int) + (stride : Int) * (y : Int) + 1)
      = src ((srcStride : Int) * (y : Int) + 1) := by
    exact_mod_cast hsrc 1 (by omega)
  have h2 : bitblt dst (widthPad : Int) stride src 0 srcStride width height
        ((widthPad : Int) + (stride : Int) * (y : Int) + ((width : Int) - 2))
      = src ((srcStride : Int) * (y : Int) + ((width : Int) - 2)) := by
    have h := hsrc (width - 2) (by omega)
    rw [show (((width - 2 : Nat) : Int)) = (width : Int) - 2 by omega] at h
    exact h
  obtain ⟨m1, m2, m3⟩ :=
    mirrorLoop_row (bitblt dst (widthPad : Int) stride src 0 srcStride width height)
      (widthPad : Int) stride width height y hw hstride hy
  exact ⟨fun x hx => (m1 x hx).trans (hsrc x hx), m2.trans h1, m3.trans h2⟩

/-- Claim C27 at a concrete input: row 1 of a plane of 4 by 2 samples holding `10 * y + x`,
padded by 32 samples into rows of 68 samples. -/
theorem copyPad_rows_witness :
    (∀ x : Nat, x < 4 →
      copyPad 32 4 2 68 4 (fun i => (10 * (i / 4) + i % 4).toNat) (fun _ => 0)
          (((32 : Nat) : Int) + ((68 : Nat) : Int) * ((1 : Nat) : Int) + (x : Int))
        = (fun i : Int => (10 * (i / 4) + i % 4).toNat)
            (((4 : Nat) : Int) * ((1 : Nat) : Int) + (x : Int))) ∧
    copyPad 32 4 2 68 4 (fun i => (10 * (i / 4) + i % 4).toNat) (fun _ => 0)
        (((32 : Nat) : Int) + ((68 : Nat) : Int) * ((1 : Nat) : Int) + (-1))
      = (fun i : Int => (10 * (i / 4) + i % 4).toNat) (((4 : Nat) : Int) * ((1 : Nat) : Int) + 1) ∧
    copyPad 32 4 2 68 4 (fun i => (10 * (i / 4) + i % 4).toNat) (fun _ => 0)
        (((32 : Nat) : Int) + ((68 : Nat) : Int) * ((1 : Nat) : Int) + ((4 : Nat) : Int))
      = (fun i : Int => (10 * (i / 4) + i % 4).toNat)
          (((4 : Nat) : Int) * ((1 : Nat) : Int) + (((4 : Nat) : Int) - 2)) :=
  copyPad_rows 32 4 2 68 4 (fun i => (10 * (i / 4) + i % 4).toNat) (fun _ => 0) 1
    (by decide) (by decide) (by decide)

/-- Claim C28.  `checkSpatial` changes only samples currently coded 60: in every plane, a mask
sample that is not 60 is left unchanged and a sample that is 60 ends as 60 or as 10, for both
metrics, every `athresh`, every source content and every frame geometry. -/
theorem checkSpatial_only_60 (d : TDeintModData) (src dst : Frame) (p : Nat) (j : Int) :
    (dst.data p j ≠ 60 → (checkSpatial d src dst).data p j = dst.data p j) ∧
    (dst.data p j = 60 →
      (checkSpatial d src dst).data p j = 60 ∨ (checkSpatial d src dst).data p j = 10) := by
  have h : Demoted (dst.data p j) ((checkSpatial d src dst).data p j) := by
    rw [checkSpatial_data]
    split_ifs
    · exact checkSpatialPlane_demoted d _ _ _ _ _ j
    · exact Or.inl rfl
  unfold Demoted at h
  constructor
  · intro hne
    rcases h with h | h
    · exact h
    · exact absurd h.1 hne
  · intro he
    rcases h with h | h
    · exact Or.inl (h.trans he)
    · exact Or.inr h.2

/-- Claim C29, evaluated at two failing inputs.  `tdeintmodCreate` accepts a 16-bit clip with
`metric = 1`.  With `athresh = 10` (rescaled to 2570) and the column 0, 65535, 0, 0, 0, the
product `(c - p) * (c - n)` at row 1 is 65535 * 65535, beyond `athresh ^ 2`, but as an `int` it
is -131071 and the code-60 pixel is demoted to 10.  With `athresh = 255` (rescaled to 65535)
the stored `athreshsq = athresh * athresh` is itself -131071, and on a constant frame the
product 0 exceeds it: the pixel of row 2 stays 60, although 0 is not beyond `athresh ^ 2`. -/
theorem checkSpatial_metric1_overflow :
    tdeintmodCreate (exSpatialArgs 16 10 1)
      = .ok (createData (exSpatialArgs 16 10 1) (fun _ => true)) ∧
    (createData (exSpatialArgs 16 10 1) (fun _ => true)).athresh = 2570 ∧
    specSquared 2570 ((exPulse16.px 1 0 0 0 : Nat) : Int) ((exPulse16.px 1 0 1 0 : Nat) : Int)
      ((exPulse16.px 1 0 2 0 : Nat) : Int) ∧
    (exSixty 5).px 1 0 1 0 = 60 ∧
    (checkSpatial (createData (exSpatialArgs 16 10 1) (fun _ => true)) exPulse16 (exSixty 5)).px
      1 0 1 0 = 10 ∧
    tdeintmodCreate (exSpatialArgs 16 255 1)
      = .ok (createData (exSpatialArgs 16 255 1) (fun _ => true)) ∧
    (createData (exSpatialArgs 16 255 1) (fun _ => true)).athresh = 65535 ∧
    (createData (exSpatialArgs 16 255 1) (fun _ => true)).athreshsq = -131071 ∧
    ¬ specSquared 65535 (((exStrip 0).px 1 0 1 0 : Nat) : Int) (((exStrip 0).px 1 0 2 0 : Nat) : Int)
      (((exStrip 0).px 1 0 3 0 : Nat) : Int) ∧
    (checkSpatial (createData (exSpatialArgs 16 255 1) (fun _ => true)) (exStrip 0) (exSixty 5)).px
      1 0 2 0 = 60 :=
  ⟨rfl, by decide, by decide, by decide, by decide, rfl, by decide, by decide, by decide,
    by decide⟩

/-- Claim C30.  With the instance data of `tdeintmodCreate` for `athresh > -1` and
`metric = 0`, a code-60 pixel of a processed plane at a row `y` with `2 <= y <= height - 3`
stays 60 exactly when the first differences `c - p[y-1]` and `c - p[y+1]` are both above
`athresh` or both below `-athresh` and
`|p[y-2] + 4*c + p[y+2] - 3*(p[y-1] + p[y+1])| > 6*athresh`; otherwise it is demoted to 10.
The pixels are addressed with the stride of the source plane, as the code does. -/
theorem checkSpatial_metric0_rows (a : CreateArgs) (process : Int → Bool) (src dst : Frame)
    (p y x : Nat)
    (hset : a.athresh.getD (-1) > -1) (hmetric : a.metric.getD 0 = 0)
    (hp : p < (createData a process).numPlanes)
    (hproc : (createData a process).process p = true)
    (hy2 : 2 ≤ y) (hy : y + 3 ≤ src.height p) (hx : x < src.width p)
    (h60 : dst.px (src.stride p) p (y : Int) x = 60) :
    ((checkSpatial (createData a process) src dst).px (src.stride p) p (y : Int) x = 60 ↔
      specGeneral (createData a process).athresh
        ((src.px (src.stride p) p ((y : Int) - 2) x : Nat) : Int)
        ((src.px (src.stride p) p ((y : Int) - 1) x : Nat) : Int)
        ((src.px (src.stride p) p (y : Int) x : Nat) : Int)
        ((src.px (src.stride p) p ((y : Int) + 1) x : Nat) : Int)
        ((src.px (src.stride p) p ((y : Int) + 2) x : Nat) : Int)) ∧
    (¬ specGeneral (createData a process).athresh
        ((src.px (src.stride p) p ((y : Int) - 2) x : Nat) : Int)
        ((src.px (src.stride p) p ((y : Int) - 1) x : Nat) : Int)
        ((src.px (src.stride p) p (y : Int) x : Nat) : Int)
        ((src.px (src.stride p) p ((y : Int) + 1) x : Nat) : Int)
        ((src.px (src.stride p) p ((y : Int) + 2) x : Nat) : Int) →
      (checkSpatial (createData a process) src dst).px (src.stride p) p (y : Int) x = 10) := by
  have hm : (createData a process).metric = 0 := (createData_metric a process).trans hmetric
  have hspec := spatialTest0_spec (createData a process) (src.data p) (src.stride p) (y : Int) x
    (createData_athresh6 a process hset)
  have hstage : rowStage0 (src.height p) y = 2 := by
    unfold rowStage0
    rw [if_neg (by omega), if_neg (by omega), if_pos (by omega)]
  have hout : (checkSpatial (createData a process) src dst).px (src.stride p) p (y : Int) x
      = if spatialTest0 (createData a process) (src.data p) (src.stride p) 2 (y : Int) x = false
        then 10 else 60 := by
    unfold Frame.px at h60 ⊢
    rw [checkSpatial_data, if_pos ⟨hp, hproc⟩,
      checkSpatialPlane_metric0 _ _ _ _ _ _ y x hm (by omega) (src.width_le_stride p) (by omega) hx,
      hstage, h60]
    by_cases ht : spatialTest0 (createData a process) (src.data p) (src.stride p) 2 (y : Int) x
        = false
    · rw [if_pos ⟨rfl, ht⟩, if_pos ht]
    · rw [if_neg (fun h => ht h.2), if_neg ht]
  rw [hout]
  show (_ ↔ specGeneral _ (rowAt _ _ _ _) (rowAt _ _ _ _) (rowAt _ _ _ _) (rowAt _ _ _ _)
    (rowAt _ _ _ _)) ∧ (¬ specGeneral _ (rowAt _ _ _ _) (rowAt _ _ _ _) (rowAt _ _ _ _)
    (rowAt _ _ _ _) (rowAt _ _ _ _) → _)
  rw [← hspec]
  cases spatialTest0 (createData a process) (src.data p) (src.stride p) 2 (y : Int) x <;> simp

/-- Claim C30 at a concrete input: row 3 of the column 0, 255, 100, 7, 100, 255, 0 of an 8-bit
clip with `athresh = 10`, where both first differences are -93 and the second difference is
62 > 60. -/
theorem checkSpatial_metric0_rows_witness :
    ((checkSpatial (createData (exSpatialArgs 8 10 0) (fun _ => true)) (exTall exColumn)
        (exSixty 7)).px ((exTall exColumn).stride 0) 0 ((3 : Nat) : Int) 0 = 60 ↔
      specGeneral (createData (exSpatialArgs 8 10 0) (fun _ => true)).athresh
        (((exTall exColumn).px ((exTall exColumn).stride 0) 0 (((3 : Nat) : Int) - 2) 0 : Nat) : Int)
        (((exTall exColumn).px ((exTall exColumn).stride 0) 0 (((3 : Nat) : Int) - 1) 0 : Nat) : Int)
        (((exTall exColumn).px ((exTall exColumn).stride 0) 0 ((3 : Nat) : Int) 0 : Nat) : Int)
        (((exTall exColumn).px ((exTall exColumn).stride 0) 0 (((3 : Nat) : Int) + 1) 0 : Nat) : Int)
        (((exTall exColumn).px ((exTall exColumn).stride 0) 0 (((3 : Nat) : Int) + 2) 0 : Nat) : Int)) ∧
    (¬ specGeneral (createData (exSpatialArgs 8 10 0) (fun _ => true)).athresh
        (((exTall exColumn).px ((exTall exColumn).stride 0) 0 (((3 : Nat) : Int) - 2) 0 : Nat) : Int)
        (((exTall exColumn).px ((exTall exColumn).stride 0) 0 (((3 : Nat) : Int) - 1) 0 : Nat) : Int)
        (((exTall exColumn).px ((exTall exColumn).stride 0) 0 ((3 : Nat) : Int) 0 : Nat) : Int)
        (((exTall exColumn).px ((exTall exColumn).stride 0) 0 (((3 : Nat) : Int) + 1) 0 : Nat) : Int)
        (((exTall exColumn).px ((exTall exColumn).stride 0) 0 (((3 : Nat) : Int) + 2) 0 : Nat) : Int) →
      (checkSpatial (createData (exSpatialArgs 8 10 0) (fun _ => true)) (exTall exColumn)
        (exSixty 7)).px ((exTall exColumn).stride 0) 0 ((3 : Nat) : Int) 0 = 10) :=
  checkSpatial_metric0_rows (exSpatialArgs 8 10 0) (fun _ => true) (exTall exColumn) (exSixty 7)
    0 3 0 (by decide) (by decide) (by decide) rfl (by decide) (by decide) (by decide) (by decide)

/-- Claim C25.  With no override set for the plane and `ttype` 0 or 1, `threshMask_c` leaves
`(atmax + 2) >> 2` at every pixel of the quarter layer and `(atmax + 1) >> 1` at the same pixel
of the half layer, where `atmax = max(atv, ath)`,
`atv = max((|c - minV| + vHalf) >> vShift, (|c - maxV| + vHalf) >> vShift)` over the minimum and
maximum of the samples of the rows above and below (the column of the pixel for `ttype = 0`,
columns `x - 1 .. x + 1` for `ttype = 1`) and
`ath = max((|c - minH| + hHalf) >> hShift, (|c - maxH| + hHalf) >> hShift)` over the left and
right neighbours of the centre sample `c`.  The plane has at least 2 rows, the samples are
values of the sample type and the rounding constants are below `2 ^ shift`, as
`tdeintmodCreate` sets them. -/
theorem threshMask_compensated (tb : Nat) (d : TDeintModData) (plane stride : Nat)
    (src dst : Buf) (y x : Nat)
    (htt : d.ttype = 0 ∨ d.ttype = 1)
    (hq : quarterOverride d plane ≤ -1) (hh : halfOverride d plane ≤ -1)
    (hsrc : src.InRange tb)
    (hv : 0 ≤ d.vHalf plane ∧ d.vHalf plane < 2 ^ d.vShift plane)
    (hhz : 0 ≤ d.hHalf plane ∧ d.hHalf plane < 2 ^ d.hShift plane)
    (hws : planeWidth d plane ≤ stride) (hheight : 2 ≤ planeHeight d plane)
    (hy : y < planeHeight d plane) (hx : x < planeWidth d plane) :
    ((threshMask_c tb d plane stride src dst
        ((d.widthPad : Int) + (stride : Int) * (y : Int) + (x : Int)) : Nat) : Int)
      = (specAtmax d plane (decide (d.ttype = 1)) (paddedAt src d.widthPad stride y (x : Int))
          (fun k => paddedAt src d.widthPad stride (rowAbove y) ((x : Int) + k))
          (fun k => paddedAt src d.widthPad stride (rowBelow (planeHeight d plane) y)
            ((x : Int) + k))
          (paddedAt src d.widthPad stride y ((x : Int) - 1))
          (paddedAt src d.widthPad stride y ((x : Int) + 1)) + 2) >>> (2 : Nat) ∧
    ((threshMask_c tb d plane stride src dst
        ((d.widthPad : Int) + ((stride * planeHeight d plane : Nat) : Int)
          + (stride : Int) * (y : Int) + (x : Int)) : Nat) : Int)
      = (specAtmax d plane (decide (d.ttype = 1)) (paddedAt src d.widthPad stride y (x : Int))
          (fun k => paddedAt src d.widthPad stride (rowAbove y) ((x : Int) + k))
          (fun k => paddedAt src d.widthPad stride (rowBelow (planeHeight d plane) y)
            ((x : Int) + k))
          (paddedAt src d.widthPad stride y ((x : Int) - 1))
          (paddedAt src d.widthPad stride y ((x : Int) + 1)) + 1) >>> (1 : Nat) := by
  have hfit := specAtmax_fits tb d plane (decide (d.ttype = 1))
    (paddedAt src d.widthPad stride y (x : Int))
    (fun k => paddedAt src d.widthPad stride (rowAbove y) ((x : Int) + k))
    (fun k => paddedAt src d.widthPad stride (rowBelow (planeHeight d plane) y) ((x : Int) + k))
    (paddedAt src d.widthPad stride y ((x : Int) - 1))
    (paddedAt src d.widthPad stride y ((x : Int) + 1)) hv hhz (hsrc _) (fun _ => hsrc _)
    (fun _ => hsrc _) (hsrc _) (hsrc _)
  have e2 : ∀ v : Int, v >>> (2 : Nat) = v / 4 := fun v => by
    rw [Int.shiftRight_eq_div_pow]
    rfl
  have e1 : ∀ v : Int, v >>> (1 : Nat) = v / 2 := fun v => by
    rw [Int.shiftRight_eq_div_pow]
    rfl
  obtain ⟨hq1, hq2⟩ := threshMask_rows_pixel tb d plane stride src dst y x hws hy hx
  rw [threshMask_c_rows tb d plane stride src dst hq hh, hq1, hq2,
    threshAt_window tb d plane stride src dst y x htt hsrc hheight hy]
  constructor
  · refine castT_of_fits tb _ ?_ ?_
    · rw [e2]
      omega
    · rw [e2]
      omega
  · refine castT_of_fits tb _ ?_ ?_
    · rw [e1]
      omega
    · rw [e1]
      omega

/-- Claim C25 at a concrete input: pixel (3, 1) of an 8-bit plane of 4 by 8 samples, constant
99, with `ttype = 1` and no override (rows of 68 samples, padding 32). -/
theorem threshMask_compensated_witness :
    ((threshMask_c 8 exData 0 68 (fun _ => 99) (fun _ => 0)
        ((exData.widthPad : Int) + ((68 : Nat) : Int) * ((3 : Nat) : Int) + ((1 : Nat) : Int))
          : Nat) : Int)
      = (specAtmax exData 0 (decide (exData.ttype = 1))
          (paddedAt (fun _ => 99) exData.widthPad 68 3 ((1 : Nat) : Int))
          (fun k => paddedAt (fun _ => 99) exData.widthPad 68 (rowAbove 3) (((1 : Nat) : Int) + k))
          (fun k => paddedAt (fun _ => 99) exData.widthPad 68 (rowBelow (planeHeight exData 0) 3)
            (((1 : Nat) : Int) + k))
          (paddedAt (fun _ => 99) exData.widthPad 68 3 (((1 : Nat) : Int) - 1))
          (paddedAt (fun _ => 99) exData.widthPad 68 3 (((1 : Nat) : Int) + 1)) + 2)
            >>> (2 : Nat) ∧
    ((threshMask_c 8 exData 0 68 (fun _ => 99) (fun _ => 0)
        ((exData.widthPad : Int) + ((68 * planeHeight exData 0 : Nat) : Int)
          + ((68 : Nat) : Int) * ((3 : Nat) : Int) + ((1 : Nat) : Int)) : Nat) : Int)
      = (specAtmax exData 0 (decide (exData.ttype = 1))
          (paddedAt (fun _ => 99) exData.widthPad 68 3 ((1 : Nat) : Int))
          (fun k => paddedAt (fun _ => 99) exData.widthPad 68 (rowAbove 3) (((1 : Nat) : Int) + k))
          (fun k => paddedAt (fun _ => 99) exData.widthPad 68 (rowBelow (planeHeight exData 0) 3)
            (((1 : Nat) : Int) + k))
          (paddedAt (fun _ => 99) exData.widthPad 68 3 (((1 : Nat) : Int) - 1))
          (paddedAt (fun _ => 99) exData.widthPad 68 3 (((1 : Nat) : Int) + 1)) + 1)
            >>> (1 : Nat) :=
  threshMask_compensated 8 exData 0 68 (fun _ => 99) (fun _ => 0) 3 1 (Or.inr rfl)
    (by decide) (by decide) (fun _ => show 99 ≤ typeMax 8 by decide) (by decide) (by decide)
    (by decide) (by decide) (by decide) (by decide)

/-- Claim C26.  In `threshMask_c` and in `combineMasks_c`, on a plane of at least 2 rows, when
the row loop reaches row `y` the current-row pointer stands on row `y`; at row 0 the pointers
to the previous and to the next row both stand on row 1, at row `height - 1` both stand on row
`height - 2`, and at every other row they stand on rows `y - 1` and `y + 1`.  Rows are counted
from the start of the picture in the padded plane. -/
theorem row_window_clamped (tb : Nat) (d : TDeintModData) (plane stride : Nat) (src dst : Buf)
    (y : Nat) (width height srcStride dstStride : Nat) (src2 dst2 : Buf) (y2 : Nat)
    (hh : 2 ≤ planeHeight d plane) (hy : y < planeHeight d plane)
    (hh2 : 2 ≤ height) (hy2 : y2 < height) :
    ((threshMaskStateAt tb d plane stride src dst y).srcp
        = (d.widthPad : Int) + (stride : Int) * (y : Int) ∧
      (y = 0 →
        (threshMaskStateAt tb d plane stride src dst y).srcpp
          = (d.widthPad : Int) + (stride : Int) * 1 ∧
        (threshMaskStateAt tb d plane stride src dst y).srcpn
          = (d.widthPad : Int) + (stride : Int) * 1) ∧
      (y + 1 = planeHeight d plane →
        (threshMaskStateAt tb d plane stride src dst y).srcpp
          = (d.widthPad : Int) + (stride : Int) * ((planeHeight d plane : Int) - 2) ∧
        (threshMaskStateAt tb d plane stride src dst y).srcpn
          = (d.widthPad : Int) + (stride : Int) * ((planeHeight d plane : Int) - 2)) ∧
      (0 < y → y + 1 < planeHeight d plane →
        (threshMaskStateAt tb d plane stride src dst y).srcpp
          = (d.widthPad : Int) + (stride : Int) * ((y : Int) - 1) ∧
        (threshMaskStateAt tb d plane stride src dst y).srcpn
          = (d.widthPad : Int) + (stride : Int) * ((y : Int) + 1))) ∧
    ((combineMasksStateAt tb d width height srcStride dstStride src2 dst2 y2).srcp0
        = (d.widthPad : Int) + (srcStride : Int) * (y2 : Int) ∧
      (y2 = 0 →
        (combineMasksStateAt tb d width height srcStride dstStride src2 dst2 y2).srcpp0
          = (d.widthPad : Int) + (srcStride : Int) * 1 ∧
        (combineMasksStateAt tb d width height srcStride dstStride src2 dst2 y2).srcpn0
          = (d.widthPad : Int) + (srcStride : Int) * 1) ∧
      (y2 + 1 = height →
        (combineMasksStateAt tb d width height srcStride dstStride src2 dst2 y2).srcpp0
          = (d.widthPad : Int) + (srcStride : Int) * ((height : Int) - 2) ∧
        (combineMasksStateAt tb d width height srcStride dstStride src2 dst2 y2).srcpn0
          = (d.widthPad : Int) + (srcStride : Int) * ((height : Int) - 2)) ∧
      (0 < y2 → y2 + 1 < height →
        (combineMasksStateAt tb d width height srcStride dstStride src2 dst2 y2).srcpp0
          = (d.widthPad : Int) + (srcStride : Int) * ((y2 : Int) - 1) ∧
        (combineMasksStateAt tb d width height srcStride dstStride src2 dst2 y2).srcpn0
          = (d.widthPad : Int) + (srcStride : Int) * ((y2 : Int) + 1))) := by
  have cases : ∀ (h y : Nat), 2 ≤ h → y < h →
      (y = 0 → ((rowAbove y : Nat) : Int) = 1 ∧ ((rowBelow h y : Nat) : Int) = 1) ∧
      (y + 1 = h → ((rowAbove y : Nat) : Int) = (h : Int) - 2 ∧
        ((rowBelow h y : Nat) : Int) = (h : Int) - 2) ∧
      (0 < y → y + 1 < h → ((rowAbove y : Nat) : Int) = (y : Int) - 1 ∧
        ((rowBelow h y : Nat) : Int) = (y : Int) + 1) := by
    intro h y h2 hy
    unfold rowAbove rowBelow
    refine ⟨?_, ?_, ?_⟩
    · intro h0
      rw [if_pos h0, if_neg (by omega), h0]
      exact ⟨rfl, rfl⟩
    · intro h1
      rw [if_neg (by omega), if_pos h1]
      constructor <;> omega
    · intro h0 h1
      rw [if_neg (by omega), if_neg (by omega)]
      constructor <;> omega
  obtain ⟨a1, a2, a3⟩ := threshMaskStateAt_rows tb d plane stride src dst y hh hy
  obtain ⟨b1, b2, b3⟩ :=
    combineMasksStateAt_rows tb d width height srcStride dstStride src2 dst2 y2 hh2 hy2
  obtain ⟨c1, c2, c3⟩ := cases (planeHeight d plane) y hh hy
  obtain ⟨e1, e2, e3⟩ := cases height y2 hh2 hy2
  rw [a1, a2, a3, b1, b2, b3]
  refine ⟨⟨rfl, ?_, ?_, ?_⟩, ⟨rfl, ?_, ?_, ?_⟩⟩
  · intro h
    rw [(c1 h).1, (c1 h).2]
    exact ⟨rfl, rfl⟩
  · intro h
    rw [(c2 h).1, (c2 h).2]
    exact ⟨rfl, rfl⟩
  · intro h h2
    rw [(c3 h h2).1, (c3 h h2).2]
    exact ⟨rfl, rfl⟩
  · intro h
    rw [(e1 h).1, (e1 h).2]
    exact ⟨rfl, rfl⟩
  · intro h
    rw [(e2 h).1, (e2 h).2]
    exact ⟨rfl, rfl⟩
  · intro h h2
    rw [(e3 h h2).1, (e3 h h2).2]
    exact ⟨rfl, rfl⟩


/-- Claim C26 at a concrete input: row 0 of `threshMask_c` on a plane of 8 rows and row 7 of
`combineMasks_c` on a plane of 4 by 8 samples (rows of 68 samples, padding 32). -/
theorem row_window_clamped_witness :
    ((threshMaskStateAt 8 exData 0 68 (fun _ => 99) (fun _ => 0) 0).srcp
        = (exData.widthPad : Int) + ((68 : Nat) : Int) * ((0 : Nat) : Int) ∧
      (0 = 0 →
        (threshMaskStateAt 8 exData 0 68 (fun _ => 99) (fun _ => 0) 0).srcpp
          = (exData.widthPad : Int) + ((68 : Nat) : Int) * 1 ∧
        (threshMaskStateAt 8 exData 0 68 (fun _ => 99) (fun _ => 0) 0).srcpn
          = (exData.widthPad : Int) + ((68 : Nat) : Int) * 1) ∧
      (0 + 1 = planeHeight exData 0 →
        (threshMaskStateAt 8 exData 0 68 (fun _ => 99) (fun _ => 0) 0).srcpp
          = (exData.widthPad : Int) + ((68 : Nat) : Int) * ((planeHeight exData 0 : Int) - 2) ∧
        (threshMaskStateAt 8 exData 0 68 (fun _ => 99) (fun _ => 0) 0).srcpn
          = (exData.widthPad : Int) + ((68 : Nat) : Int) * ((planeHeight exData 0 : Int) - 2)) ∧
      (0 < 0 → 0 + 1 < planeHeight exData 0 →
        (threshMaskStateAt 8 exData 0 68 (fun _ => 99) (fun _ => 0) 0).srcpp
          = (exData.widthPad : Int) + ((68 : Nat) : Int) * (((0 : Nat) : Int) - 1) ∧
        (threshMaskStateAt 8 exData 0 68 (fun _ => 99) (fun _ => 0) 0).srcpn
          = (exData.widthPad : Int) + ((68 : Nat) : Int) * (((0 : Nat) : Int) + 1))) ∧
    ((combineMasksStateAt 8 exData 4 8 68 4 (fun _ => 255) (fun _ => 0) 7).srcp0
        = (exData.widthPad : Int) + ((68 : Nat) : Int) * ((7 : Nat) : Int) ∧
      (7 = 0 →
        (combineMasksStateAt 8 exData 4 8 68 4 (fun _ => 255) (fun _ => 0) 7).srcpp0
          = (exData.widthPad : Int) + ((68 : Nat) : Int) * 1 ∧
        (combineMasksStateAt 8 exData 4 8 68 4 (fun _ => 255) (fun _ => 0) 7).srcpn0
          = (exData.widthPad : Int) + ((68 : Nat) : Int) * 1) ∧
      (7 + 1 = 8 →
        (combineMasksStateAt 8 exData 4 8 68 4 (fun _ => 255) (fun _ => 0) 7).srcpp0
          = (exData.widthPad : Int) + ((68 : Nat) : Int) * (((8 : Nat) : Int) - 2) ∧
        (combineMasksStateAt 8 exData 4 8 68 4 (fun _ => 255) (fun _ => 0) 7).srcpn0
          = (exData.widthPad : Int) + ((68 : Nat) : Int) * (((8 : Nat) : Int) - 2)) ∧
      (0 < 7 → 7 + 1 < 8 →
        (combineMasksStateAt 8 exData 4 8 68 4 (fun _ => 255) (fun _ => 0) 7).srcpp0
          = (exData.widthPad : Int) + ((68 : Nat) : Int) * (((7 : Nat) : Int) - 1) ∧
        (combineMasksStateAt 8 exData 4 8 68 4 (fun _ => 255) (fun _ => 0) 7).srcpn0
          = (exData.widthPad : Int) + ((68 : Nat) : Int) * (((7 : Nat) : Int) + 1))) :=
  row_window_clamped 8 exData 0 68 (fun _ => 99) (fun _ => 0) 0 4 8 68 4 (fun _ => 255)
    (fun _ => 0) 7 (by decide) (by decide) (by decide) (by decide)

/-- Claim C24.  After `combineMasks_c`, for every pixel `(x, y)` of a plane of at least 2 rows,
the output is the maximum sample value if the quarter layer is clear at `(x, y)`, the half
layer is set at `(x, y)` and at least `cstr` of the 8 neighbours in the quarter layer are
non-zero, and is the sample of the quarter layer at `(x, y)` otherwise.  The neighbours are
those of columns `x - 1`, `x`, `x + 1` in the row itself and in the rows above and below it,
which are `y - 1` and `y + 1` except that row 0 takes row 1 for both and row `height - 1` takes
row `height - 2` for both. -/
theorem combineMasks_neighbours (tb : Nat) (d : TDeintModData)
    (width height srcStride dstStride : Nat) (src dst : Buf) (y x : Nat)
    (hh : 2 ≤ height) (hws : width ≤ dstStride) (hy : y < height) (hx : x < width) :
    combineMasks_c tb d width height srcStride dstStride src dst
        ((dstStride : Int) * (y : Int) + (x : Int))
      = (if paddedAt src d.widthPad srcStride y (x : Int) = 0 ∧
          halfAt src d.widthPad srcStride height y (x : Int) ≠ 0 ∧
          ((neighbourCount (paddedAt src d.widthPad srcStride) (rowAbove y) y
            (rowBelow height y) (x : Int) : Nat) : Int) ≥ d.cstr
        then typeMax tb else paddedAt src d.widthPad srcStride y (x : Int)) ∧
    (y = 0 → rowAbove y = 1 ∧ rowBelow height y = 1) ∧
    (y + 1 = height → rowAbove y = height - 2 ∧ rowBelow height y = height - 2) ∧
    (0 < y → y + 1 < height → rowAbove y = y - 1 ∧ rowBelow height y = y + 1) := by
  refine ⟨combineMasks_pixel tb d width height srcStride dstStride src dst y x hh hws hy hx,
    ?_, ?_, ?_⟩
  · intro h0
    unfold rowAbove rowBelow
    rw [if_pos h0, if_neg (by omega)]
    exact ⟨rfl, by omega⟩
  · intro h1
    unfold rowAbove rowBelow
    rw [if_neg (by omega), if_pos h1]
    exact ⟨by omega, rfl⟩
  · intro h0 h1
    unfold rowAbove rowBelow
    rw [if_neg (by omega), if_neg (by omega)]
    exact ⟨rfl, rfl⟩

/-- Claim C24 at a concrete input: pixel (2, 3) of a plane of 4 by 8 samples, whose quarter
layer is set everywhere except at that pixel and whose half layer is set everywhere (`cstr` at
its default 4). -/
theorem combineMasks_neighbours_witness :
    combineMasks_c 8 exData 4 8 68 4 exSpot (fun _ => 0)
        (((4 : Nat) : Int) * ((3 : Nat) : Int) + ((2 : Nat) : Int))
      = (if paddedAt exSpot exData.widthPad 68 3 ((2 : Nat) : Int) = 0 ∧
          halfAt exSpot exData.widthPad 68 8 3 ((2 : Nat) : Int) ≠ 0 ∧
          ((neighbourCount (paddedAt exSpot exData.widthPad 68) (rowAbove 3) 3
            (rowBelow 8 3) ((2 : Nat) : Int) : Nat) : Int) ≥ exData.cstr
        then typeMax 8 else paddedAt exSpot exData.widthPad 68 3 ((2 : Nat) : Int)) ∧
    (3 = 0 → rowAbove 3 = 1 ∧ rowBelow 8 3 = 1) ∧
    (3 + 1 = 8 → rowAbove 3 = 8 - 2 ∧ rowBelow 8 3 = 8 - 2) ∧
    (0 < 3 → 3 + 1 < 8 → rowAbove 3 = 3 - 1 ∧ rowBelow 8 3 = 3 + 1) :=
  combineMasks_neighbours 8 exData 4 8 68 4 exSpot (fun _ => 0) 3 2
    (by decide) (by decide) (by decide) (by decide)

/-- Claim C34.  The lookup tables that `tdeintmodCreate` stores are fixed by construction:
`gvlut[0] = 1`, `gvlut[length - 1] = 4`, `gvlut[i] = 2` for `0 < i < length - 1`, and the loop
writes no entry from `length` on; `vlut` has 64 entries, each at most 3, for every `mtype`;
`tmmlut16` has 16 entries, each a decision code. -/
theorem lookup_tables_fixed (d0 : TDeintModData) (mtype : Int) (hl : 2 ≤ d0.length) :
    (createTables d0 mtype).gvlut 0 = 1 ∧
    (createTables d0 mtype).gvlut (d0.length - 1) = 4 ∧
    (∀ i, 0 < i → i < d0.length - 1 → (createTables d0 mtype).gvlut i = 2) ∧
    (∀ i, d0.length ≤ i → (createTables d0 mtype).gvlut i = 0) ∧
    (vlutTable mtype).length = 64 ∧
    (∀ i, i < 64 → (createTables d0 mtype).vlut i ≤ 3) ∧
    tmmlut16Table.length = 16 ∧
    (∀ k, k < 16 → IsDecisionCode ((createTables d0 mtype).tmmlut16 k)) := by
  refine ⟨?_, ?_, ?_, ?_, vlutTable_length mtype, fun i _ => vlutTable_le mtype i, rfl,
    fun k hk => tmmlut16Table_code k hk⟩
  · show gvlutOf d0.length 0 = 1
    rw [gvlutOf_apply, if_pos (by omega), if_pos rfl]
  · show gvlutOf d0.length (d0.length - 1) = 4
    rw [gvlutOf_apply, if_pos (by omega), if_neg (by omega), if_pos (by omega)]
  · intro i h0 h1
    show gvlutOf d0.length i = 2
    rw [gvlutOf_apply, if_pos (by omega), if_neg (by omega), if_neg (by omega)]
  · intro i hi
    show gvlutOf d0.length i = 0
    rw [gvlutOf_apply, if_neg (by omega)]

/-- Claim C34 at a concrete input: the tables for `length = 10` and `mtype = 1`. -/
theorem lookup_tables_fixed_witness :
    (createTables exData 1).gvlut 0 = 1 ∧
    (createTables exData 1).gvlut (exData.length - 1) = 4 ∧
    (∀ i, 0 < i → i < exData.length - 1 → (createTables exData 1).gvlut i = 2) ∧
    (∀ i, exData.length ≤ i → (createTables exData 1).gvlut i = 0) ∧
    (vlutTable 1).length = 64 ∧
    (∀ i, i < 64 → (createTables exData 1).vlut i ≤ 3) ∧
    tmmlut16Table.length = 16 ∧
    (∀ k, k < 16 → IsDecisionCode ((createTables exData 1).tmmlut16 k)) :=
  lookup_tables_fixed exData 1 (by decide)

/-- Claim C37.  With the tables of `tdeintmodCreate`, for every window length and every
content of the phase arrays, the accumulator of the scan of `buildMask` stays below 64: each
of the two ORs of a step keeps it below 64, so does the scan stopped after any number `k` of
steps, and for `order` and `field` in {0, 1} the index `order * 8 + field * 4 + vlut[val]` of
the final lookup is below 16. -/
theorem scan_accumulator_in_range (d0 : TDeintModData) (mtype : Int) (p0 p1 : Nat → Nat)
    (order field k i val : Nat) (ho : order ≤ 1) (hf : field ≤ 1) (hval : val < 64) :
    val ||| ((createTables d0 mtype).gvlut i * 8) < 64 ∧
    (val ||| ((createTables d0 mtype).gvlut i * 8)) ||| (createTables d0 mtype).gvlut i < 64 ∧
    val ||| (createTables d0 mtype).gvlut i < 64 ∧
    scanStep (createTables d0 mtype) p0 p1 i val < 64 ∧
    scanLoop (createTables d0 mtype) p0 p1 k i val < 64 ∧
    scanLoop (createTables d0 mtype) p0 p1 k 0 0 < 64 ∧
    order * 8 + field * 4
      + (createTables d0 mtype).vlut (scanLoop (createTables d0 mtype) p0 p1 k 0 0) < 16 := by
  have hg : ∀ i, (createTables d0 mtype).gvlut i < 8 := fun i => gvlutOf_lt d0.length i
  have hg8 : (createTables d0 mtype).gvlut i * 8 < 2 ^ 6 := by have := hg i; omega
  have hg1 : (createTables d0 mtype).gvlut i < 2 ^ 6 := by have := hg i; omega
  have hv : val < 2 ^ 6 := hval
  have hvl := vlutTable_le mtype (scanLoop (createTables d0 mtype) p0 p1 k 0 0)
  refine ⟨Nat.or_lt_two_pow hv hg8, Nat.or_lt_two_pow (Nat.or_lt_two_pow hv hg8) hg1,
    Nat.or_lt_two_pow hv hg1, scanStep_lt _ p0 p1 hg i val hval,
    scanLoop_lt _ p0 p1 hg k i val hval, scanLoop_lt _ p0 p1 hg k 0 0 (by omega), ?_⟩
  show order * 8 + field * 4 + (vlutTable mtype).getD _ 0 < 16
  omega

/-- Claim C37 at a concrete input: `length = 10`, `mtype = 1`, phase arrays all set. -/
theorem scan_accumulator_in_range_witness :
    0 ||| ((createTables exData 1).gvlut 0 * 8) < 64 ∧
    (0 ||| ((createTables exData 1).gvlut 0 * 8)) ||| (createTables exData 1).gvlut 0 < 64 ∧
    0 ||| (createTables exData 1).gvlut 0 < 64 ∧
    scanStep (createTables exData 1) (fun _ => 255) (fun _ => 255) 0 0 < 64 ∧
    scanLoop (createTables exData 1) (fun _ => 255) (fun _ => 255) 10 0 0 < 64 ∧
    scanLoop (createTables exData 1) (fun _ => 255) (fun _ => 255) 10 0 0 < 64 ∧
    1 * 8 + 1 * 4
      + (createTables exData 1).vlut
          (scanLoop (createTables exData 1) (fun _ => 255) (fun _ => 255) 10 0 0) < 16 :=
  scan_accumulator_in_range exData 1 (fun _ => 255) (fun _ => 255) 1 1 10 0 0
    (by decide) (by decide) (by decide)

/-- Claim C38.  `buildMask`, run with the tables that `tdeintmodCreate` builds for any `mtype`,
never emits code 70: every pixel of a row of the parity opposite to `field` holds 10, and
every pixel of every processed plane holds one of 10, 20, 30, 40, 50, 60, whatever the motion
masks and for `order` and `field` in {0, 1}. -/
theorem buildMask_never_70 (d0 : TDeintModData) (mtype : Int) (cSrc oSrc : Int → Frame)
    (dst : Frame) (cCount oCount order field : Nat) (plut0 plut1 junk : Nat → Nat)
    (p y x : Nat) (ho : order ≤ 1) (hf : field ≤ 1)
    (hp : p < d0.numPlanes) (hproc : d0.process p = true)
    (hy : y < dst.height p) (hx : x < dst.width p) :
    IsTemporalCode
      ((buildMask (createTables d0 mtype) cSrc oSrc dst cCount oCount order field
        plut0 plut1 junk).px (dst.stride p) p (y : Int) x) ∧
    (buildMask (createTables d0 mtype) cSrc oSrc dst cCount oCount order field
        plut0 plut1 junk).px (dst.stride p) p (y : Int) x ≠ 70 ∧
    (y % 2 ≠ field →
      (buildMask (createTables d0 mtype) cSrc oSrc dst cCount oCount order field
        plut0 plut1 junk).px (dst.stride p) p (y : Int) x = 10) := by
  have key : IsTemporalCode
      ((buildMask (createTables d0 mtype) cSrc oSrc dst cCount oCount order field
        plut0 plut1 junk).px (dst.stride p) p (y : Int) x) ∧
      (y % 2 ≠ field →
        (buildMask (createTables d0 mtype) cSrc oSrc dst cCount oCount order field
          plut0 plut1 junk).px (dst.stride p) p (y : Int) x = 10) := by
    unfold Frame.px
    rw [buildMask_data (createTables d0 mtype) cSrc oSrc dst cCount oCount order field
      plut0 plut1 junk p hp hproc]
    rcases buildMaskPlane_cases (createTables d0 mtype)
        (tmmlutfOf (createTables d0 mtype) order field junk)
        (fun i => (cSrc i).data p) (fun i => (oSrc i).data p) cCount oCount field
        (dst.width p) (dst.height p) (dst.stride p)
        ((buildMaskPlanes (createTables d0 mtype) cSrc oSrc dst cCount oCount order field
          plut0 plut1 junk p).dst.data p)
        (buildMaskPlanes (createTables d0 mtype) cSrc oSrc dst cCount oCount order field
          plut0 plut1 junk p).plut0
        (buildMaskPlanes (createTables d0 mtype) cSrc oSrc dst cCount oCount order field
          plut0 plut1 junk p).plut1
        y x hf (dst.width_le_stride p) hy hx with ⟨_, h⟩ | ⟨k, hk, h⟩
    · rw [h]
      exact ⟨Or.inl rfl, fun _ => rfl⟩
    · rw [h]
      refine ⟨buildMaskCode_temporal d0 mtype order field junk _ _ cCount oCount x _ ho hf, ?_⟩
      intro hpar
      omega
  refine ⟨key.1, ?_, key.2⟩
  have h := key.1
  unfold IsTemporalCode at h
  omega

/-- Claim C38 at a concrete input: pixel (0, 0), on a row of the other parity, of a 2x2
single-plane mask built from all-set windows with the tables of `mtype = 2`, `length = 10`,
`order = 0`, `field = 1`. -/
theorem buildMask_never_70_witness :
    IsTemporalCode
      ((buildMask (createTables exData 2) exWindow exWindow (exFlat 0) 8 7 0 1
        (fun _ => 0) (fun _ => 0) (fun _ => 0)).px ((exFlat 0).stride 0) 0 ((0 : Nat) : Int) 0) ∧
    (buildMask (createTables exData 2) exWindow exWindow (exFlat 0) 8 7 0 1
        (fun _ => 0) (fun _ => 0) (fun _ => 0)).px ((exFlat 0).stride 0) 0 ((0 : Nat) : Int) 0
      ≠ 70 ∧
    (0 % 2 ≠ 1 →
      (buildMask (createTables exData 2) exWindow exWindow (exFlat 0) 8 7 0 1
        (fun _ => 0) (fun _ => 0) (fun _ => 0)).px ((exFlat 0).stride 0) 0 ((0 : Nat) : Int) 0
        = 10) :=
  buildMask_never_70 exData 2 exWindow exWindow (exFlat 0) 8 7 0 1
    (fun _ => 0) (fun _ => 0) (fun _ => 0) 0 0 0 (by decide) (by decide) (by decide) rfl
    (by decide) (by decide)

/-- Claim C35.  The early exit of the temporal scan is a pure optimisation.  In each table
`vlut` of `tdeintmodCreate`, `vlut[v] = 2` implies `vlut[v | w] = 2` for all `v`, `w` below 64;
hence at every pixel of a row of the field parity of a processed plane, for every window
length and every content of the windows, the code that `buildMask` leaves is the code obtained
from the scan run over all `i = 0 .. length - 1` without the `break`. -/
theorem buildMask_early_exit (d0 : TDeintModData) (mtype : Int) (cSrc oSrc : Int → Frame)
    (dst : Frame) (cCount oCount order field : Nat) (plut0 plut1 junk : Nat → Nat)
    (p k x : Nat) (hf : field ≤ 1)
    (hp : p < d0.numPlanes) (hproc : d0.process p = true)
    (hy : field + 2 * k < dst.height p) (hx : x < dst.width p) :
    (∀ v w, v < 64 → w < 64 → (createTables d0 mtype).vlut v = 2 →
      (createTables d0 mtype).vlut (v ||| w) = 2) ∧
    (buildMask (createTables d0 mtype) cSrc oSrc dst cCount oCount order field
        plut0 plut1 junk).px (dst.stride p) p ((field + 2 * k : Nat) : Int) x
      = buildMaskCodeAll (createTables d0 mtype)
          (tmmlutfOf (createTables d0 mtype) order field junk)
          (fun i => (cSrc i).data p) (fun i => (oSrc i).data p) cCount oCount x
          (buildMaskReach (createTables d0 mtype) cSrc oSrc dst cCount oCount order field
            plut0 plut1 junk p k x) := by
  refine ⟨fun v w hv hw h => vlutTable_or_closed mtype v w hv hw h, ?_⟩
  unfold Frame.px
  rw [buildMask_data (createTables d0 mtype) cSrc oSrc dst cCount oCount order field
    plut0 plut1 junk p hp hproc]
  unfold buildMaskPlane
  rw [buildMaskRows_pixel _ _ _ _ _ _ _ _ _ _ _ _ _ _ k x hf (dst.width_le_stride p)
    (by omega) hx]
  exact buildMaskCode_eq_all d0 mtype order field junk _ _ cCount oCount x _

/-- Claim C35 at a concrete input: the top-left pixel of the field row of a 2x2 mask built
from all-set windows (`mtype = 1`, `length = 10`, `order = 1`, `field = 1`). -/
theorem buildMask_early_exit_witness :
    (∀ v w, v < 64 → w < 64 → (createTables exData 1).vlut v = 2 →
      (createTables exData 1).vlut (v ||| w) = 2) ∧
    (buildMask (createTables exData 1) exWindow exWindow (exFlat 0) 8 7 1 1
        (fun _ => 0) (fun _ => 0) (fun _ => 0)).px ((exFlat 0).stride 0) 0
        ((1 + 2 * 0 : Nat) : Int) 0
      = buildMaskCodeAll (createTables exData 1)
          (tmmlutfOf (createTables exData 1) 1 1 (fun _ => 0))
          (fun i => (exWindow i).data 0) (fun i => (exWindow i).data 0) 8 7 0
          (buildMaskReach (createTables exData 1) exWindow exWindow (exFlat 0) 8 7 1 1
            (fun _ => 0) (fun _ => 0) (fun _ => 0) 0 0 0) :=
  buildMask_early_exit exData 1 exWindow exWindow (exFlat 0) 8 7 1 1
    (fun _ => 0) (fun _ => 0) (fun _ => 0) 0 0 0 (by decide) (by decide) rfl (by decide)
    (by decide)

/-- Claim C36. For `length ≥ 6` and `order`, `field` in {0, 1}: the window sizes computed by
`tdeintmodBuildMMGetFrame` are the same for every frame number `n`, `cCount + oCount =
2 * length - 5` and `cCount ≥ 4`; the indices `j * 2 + offc` (`j < cCount`) and `j * 2 + offo`
(`j < oCount`) that the interleaving of `buildMask` writes are all at most `2 * length - 6`,
no index is written by both loops, every index `0 .. 2 * length - 6` is written, and the
entries of both phase arrays at these indices do not depend on what the arrays held before
the pixel; the scan reads only entries with index at most `2 * length - 6` (its result is the
same for arrays that agree there); the fast-path indices `ct - 2`, `ct`, `ct + 1` lie in
`[0, cCount)`; and for `length = 5` the index `ct - 2` is negative. -/
theorem window_indices_in_range (d : TDeintModData) (order field : Nat) (n : Int)
    (hl : 6 ≤ d.length) (ho : order ≤ 1) (hf : field ≤ 1) :
    ((maskWindow (d.length : Int) (order : Int) (field : Int) n).cCount
        = (windowCCount d.length order field : Int) ∧
      (maskWindow (d.length : Int) (order : Int) (field : Int) n).oCount
        = (windowOCount d.length order field : Int)) ∧
    (windowCCount d.length order field + windowOCount d.length order field = 2 * d.length - 5 ∧
      4 ≤ windowCCount d.length order field) ∧
    ((∀ j, j < windowCCount d.length order field → j * 2 + offc d.length ≤ 2 * d.length - 6) ∧
      (∀ j, j < windowOCount d.length order field → j * 2 + offo d.length ≤ 2 * d.length - 6) ∧
      (∀ j k, j * 2 + offc d.length ≠ k * 2 + offo d.length) ∧
      (∀ m, m ≤ 2 * d.length - 6 →
        (∃ j, j < windowCCount d.length order field ∧ m = j * 2 + offc d.length) ∨
        (∃ j, j < windowOCount d.length order field ∧ m = j * 2 + offo d.length))) ∧
    (∀ (cPl oPl : Int → Buf) (x : Nat) (st : MaskRows) (q0 q1 : Nat → Nat) (m : Nat),
      m ≤ 2 * d.length - 6 →
      (pixelArrays d cPl oPl (windowCCount d.length order field)
          (windowOCount d.length order field) x st).plut0 m
        = (pixelArrays d cPl oPl (windowCCount d.length order field)
          (windowOCount d.length order field) x { st with plut0 := q0, plut1 := q1 }).plut0 m ∧
      (pixelArrays d cPl oPl (windowCCount d.length order field)
          (windowOCount d.length order field) x st).plut1 m
        = (pixelArrays d cPl oPl (windowCCount d.length order field)
          (windowOCount d.length order field) x { st with plut0 := q0, plut1 := q1 }).plut1 m) ∧
    ((∀ i j, i < d.length → j < d.length - 4 → i + j ≤ 2 * d.length - 6) ∧
      (∀ p0 p1 q0 q1 : Nat → Nat,
        (∀ m, m ≤ 2 * d.length - 6 → p0 m = q0 m ∧ p1 m = q1 m) →
        scanLoop d p0 p1 d.length 0 0 = scanLoop d q0 q1 d.length 0 0)) ∧
    ((0 : Int) ≤ ((windowCCount d.length order field / 2 : Nat) : Int) - 2 ∧
      ((windowCCount d.length order field / 2 : Nat) : Int) + 1
        < (windowCCount d.length order field : Int)) ∧
    ((windowCCount 5 order field / 2 : Nat) : Int) - 2 < 0 := by
  obtain ⟨e1, e2⟩ := windowCounts_eq d.length order field (by omega) ho hf
  obtain ⟨e5, _⟩ := windowCounts_eq 5 order field (by omega) ho hf
  have hoff : (offc d.length = 1 ∧ offo d.length = 0 ∧ d.length % 2 = 1) ∨
      (offc d.length = 0 ∧ offo d.length = 1 ∧ d.length % 2 = 0) := by
    unfold offc offo
    rw [Nat.and_one_is_mod]
    by_cases h : d.length % 2 ≠ 0
    · rw [if_pos h, if_pos h]; left; omega
    · rw [if_neg h, if_neg h]; right; omega
  refine ⟨maskWindow_counts d.length order field n (by omega) ho hf, ⟨by omega, by omega⟩,
    ⟨?_, ?_, ?_, ?_⟩, ?_, ⟨?_, ?_⟩, ⟨by omega, by omega⟩, by omega⟩
  · intro j hj; omega
  · intro j hj; omega
  · intro j k; omega
  · intro m hm
    by_cases hpar : m % 2 = offc d.length
    · left; exact ⟨m / 2, by omega, by omega⟩
    · right; exact ⟨m / 2, by omega, by omega⟩
  · intro cPl oPl x st q0 q1 m hm
    exact pixelArrays_overwritten d cPl oPl _ _ x st q0 q1 hl e1 e2 m hm
  · intro i j hi hj; omega
  · intro p0 p1 q0 q1 h
    exact scanLoop_congr d p0 p1 q0 q1 h (by omega) d.length 0 0 (by omega)

/-- The claim at the configuration `exLong` with `length = 10`, top field first, field 0 and
frame 7. -/
theorem window_indices_in_range_witness :
    6 ≤ exLong.length ∧ (1 : Nat) ≤ 1 ∧ (0 : Nat) ≤ 1 ∧
    ((maskWindow (exLong.length : Int) ((1 : Nat) : Int) ((0 : Nat) : Int) 7).cCount
        = (windowCCount exLong.length 1 0 : Int) ∧
      (maskWindow (exLong.length : Int) ((1 : Nat) : Int) ((0 : Nat) : Int) 7).oCount
        = (windowOCount exLong.length 1 0 : Int)) ∧
    (windowCCount exLong.length 1 0 + windowOCount exLong.length 1 0 = 2 * exLong.length - 5 ∧
      4 ≤ windowCCount exLong.length 1 0) ∧
    ((∀ j, j < windowCCount exLong.length 1 0 → j * 2 + offc exLong.length ≤ 2 * exLong.length - 6) ∧
      (∀ j, j < windowOCount exLong.length 1 0 → j * 2 + offo exLong.length ≤ 2 * exLong.length - 6) ∧
      (∀ j k, j * 2 + offc exLong.length ≠ k * 2 + offo exLong.length) ∧
      (∀ m, m ≤ 2 * exLong.length - 6 →
        (∃ j, j < windowCCount exLong.length 1 0 ∧ m = j * 2 + offc exLong.length) ∨
        (∃ j, j < windowOCount exLong.length 1 0 ∧ m = j * 2 + offo exLong.length))) ∧
    (∀ (cPl oPl : Int → Buf) (x : Nat) (st : MaskRows) (q0 q1 : Nat → Nat) (m : Nat),
      m ≤ 2 * exLong.length - 6 →
      (pixelArrays exLong cPl oPl (windowCCount exLong.length 1 0)
          (windowOCount exLong.length 1 0) x st).plut0 m
        = (pixelArrays exLong cPl oPl (windowCCount exLong.length 1 0)
          (windowOCount exLong.length 1 0) x { st with plut0 := q0, plut1 := q1 }).plut0 m ∧
      (pixelArrays exLong cPl oPl (windowCCount exLong.length 1 0)
          (windowOCount exLong.length 1 0) x st).plut1 m
        = (pixelArrays exLong cPl oPl (windowCCount exLong.length 1 0)
          (windowOCount exLong.length 1 0) x { st with plut0 := q0, plut1 := q1 }).plut1 m) ∧
    ((∀ i j, i < exLong.length → j < exLong.length - 4 → i + j ≤ 2 * exLong.length - 6) ∧
      (∀ p0 p1 q0 q1 : Nat → Nat,
        (∀ m, m ≤ 2 * exLong.length - 6 → p0 m = q0 m ∧ p1 m = q1 m) →
        scanLoop exLong p0 p1 exLong.length 0 0 = scanLoop exLong q0 q1 exLong.length 0 0)) ∧
    ((0 : Int) ≤ ((windowCCount exLong.length 1 0 / 2 : Nat) : Int) - 2 ∧
      ((windowCCount exLong.length 1 0 / 2 : Nat) : Int) + 1
        < (windowCCount exLong.length 1 0 : Int)) ∧
    ((windowCCount 5 1 0 / 2 : Nat) : Int) - 2 < 0 :=
  ⟨by decide, by decide, by decide,
    window_indices_in_range exLong 1 0 7 (by decide) (by decide)
      (by decide)⟩

/-- Claim C33. For the sample types of `linkMask` (`tb = 8` or 16 bits, luma samples within the
type), `linkMask` is the per-sample test `linkSpec`: at the chroma pixel `x` of every chroma row
`field + 2 * k` of plane 2, both chroma planes hold 60 after the call if the luma samples
covering column `x` (columns `2 * x` and `2 * x + 1` when `subSamplingW` is not 0, column `x`
when it is 0) on the luma row `linkRow d field k` (row `field + 2 * k` without vertical
subsampling, `field + 4 * k` with it), and with vertical subsampling also on the row two
lines below, are all 60; otherwise both chroma planes hold what they held before.  Chroma
samples outside the visited rows are unchanged and the luma plane is never modified.  Both
chroma planes are addressed with the stride of plane 2, as the code does. -/
theorem linkMask_per_sample (tb : Nat) (d : TDeintModData) (mask : Frame) (field : Nat)
    (htb : tb = 8 ∨ tb = 16) (hy : (mask.data 0).InRange tb) :
    (linkMask tb d mask field).data 0 = mask.data 0 ∧
    (∀ k x, field + 2 * k < mask.height 2 → x < mask.width 2 →
      ((d.subSamplingH = 0 → linkRow d field k = field + 2 * k) ∧
        (d.subSamplingH = 1 → linkRow d field k = field + 4 * k)) ∧
      (linkSpec d (mask.data 0) (mask.stride 0) (linkRow d field k) x →
        (linkMask tb d mask field).px (mask.stride 2) 1 ((field + 2 * k : Nat) : Int) x = 60 ∧
        (linkMask tb d mask field).px (mask.stride 2) 2 ((field + 2 * k : Nat) : Int) x = 60) ∧
      (¬ linkSpec d (mask.data 0) (mask.stride 0) (linkRow d field k) x →
        (linkMask tb d mask field).px (mask.stride 2) 1 ((field + 2 * k : Nat) : Int) x
          = mask.px (mask.stride 2) 1 ((field + 2 * k : Nat) : Int) x ∧
        (linkMask tb d mask field).px (mask.stride 2) 2 ((field + 2 * k : Nat) : Int) x
          = mask.px (mask.stride 2) 2 ((field + 2 * k : Nat) : Int) x)) ∧
    (∀ j : Int,
      (∀ k, field + 2 * k < mask.height 2 →
        ¬ ((mask.stride 2 : Int) * ((field + 2 * k : Nat) : Int) ≤ j ∧
          j < (mask.stride 2 : Int) * ((field + 2 * k : Nat) : Int) + (mask.width 2 : Int))) →
      (linkMask tb d mask field).data 1 j = mask.data 1 j ∧
      (linkMask tb d mask field).data 2 j = mask.data 2 j) := by
  have eu : (linkMask tb d mask field).data 1
      = (linkRows tb d (mask.width 2) (mask.stride 0) (mask.stride 2) field (mask.data 0)
        ((mask.height 2 - field + 1) / 2) { u := mask.data 1, v := mask.data 2 }).u := by
    unfold linkMask
    simp [Function.update]
  have ev : (linkMask tb d mask field).data 2
      = (linkRows tb d (mask.width 2) (mask.stride 0) (mask.stride 2) field (mask.data 0)
        ((mask.height 2 - field + 1) / 2) { u := mask.data 1, v := mask.data 2 }).v := by
    unfold linkMask
    simp [Function.update]
  refine ⟨?_, ?_, ?_⟩
  · unfold linkMask
    simp [Function.update]
  · intro k x hk hx
    have hat := linkRows_at tb d (mask.width 2) (mask.stride 0) (mask.stride 2) field
      (mask.data 0) ((mask.height 2 - field + 1) / 2) { u := mask.data 1, v := mask.data 2 }
      k x ((linkRows_count _ _ _).mpr hk) hx (mask.width_le_stride 2)
    have hiff := linkTest_iff_linkSpec tb d (mask.data 0) (mask.stride 0) (linkRow d field k) x
      htb hy
    refine ⟨⟨?_, ?_⟩, ?_, ?_⟩
    · intro h
      unfold linkRow
      rw [h]
      show field + 2 * k = _
      rfl
    · intro h
      unfold linkRow
      rw [h]
      show field + 4 * k = _
      rfl
    · intro hs
      unfold Frame.px
      rw [eu, ev, hat.1, hat.2, if_pos (hiff.mpr hs), if_pos (hiff.mpr hs)]
      exact ⟨rfl, rfl⟩
    · intro hs
      unfold Frame.px
      rw [eu, ev, hat.1, hat.2, if_neg (fun h => hs (hiff.mp h)),
        if_neg (fun h => hs (hiff.mp h))]
      exact ⟨rfl, rfl⟩
  · intro j hj
    rw [eu, ev]
    exact linkRows_frame tb d (mask.width 2) (mask.stride 0) (mask.stride 2) field
      (mask.data 0) ((mask.height 2 - field + 1) / 2) { u := mask.data 1, v := mask.data 2 } j
      (fun k hk => hj k ((linkRows_count _ _ _).mp hk))

/-- The claim for the 8-bit 4:2:0 instance `exLinkData`, the mask `exLinkFrame exLumaRow4`
and field 0. -/
theorem linkMask_per_sample_witness :
    ((8 : Nat) = 8 ∨ (8 : Nat) = 16) ∧ ((exLinkFrame exLumaRow4).data 0).InRange 8 ∧
    (linkMask 8 exLinkData (exLinkFrame exLumaRow4) 0).data 0 = (exLinkFrame exLumaRow4).data 0 ∧
    (∀ k x, 0 + 2 * k < (exLinkFrame exLumaRow4).height 2 → x < (exLinkFrame exLumaRow4).width 2 →
      ((exLinkData.subSamplingH = 0 → linkRow exLinkData 0 k = 0 + 2 * k) ∧
        (exLinkData.subSamplingH = 1 → linkRow exLinkData 0 k = 0 + 4 * k)) ∧
      (linkSpec exLinkData ((exLinkFrame exLumaRow4).data 0) ((exLinkFrame exLumaRow4).stride 0) (linkRow exLinkData 0 k) x →
        (linkMask 8 exLinkData (exLinkFrame exLumaRow4) 0).px ((exLinkFrame exLumaRow4).stride 2) 1 ((0 + 2 * k : Nat) : Int) x = 60 ∧
        (linkMask 8 exLinkData (exLinkFrame exLumaRow4) 0).px ((exLinkFrame exLumaRow4).stride 2) 2 ((0 + 2 * k : Nat) : Int) x = 60) ∧
      (¬ linkSpec exLinkData ((exLinkFrame exLumaRow4).data 0) ((exLinkFrame exLumaRow4).stride 0) (linkRow exLinkData 0 k) x →
        (linkMask 8 exLinkData (exLinkFrame exLumaRow4) 0).px ((exLinkFrame exLumaRow4).stride 2) 1 ((0 + 2 * k : Nat) : Int) x
          = (exLinkFrame exLumaRow4).px ((exLinkFrame exLumaRow4).stride 2) 1 ((0 + 2 * k : Nat) : Int) x ∧
        (linkMask 8 exLinkData (exLinkFrame exLumaRow4) 0).px ((exLinkFrame exLumaRow4).stride 2) 2 ((0 + 2 * k : Nat) : Int) x
          = (exLinkFrame exLumaRow4).px ((exLinkFrame exLumaRow4).stride 2) 2 ((0 + 2 * k : Nat) : Int) x)) ∧
    (∀ j : Int,
      (∀ k, 0 + 2 * k < (exLinkFrame exLumaRow4).height 2 →
        ¬ (((exLinkFrame exLumaRow4).stride 2 : Int) * ((0 + 2 * k : Nat) : Int) ≤ j ∧
          j < ((exLinkFrame exLumaRow4).stride 2 : Int) * ((0 + 2 * k : Nat) : Int) + ((exLinkFrame exLumaRow4).width 2 : Int))) →
      (linkMask 8 exLinkData (exLinkFrame exLumaRow4) 0).data 1 j = (exLinkFrame exLumaRow4).data 1 j ∧
      (linkMask 8 exLinkData (exLinkFrame exLumaRow4) 0).data 2 j = (exLinkFrame exLumaRow4).data 2 j) :=
  ⟨Or.inl rfl, exLumaRow4_inRange,
    linkMask_per_sample 8 exLinkData (exLinkFrame exLumaRow4) 0 (Or.inl rfl)
      exLumaRow4_inRange⟩

/-- Claim C40, evaluated at a failing input.  `tdeintmodCreate` accepts a 4:2:0 clip of height
6 with `link` set.  With `field = 0` the row loop of `linkMask` visits the chroma rows 0 and 2
(chroma height 3); for chroma row 2 it stands on luma row `linkRow d 0 1 = 4` and reads the
row two lines below, luma row 6, which is past the last row 5 of the plane.  Accordingly the
chroma pixel (2, 0) depends on memory behind the luma plane: for two memories that agree on
every sample of the 4x6 luma plane (offsets 0-23) it ends as 10 for one and as 60 for the
other. -/
theorem linkMask_reads_past_plane :
    tdeintmodCreate exLinkArgs = .ok exLinkData ∧
    exLinkData.subSamplingH = 1 ∧
    (exLinkFrame exLumaRow4).height 0 = 6 ∧
    0 + 2 * 1 < (exLinkFrame exLumaRow4).height 2 ∧
    linkRow exLinkData 0 1 + 2 = 6 ∧
    (∀ i : Int, 0 ≤ i → i < 4 * 6 → exLumaPast i = exLumaRow4 i) ∧
    (linkMask 8 exLinkData (exLinkFrame exLumaRow4) 0).px
      2 1 2 0 = 10 ∧
    (linkMask 8 exLinkData (exLinkFrame exLumaPast) 0).px
      2 1 2 0 = 60 := by
  refine ⟨rfl, by decide, by decide, by decide, by decide, ?_, by decide, by decide⟩
  intro i h0 h1
  unfold exLumaPast exLumaRow4
  by_cases h : 16 ≤ i ∧ i ≤ 19
  · rw [if_pos (Or.inl h), if_pos h]
  · rw [if_neg (fun hh => by omega), if_neg h]

/-- Claim C39, evaluated at a failing input.  `iscombedCreate` accepts a clip of height 5 with
the default `blocky = 16`, so `yHalf = 8`.  The first histogram loop of `checkCombed` runs
over `y = 1 .. 7` whatever the height and leaves the pointer `cmkp` on row 8, although the
last row of the bitmap is row 4: at `y = 4 .. 7` it has read the rows 5 .. 8.  Accordingly the
histogram depends on memory behind the bitmap: for two memories that agree on every sample
of the 1x5 bitmap plane (offsets 0 .. 4), cell 0 ends as 6 for one and as 0 for the other. -/
theorem combHistogram_reads_past_bitmap :
    iscombedCreate (exCombedArgs 1 5 none none) = .ok exCombLow ∧
    exCombLow.yHalf = 8 ∧
    (histPhase1 exCombLow exBeyond 1 1 (fun _ => 0)).cmkp = 8 ∧
    (∀ i : Int, 0 ≤ i → i < 1 * 5 → exBeyond i = 0) ∧
    combHistogram exCombLow (fun _ => 0) 1 5 1 (fun _ => 0) 0 = 0 ∧
    combHistogram exCombLow exBeyond 1 5 1 (fun _ => 0) 0
      ≠ combHistogram exCombLow (fun _ => 0) 1 5 1 (fun _ => 0) 0 := by
  refine ⟨iscombedCreate_exLow, by decide, by decide, ?_, by decide, by decide⟩
  intro i h0 h1
  unfold exBeyond
  rw [if_pos ⟨h0, by omega⟩]

/-- Claim C31. The combing bitmap of `checkCombed` uses the tests of `checkSpatial`: for the data
that `iscombedCreate` builds with `cthresh = t` and that `tdeintmodCreate` builds with
`athresh = t` (any `t >= 0`, the same bit depth and the same metric, 0 or 1), for a plane of
any size and every pixel `(y, x)` of it, boundary rows included, the bitmap sample is set (it
holds the maximum sample value, which is not 0) exactly when `checkSpatial` leaves a code 60
at that pixel at 60.  Both bitmap and mask are laid out with the stride of the source
plane. -/
theorem combMask_matches_checkSpatial (tb : Nat) (ac : CombedArgs) (a : CreateArgs)
    (process : Int → Bool) (t : Int) (width height stride : Nat) (src cm m : Buf) (y x : Nat)
    (htb : 1 ≤ tb) (ht : 0 ≤ t) (hc : ac.cthresh.getD 6 = t) (ha : a.athresh.getD (-1) = t)
    (hbits : ac.bitsPerSample = a.bitsPerSample) (hmetric : ac.metric.getD 0 = a.metric.getD 0)
    (hws : width ≤ stride) (hy : y < height) (hx : x < width)
    (h60 : m ((stride : Int) * (y : Int) + (x : Int)) = 60) :
    (combMaskPlane tb (combedData ac) width height stride stride src cm
        ((stride : Int) * (y : Int) + (x : Int)) ≠ 0
      ↔ checkSpatialPlane (createData a process) width height stride src m
        ((stride : Int) * (y : Int) + (x : Int)) = 60) ∧
    (combMaskPlane tb (combedData ac) width height stride stride src cm
        ((stride : Int) * (y : Int) + (x : Int)) = typeMax tb
      ↔ checkSpatialPlane (createData a process) width height stride src m
        ((stride : Int) * (y : Int) + (x : Int)) = 60) := by
  obtain ⟨e1, e6, esq⟩ := thresholds_agree ac a process t ht hc ha hbits
  have hmax : typeMax tb ≠ 0 := by
    unfold typeMax
    have : 2 ^ 1 ≤ 2 ^ tb := Nat.pow_le_pow_right (by decide) htb
    omega
  have hms : (createData a process).metric = (combedData ac).metric := by
    rw [createData_metric, ← hmetric]
    rfl
  by_cases hm : (combedData ac).metric = 0
  · rw [combMaskPlane_stage0 tb _ width height stride src cm y x hm hws hy hx,
      checkSpatialPlane_stage0 _ width height stride src m y x (hms.trans hm) hws hy hx,
      combTest0_eq_spatialTest0 _ _ e1 e6, h60]
    cases spatialTest0 (createData a process) src stride (rowStageAt0 height y) (y : Int) x
    · simp [hmax.symm]
    · simp [hmax]
  · rw [combMaskPlane_stage1 tb _ width height stride src cm y x hm hws hy hx,
      checkSpatialPlane_stage1 _ width height stride src m y x (fun h => hm (hms ▸ h)) hws hy hx,
      combTest1_eq_spatialTest1 _ _ esq, h60]
    cases spatialTest1 (createData a process) src stride (rowStageAt1 height y) (y : Int) x
    · simp [hmax.symm]
    · simp [hmax]

/-- The claim for an 8-bit plane of 1 by 5 samples at row 2, with `cthresh = athresh = 6` and
metric 0. -/
theorem combMask_matches_checkSpatial_witness :
    (1 : Nat) ≤ 8 ∧
    (0 : Int) ≤ 6 ∧
    (exCombedArgs 1 5 none none).cthresh.getD 6 = 6 ∧
    (exSpatialArgs 8 6 0).athresh.getD (-1) = 6 ∧
    (exCombedArgs 1 5 none none).bitsPerSample = (exSpatialArgs 8 6 0).bitsPerSample ∧
    (exCombedArgs 1 5 none none).metric.getD 0 = (exSpatialArgs 8 6 0).metric.getD 0 ∧
    (1 : Nat) ≤ 1 ∧
    (2 : Nat) < 5 ∧
    (0 : Nat) < 1 ∧
    (fun _ => 60 : Buf) (((1 : Nat) : Int) * ((2 : Nat) : Int) + ((0 : Nat) : Int)) = 60 ∧
    (combMaskPlane 8 (combedData (exCombedArgs 1 5 none none)) 1 5 1 1 (fun _ => 0) (fun _ => 0)
        (((1 : Nat) : Int) * ((2 : Nat) : Int) + ((0 : Nat) : Int)) ≠ 0
      ↔ checkSpatialPlane (createData (exSpatialArgs 8 6 0) (fun _ => true)) 1 5 1
        (fun _ => 0) (fun _ => 60)
        (((1 : Nat) : Int) * ((2 : Nat) : Int) + ((0 : Nat) : Int)) = 60) ∧
    (combMaskPlane 8 (combedData (exCombedArgs 1 5 none none)) 1 5 1 1 (fun _ => 0) (fun _ => 0)
        (((1 : Nat) : Int) * ((2 : Nat) : Int) + ((0 : Nat) : Int)) = typeMax 8
      ↔ checkSpatialPlane (createData (exSpatialArgs 8 6 0) (fun _ => true)) 1 5 1
        (fun _ => 0) (fun _ => 60)
        (((1 : Nat) : Int) * ((2 : Nat) : Int) + ((0 : Nat) : Int)) = 60) :=
  ⟨by decide, by decide, rfl, rfl, rfl, rfl, by decide, by decide, by decide, rfl,
    combMask_matches_checkSpatial 8 (exCombedArgs 1 5 none none) (exSpatialArgs 8 6 0)
      (fun _ => true) 6 1 5 1 (fun _ => 0) (fun _ => 0) (fun _ => 60) 2 0 (by decide)
      (by decide) rfl rfl rfl rfl (by decide) (by decide) (by decide) rfl⟩

/-- Claim C32. With `expand >= 0` (what `tdeintmodCreate` accepts), `expandMask` ends and is an
exact horizontal dilation: in every processed plane, on every row `field + 2 * k` of the
plane, a pixel `x` holds 60 afterwards exactly when some pixel `x0` of the same row held 60
before the call with `|x - x0| <= dis`, where `dis` is `expand` on plane 0 and
`expand >> subSamplingW` on the other planes, and holds what it held before otherwise; every
sample outside these rows, every plane that is not processed and the geometry of the frame
are unchanged.  The early exit of the right sweep on a pixel that is 60 already is part of
the function proved equal to the dilation. -/
theorem expandMask_dilation (d : TDeintModData) (mask : Frame) (field : Nat)
    (hexp : 0 ≤ d.expand) :
    ∃ out, expandMask d mask field = some out ∧
      (out.width = mask.width ∧ out.height = mask.height ∧ out.stride = mask.stride) ∧
      (expandDis d 0 = d.expand ∧ ∀ p, p ≠ 0 → expandDis d p = d.expand >>> d.subSamplingW) ∧
      (∀ p, ¬ (p < d.numPlanes ∧ d.process p = true) → out.data p = mask.data p) ∧
      (∀ p, p < d.numPlanes → d.process p = true →
        (∀ k x, field + 2 * k < mask.height p → x < mask.width p →
          (out.px (mask.stride p) p ((field + 2 * k : Nat) : Int) x = 60 ↔
            Covered (mask.data p) ((mask.stride p : Int) * ((field + 2 * k : Nat) : Int))
              (mask.width p) (expandDis d p) (x : Int)) ∧
          (out.px (mask.stride p) p ((field + 2 * k : Nat) : Int) x ≠ 60 →
            out.px (mask.stride p) p ((field + 2 * k : Nat) : Int) x
              = mask.px (mask.stride p) p ((field + 2 * k : Nat) : Int) x)) ∧
        (∀ j : Int,
          (∀ k, field + 2 * k < mask.height p →
            ¬ ((mask.stride p : Int) * ((field + 2 * k : Nat) : Int) ≤ j ∧
              j < (mask.stride p : Int) * ((field + 2 * k : Nat) : Int)
                + (mask.width p : Int))) →
          out.data p j = mask.data p j)) := by
  obtain ⟨out, e, hgeo, hkeep, hdone⟩ := expandPlanes_spec d mask field hexp d.numPlanes
  refine ⟨out, e, hgeo, ⟨?_, ?_⟩, hkeep, ?_⟩
  · unfold expandDis
    rw [if_neg (by decide)]
    rw [Int.shiftRight_eq_div_pow]
    simp
  · intro p hp
    unfold expandDis
    rw [if_pos hp]
  · intro p hlt hp
    obtain ⟨b, eb, hout, hin⟩ := expandRows_spec (mask.width p) (mask.stride p) field
      (expandDis d p) (expandDis_nonneg d p hexp) (mask.width_le_stride p)
      ((mask.height p - field + 1) / 2) (mask.data p)
    have eb2 : some b = some (out.data p) := eb.symm.trans (hdone p hlt hp)
    have eq : out.data p = b := (Option.some.inj eb2).symm
    refine ⟨?_, ?_⟩
    · intro k x hk hx
      unfold Frame.px
      rw [eq]
      exact hin k x ((linkRows_count _ _ _).mpr hk) hx
    · intro j hj
      rw [eq]
      exact hout j (fun k hk => hj k ((linkRows_count _ _ _).mp hk))

/-- The claim for the configuration `exExpand` (`expand = 1`), the mask `exDot` and field 0. -/
theorem expandMask_dilation_witness :
    0 ≤ exExpand.expand ∧
    ∃ out, expandMask exExpand exDot 0 = some out ∧
      (out.width = exDot.width ∧ out.height = exDot.height ∧ out.stride = exDot.stride) ∧
      (expandDis exExpand 0 = exExpand.expand ∧
        ∀ p, p ≠ 0 → expandDis exExpand p = exExpand.expand >>> exExpand.subSamplingW) ∧
      (∀ p, ¬ (p < exExpand.numPlanes ∧ exExpand.process p = true) → out.data p = exDot.data p) ∧
      (∀ p, p < exExpand.numPlanes → exExpand.process p = true →
        (∀ k x, 0 + 2 * k < exDot.height p → x < exDot.width p →
          (out.px (exDot.stride p) p ((0 + 2 * k : Nat) : Int) x = 60 ↔
            Covered (exDot.data p) ((exDot.stride p : Int) * ((0 + 2 * k : Nat) : Int))
              (exDot.width p) (expandDis exExpand p) (x : Int)) ∧
          (out.px (exDot.stride p) p ((0 + 2 * k : Nat) : Int) x ≠ 60 →
            out.px (exDot.stride p) p ((0 + 2 * k : Nat) : Int) x
              = exDot.px (exDot.stride p) p ((0 + 2 * k : Nat) : Int) x)) ∧
        (∀ j : Int,
          (∀ k, 0 + 2 * k < exDot.height p →
            ¬ ((exDot.stride p : Int) * ((0 + 2 * k : Nat) : Int) ≤ j ∧
              j < (exDot.stride p : Int) * ((0 + 2 * k : Nat) : Int)
                + (exDot.width p : Int))) →
          out.data p j = exDot.data p j)) :=
  ⟨by decide, expandMask_dilation exExpand exDot 0 (by decide)⟩

end TDeintMod
